import Mathlib

/-!
# ShootEmUp: the bullet-pattern core (`src/src/Pattern.h`, `src/Constants.h`)

A shallow embedding of the `Pattern` / `WavePattern` classes, the concrete patterns and the
`PatternManager`, followed by theorems about them.

Modelling conventions
* `float` values are rationals and `int` values are integers. Geometry (positions, speeds,
  angles, radii, bounds) is computed exactly. Where a `float` result is converted to an `int`,
  the result is first rounded to a `float` value (`toFloat32`): the shot period
  `int(FPS / frequency)`, the stream count on its way through the `float` parameter of the
  `WavePattern` constructor, and `refreshFrames` of `WindGod`.
* Conversions `int(x)` truncate toward zero, `%` and `/` on `int` are `Int.tmod` and
  `Int.tdiv`. A modulo by zero ends the C++ program; `Pattern.periodDefined` marks the shot
  timings whose divisor is usable.
* The `Bullet` classes are not part of the embedded sources: a bullet is a value of an
  arbitrary type `B` and everything a pattern does with one goes through a `BulletApi B`.
* `rand()` reads an explicit stream of draws that is threaded through the code.
* A `vector` is a `List`; `bullets[i]->f()` rewrites the element at index `i`.
* C++ loops whose bound changes while they run are recursive functions over a step budget that
  return the whole loop state, so that the exit condition can be stated and proved.
-/

set_option autoImplicit false

namespace ShootEmUp

/-! ## External value types -/

/-- The SFML type `sf::Vector2f`. -/
structure Vector2f where
  x : ℚ
  y : ℚ
deriving DecidableEq

/-- The SFML type `sf::FloatRect`. -/
structure FloatRect where
  left : ℚ
  top : ℚ
  width : ℚ
  height : ℚ
deriving DecidableEq

/-- The SFML 2 member `sf::Rect<T>::contains(point)`: the left and top edges belong to the
rectangle, the right and bottom edges do not; negative sizes are handled by taking the minimum
and maximum of the two edges. -/
def FloatRect.contains (r : FloatRect) (p : Vector2f) : Bool :=
  let minX := min r.left (r.left + r.width)
  let maxX := max r.left (r.left + r.width)
  let minY := min r.top (r.top + r.height)
  let maxY := max r.top (r.top + r.height)
  decide (minX ≤ p.x) && decide (p.x < maxX) && decide (minY ≤ p.y) && decide (p.y < maxY)

/-- The SFML type `sf::Color`. -/
structure Color where
  r : Nat
  g : Nat
  b : Nat
  a : Nat
deriving DecidableEq

/-- Modelled from the spec: the bullet flag enumeration is declared with the bullet classes,
which are not among the embedded sources; the spec lists the tags NEUTRAL, BOUNCED,
REVERSEROTATION and ISCEILING. -/
inductive BulletFlag where
  | NEUTRAL
  | BOUNCED
  | REVERSEROTATION
  | ISCEILING
deriving DecidableEq

/-- The player hitbox handed to collision tests (an `sf::CircleShape`). -/
structure CircleShape where
  position : Vector2f
  radius : ℚ
deriving DecidableEq

/-! ## Constants.h -/

namespace Constants

def WINDOWWIDTH : Int := 1600
def WINDOWHEIGHT : Int := 900
def SCREENWIDTH : Int := 720
def SCREENHEIGHT : Int := 840
def SCREENLEFT : Int := 50
def SCREENTOP : Int := 40
def SCREENBOUNDS : FloatRect := ⟨SCREENLEFT, SCREENTOP, SCREENWIDTH, SCREENHEIGHT⟩
def BORDERMARGIN : Int := 50
def STANDARDCIRCLEBULLETRADIUS : Int := 6
def STANDARDRICEBULLETRADIUS : Int := 4
def STANDARDDOTBULLETRADIUS : Int := 4
def STANDARDTALISMANBULLETRADIUS : Int := 4
def SCREENPOS : Vector2f := ⟨SCREENLEFT, SCREENTOP⟩
def FPS : ℚ := 60
def RED : Color := ⟨255, 0, 0, 255⟩
def ORANGE : Color := ⟨255, 165, 0, 255⟩
def YELLOW : Color := ⟨255, 255, 0, 255⟩
def GREEN : Color := ⟨0, 255, 0, 255⟩
def BLUE : Color := ⟨0, 0, 255, 255⟩
def CYAN : Color := ⟨0, 255, 255, 255⟩
def SEETHROUGH : Color := ⟨255, 255, 255, 100⟩
def MAGENTA : Color := ⟨255, 0, 255, 255⟩
def DEFAULTCIRCLEBULLETCOLOR : Color := RED
def DEFAULTRICEBULLETCOLOR : Color := MAGENTA
def DEFAULTDOTBULLETCOLOR : Color := SEETHROUGH
def DEFAULTTALISMANBULLETCOLOR : Color := MAGENTA

end Constants

open Constants

/-! ## The bullet capability set -/

/-- The operations of the bullet classes that `Pattern.h` calls. The classes themselves are
outside the embedded sources, so their behaviour is a parameter of every definition below. -/
structure BulletApi (B : Type) where
  newCircleBullet : Vector2f → ℚ → ℚ → Color → Int → B
  newRiceBullet : Vector2f → ℚ → ℚ → Color → Int → B
  newDotBullet : Vector2f → ℚ → ℚ → Color → Int → B
  newTalismanBullet : Vector2f → ℚ → ℚ → Color → Int → B
  newBubbleBullet : Vector2f → ℚ → ℚ → Color → Int → B
  newArrowheadBullet : Vector2f → ℚ → ℚ → Color → Int → B
  newLaser : Vector2f → ℚ → ℚ → ℚ → ℚ → ℚ → Color → B
  newSpawner : Vector2f → ℚ → ℚ → Bool → Color → Int → B
  getPosition : B → Vector2f
  getVelocity : B → Vector2f
  getRotation : B → ℚ
  getFlag : B → BulletFlag
  setFlag : B → BulletFlag → B
  processMovement : B → B
  resetBullet : B → B
  rotateBullet : B → ℚ → B
  rotateArc : B → ℚ → ℚ → B
  adjustPosition : B → ℚ → ℚ → B
  setPosition : B → ℚ → ℚ → B
  setVelocity : B → ℚ → ℚ → B
  adjustVelocity : B → ℚ → ℚ → B
  setVelocityR : B → ℚ → ℚ → B
  setSpeed : B → ℚ → B
  adjustSpeed : B → ℚ → B
  flipX : B → B
  flipY : B → B
  checkPlayerCollision : B → CircleShape → Bool

/-! ## Machine arithmetic and containers -/

/-- The conversion `int(x)` of a `float`: truncation toward zero. -/
def truncToInt (q : ℚ) : Int :=
  Int.tdiv q.num (q.den : Int)

/-- The power `2 ^ e` for an integer exponent `e`, as an exact rational. -/
def twoPow (e : Int) : ℚ :=
  if 0 ≤ e then ((2 ^ e.toNat : Nat) : ℚ) else 1 / ((2 ^ (-e).toNat : Nat) : ℚ)

/-- The number of halvings that take `n` below 2, within a budget of `fuel` halvings. -/
def log2Loop : Nat → Nat → Nat
  | 0, _ => 0
  | fuel + 1, n => if 2 ≤ n then log2Loop fuel (n / 2) + 1 else 0

/-- The binary logarithm of a natural number, rounded down (0 for 0). -/
def natLog2 (n : Nat) : Nat :=
  log2Loop n n

/-- The binary exponent of a rational `q ≠ 0`: the integer `e` with `2 ^ e ≤ |q| < 2 ^ (e + 1)`. -/
def binaryExponent (q : ℚ) : Int :=
  let e0 : Int := (natLog2 q.num.natAbs : Int) - (natLog2 q.den : Int)
  if twoPow e0 ≤ |q| then e0 else e0 - 1

/-- Rounding of a rational to the nearest integer, a tie going to the even neighbour. -/
def roundHalfEven (q : ℚ) : Int :=
  if q - ⌊q⌋ < 1 / 2 then ⌊q⌋
  else if 1 / 2 < q - ⌊q⌋ then ⌊q⌋ + 1
  else if ⌊q⌋ % 2 = 0 then ⌊q⌋ else ⌊q⌋ + 1

/-- The spacing of the `float` values around `q ≠ 0`: `2 ^ (e - 23)` for the binary exponent
`e` of `q` (24 significant bits), and `2 ^ (-149)` in the subnormal range. -/
def float32Spacing (q : ℚ) : ℚ :=
  twoPow (max (binaryExponent q) (-126) - 23)

/-- The value of a real-valued result as a `float` (IEEE 754 binary32): the nearest multiple
of the spacing, a tie going to the even one. This is the result of a `float` operation whose
exact result is `q`, and the conversion of a number to `float`. A magnitude beyond the largest
`float` (infinity in C++) is not modelled. -/
def toFloat32 (q : ℚ) : ℚ :=
  if q = 0 then 0 else (roundHalfEven (q / float32Spacing q) : ℚ) * float32Spacing q

/-- The conversion of a wide integer value to a 32-bit `int` (two's complement wrap). -/
def toInt32 (z : Int) : Int :=
  (z + 2147483648) % 4294967296 - 2147483648

/-- The library call `rand()`: the next draw of the process-wide generator. The generator is
the stream of its future draws. -/
abbrev Rng : Type := Nat → Nat

/-- One call of `rand()`: the draw and the generator afterwards. -/
def rand (g : Rng) : Int × Rng :=
  ((g 0 : Int), fun n => g (n + 1))

/-- The statement `v[i]->f()` on a vector of owned objects: element `i` is rewritten in
place. An index outside the vector leaves it as it is. -/
def modifyAt {α : Type} (f : α → α) (i : Int) (l : List α) : List α :=
  if 0 ≤ i then l.modify f i.toNat else l

/-- A counted loop `for (int j = lo; j <= hi; j++) v[j]->f();`. -/
def modifyRange {α : Type} (f : α → α) (lo hi : Int) (l : List α) : List α :=
  List.foldl (fun (acc : List α) (k : Nat) => modifyAt f (lo + (k : Int)) acc) l
    (List.range (hi - lo + 1).toNat)

/-- A counted loop `for (int i = 0; i < n; i++) body(i)` over a state. -/
def forLoop {σ : Type} (n : Int) (body : Int → σ → σ) (s : σ) : σ :=
  List.foldl (fun (acc : σ) (k : Nat) => body (k : Int) acc) s (List.range n.toNat)

/-- A counted loop `for (int i = lo; i < hi; i++) body(i)` over a state. -/
def forRange {σ : Type} (lo hi : Int) (body : Int → σ → σ) (s : σ) : σ :=
  List.foldl (fun (acc : σ) (k : Nat) => body (lo + (k : Int)) acc) s
    (List.range (hi - lo).toNat)

/-! ## Pattern (base class) -/

/-- The data members of `class Pattern`. -/
structure Pattern (B : Type) where
  screenBounds : FloatRect
  bullets : List B
  frameCounter : Int
  active : Bool
  streamCount : Int
  baseSpeed : ℚ
  sourcePos : Vector2f
  shotFrequency : ℚ
  shootOnlyOnce : Bool

namespace Pattern

variable {B : Type}

/-- The member `expandBounds(increaseFactor)`. -/
def expandBounds (p : Pattern B) (increaseFactor : ℚ) : Pattern B :=
  let sb := p.screenBounds
  let sb := { sb with left := sb.left - SCREENWIDTH * increaseFactor }
  let sb := { sb with top := sb.top - SCREENHEIGHT * increaseFactor }
  let sb := { sb with width := sb.width + SCREENWIDTH * 2 * increaseFactor }
  let sb := { sb with height := sb.height + SCREENHEIGHT * 2 * increaseFactor }
  { p with screenBounds := sb }

/-- The constructor `Pattern(sourcePos, streamCount, shotFrequency, baseSpeed)`. The final
`if` of the C++ constructor assigns to the constructor parameter `shotFrequency`, which shadows
the data member, after the member has been set: the local below is that parameter. -/
def new (sourcePos : Vector2f) (streamCount : Int) (shotFrequency : ℚ) (baseSpeed : ℚ) :
    Pattern B :=
  let p : Pattern B :=
    { screenBounds := SCREENBOUNDS
      bullets := []
      frameCounter := 0
      active := true
      streamCount := 0
      baseSpeed := 0
      sourcePos := ⟨0, 0⟩
      shotFrequency := 0
      shootOnlyOnce := false }
  let p := p.expandBounds (1 / 10)
  let p := { p with sourcePos := sourcePos }
  let p := { p with streamCount := streamCount }
  let p := { p with shotFrequency := shotFrequency }
  let p := { p with baseSpeed := baseSpeed }
  let _shotFrequency : ℚ := if shotFrequency > FPS then FPS else shotFrequency
  p

/-- The member `processMovement()` of the base class: every bullet moves one step. -/
def processMovement (api : BulletApi B) (p : Pattern B) : Pattern B :=
  { p with bullets := p.bullets.map api.processMovement }

/-- The member `incrementFrame()`. -/
def incrementFrame (p : Pattern B) : Pattern B :=
  if p.active then { p with frameCounter := p.frameCounter + 1 } else p

/-- The member `spawnBullets()` of the base class. -/
def spawnBullets (p : Pattern B) : Pattern B :=
  p

/-- The member `deleteAllBullets()` of the base class. -/
def deleteAllBullets (p : Pattern B) : Pattern B :=
  { p with bullets := [] }

/-- The loop of `Pattern::deleteOutOfBoundsBullets()`, from loop index `i` on. Each unit of
the budget is one evaluation of the loop body; the result is the loop index and the vector when
the loop stops. The C++ body ends an erasing iteration with `i--`, which the loop increment
undoes: the index stays where it is. -/
def deleteOutOfBoundsLoop (api : BulletApi B) (screenBounds : FloatRect) :
    Nat → Nat → List B → Nat × List B
  | 0, i, bullets => (i, bullets)
  | fuel + 1, i, bullets =>
    match bullets[i]? with
    | none => (i, bullets)
    | some b =>
      if !screenBounds.contains (api.getPosition b) then
        deleteOutOfBoundsLoop api screenBounds fuel i (bullets.eraseIdx i)
      else
        deleteOutOfBoundsLoop api screenBounds fuel (i + 1) bullets

/-- The member `deleteOutOfBoundsBullets()` of the base class. The loop body runs at most once
per bullet of the vector it starts with. -/
def deleteOutOfBoundsBullets (api : BulletApi B) (p : Pattern B) : Pattern B :=
  { p with bullets := (deleteOutOfBoundsLoop api p.screenBounds p.bullets.length 0 p.bullets).2 }

/-- The member `resetPattern()` of the base class. -/
def resetPattern (api : BulletApi B) (p : Pattern B) : Pattern B :=
  { p with frameCounter := 0, bullets := p.bullets.map api.resetBullet }

/-- The divisor `int(FPS / frequency)` of the shot timing: the quotient of the two `float`
values is a `float`, which the conversion to `int` truncates. -/
def shotPeriod (frequency : ℚ) : Int :=
  truncToInt (toFloat32 (FPS / frequency))

/-- The divisor `int(FPS / frequency)` of a shot timing is usable: the truncated quotient is
within `int` and is not zero. Where this fails the C++ program has no answer: a zero divisor
ends it at the modulo, and a conversion out of range is undefined. -/
def periodDefined (frequency : ℚ) : Bool :=
  decide (shotPeriod frequency ≠ 0) && decide (-2147483648 ≤ shotPeriod frequency)
    && decide (shotPeriod frequency ≤ 2147483647)

/-- The member `canShoot()`: the answer and the pattern afterwards (the one-shot latch
`shootOnlyOnce` may be set). The definition describes the call where its divisor is usable
(`periodDefined`); for a zero divisor, where C++ has no answer, `Int.tmod` returns the
dividend. -/
def canShoot (p : Pattern B) : Bool × Pattern B :=
  if p.shotFrequency = 0 then
    if !p.shootOnlyOnce then
      (true, { p with shootOnlyOnce := true })
    else
      (false, p)
  else
    (decide (Int.tmod p.frameCounter (shotPeriod p.shotFrequency) = 0), p)

/-- The member `canShoot(frequency)`. The definition describes the call where its divisor is
usable (`periodDefined`); for a zero divisor, where C++ has no answer, `Int.tmod` returns the
dividend. -/
def canShootAt (p : Pattern B) (frequency : ℚ) : Bool :=
  decide (Int.tmod p.frameCounter (shotPeriod frequency) = 0)

/-- The call `canShoot()` of the pattern has an answer: the shot frequency is 0 (the one-shot
latch decides, nothing is divided) or the divisor of the timing is usable. -/
def timerDefined (p : Pattern B) : Bool :=
  decide (p.shotFrequency = 0) || periodDefined p.shotFrequency

/-- The member `generateRandomPosition(varianceX, varianceY)`. -/
def generateRandomPosition (p : Pattern B) (varianceX varianceY : Int) (g : Rng) :
    Vector2f × Rng :=
  let (r1, g) := rand g
  let (r2, g) := rand g
  (⟨p.sourcePos.x + (Int.tmod r1 varianceX : Int) - (Int.tdiv varianceX 2 : Int),
    p.sourcePos.y + (Int.tmod r2 varianceY : Int) - (Int.tdiv varianceY 2 : Int)⟩, g)

/-- The helper `addRiceBullet`: the new bullet goes to the back of the vector. -/
def addRiceBullet (api : BulletApi B) (p : Pattern B) (position : Vector2f) (speed : ℚ)
    (angleDegrees : ℚ) (color : Color) (radius : Int) : Pattern B :=
  { p with bullets := p.bullets ++ [api.newRiceBullet position speed angleDegrees color radius] }

/-- The helper `addCircleBullet`. -/
def addCircleBullet (api : BulletApi B) (p : Pattern B) (position : Vector2f) (speed : ℚ)
    (angleDegrees : ℚ) (color : Color) (radius : Int) : Pattern B :=
  { p with bullets := p.bullets ++ [api.newCircleBullet position speed angleDegrees color radius] }

/-- The helper `addDotBullet`. -/
def addDotBullet (api : BulletApi B) (p : Pattern B) (position : Vector2f) (speed : ℚ)
    (angleDegrees : ℚ) (color : Color) (radius : Int) : Pattern B :=
  { p with bullets := p.bullets ++ [api.newDotBullet position speed angleDegrees color radius] }

/-- The helper `addTalismanBullet`. -/
def addTalismanBullet (api : BulletApi B) (p : Pattern B) (position : Vector2f) (speed : ℚ)
    (angleDegrees : ℚ) (color : Color) (radius : Int) : Pattern B :=
  { p with
    bullets := p.bullets ++ [api.newTalismanBullet position speed angleDegrees color radius] }

/-- The helper `addBubbleBullet`. -/
def addBubbleBullet (api : BulletApi B) (p : Pattern B) (position : Vector2f) (speed : ℚ)
    (angleDegrees : ℚ) (color : Color) (radius : Int) : Pattern B :=
  { p with bullets := p.bullets ++ [api.newBubbleBullet position speed angleDegrees color radius] }

/-- The helper `addArrowheadBullet`. -/
def addArrowheadBullet (api : BulletApi B) (p : Pattern B) (position : Vector2f) (speed : ℚ)
    (angleDegrees : ℚ) (color : Color) (radius : Int) : Pattern B :=
  { p with
    bullets := p.bullets ++ [api.newArrowheadBullet position speed angleDegrees color radius] }

/-- The helper `addLaser`. -/
def addLaser (api : BulletApi B) (p : Pattern B) (position : Vector2f) (angleDegrees : ℚ)
    (maxWidth : ℚ) (growthSpeed : ℚ) (activationDelay : ℚ) (activeDuration : ℚ)
    (color : Color) : Pattern B :=
  { p with
    bullets := p.bullets ++
      [api.newLaser position angleDegrees maxWidth growthSpeed activationDelay activeDuration
        color] }

/-- The helper `addSpawner`: the new spawner goes to the front of the vector. -/
def addSpawner (api : BulletApi B) (p : Pattern B) (position : Vector2f) (speed : ℚ)
    (angleDegrees : ℚ) (visible : Bool) (color : Color) (radius : Int) : Pattern B :=
  { p with bullets := api.newSpawner position speed angleDegrees visible color radius :: p.bullets }

end Pattern

/-! ## WavePattern -/

/-- The data members of `class WavePattern`. -/
structure WavePattern (B : Type) extends Pattern B where
  waveBulletCount : List Int
  waveFrameCount : List Int
  currentBulletCount : Int

namespace WavePattern

variable {B : Type}

/-- The constructor `WavePattern(sourcePos, streamCount, shotFrequency, baseSpeed)`. Its
parameter `streamCount` is declared `float`; the base constructor, whose parameter is an `int`,
receives `int(streamCount)`. -/
def new (sourcePos : Vector2f) (streamCount : ℚ) (shotFrequency : ℚ) (baseSpeed : ℚ) :
    WavePattern B :=
  { toPattern := Pattern.new sourcePos (truncToInt streamCount) shotFrequency baseSpeed
    waveBulletCount := []
    waveFrameCount := []
    currentBulletCount := 0 }

/-- The sum computed by the member `checkValidWaves()`, which compares it with the number of
bullets and prints a message when they differ. It changes no state. -/
def checkValidWaves (w : WavePattern B) : Bool :=
  decide (w.waveBulletCount.foldl (fun counter count => counter + count) 0
    = (w.bullets.length : Int))

/-- The member `addWave(bulletCount)`; the default argument is `0`. The closing call of
`checkValidWaves()` only prints and is left out. -/
def addWave (w : WavePattern B) (bulletCount : Int) : WavePattern B :=
  if bulletCount = 0 then
    if w.currentBulletCount = 0 then
      w
    else
      let w := { w with waveBulletCount := w.waveBulletCount ++ [w.currentBulletCount] }
      let w := { w with currentBulletCount := 0 }
      { w with waveFrameCount := w.waveFrameCount ++ [0] }
  else
    let w := { w with waveBulletCount := w.waveBulletCount ++ [bulletCount] }
    { w with waveFrameCount := w.waveFrameCount ++ [0] }

/-- The loop of `getStartIndex` over a vector of wave sizes; reading past the end of the
vector (undefined in C++) contributes nothing. -/
def startIndexOf (waveBulletCount : List Int) (waveindex : Int) : Int :=
  forLoop waveindex (fun i num => num + (waveBulletCount[i.toNat]?).getD 0) 0

/-- The member `getStartIndex(waveindex)`. -/
def getStartIndex (w : WavePattern B) (waveindex : Int) : Int :=
  startIndexOf w.waveBulletCount waveindex

/-- The member `getEndIndex(waveindex)`. -/
def getEndIndex (w : WavePattern B) (waveindex : Int) : Int :=
  w.getStartIndex waveindex + (w.waveBulletCount[waveindex.toNat]?).getD 0 - 1

/-- The member `incrementWaveFrames()`. -/
def incrementWaveFrames (w : WavePattern B) : WavePattern B :=
  { w with waveFrameCount := w.waveFrameCount.map (fun counter => counter + 1) }

/-- The member `incrementCurrentBulletCount()`. -/
def incrementCurrentBulletCount (w : WavePattern B) : WavePattern B :=
  { w with currentBulletCount := w.currentBulletCount + 1 }

/-- The search done by the inner loop of `WavePattern::deleteOutOfBoundsBullets()`: the first
wave index `j` with `i < waveBulletCount[j] + cumulativeCount`, where `cumulativeCount` is the
sum of the sizes before `j`. The list is the part of `waveBulletCount` from index `j` on. -/
def findWave (i : Int) : Nat → Int → List Int → Option Nat
  | _, _, [] => none
  | j, cumulativeCount, count :: rest =>
    if i < count + cumulativeCount then some j
    else findWave i (j + 1) (cumulativeCount + count) rest

/-- The body of the inner loop at the iteration that breaks: the size of wave `j` goes down by
one, and a wave that is empty afterwards is erased from both vectors. -/
def decrementWaveAt (j : Nat) (waveBulletCount waveFrameCount : List Int) :
    List Int × List Int :=
  let waveBulletCount := waveBulletCount.modify (fun count => count - 1) j
  if (waveBulletCount[j]?).getD 0 ≤ 0 then
    (waveBulletCount.eraseIdx j, waveFrameCount.eraseIdx j)
  else
    (waveBulletCount, waveFrameCount)

/-- The inner loop of `WavePattern::deleteOutOfBoundsBullets()` for the erased index `i`. -/
def decrementWave (i : Nat) (waveBulletCount waveFrameCount : List Int) :
    List Int × List Int :=
  match findWave (i : Int) 0 0 waveBulletCount with
  | some j => decrementWaveAt j waveBulletCount waveFrameCount
  | none => (waveBulletCount, waveFrameCount)

/-- The state of the loop of `WavePattern::deleteOutOfBoundsBullets()`. -/
structure CullState (B : Type) where
  i : Nat
  bullets : List B
  waveBulletCount : List Int
  waveFrameCount : List Int

/-- The outer loop of `WavePattern::deleteOutOfBoundsBullets()`; each unit of the budget is one
evaluation of the loop body. -/
def deleteOutOfBoundsLoop (api : BulletApi B) (screenBounds : FloatRect) :
    Nat → CullState B → CullState B
  | 0, s => s
  | fuel + 1, s =>
    match s.bullets[s.i]? with
    | none => s
    | some b =>
      if !screenBounds.contains (api.getPosition b) then
        let waves := decrementWave s.i s.waveBulletCount s.waveFrameCount
        deleteOutOfBoundsLoop api screenBounds fuel
          { i := s.i
            bullets := s.bullets.eraseIdx s.i
            waveBulletCount := waves.1
            waveFrameCount := waves.2 }
      else
        deleteOutOfBoundsLoop api screenBounds fuel { s with i := s.i + 1 }

/-- The loop state in which `WavePattern::deleteOutOfBoundsBullets()` stops. -/
def cullResult (api : BulletApi B) (w : WavePattern B) : CullState B :=
  deleteOutOfBoundsLoop api w.screenBounds w.bullets.length
    { i := 0
      bullets := w.bullets
      waveBulletCount := w.waveBulletCount
      waveFrameCount := w.waveFrameCount }

/-- The member `deleteOutOfBoundsBullets()` of `WavePattern`. -/
def deleteOutOfBoundsBullets (api : BulletApi B) (w : WavePattern B) : WavePattern B :=
  let s := cullResult api w
  { w with
    bullets := s.bullets
    waveBulletCount := s.waveBulletCount
    waveFrameCount := s.waveFrameCount }

/-- The member `deleteAllBullets()` of `WavePattern`. -/
def deleteAllBullets (w : WavePattern B) : WavePattern B :=
  let w := { w with toPattern := w.toPattern.deleteAllBullets }
  let w := { w with waveBulletCount := [] }
  let w := { w with waveFrameCount := [] }
  { w with currentBulletCount := 0 }

/-- The wave invariant: both wave vectors have one entry per wave, no wave is empty, and the
wave sizes add up to the number of bullets. -/
def WaveInvariant (w : WavePattern B) : Prop :=
  w.waveBulletCount.length = w.waveFrameCount.length ∧
  (∀ count ∈ w.waveBulletCount, 1 ≤ count) ∧
  w.waveBulletCount.sum = (w.bullets.length : Int)

end WavePattern

/-! ## Constants of the pattern namespaces -/

/-- The constants that `Pattern.h` reads but that the embedded `Constants.h` does not declare
(the per-pattern namespaces `UFO`, `MOF`, `HGP`, `SCOKJ`, the `BOWAP_` and `QED_` constants, the
spawner defaults), together with the `float` library functions `cos` and `sin`. They are
parameters of the embedding. Counts and frame checkpoints are taken to be `int` constants,
speeds, radii and angles `float` constants. -/
structure Consts where
  DEFAULTSPAWNERCOLOR : Color
  STANDARDSPAWNERRADIUS : Int
  PI : ℚ
  cos : ℚ → ℚ
  sin : ℚ → ℚ
  BOWAP_ANGLEOFFSET : ℚ
  BOWAP_ANGLEVELOCITY : ℚ
  BOWAP_ANGLEACCELERATION : ℚ
  QED_VARIANCEX : Int
  QED_VARIANCEY : Int
  UFO_PHASE1CHECKPOINT : Int
  UFO_PHASE2CHECKPOINT : Int
  UFO_STARTVEL : ℚ
  UFO_PHASE1ACCEL : ℚ
  UFO_PHASE2VELOCITY : ℚ
  UFO_PHASE3VELOCITY : ℚ
  UFO_PHASE1ADDEDRADIUS : ℚ
  UFO_PHASE2ADDEDRADIUS : ℚ
  UFO_BULLETCOLORS : List Color
  MOF_PETALCOUNT : Int
  MOF_SPAWNERMOVESPEED : ℚ
  MOF_FRAMEOFFSET : Int
  MOF_LAYER1CHECKPOINT : Int
  MOF_LAYER2CHECKPOINT : Int
  MOF_LAYER3CHECKPOINT : Int
  MOF_LAYER4CHECKPOINT : Int
  MOF_LAYER5CHECKPOINT : Int
  MOF_LAYER6CHECKPOINT : Int
  MOF_LAUNCHDELAY : Int
  MOF_LAUNCHACCEL : ℚ
  MOF_RADIUS1 : ℚ
  MOF_RADIUS2 : ℚ
  MOF_RADIUS3 : ℚ
  MOF_EXPECTEDBULLETS1 : ℚ
  MOF_EXPECTEDBULLETS2 : ℚ
  MOF_EXPECTEDBULLETS3 : ℚ
  MOF_LAYER1CUT : ℚ
  MOF_DSCALENUMER : Int
  MOF_DSCALEDENOM : Int
  MOF_DSCALENUMER3 : Int
  MOF_DSCALEDENOM3 : Int
  MOF_FASTSPEEDMULTIPLIER : ℚ
  MOF_SLOWSPEEDMULTIPLIER : ℚ
  MOF_BULLETANGLEVARIANCE : List ℚ
  MOF_BULLETCOLORS : List Color
  HGP_WAVEDELAY : Int
  HGP_SPEEDMULTIPLIER : ℚ
  HGP_BULLETSIZE : Int
  HGP_WAVECOUNT : Int
  HGP_ROTATIONSTART : Int
  HGP_ROTATIONEND : Int
  HGP_ROTATIONANGLE : ℚ
  SCOKJ_CEILINGVARIANCEX : Int
  SCOKJ_CEILINGVARIANCEY : Int
  SCOKJ_CEILINGCOUNT : Int
  SCOKJ_CEILINGBULLETINITIALSPEED : ℚ
  SCOKJ_CEILINGBULLETSPACING : ℚ
  SCOKJ_CEILINGDROPDELAY : Int
  SCOKJ_STREAMVARIANCEXY : Int
  SCOKJ_PHASE1END : Int
  SCOKJ_PHASE2END : Int
  SCOKJ_PHASE3END : Int

/-- The element `v[i]` of a colour table; an index outside the table (undefined in C++) reads
as transparent black. -/
def colorAt (colors : List Color) (i : Int) : Color :=
  if 0 ≤ i then (colors[i.toNat]?).getD ⟨0, 0, 0, 0⟩ else ⟨0, 0, 0, 0⟩

/-! ## Bowap -/

namespace Bowap

variable {B : Type}

/-- The constructor `Bowap(sourcePos, streamCount, shotFrequency, baseSpeed)`. -/
def new (sourcePos : Vector2f) (streamCount : Int) (shotFrequency : ℚ) (baseSpeed : ℚ) :
    Pattern B :=
  Pattern.new sourcePos streamCount shotFrequency baseSpeed

/-- The member `Bowap::spawnBullets()`. -/
def spawnBullets (api : BulletApi B) (k : Consts) (p : Pattern B) : Pattern B :=
  let r := p.canShoot
  let p := r.2
  if r.1 then
    let num : ℚ := k.BOWAP_ANGLEOFFSET + k.BOWAP_ANGLEVELOCITY * p.frameCounter / FPS
      + k.BOWAP_ANGLEACCELERATION * (p.frameCounter / FPS) ^ 2
    forLoop p.streamCount
      (fun i q => q.addRiceBullet api q.sourcePos q.baseSpeed (num + i * 360 / q.streamCount)
        DEFAULTRICEBULLETCOLOR STANDARDRICEBULLETRADIUS) p
  else
    p

end Bowap

/-! ## QedRipples -/

/-- The data members of `class QedRipples`. -/
structure QedRipples (B : Type) extends Pattern B where
  bounceBounds : FloatRect

namespace QedRipples

variable {B : Type}

/-- The constructor `QedRipples(sourcePos, streamCount, shotFrequency, baseSpeed,
bounceBounds)`; the default bounce region is `SCREENBOUNDS`. -/
def new (sourcePos : Vector2f) (streamCount : Int) (shotFrequency : ℚ) (baseSpeed : ℚ)
    (bounceBounds : FloatRect) : QedRipples B :=
  { toPattern := Pattern.new sourcePos streamCount shotFrequency baseSpeed
    bounceBounds := bounceBounds }

/-- The body of the loop of `QedRipples::processMovement()` for one bullet. -/
def moveBullet (api : BulletApi B) (bounceBounds : FloatRect) (bullet : B) : B :=
  let bullet := api.processMovement bullet
  let pos := api.getPosition bullet
  if !bounceBounds.contains pos then
    if api.getFlag bullet = BulletFlag.BOUNCED
        ∨ pos.y > bounceBounds.top + bounceBounds.height then
      bullet
    else
      let bullet :=
        if pos.x < bounceBounds.left ∨ pos.x > bounceBounds.left + bounceBounds.width then
          api.flipX bullet
        else
          api.flipY bullet
      api.setFlag bullet BulletFlag.BOUNCED
  else
    bullet

/-- The member `QedRipples::processMovement()`. -/
def processMovement (api : BulletApi B) (p : QedRipples B) : QedRipples B :=
  { p with bullets := p.bullets.map (moveBullet api p.bounceBounds) }

/-- The member `QedRipples::spawnBullets()`. -/
def spawnBullets (api : BulletApi B) (k : Consts) (p : QedRipples B) (g : Rng) :
    QedRipples B × Rng :=
  let r := p.toPattern.canShoot
  let p := { p with toPattern := r.2 }
  if r.1 then
    let d := rand g
    let shotAngle : Int := Int.tmod d.1 360
    let src :=
      if p.frameCounter ≠ 0 then
        p.toPattern.generateRandomPosition k.QED_VARIANCEX k.QED_VARIANCEY d.2
      else
        (p.sourcePos, d.2)
    let shotSource := src.1
    (forLoop p.streamCount
      (fun i q =>
        let base := q.toPattern.addRiceBullet api shotSource q.baseSpeed
          (shotAngle + i * 360 / q.streamCount) BLUE STANDARDRICEBULLETRADIUS
        { q with toPattern := base }) p, src.2)
  else
    (p, g)

end QedRipples

/-! ## GengetsuTime -/

namespace GengetsuTime

variable {B : Type}

/-- The constructor `GengetsuTime(sourcePos, streamCount, shotFrequency, baseSpeed)`. -/
def new (sourcePos : Vector2f) (streamCount : Int) (shotFrequency : ℚ) (baseSpeed : ℚ) :
    Pattern B :=
  Pattern.new sourcePos streamCount shotFrequency baseSpeed

/-- The member `GengetsuTime::spawnBullets()`. The angle `shotAngle + i * 360 / streamCount`
is computed in `int` arithmetic. -/
def spawnBullets (api : BulletApi B) (p : Pattern B) (g : Rng) : Pattern B × Rng :=
  let r := p.canShoot
  let p := r.2
  if r.1 then
    let d1 := rand g
    let shotAngle : Int := Int.tmod d1.1 360
    let d2 := rand d1.2
    let useDotBullets : Bool := decide (Int.tmod d2.1 2 ≠ 0)
    let d3 := rand d2.2
    let d4 := rand d3.2
    let shotSource : Vector2f :=
      ⟨p.sourcePos.x + (Int.tmod d3.1 200 : Int) - 100,
        p.sourcePos.y + (Int.tmod d4.1 100 : Int) - 50⟩
    (forLoop p.streamCount
      (fun i q =>
        if useDotBullets then
          q.addDotBullet api shotSource q.baseSpeed
            ((shotAngle + Int.tdiv (i * 360) q.streamCount : Int) : ℚ)
            DEFAULTDOTBULLETCOLOR STANDARDDOTBULLETRADIUS
        else
          q.addCircleBullet api shotSource q.baseSpeed
            ((shotAngle + Int.tdiv (i * 360) q.streamCount : Int) : ℚ)
            BLUE STANDARDCIRCLEBULLETRADIUS) p, d4.2)
  else
    (p, g)

end GengetsuTime

/-! ## FlyingSaucer -/

/-- The data members of `class FlyingSaucer`. -/
structure FlyingSaucer (B : Type) extends WavePattern B where
  alternate : Bool
  shotSources : List Vector2f
  targetRadii : List ℚ

namespace FlyingSaucer

variable {B : Type}

/-- The constructor `FlyingSaucer(sourcePos, streamCount, shotFrequency, baseSpeed)`. -/
def new (sourcePos : Vector2f) (streamCount : Int) (shotFrequency : ℚ) (baseSpeed : ℚ) :
    FlyingSaucer B :=
  let w : WavePattern B :=
    WavePattern.new sourcePos (toFloat32 (streamCount : ℚ)) shotFrequency baseSpeed
  { toWavePattern := { w with toPattern := w.toPattern.expandBounds 1 }
    alternate := false
    shotSources :=
      [⟨sourcePos.x - 180, sourcePos.y + 50⟩, ⟨sourcePos.x + 180, sourcePos.y + 50⟩,
        ⟨sourcePos.x + 100, sourcePos.y - 150⟩, ⟨sourcePos.x - 100, sourcePos.y - 150⟩]
    targetRadii := [0] }

/-- The radius formula of `getTargetRadius` for a frame that is not cached yet. -/
def computeTargetRadius (k : Consts) (frame : Int) : ℚ :=
  if frame < k.UFO_PHASE1CHECKPOINT then
    frame / FPS * k.UFO_STARTVEL + (frame / FPS) ^ 2 * k.UFO_PHASE1ACCEL
  else if frame < k.UFO_PHASE2CHECKPOINT then
    (frame - k.UFO_PHASE1CHECKPOINT) / FPS * k.UFO_PHASE2VELOCITY + k.UFO_PHASE1ADDEDRADIUS
  else
    (frame - k.UFO_PHASE2CHECKPOINT) / FPS * k.UFO_PHASE3VELOCITY + k.UFO_PHASE1ADDEDRADIUS
      + k.UFO_PHASE2ADDEDRADIUS

/-- The member `getTargetRadius(frame)`: the returned radius and the pattern afterwards (the
cache `targetRadii` may have grown). The comparisons of the `int` frame with the vector size
are unsigned in C++: a negative frame is larger than every size. -/
def getTargetRadius (k : Consts) (p : FlyingSaucer B) (frame : Int) : ℚ × FlyingSaucer B :=
  if 0 ≤ frame ∧ frame < (p.targetRadii.length : Int) then
    ((p.targetRadii[frame.toNat]?).getD 0, p)
  else if (p.targetRadii.length : Int) ≠ frame then
    (0, p)
  else
    let targetRadius := computeTargetRadius k frame
    (targetRadius, { p with targetRadii := p.targetRadii ++ [targetRadius] })

/-- The body of the inner loop of `FlyingSaucer::processMovement()` for one bullet. -/
def moveBullet (api : BulletApi B) (k : Consts) (targetRadius baseSpeed : ℚ) (frameCount : Int)
    (bullet : B) : B :=
  let bullet := api.processMovement bullet
  let bullet :=
    if api.getFlag bullet = BulletFlag.NEUTRAL then
      api.rotateArc bullet targetRadius baseSpeed
    else
      api.rotateArc bullet targetRadius (-baseSpeed)
  if frameCount < k.UFO_PHASE2CHECKPOINT then
    api.adjustPosition bullet 0 1
  else
    api.adjustPosition bullet 0 (11 / 10)

/-- The body of the outer loop of `FlyingSaucer::processMovement()` for one wave. -/
def moveWave (api : BulletApi B) (k : Consts) (wave : Int) (p : FlyingSaucer B) :
    FlyingSaucer B :=
  let frameCount := (p.waveFrameCount[wave.toNat]?).getD 0
  let r := getTargetRadius k p frameCount
  let targetRadius := r.1
  let p := r.2
  { p with
    bullets := modifyRange (moveBullet api k targetRadius p.baseSpeed frameCount)
      (p.getStartIndex wave) (p.getEndIndex wave) p.bullets }

/-- The member `FlyingSaucer::processMovement()`. -/
def processMovement (api : BulletApi B) (k : Consts) (p : FlyingSaucer B) : FlyingSaucer B :=
  let p := { p with toWavePattern := p.toWavePattern.incrementWaveFrames }
  forLoop p.waveBulletCount.length (moveWave api k) p

/-- The variables that the loop over the shot sources of `FlyingSaucer::spawnBullets()`
carries. -/
structure BurstState (B : Type) where
  pattern : FlyingSaucer B
  shotAngle : Int
  sourceCount : Int
  rng : Rng

/-- The body of the inner spawn loop of `FlyingSaucer::spawnBullets()`: one talisman at the
shot source. The angle `shotAngle + i * 360 / streamCount` is computed in `int` arithmetic. -/
def addShot (api : BulletApi B) (pos : Vector2f) (shotAngle : Int) (color : Color) (i : Int)
    (q : FlyingSaucer B) : FlyingSaucer B :=
  let base := q.toPattern.addTalismanBullet api pos q.baseSpeed
    ((shotAngle + Int.tdiv (i * 360) q.streamCount : Int) : ℚ) color
    STANDARDTALISMANBULLETRADIUS
  { q with toPattern := base }

/-- The rotation tagging of `FlyingSaucer::spawnBullets()` for the batch of one shot source:
the bullets from `index` to the end of the vector are flagged when the alternate condition
holds. -/
def tagBatch (api : BulletApi B) (pos : Vector2f) (index : Int) (p : FlyingSaucer B) :
    FlyingSaucer B :=
  let alternateCondition : Bool :=
    xor (decide (pos.x > p.sourcePos.x)) (decide (pos.y > p.sourcePos.y))
  let alternateCondition := if p.alternate then !alternateCondition else alternateCondition
  if alternateCondition then
    { p with
      bullets := modifyRange (fun b => api.setFlag b BulletFlag.REVERSEROTATION) index
        ((p.bullets.length : Int) - 1) p.bullets }
  else
    p

/-- The body of the loop over the shot sources of `FlyingSaucer::spawnBullets()`. -/
def burstFrom (api : BulletApi B) (color : Color) (st : BurstState B) (pos : Vector2f) :
    BurstState B :=
  let p := st.pattern
  let index : Int := p.bullets.length
  let p := forLoop p.streamCount (addShot api pos st.shotAngle color) p
  let p := tagBatch api pos index p
  let sourceCount := st.sourceCount + 1
  if sourceCount = ((p.shotSources.length / 2 : Nat) : Int) then
    let d := rand st.rng
    { pattern := p, shotAngle := Int.tmod d.1 360, sourceCount := sourceCount, rng := d.2 }
  else
    { pattern := p, shotAngle := st.shotAngle, sourceCount := sourceCount, rng := st.rng }

/-- The member `FlyingSaucer::spawnBullets()`. The argument of `addWave` is the product of
the unsigned number of shot sources and `streamCount`, converted to `int`. -/
def spawnBullets (api : BulletApi B) (k : Consts) (p : FlyingSaucer B) (g : Rng) :
    FlyingSaucer B × Rng :=
  let r := p.toPattern.canShoot
  let p := { p with toPattern := r.2 }
  if r.1 then
    let d1 := rand g
    let shotAngle : Int := Int.tmod d1.1 360
    let d2 := rand d1.2
    let randomColor : Int := ((d2.1.toNat % k.UFO_BULLETCOLORS.length : Nat) : Int)
    let st := p.shotSources.foldl (burstFrom api (colorAt k.UFO_BULLETCOLORS randomColor))
      { pattern := p, shotAngle := shotAngle, sourceCount := 0, rng := d2.2 }
    let p := st.pattern
    let p :=
      { p with
        toWavePattern :=
          p.toWavePattern.addWave (toInt32 ((p.shotSources.length : Int) * p.streamCount)) }
    ({ p with alternate := !p.alternate }, st.rng)
  else
    (p, g)

end FlyingSaucer

/-! ## WindGod -/

/-- The data members of `class WindGod`. -/
structure WindGod (B : Type) extends WavePattern B where
  varianceCounter : Int
  spawnPoint : Int
  cycleCounter : Int
  shotAngle : Int
  adjustedSpawnerSpeed : ℚ
  currentCircleRadius : ℚ
  scaleNumer : Int
  scaleDenom : Int
  bulletDensity : ℚ
  currentColorIndex : Int
  refreshFrames : Int
  phase : Int

namespace WindGod

variable {B : Type}

/-- The constructor `WindGod(sourcePos, refreshDelay, baseSpeed, duration)`; the last
parameter is not used. -/
def new (k : Consts) (sourcePos : Vector2f) (refreshDelay : ℚ) (baseSpeed : ℚ) : WindGod B :=
  let w : WavePattern B :=
    WavePattern.new sourcePos 0 (1 / (k.MOF_LAYER3CHECKPOINT / FPS + refreshDelay) / 2) baseSpeed
  { toWavePattern := { w with toPattern := w.toPattern.expandBounds (1 / 10) }
    varianceCounter := 0
    spawnPoint := 0
    cycleCounter := 0
    shotAngle := 0
    adjustedSpawnerSpeed := 0
    currentCircleRadius := 0
    scaleNumer := 0
    scaleDenom := 0
    bulletDensity := 0
    currentColorIndex := 0
    refreshFrames := truncToInt (toFloat32 (refreshDelay * FPS))
    phase := 0 }

/-- The member `calculatePhase()`. -/
def calculatePhase (k : Consts) (p : WindGod B) : WindGod B :=
  if p.frameCounter < p.spawnPoint + k.MOF_LAYER1CHECKPOINT then
    { p with phase := 1 }
  else if p.frameCounter < p.spawnPoint + k.MOF_LAYER2CHECKPOINT then
    { p with phase := 2 }
  else if p.frameCounter ≤ p.spawnPoint + k.MOF_LAYER3CHECKPOINT then
    { p with phase := 3 }
  else if p.frameCounter < p.spawnPoint + k.MOF_LAYER3CHECKPOINT + p.refreshFrames then
    { p with phase := 4 }
  else if p.frameCounter < p.spawnPoint + k.MOF_LAYER4CHECKPOINT + p.refreshFrames then
    { p with phase := 5 }
  else if p.frameCounter < p.spawnPoint + k.MOF_LAYER5CHECKPOINT + p.refreshFrames then
    { p with phase := 6 }
  else if p.frameCounter ≤ p.spawnPoint + k.MOF_LAYER6CHECKPOINT + p.refreshFrames then
    { p with phase := 7 }
  else if p.frameCounter < p.spawnPoint + k.MOF_LAYER6CHECKPOINT + p.refreshFrames * 2 then
    { p with phase := 8 }
  else
    p

/-- The member `adjustSpawners()`. -/
def adjustSpawners (k : Consts) (p : WindGod B) : WindGod B :=
  let p :=
    if p.phase = 1 then
      let p := { p with currentCircleRadius := k.MOF_RADIUS1 }
      let p := { p with bulletDensity := k.MOF_EXPECTEDBULLETS1 / (1 - k.MOF_LAYER1CUT) }
      let p := { p with scaleNumer := k.MOF_DSCALENUMER }
      let p := { p with scaleDenom := k.MOF_DSCALEDENOM }
      { p with
        adjustedSpawnerSpeed :=
          k.MOF_SPAWNERMOVESPEED * p.scaleDenom / p.scaleNumer - 1 / 10 }
    else if p.phase = 2 ∨ p.phase = 6 then
      let p := { p with currentCircleRadius := k.MOF_RADIUS2 }
      let p := { p with bulletDensity := k.MOF_EXPECTEDBULLETS2 * 2 }
      { p with
        adjustedSpawnerSpeed :=
          k.MOF_SPAWNERMOVESPEED * p.scaleDenom / p.scaleNumer + 2 / 10 }
    else if p.phase = 3 ∨ p.phase = 7 then
      let p := { p with bulletDensity := k.MOF_EXPECTEDBULLETS3 * 2 }
      let p := { p with currentCircleRadius := k.MOF_RADIUS3 }
      let p := { p with scaleNumer := k.MOF_DSCALENUMER3 }
      let p := { p with scaleDenom := k.MOF_DSCALEDENOM3 }
      { p with
        adjustedSpawnerSpeed :=
          k.MOF_FASTSPEEDMULTIPLIER * k.MOF_SPAWNERMOVESPEED * p.scaleDenom / p.scaleNumer
            - 25 / 100 }
    else
      p
  if p.phase = 5 then
    let p := { p with currentCircleRadius := k.MOF_RADIUS1 }
    let p := { p with bulletDensity := k.MOF_EXPECTEDBULLETS1 * (12 / 10) }
    let p := { p with scaleNumer := k.MOF_DSCALENUMER }
    let p := { p with scaleDenom := k.MOF_DSCALEDENOM }
    { p with
      adjustedSpawnerSpeed :=
        k.MOF_SLOWSPEEDMULTIPLIER * k.MOF_SPAWNERMOVESPEED * p.scaleDenom / p.scaleNumer
          - 1 / 10 }
  else
    p

/-- The member `WindGod::spawnBullets()`. Erasing the front of an empty vector (undefined in
C++) leaves it empty. -/
def spawnBullets (api : BulletApi B) (k : Consts) (p : WindGod B) (g : Rng) :
    WindGod B × Rng :=
  let r := p.toPattern.canShoot
  let p := { p with toPattern := r.2 }
  if r.1 then
    let p := { p with spawnPoint := p.frameCounter }
    let p := { p with currentColorIndex := 0 }
    let p := calculatePhase k p
    let p := adjustSpawners k p
    let pg : WindGod B × Rng :=
      if p.frameCounter ≠ 0 then
        let p := forLoop k.MOF_PETALCOUNT (fun _ q => { q with bullets := q.bullets.eraseIdx 0 }) p
        let d := rand g
        ({ p with shotAngle := Int.tmod d.1 360 }, d.2)
      else
        ({ p with shotAngle := 0 }, g)
    let p := pg.1
    let p := forLoop k.MOF_PETALCOUNT
      (fun i q =>
        let base := q.toPattern.addSpawner api q.sourcePos k.MOF_SPAWNERMOVESPEED
          ((Int.tdiv 360 k.MOF_PETALCOUNT * i + 180 + q.shotAngle : Int) : ℚ) false
          k.DEFAULTSPAWNERCOLOR k.STANDARDSPAWNERRADIUS
        { q with toPattern := base }) p
    let p := if p.frameCounter = 0 then { p with toWavePattern := p.toWavePattern.addWave 5 } else p
    let p := forLoop k.MOF_PETALCOUNT
      (fun i q =>
        let bullets := forLoop k.MOF_FRAMEOFFSET
          (fun _ bs =>
            modifyAt (fun b => api.processMovement
              (api.rotateArc b q.currentCircleRadius k.MOF_SPAWNERMOVESPEED)) i bs) q.bullets
        { q with bullets := modifyAt (fun b => api.setSpeed b q.adjustedSpawnerSpeed) i bullets })
      p
    (p, pg.2)
  else
    (p, g)

/-- The loops of `WindGod::processMovement()` that set the velocity and the position of each
spawner at the start of a layer: `angle` is the `float` variable of that name for spawner `i`,
`velocityAngle` the angle handed to `setVelocityR`, and `dist` the distance from the source. -/
def placeSpawners (api : BulletApi B) (k : Consts) (angle : Int → ℚ) (velocityAngle : Int → ℚ)
    (dist : ℚ) (p : WindGod B) : WindGod B :=
  forLoop k.MOF_PETALCOUNT
    (fun i q =>
      { q with
        bullets := modifyAt
          (fun b =>
            api.setPosition (api.setVelocityR b q.adjustedSpawnerSpeed (velocityAngle i))
              (q.sourcePos.x + dist * k.cos (angle i / 180 * k.PI))
              (q.sourcePos.y + dist * k.sin (angle i / 180 * k.PI))) i q.bullets }) p

/-- One spawner's turn in an emission round of `WindGod::processMovement()`: a talisman is
appended at the spawner, the spawner moves on, and the running counter is incremented. A
spawner index outside the vector (undefined in C++) skips the turn. -/
def emitFrom (api : BulletApi B) (k : Consts) (j : Int) (p : WindGod B) : WindGod B :=
  match (if 0 ≤ j then p.bullets[j.toNat]? else none) with
  | none => p
  | some bullet =>
    let variance : ℚ :=
      (if 0 ≤ p.varianceCounter then
          (k.MOF_BULLETANGLEVARIANCE[p.varianceCounter.toNat]?).getD 0
        else 0) / p.bulletDensity
    let color := colorAt k.MOF_BULLETCOLORS p.currentColorIndex
    if p.phase < 4 then
      let base := p.toPattern.addTalismanBullet api (api.getPosition bullet) 0
        (api.getRotation bullet + 90 + 15 + variance) color STANDARDTALISMANBULLETRADIUS
      let p := { p with toPattern := base }
      let p :=
        { p with
          bullets := modifyAt
            (fun b => api.processMovement
              (api.rotateArc b p.currentCircleRadius p.adjustedSpawnerSpeed)) j p.bullets }
      { p with toWavePattern := p.toWavePattern.incrementCurrentBulletCount }
    else
      let base := p.toPattern.addTalismanBullet api (api.getPosition bullet) 0
        (api.getRotation bullet - 90 - 10 - variance) color STANDARDTALISMANBULLETRADIUS
      let p := { p with toPattern := base }
      let p :=
        { p with
          bullets := modifyAt
            (fun b => api.processMovement
              (api.rotateArc b p.currentCircleRadius (-p.adjustedSpawnerSpeed))) j p.bullets }
      { p with toWavePattern := p.toWavePattern.incrementCurrentBulletCount }

/-- One emission round: every spawner emits once, then the variance index advances
cyclically. -/
def emissionRound (api : BulletApi B) (k : Consts) (p : WindGod B) : WindGod B :=
  let p := forLoop k.MOF_PETALCOUNT (emitFrom api k) p
  { p with
    varianceCounter :=
      if 0 < k.MOF_BULLETANGLEVARIANCE.length
          ∧ (k.MOF_BULLETANGLEVARIANCE.length : Int) - 1 ≤ p.varianceCounter then 0
      else p.varianceCounter + 1 }

/-- The first value of the round counter `i` in the spawn branch: `-1` on the frames that get
an extra round. -/
def firstRound (p : WindGod B) : Int :=
  if Int.tmod p.cycleCounter p.scaleDenom < Int.tmod p.scaleNumer p.scaleDenom then -1 else 0

/-- The spawn branch (the final `else`) of `WindGod::processMovement()`. -/
def emitBullets (api : BulletApi B) (k : Consts) (p : WindGod B) : WindGod B :=
  let i := firstRound p
  let p :=
    { p with cycleCounter := if p.cycleCounter ≥ p.scaleDenom - 1 then 0 else p.cycleCounter + 1 }
  forRange i (Int.tdiv p.scaleNumer p.scaleDenom) (fun _ q => emissionRound api k q) p

/-- The spawner part of `WindGod::processMovement()`, after the early return of the rest
phases: the chain of frame tests. Integer expressions such as `360 / PETALCOUNT * i` are
computed in `int` arithmetic before they become `float` angles. -/
def processSpawners (api : BulletApi B) (k : Consts) (p : WindGod B) (g : Rng) :
    WindGod B × Rng :=
  let n := k.MOF_PETALCOUNT
  if p.frameCounter = p.spawnPoint + k.MOF_LAYER1CHECKPOINT then
    let p := { p with toWavePattern := p.toWavePattern.addWave 0 }
    let p := { p with currentColorIndex := 1 }
    let p := adjustSpawners k p
    let angle : Int → ℚ := fun i =>
      ((Int.tdiv 360 n * i + 180 + p.shotAngle + Int.tdiv 90 n : Int) : ℚ)
    (placeSpawners api k angle (fun i => angle i + (Int.tdiv 180 n : Int)) (2 * k.MOF_RADIUS1) p,
      g)
  else if p.frameCounter = p.spawnPoint + k.MOF_LAYER2CHECKPOINT then
    let p := { p with toWavePattern := p.toWavePattern.addWave 0 }
    let p := { p with currentColorIndex := 2 }
    let p := adjustSpawners k p
    let angle : Int → ℚ := fun i =>
      ((Int.tdiv 360 n * i + 180 + p.shotAngle - Int.tdiv 90 n : Int) : ℚ)
    (placeSpawners api k angle (fun i => angle i + (Int.tdiv 180 n : Int))
      (2365 / 1000 * k.MOF_RADIUS2) p, g)
  else if p.frameCounter = p.spawnPoint + k.MOF_LAYER3CHECKPOINT
      ∨ p.frameCounter = p.spawnPoint + k.MOF_LAYER6CHECKPOINT + p.refreshFrames then
    let p := { p with toWavePattern := p.toWavePattern.addWave 0 }
    (forLoop n (fun i q => { q with bullets := modifyAt (fun b => api.setVelocity b 0 0) i q.bullets })
      p, g)
  else if p.frameCounter = p.spawnPoint + k.MOF_LAYER3CHECKPOINT + p.refreshFrames then
    let p := { p with currentColorIndex := 3 }
    let p := adjustSpawners k p
    let d := rand g
    let p := { p with shotAngle := Int.tmod d.1 360 }
    (forLoop n
      (fun i q =>
        { q with
          bullets := modifyAt
            (fun b =>
              api.setPosition
                (api.setVelocityR b q.adjustedSpawnerSpeed
                  ((Int.tdiv 360 n * i + q.shotAngle : Int) : ℚ))
                q.sourcePos.x q.sourcePos.y) i q.bullets }) p, d.2)
  else if p.frameCounter = p.spawnPoint + k.MOF_LAYER4CHECKPOINT + p.refreshFrames then
    let p := { p with toWavePattern := p.toWavePattern.addWave 0 }
    let p := { p with currentColorIndex := 4 }
    let p := adjustSpawners k p
    let angle : Int → ℚ := fun i => ((Int.tdiv 360 n * i + p.shotAngle - 18 : Int) : ℚ)
    (placeSpawners api k angle (fun i => angle i - (Int.tdiv 180 n : Int)) (2 * k.MOF_RADIUS1) p,
      g)
  else if p.frameCounter = p.spawnPoint + k.MOF_LAYER5CHECKPOINT + p.refreshFrames then
    let p := { p with toWavePattern := p.toWavePattern.addWave 0 }
    let p := { p with currentColorIndex := 5 }
    let p := adjustSpawners k p
    let angle : Int → ℚ := fun i =>
      ((Int.tdiv 360 n * i + p.shotAngle + Int.tdiv 90 n : Int) : ℚ)
    (placeSpawners api k angle (fun i => angle i - (Int.tdiv 180 n : Int))
      (2365 / 1000 * k.MOF_RADIUS2) p, g)
  else
    (emitBullets api k p, g)

/-- The member `WindGod::processMovement()`. The loop over the non-spawner bullets compares
its `int` index with the unsigned vector size, so it does not run for a negative
`PETALCOUNT`. -/
def processMovement (api : BulletApi B) (k : Consts) (p : WindGod B) (g : Rng) :
    WindGod B × Rng :=
  let p := { p with toWavePattern := p.toWavePattern.incrementWaveFrames }
  let p := calculatePhase k p
  let p := forRange 1 p.waveBulletCount.length
    (fun i q =>
      let frames : Int := (q.waveFrameCount[i.toNat]?).getD 0
      if frames ≥ k.MOF_LAUNCHDELAY
          ∧ (frames : ℚ) ≤ k.MOF_LAUNCHDELAY + q.baseSpeed / k.MOF_LAUNCHACCEL then
        { q with
          bullets := modifyRange (fun b => api.adjustSpeed b k.MOF_LAUNCHACCEL)
            (q.getStartIndex i) (q.getEndIndex i) q.bullets }
      else
        q) p
  let p :=
    if k.MOF_PETALCOUNT < 0 then p
    else
      forRange k.MOF_PETALCOUNT p.bullets.length
        (fun i q => { q with bullets := modifyAt api.processMovement i q.bullets }) p
  if p.phase = 4 ∨ p.phase = 8 then
    (p, g)
  else
    processSpawners api k p g

/-- The member `WindGod::resetPattern()`. -/
def resetPattern (api : BulletApi B) (p : WindGod B) : WindGod B :=
  let p := { p with toPattern := p.toPattern.resetPattern api }
  let p := { p with varianceCounter := 0 }
  { p with cycleCounter := 0 }

end WindGod

/-! ## MercuryPoison -/

/-- The data members of `class MercuryPoison`. -/
structure MercuryPoison (B : Type) extends WavePattern B where
  alternate : Bool
  shotSource : Vector2f
  shotCounter : Int
  waveEnd : Int

namespace MercuryPoison

variable {B : Type}

/-- The expression `{ sourcePos.x + rand() % 200 - 100, sourcePos.y + rand() % 100 - 50 }`
that rerolls the shot source. -/
def rerollSource (sourcePos : Vector2f) (g : Rng) : Vector2f × Rng :=
  let d1 := rand g
  let d2 := rand d1.2
  (⟨sourcePos.x + (Int.tmod d1.1 200 : Int) - 100,
    sourcePos.y + (Int.tmod d2.1 100 : Int) - 50⟩, d2.2)

/-- The constructor `MercuryPoison(sourcePos, streamCount, shotFrequency, baseSpeed)`; it draws
the first shot source from `rand()`. -/
def new (k : Consts) (sourcePos : Vector2f) (streamCount : Int) (shotFrequency : ℚ)
    (baseSpeed : ℚ) (g : Rng) : MercuryPoison B × Rng :=
  let w : WavePattern B :=
    WavePattern.new sourcePos (toFloat32 (streamCount : ℚ)) shotFrequency baseSpeed
  let src := rerollSource sourcePos g
  ({ toWavePattern := { w with toPattern := w.toPattern.expandBounds (2 / 10) }
     alternate := true
     shotSource := src.1
     shotCounter := 0
     waveEnd := -k.HGP_WAVEDELAY }, src.2)

/-- The body of the spawn loop of `MercuryPoison::spawnBullets()`: a pair of bullets of the
colour of the current wave. -/
def addPair (api : BulletApi B) (k : Consts) (shotAngle : Int) (i : Int)
    (p : MercuryPoison B) : MercuryPoison B :=
  let color := if p.alternate then ORANGE else CYAN
  let base := p.toPattern.addCircleBullet api p.shotSource p.baseSpeed
    (shotAngle + i * 360 / p.streamCount) color k.HGP_BULLETSIZE
  let base := base.addCircleBullet api p.shotSource (p.baseSpeed * k.HGP_SPEEDMULTIPLIER)
    (shotAngle + (i + 1 / 2) * 360 / p.streamCount) color k.HGP_BULLETSIZE
  { p with toPattern := base }

/-- The member `MercuryPoison::spawnBullets()`. -/
def spawnBullets (api : BulletApi B) (k : Consts) (p : MercuryPoison B) (g : Rng) :
    MercuryPoison B × Rng :=
  if p.frameCounter < p.waveEnd + k.HGP_WAVEDELAY then
    (p, g)
  else
    let r := p.toPattern.canShoot
    let p := { p with toPattern := r.2 }
    if r.1 then
      let d := rand g
      let shotAngle : Int := Int.tmod d.1 360
      let p := forLoop p.streamCount (addPair api k shotAngle) p
      let p := { p with toWavePattern := p.toWavePattern.addWave (p.streamCount * 2) }
      let p :=
        if p.alternate then
          { p with
            bullets := modifyRange (fun b => api.setFlag b BulletFlag.REVERSEROTATION)
              ((p.bullets.length : Int) - p.streamCount * 2) ((p.bullets.length : Int) - 1)
              p.bullets }
        else
          p
      let p := { p with alternate := !p.alternate }
      let p := { p with shotCounter := p.shotCounter + 1 }
      if p.shotCounter ≥ k.HGP_WAVECOUNT then
        let p := { p with shotCounter := 0 }
        let src := rerollSource p.sourcePos d.2
        let p := { p with shotSource := src.1 }
        ({ p with waveEnd := p.frameCounter }, src.2)
      else
        (p, d.2)
    else
      (p, g)

/-- The body of the inner loop of `MercuryPoison::processMovement()` for one bullet. -/
def moveBullet (api : BulletApi B) (k : Consts) (frameCount : Int) (bullet : B) : B :=
  let bullet := api.processMovement bullet
  if frameCount > k.HGP_ROTATIONSTART ∧ frameCount ≤ k.HGP_ROTATIONEND then
    if api.getFlag bullet = BulletFlag.REVERSEROTATION then
      api.rotateBullet bullet k.HGP_ROTATIONANGLE
    else
      api.rotateBullet bullet (-k.HGP_ROTATIONANGLE)
  else
    bullet

/-- The member `MercuryPoison::processMovement()`. -/
def processMovement (api : BulletApi B) (k : Consts) (p : MercuryPoison B) : MercuryPoison B :=
  let p := { p with toWavePattern := p.toWavePattern.incrementWaveFrames }
  forLoop p.waveBulletCount.length
    (fun wave q =>
      let frameCount : Int := (q.waveFrameCount[wave.toNat]?).getD 0
      { q with
        bullets := modifyRange (moveBullet api k frameCount) (q.getStartIndex wave)
          (q.getEndIndex wave) q.bullets }) p

/-- The member `MercuryPoison::resetPattern()`. -/
def resetPattern (api : BulletApi B) (k : Consts) (p : MercuryPoison B) (g : Rng) :
    MercuryPoison B × Rng :=
  let p := { p with toPattern := p.toPattern.resetPattern api }
  let p := { p with waveEnd := -k.HGP_WAVEDELAY }
  let p := { p with shotCounter := 0 }
  let p := { p with alternate := true }
  let src := rerollSource p.sourcePos g
  ({ p with shotSource := src.1 }, src.2)

end MercuryPoison

/-! ## SeamlessCeiling -/

/-- The data members of `class SeamlessCeiling`. -/
structure SeamlessCeiling (B : Type) extends WavePattern B where
  ceilingAlternate : Bool

namespace SeamlessCeiling

variable {B : Type}

/-- The constructor `SeamlessCeiling(sourcePos, streamCount, shotFrequency, baseSpeed)`. -/
def new (sourcePos : Vector2f) (streamCount : Int) (shotFrequency : ℚ) (baseSpeed : ℚ) :
    SeamlessCeiling B :=
  let w : WavePattern B :=
    WavePattern.new sourcePos (toFloat32 (streamCount : ℚ)) shotFrequency baseSpeed
  { toWavePattern := { w with toPattern := w.toPattern.expandBounds (1 / 10) }
    ceilingAlternate := true }

/-- One stream of `SeamlessCeiling::spawnBullets()`: `streamCount` circle bullets, each
followed by `incrementCurrentBulletCount()`. -/
def addStream (api : BulletApi B) (streamSource : Vector2f) (speed : ℚ) (angle : ℚ)
    (color : Color) (p : SeamlessCeiling B) : SeamlessCeiling B :=
  forLoop p.streamCount
    (fun i q =>
      let base := q.toPattern.addCircleBullet api streamSource speed
        (angle + i * 360 / q.streamCount) color 7
      let q := { q with toPattern := base }
      { q with toWavePattern := q.toWavePattern.incrementCurrentBulletCount }) p

/-- The ceiling part of `SeamlessCeiling::spawnBullets()` (the first `if`). -/
def spawnCeiling (api : BulletApi B) (k : Consts) (p : SeamlessCeiling B) (g : Rng) :
    SeamlessCeiling B × Rng :=
  let r := p.toPattern.canShoot
  let p := { p with toPattern := r.2 }
  if r.1 then
    let p := { p with toWavePattern := p.toWavePattern.addWave 0 }
    let src := p.toPattern.generateRandomPosition k.SCOKJ_CEILINGVARIANCEX
      k.SCOKJ_CEILINGVARIANCEY g
    let ceilingSource := src.1
    let direction : Int := if p.ceilingAlternate then 180 else 0
    let p := forLoop k.SCOKJ_CEILINGCOUNT
      (fun i q =>
        let base := q.toPattern.addCircleBullet api ceilingSource
          ((i + k.SCOKJ_CEILINGBULLETINITIALSPEED) * k.SCOKJ_CEILINGBULLETSPACING) direction
          YELLOW 7
        { q with toPattern := base }) p
    let p := { p with toWavePattern := p.toWavePattern.addWave k.SCOKJ_CEILINGCOUNT }
    let p :=
      { p with
        bullets := modifyRange (fun b => api.setFlag b BulletFlag.ISCEILING)
          ((p.bullets.length : Int) - k.SCOKJ_CEILINGCOUNT) ((p.bullets.length : Int) - 1)
          p.bullets }
    ({ p with ceilingAlternate := !p.ceilingAlternate }, src.2)
  else
    (p, g)

/-- The first stream block of `SeamlessCeiling::spawnBullets()` (the second `if`). -/
def spawnStreamsA (api : BulletApi B) (k : Consts) (p : SeamlessCeiling B) (g : Rng) :
    SeamlessCeiling B × Rng :=
  if p.toPattern.canShootAt (p.shotFrequency * 14) then
    let src := p.toPattern.generateRandomPosition k.SCOKJ_STREAMVARIANCEXY
      k.SCOKJ_STREAMVARIANCEXY g
    let p := addStream api src.1 p.baseSpeed (45 + p.frameCounter * (8 / 10)) GREEN p
    let p :=
      if p.frameCounter > k.SCOKJ_PHASE1END then
        addStream api src.1 (p.baseSpeed * (12 / 10)) (20 - p.frameCounter) CYAN p
      else
        p
    (p, src.2)
  else
    (p, g)

/-- The second stream block of `SeamlessCeiling::spawnBullets()` (the third `if`). -/
def spawnStreamsB (api : BulletApi B) (k : Consts) (p : SeamlessCeiling B) (g : Rng) :
    SeamlessCeiling B × Rng :=
  if p.toPattern.canShootAt (p.shotFrequency * 14) then
    let src := p.toPattern.generateRandomPosition k.SCOKJ_STREAMVARIANCEXY
      k.SCOKJ_STREAMVARIANCEXY g
    let p :=
      if p.frameCounter > k.SCOKJ_PHASE2END then
        addStream api src.1 p.baseSpeed (40 + p.frameCounter * (16 / 10)) BLUE p
      else
        p
    let p :=
      if p.frameCounter > k.SCOKJ_PHASE3END then
        addStream api src.1 (p.baseSpeed * (11 / 10)) (60 - p.frameCounter * 2) MAGENTA p
      else
        p
    (p, src.2)
  else
    (p, g)

/-- The member `SeamlessCeiling::spawnBullets()`. -/
def spawnBullets (api : BulletApi B) (k : Consts) (p : SeamlessCeiling B) (g : Rng) :
    SeamlessCeiling B × Rng :=
  let r1 := spawnCeiling api k p g
  let r2 := spawnStreamsA api k r1.1 r1.2
  spawnStreamsB api k r2.1 r2.2

/-- The variables of the deceleration loop of `SeamlessCeiling::processMovement()`. -/
structure SlowState (B : Type) where
  bullets : List B
  bulletSpeed : ℚ

/-- The body of the loop over the waves of `SeamlessCeiling::processMovement()`. A wave whose
first index is outside the bullet vector (undefined in C++) is skipped. -/
def moveWave (api : BulletApi B) (k : Consts) (wave : Int) (p : SeamlessCeiling B) :
    SeamlessCeiling B :=
  let startIndex := p.getStartIndex wave
  match (if 0 ≤ startIndex then p.bullets[startIndex.toNat]? else none) with
  | none => p
  | some first =>
    if api.getFlag first ≠ BulletFlag.ISCEILING then
      p
    else
      let endIndex := p.getEndIndex wave
      let frameCount : Int := (p.waveFrameCount[wave.toNat]?).getD 0
      if frameCount = k.SCOKJ_CEILINGDROPDELAY then
        { p with
          bullets := modifyRange (fun b => api.setVelocity b 0 2) startIndex endIndex p.bullets }
      else if (frameCount : ℚ) > k.SCOKJ_CEILINGDROPDELAY * (75 / 100)
          ∧ frameCount < k.SCOKJ_CEILINGDROPDELAY then
        let direction : Int := if (api.getVelocity first).x < 0 then -1 else 1
        let st := forRange startIndex (endIndex + 1)
          (fun j (st : SlowState B) =>
            { bullets := modifyAt
                (fun b => api.adjustVelocity b
                  (-st.bulletSpeed * 4 * direction / k.SCOKJ_CEILINGDROPDELAY) 0) j st.bullets
              bulletSpeed := st.bulletSpeed + k.SCOKJ_CEILINGBULLETSPACING })
          { bullets := p.bullets
            bulletSpeed := k.SCOKJ_CEILINGBULLETINITIALSPEED * k.SCOKJ_CEILINGBULLETSPACING }
        { p with bullets := st.bullets }
      else
        p

/-- The member `SeamlessCeiling::processMovement()`. -/
def processMovement (api : BulletApi B) (k : Consts) (p : SeamlessCeiling B) :
    SeamlessCeiling B :=
  let p := { p with bullets := p.bullets.map api.processMovement }
  let p := { p with toWavePattern := p.toWavePattern.incrementWaveFrames }
  forLoop p.waveBulletCount.length (moveWave api k) p

end SeamlessCeiling

/-! ## Dynamic dispatch -/

/-- A pattern object behind a `Pattern*`: one of the classes of `Pattern.h`, with the data
members of that class. The virtual members below select the override of the object's class. -/
inductive AnyPattern (B : Type) where
  | pattern (p : Pattern B)
  | wavePattern (p : WavePattern B)
  | bowap (p : Pattern B)
  | qedRipples (p : QedRipples B)
  | flyingSaucer (p : FlyingSaucer B)
  | gengetsuTime (p : Pattern B)
  | windGod (p : WindGod B)
  | mercuryPoison (p : MercuryPoison B)
  | seamlessCeiling (p : SeamlessCeiling B)

namespace AnyPattern

variable {B : Type}

/-- The `Pattern` base subobject. -/
def toPattern : AnyPattern B → Pattern B
  | pattern p => p
  | wavePattern p => p.toPattern
  | bowap p => p
  | qedRipples p => p.toPattern
  | flyingSaucer p => p.toPattern
  | gengetsuTime p => p
  | windGod p => p.toPattern
  | mercuryPoison p => p.toPattern
  | seamlessCeiling p => p.toPattern

/-- The `WavePattern` base subobject of the classes derived from `WavePattern`. -/
def toWavePattern? : AnyPattern B → Option (WavePattern B)
  | wavePattern p => some p
  | flyingSaucer p => some p.toWavePattern
  | windGod p => some p.toWavePattern
  | mercuryPoison p => some p.toWavePattern
  | seamlessCeiling p => some p.toWavePattern
  | _ => none

/-- A non-virtual member of `Pattern` applied to the base subobject. -/
def mapPattern (f : Pattern B → Pattern B) : AnyPattern B → AnyPattern B
  | pattern p => pattern (f p)
  | wavePattern p => wavePattern { p with toPattern := f p.toPattern }
  | bowap p => bowap (f p)
  | qedRipples p => qedRipples { p with toPattern := f p.toPattern }
  | flyingSaucer p => flyingSaucer { p with toPattern := f p.toPattern }
  | gengetsuTime p => gengetsuTime (f p)
  | windGod p => windGod { p with toPattern := f p.toPattern }
  | mercuryPoison p => mercuryPoison { p with toPattern := f p.toPattern }
  | seamlessCeiling p => seamlessCeiling { p with toPattern := f p.toPattern }

/-- The member `getActive()`. -/
def getActive (p : AnyPattern B) : Bool :=
  p.toPattern.active

/-- The member `setActive(val)`. -/
def setActive (p : AnyPattern B) (val : Bool) : AnyPattern B :=
  p.mapPattern (fun q => { q with active := val })

/-- The member `getBullets()`. -/
def getBullets (p : AnyPattern B) : List B :=
  p.toPattern.bullets

/-- The member `incrementFrame()`. -/
def incrementFrame (p : AnyPattern B) : AnyPattern B :=
  p.mapPattern Pattern.incrementFrame

/-- The virtual member `deleteOutOfBoundsBullets()`: `WavePattern` overrides it, the concrete
patterns inherit it. -/
def deleteOutOfBoundsBullets (api : BulletApi B) : AnyPattern B → AnyPattern B
  | pattern p => pattern (p.deleteOutOfBoundsBullets api)
  | wavePattern p => wavePattern (p.deleteOutOfBoundsBullets api)
  | bowap p => bowap (p.deleteOutOfBoundsBullets api)
  | qedRipples p => qedRipples { p with toPattern := p.toPattern.deleteOutOfBoundsBullets api }
  | flyingSaucer p =>
    flyingSaucer { p with toWavePattern := p.toWavePattern.deleteOutOfBoundsBullets api }
  | gengetsuTime p => gengetsuTime (p.deleteOutOfBoundsBullets api)
  | windGod p => windGod { p with toWavePattern := p.toWavePattern.deleteOutOfBoundsBullets api }
  | mercuryPoison p =>
    mercuryPoison { p with toWavePattern := p.toWavePattern.deleteOutOfBoundsBullets api }
  | seamlessCeiling p =>
    seamlessCeiling { p with toWavePattern := p.toWavePattern.deleteOutOfBoundsBullets api }

/-- The virtual member `spawnBullets()`. -/
def spawnBullets (api : BulletApi B) (k : Consts) : AnyPattern B → Rng → AnyPattern B × Rng
  | pattern p, g => (pattern p.spawnBullets, g)
  | wavePattern p, g => (wavePattern { p with toPattern := p.toPattern.spawnBullets }, g)
  | bowap p, g => (bowap (Bowap.spawnBullets api k p), g)
  | qedRipples p, g => ((QedRipples.spawnBullets api k p g).map qedRipples id)
  | flyingSaucer p, g => ((FlyingSaucer.spawnBullets api k p g).map flyingSaucer id)
  | gengetsuTime p, g => ((GengetsuTime.spawnBullets api p g).map gengetsuTime id)
  | windGod p, g => ((WindGod.spawnBullets api k p g).map windGod id)
  | mercuryPoison p, g => ((MercuryPoison.spawnBullets api k p g).map mercuryPoison id)
  | seamlessCeiling p, g => ((SeamlessCeiling.spawnBullets api k p g).map seamlessCeiling id)

/-- The virtual member `processMovement()`. -/
def processMovement (api : BulletApi B) (k : Consts) : AnyPattern B → Rng → AnyPattern B × Rng
  | pattern p, g => (pattern (p.processMovement api), g)
  | wavePattern p, g => (wavePattern { p with toPattern := p.toPattern.processMovement api }, g)
  | bowap p, g => (bowap (p.processMovement api), g)
  | qedRipples p, g => (qedRipples (QedRipples.processMovement api p), g)
  | flyingSaucer p, g => (flyingSaucer (FlyingSaucer.processMovement api k p), g)
  | gengetsuTime p, g => (gengetsuTime (p.processMovement api), g)
  | windGod p, g => ((WindGod.processMovement api k p g).map windGod id)
  | mercuryPoison p, g => (mercuryPoison (MercuryPoison.processMovement api k p), g)
  | seamlessCeiling p, g => (seamlessCeiling (SeamlessCeiling.processMovement api k p), g)

/-- The virtual member `resetPattern()`: `WindGod` and `MercuryPoison` override it. -/
def resetPattern (api : BulletApi B) (k : Consts) : AnyPattern B → Rng → AnyPattern B × Rng
  | windGod p, g => (windGod (WindGod.resetPattern api p), g)
  | mercuryPoison p, g => ((MercuryPoison.resetPattern api k p g).map mercuryPoison id)
  | p, g => (p.mapPattern (Pattern.resetPattern api), g)

/-- The virtual member `deleteAllBullets()`: `WavePattern` overrides it. -/
def deleteAllBullets : AnyPattern B → AnyPattern B
  | pattern p => pattern p.deleteAllBullets
  | wavePattern p => wavePattern p.deleteAllBullets
  | bowap p => bowap p.deleteAllBullets
  | qedRipples p => qedRipples { p with toPattern := p.toPattern.deleteAllBullets }
  | flyingSaucer p => flyingSaucer { p with toWavePattern := p.toWavePattern.deleteAllBullets }
  | gengetsuTime p => gengetsuTime p.deleteAllBullets
  | windGod p => windGod { p with toWavePattern := p.toWavePattern.deleteAllBullets }
  | mercuryPoison p => mercuryPoison { p with toWavePattern := p.toWavePattern.deleteAllBullets }
  | seamlessCeiling p =>
    seamlessCeiling { p with toWavePattern := p.toWavePattern.deleteAllBullets }

/-- Every shot timer that an update cycle of the pattern can evaluate has an answer. The base
classes `Pattern` and `WavePattern` spawn nothing and evaluate no timer; every concrete pattern
calls `canShoot()` in `spawnBullets()` (`MercuryPoison` once its wave delay has passed), and
`SeamlessCeiling` also calls `canShoot(shotFrequency * 14)`. Culling, which precedes the calls,
changes no frequency. -/
def timersDefined : AnyPattern B → Bool
  | pattern _ => true
  | wavePattern _ => true
  | bowap p => p.timerDefined
  | qedRipples p => p.toPattern.timerDefined
  | flyingSaucer p => p.toPattern.timerDefined
  | gengetsuTime p => p.timerDefined
  | windGod p => p.toPattern.timerDefined
  | mercuryPoison p => p.toPattern.timerDefined
  | seamlessCeiling p =>
    p.toPattern.timerDefined && Pattern.periodDefined (p.shotFrequency * 14)

/-- The body of the loop of `PatternManager::update()` for one pattern. -/
def update (api : BulletApi B) (k : Consts) (p : AnyPattern B) (g : Rng) : AnyPattern B × Rng :=
  if p.getActive then
    let p := p.deleteOutOfBoundsBullets api
    let r := p.spawnBullets api k g
    let p := r.1.incrementFrame
    p.processMovement api k r.2
  else
    (p, g)

end AnyPattern

/-! ## PatternManager -/

/-- The data member of `class PatternManager`: the patterns it owns, in order. -/
structure PatternManager (B : Type) where
  activePatterns : List (AnyPattern B)

namespace PatternManager

variable {B : Type}

/-- The member `addPattern(pattern)`. -/
def addPattern (m : PatternManager B) (pattern : AnyPattern B) : PatternManager B :=
  { m with activePatterns := m.activePatterns ++ [pattern] }

/-- The loop of `update()` over the patterns, in order; the generator is handed from one
pattern to the next. -/
def updateLoop (api : BulletApi B) (k : Consts) : List (AnyPattern B) → Rng →
    List (AnyPattern B) × Rng
  | [], g => ([], g)
  | p :: rest, g =>
    let r := p.update api k g
    let rs := updateLoop api k rest r.2
    (r.1 :: rs.1, rs.2)

/-- The member `update()`. -/
def update (api : BulletApi B) (k : Consts) (m : PatternManager B) (g : Rng) :
    PatternManager B × Rng :=
  let r := updateLoop api k m.activePatterns g
  ({ m with activePatterns := r.1 }, r.2)

/-- The loop of `deactivateAllPatterns()` from index `i` on. -/
def deactivateLoop (api : BulletApi B) (k : Consts) : Nat → List (AnyPattern B) → Rng →
    List (AnyPattern B) × Rng
  | _, [], g => ([], g)
  | i, p :: rest, g =>
    let p := p.setActive false
    let r := p.resetPattern api k g
    let p := if i ≠ 0 then r.1.deleteAllBullets else r.1
    let rs := deactivateLoop api k (i + 1) rest r.2
    (p :: rs.1, rs.2)

/-- The member `deactivateAllPatterns()`. -/
def deactivateAllPatterns (api : BulletApi B) (k : Consts) (m : PatternManager B) (g : Rng) :
    PatternManager B × Rng :=
  let r := deactivateLoop api k 0 m.activePatterns g
  ({ m with activePatterns := r.1 }, r.2)

/-- The member `rotateAllBullets(angleDegrees)`. -/
def rotateAllBullets (api : BulletApi B) (m : PatternManager B) (angleDegrees : ℚ) :
    PatternManager B :=
  { m with
    activePatterns := m.activePatterns.map
      (fun p => p.mapPattern
        (fun q => { q with bullets := q.bullets.map (fun b => api.rotateBullet b angleDegrees) })) }

/-- The member `checkPlayerCollision(hitbox)`. -/
def checkPlayerCollision (api : BulletApi B) (m : PatternManager B) (hitbox : CircleShape) :
    Bool :=
  m.activePatterns.any
    (fun p => p.getActive && p.getBullets.any (fun b => api.checkPlayerCollision b hitbox))

/-- The member `getPatternCount()`. -/
def getPatternCount (m : PatternManager B) : Int :=
  m.activePatterns.length

/-- The manager after `n` calls of `update()`. -/
def updateN (api : BulletApi B) (k : Consts) : Nat → PatternManager B → Rng →
    PatternManager B × Rng
  | 0, m, g => (m, g)
  | n + 1, m, g =>
    let r := update api k m g
    updateN api k n r.1 r.2

end PatternManager

/-- The timing state of a pattern: its frame counter and its active flag. -/
def Pattern.clock {B : Type} (p : Pattern B) : Int × Bool :=
  (p.frameCounter, p.active)

/-- The wave bookkeeping of a pattern together with its stream count. -/
def WavePattern.book {B : Type} (w : WavePattern B) : List Int × List Int × Int × Int :=
  (w.waveBulletCount, w.waveFrameCount, w.currentBulletCount, w.streamCount)

/-- The state in which all bullets of a `FlyingSaucer` are counted in waves: the wave
invariant holds, the running counter is empty, the stream count is not negative and four times
it fits an `int`, and there are four shot sources. -/
def FlyingSaucer.Counted {B : Type} (p : FlyingSaucer B) : Prop :=
  p.toWavePattern.WaveInvariant ∧ p.currentBulletCount = 0 ∧ 0 ≤ p.streamCount ∧
    4 * p.streamCount < 2147483648 ∧ p.shotSources.length = 4

/-- The state in which all bullets of a `MercuryPoison` are counted in waves: the wave
invariant holds, the running counter is empty, the stream count is not negative and twice it
fits an `int`. -/
def MercuryPoison.Counted {B : Type} (p : MercuryPoison B) : Prop :=
  p.toWavePattern.WaveInvariant ∧ p.currentBulletCount = 0 ∧ 0 ≤ p.streamCount ∧
    p.streamCount * 2 < 2147483648

/-- A pattern of one of the two classes that close every burst with an explicit wave, in a
state in which all its bullets are counted in waves. -/
def AnyPattern.Counted {B : Type} : AnyPattern B → Prop
  | AnyPattern.flyingSaucer p => p.Counted
  | AnyPattern.mercuryPoison p => p.Counted
  | _ => False

/-- The wave parts of the patterns of a manager that derive from `WavePattern`. -/
def PatternManager.waveParts {B : Type} (m : PatternManager B) : List (WavePattern B) :=
  m.activePatterns.filterMap AnyPattern.toWavePattern?

/-! ## The result of wave culling, stated on slices -/

/-- The number of bullets of wave `i` that lie inside the active region: the bullets at the
indices `getStartIndex(i)` to `getEndIndex(i)` are the slice of that length starting at
`getStartIndex(i)`. -/
def WavePattern.inBoundsInSlice {B : Type} (api : BulletApi B) (w : WavePattern B) (i : Nat) :
    Int :=
  ((((w.bullets.drop (w.getStartIndex i).toNat).take
      (w.getEndIndex i - w.getStartIndex i + 1).toNat).countP
    (fun b => w.screenBounds.contains (api.getPosition b)) : Nat) : Int)

/-- The wave list that culling is specified to leave: every wave, in order, with its size
replaced by the number of in-bounds bullets of its slice and with its own age, the waves of new
size 0 dropped. -/
def WavePattern.culledWaves {B : Type} (api : BulletApi B) (w : WavePattern B) :
    List (Int × Int) :=
  ((List.range w.waveBulletCount.length).map
    (fun i => (w.inBoundsInSlice api i, (w.waveFrameCount[i]?).getD 0))).filter
    (fun wave => decide (wave.1 ≠ 0))

/-- The same wave list computed wave by wave: the first wave takes its bullets from the front
of the vector, the remaining waves continue behind them. -/
def cullWavesFrom {B : Type} (inB : B → Bool) : List B → List Int → List Int → List (Int × Int)
  | bs, c :: cs, a :: as =>
    (if (bs.take c.toNat).countP inB = 0 then []
      else [((((bs.take c.toNat).countP inB : Nat) : Int), a)])
      ++ cullWavesFrom inB (bs.drop c.toNat) cs as
  | _, [], _ => []
  | _, _ :: _, [] => []

/-! ## Call sequences -/

/-- A sequence of `canShoot()` calls on one pattern: the frame counter has the listed value at
each call, and each call sees the latch as the previous call left it. The result lists the
answers in call order. -/
def Pattern.canShootCalls {B : Type} (p : Pattern B) : List Int → List Bool
  | [] => []
  | frame :: rest =>
    let r := Pattern.canShoot { p with frameCounter := frame }
    r.1 :: Pattern.canShootCalls r.2 rest

/-- An event in the life of a pattern: a `canShoot()` call made while the frame counter has the
given value, or a `resetPattern()` call. -/
inductive LifeEvent where
  | shoot (frame : Int)
  | reset

/-- The answers of the `canShoot()` calls of a sequence of events, grouped by the intervals
that the `resetPattern()` calls delimit; `current` holds the answers of the interval that is
still open. -/
def Pattern.lifetime {B : Type} (api : BulletApi B) :
    Pattern B → List LifeEvent → List Bool → List (List Bool)
  | _, [], current => [current]
  | p, LifeEvent.shoot frame :: rest, current =>
    let r := Pattern.canShoot { p with frameCounter := frame }
    Pattern.lifetime api r.2 rest (current ++ [r.1])
  | p, LifeEvent.reset :: rest, current =>
    current :: Pattern.lifetime api (p.resetPattern api) rest []

/-! ## A test double for the bullet classes -/

/-- A minimal bullet used to evaluate the definitions on concrete inputs: a position, a
velocity and a flag. It stands in for the game's bullet classes in examples only. -/
structure PointBullet where
  position : Vector2f
  velocity : Vector2f
  flag : BulletFlag
deriving DecidableEq

/-- A point bullet at rest at the given coordinates. -/
def PointBullet.at (x y : ℚ) : PointBullet :=
  { position := ⟨x, y⟩, velocity := ⟨0, 0⟩, flag := BulletFlag.NEUTRAL }

/-- The capability set of the test double: bullets are created at rest, move along their
velocity, and the rotation operations leave them as they are. -/
def pointApi : BulletApi PointBullet where
  newCircleBullet := fun pos _ _ _ _ => PointBullet.at pos.x pos.y
  newRiceBullet := fun pos _ _ _ _ => PointBullet.at pos.x pos.y
  newDotBullet := fun pos _ _ _ _ => PointBullet.at pos.x pos.y
  newTalismanBullet := fun pos _ _ _ _ => PointBullet.at pos.x pos.y
  newBubbleBullet := fun pos _ _ _ _ => PointBullet.at pos.x pos.y
  newArrowheadBullet := fun pos _ _ _ _ => PointBullet.at pos.x pos.y
  newLaser := fun pos _ _ _ _ _ _ => PointBullet.at pos.x pos.y
  newSpawner := fun pos _ _ _ _ _ => PointBullet.at pos.x pos.y
  getPosition := fun b => b.position
  getVelocity := fun b => b.velocity
  getRotation := fun _ => 0
  getFlag := fun b => b.flag
  setFlag := fun b f => { b with flag := f }
  processMovement := fun b =>
    { b with position := ⟨b.position.x + b.velocity.x, b.position.y + b.velocity.y⟩ }
  resetBullet := fun b => b
  rotateBullet := fun b _ => b
  rotateArc := fun b _ _ => b
  adjustPosition := fun b dx dy => { b with position := ⟨b.position.x + dx, b.position.y + dy⟩ }
  setPosition := fun b x y => { b with position := ⟨x, y⟩ }
  setVelocity := fun b vx vy => { b with velocity := ⟨vx, vy⟩ }
  adjustVelocity := fun b dx dy => { b with velocity := ⟨b.velocity.x + dx, b.velocity.y + dy⟩ }
  setVelocityR := fun b _ _ => b
  setSpeed := fun b _ => b
  adjustSpeed := fun b _ => b
  flipX := fun b => { b with velocity := ⟨-b.velocity.x, b.velocity.y⟩ }
  flipY := fun b => { b with velocity := ⟨b.velocity.x, -b.velocity.y⟩ }
  checkPlayerCollision := fun b h => decide (b.position = h.position)

/-- A wave pattern with three waves of sizes 2, 1 and 3 over six bullets; the bullets at
indices 1, 2 and 5 lie outside the active region. -/
def sampleWaves : WavePattern PointBullet :=
  { toPattern :=
      { (Pattern.new ⟨100, 100⟩ 3 1 5 : Pattern PointBullet) with
        bullets := [PointBullet.at 100 100, PointBullet.at 5000 100, PointBullet.at 100 (-5000),
          PointBullet.at 200 200, PointBullet.at 300 300, PointBullet.at (-900) 0] }
    waveBulletCount := [2, 1, 3]
    waveFrameCount := [30, 20, 10]
    currentBulletCount := 0 }

/-- A wave pattern that is still accumulating a wave: one closed wave of two bullets and one
bullet counted in the running counter only, which lies outside the active region. -/
def sampleAccumulating : WavePattern PointBullet :=
  { toPattern :=
      { (Pattern.new ⟨100, 100⟩ 3 1 5 : Pattern PointBullet) with
        bullets := [PointBullet.at 100 100, PointBullet.at 200 200, PointBullet.at 5000 100] }
    waveBulletCount := [2]
    waveFrameCount := [7]
    currentBulletCount := 1 }

/-- A wave pattern that is still accumulating a wave and whose uncounted bullet is inside the
active region, while a bullet of the closed wave lies outside. -/
def sampleTailInside : WavePattern PointBullet :=
  { toPattern :=
      { (Pattern.new ⟨100, 100⟩ 3 1 5 : Pattern PointBullet) with
        bullets := [PointBullet.at 100 100, PointBullet.at 5000 100, PointBullet.at 200 200] }
    waveBulletCount := [2]
    waveFrameCount := [7]
    currentBulletCount := 1 }

/-- Values for the constants that the embedded sources do not declare, used to evaluate the
definitions on concrete inputs; `cos` and `sin` are replaced by constant functions. -/
def sampleConsts : Consts where
  DEFAULTSPAWNERCOLOR := ⟨255, 255, 255, 255⟩
  STANDARDSPAWNERRADIUS := 4
  PI := 314159 / 100000
  cos := fun _ => 1
  sin := fun _ => 0
  BOWAP_ANGLEOFFSET := 0
  BOWAP_ANGLEVELOCITY := 20
  BOWAP_ANGLEACCELERATION := 15
  QED_VARIANCEX := 200
  QED_VARIANCEY := 100
  UFO_PHASE1CHECKPOINT := 60
  UFO_PHASE2CHECKPOINT := 180
  UFO_STARTVEL := 10
  UFO_PHASE1ACCEL := 40
  UFO_PHASE2VELOCITY := 30
  UFO_PHASE3VELOCITY := 60
  UFO_PHASE1ADDEDRADIUS := 50
  UFO_PHASE2ADDEDRADIUS := 60
  UFO_BULLETCOLORS := [RED, BLUE, GREEN]
  MOF_PETALCOUNT := 5
  MOF_SPAWNERMOVESPEED := 6
  MOF_FRAMEOFFSET := 2
  MOF_LAYER1CHECKPOINT := 3
  MOF_LAYER2CHECKPOINT := 6
  MOF_LAYER3CHECKPOINT := 9
  MOF_LAYER4CHECKPOINT := 12
  MOF_LAYER5CHECKPOINT := 15
  MOF_LAYER6CHECKPOINT := 18
  MOF_LAUNCHDELAY := 4
  MOF_LAUNCHACCEL := 1 / 10
  MOF_RADIUS1 := 60
  MOF_RADIUS2 := 90
  MOF_RADIUS3 := 120
  MOF_EXPECTEDBULLETS1 := 16
  MOF_EXPECTEDBULLETS2 := 20
  MOF_EXPECTEDBULLETS3 := 24
  MOF_LAYER1CUT := 1 / 4
  MOF_DSCALENUMER := 3
  MOF_DSCALEDENOM := 2
  MOF_DSCALENUMER3 := 5
  MOF_DSCALEDENOM3 := 3
  MOF_FASTSPEEDMULTIPLIER := 3 / 2
  MOF_SLOWSPEEDMULTIPLIER := 3 / 4
  MOF_BULLETANGLEVARIANCE := [0, 3, -3, 6]
  MOF_BULLETCOLORS := [RED, ORANGE, YELLOW, GREEN, CYAN, BLUE]
  HGP_WAVEDELAY := 60
  HGP_SPEEDMULTIPLIER := 3 / 2
  HGP_BULLETSIZE := 8
  HGP_WAVECOUNT := 16
  HGP_ROTATIONSTART := 30
  HGP_ROTATIONEND := 90
  HGP_ROTATIONANGLE := 1
  SCOKJ_CEILINGVARIANCEX := 100
  SCOKJ_CEILINGVARIANCEY := 20
  SCOKJ_CEILINGCOUNT := 4
  SCOKJ_CEILINGBULLETINITIALSPEED := 1
  SCOKJ_CEILINGBULLETSPACING := 1 / 2
  SCOKJ_CEILINGDROPDELAY := 120
  SCOKJ_STREAMVARIANCEXY := 50
  SCOKJ_PHASE1END := 300
  SCOKJ_PHASE2END := 600
  SCOKJ_PHASE3END := 900

/-- A stream of draws for `rand()` used in examples. -/
def sampleRng : Rng :=
  fun n => 7 * n + 3

/-- A manager with an active `Bowap` pattern at frame 7 that owns one in-bounds and one
out-of-bounds bullet, and an inactive `QedRipples` pattern at frame 3 that owns an out-of-bounds
bullet. -/
def sampleManager : PatternManager PointBullet :=
  { activePatterns :=
      [AnyPattern.bowap
          { (Bowap.new ⟨100, 100⟩ 3 1 5 : Pattern PointBullet) with
            bullets := [PointBullet.at 100 100, PointBullet.at 5000 100]
            frameCounter := 7 },
        AnyPattern.qedRipples
          { (QedRipples.new ⟨100, 100⟩ 3 1 5 SCREENBOUNDS : QedRipples PointBullet) with
            bullets := [PointBullet.at 5000 100]
            frameCounter := 3
            active := false }] }

/-- The stream count that a pattern derived from `WavePattern` stores for the `int` that its
constructor is given: the argument is converted to the `float` parameter of the `WavePattern`
constructor and back to `int` for the base constructor. A count below `2 ^ 24` in magnitude is
stored as it is. -/
def WavePattern.storedStreamCount (streamCount : Int) : Int :=
  truncToInt (toFloat32 (streamCount : ℚ))

/-- A freshly constructed pattern of one of the two classes that close every burst with an
explicit wave, with a stored stream count that is not negative and small enough for the `int`
products of the spawn code. -/
def AnyPattern.FreshExplicitWave {B : Type} (k : Consts) (p : AnyPattern B) : Prop :=
  (∃ (sourcePos : Vector2f) (streamCount : Int) (shotFrequency baseSpeed : ℚ),
      0 ≤ WavePattern.storedStreamCount streamCount ∧
      4 * WavePattern.storedStreamCount streamCount < 2147483648 ∧
      p = AnyPattern.flyingSaucer
        (FlyingSaucer.new sourcePos streamCount shotFrequency baseSpeed)) ∨
  (∃ (sourcePos : Vector2f) (streamCount : Int) (shotFrequency baseSpeed : ℚ) (g : Rng),
      0 ≤ WavePattern.storedStreamCount streamCount ∧
      WavePattern.storedStreamCount streamCount * 2 < 2147483648 ∧
      p = AnyPattern.mercuryPoison
        (MercuryPoison.new k sourcePos streamCount shotFrequency baseSpeed g).1)

/-- A manager that owns one freshly constructed `SeamlessCeiling` with stream count 1 and shot
frequency 1. -/
def ceilingManager : PatternManager PointBullet :=
  { activePatterns := [AnyPattern.seamlessCeiling (SeamlessCeiling.new ⟨360, 100⟩ 1 1 5)] }

/-- A manager that owns one freshly constructed `WindGod`. -/
def windGodManager : PatternManager PointBullet :=
  { activePatterns := [AnyPattern.windGod (WindGod.new sampleConsts ⟨360, 300⟩ 1 5)] }

/-- A manager that owns a freshly constructed `FlyingSaucer` with stream count 2 and a freshly
constructed `MercuryPoison` with stream count 3. -/
def saucerManager : PatternManager PointBullet :=
  { activePatterns :=
      [AnyPattern.flyingSaucer (FlyingSaucer.new ⟨360, 300⟩ 2 1 5),
        AnyPattern.mercuryPoison
          (MercuryPoison.new sampleConsts ⟨360, 300⟩ 3 4 5 sampleRng).1] }

/-! ## Bounce bookkeeping of `QedRipples` -/

/-- The velocity flips that `QedRipples::processMovement()` can apply to a bullet. -/
inductive Flip where
  | flipX
  | flipY
deriving DecidableEq

/-- Modelled from the spec: the bullet classes are not among the embedded sources. The flag is
a mutable tag that only `setFlag` writes, `flipX` and `flipY` negate the horizontal and the
vertical velocity component, and tagging leaves the velocity alone. -/
structure BulletApi.BounceLaws {B : Type} (api : BulletApi B) : Prop where
  getFlag_setFlag : ∀ (b : B) (f : BulletFlag), api.getFlag (api.setFlag b f) = f
  getFlag_processMovement : ∀ b : B, api.getFlag (api.processMovement b) = api.getFlag b
  getVelocity_flipX : ∀ b : B,
    api.getVelocity (api.flipX b) = ⟨-(api.getVelocity b).x, (api.getVelocity b).y⟩
  getVelocity_flipY : ∀ b : B,
    api.getVelocity (api.flipY b) = ⟨(api.getVelocity b).x, -(api.getVelocity b).y⟩
  getVelocity_setFlag : ∀ (b : B) (f : BulletFlag),
    api.getVelocity (api.setFlag b f) = api.getVelocity b

/-- The body of the loop of `QedRipples::processMovement()` for one bullet, as `moveBullet`,
together with the record of the flip calls it makes on the bullet. -/
def QedRipples.moveBulletLogged {B : Type} (api : BulletApi B) (bounceBounds : FloatRect)
    (bullet : B) : B × List Flip :=
  let bullet := api.processMovement bullet
  let pos := api.getPosition bullet
  if !bounceBounds.contains pos then
    if api.getFlag bullet = BulletFlag.BOUNCED
        ∨ pos.y > bounceBounds.top + bounceBounds.height then
      (bullet, [])
    else
      let r : B × List Flip :=
        if pos.x < bounceBounds.left ∨ pos.x > bounceBounds.left + bounceBounds.width then
          (api.flipX bullet, [Flip.flipX])
        else
          (api.flipY bullet, [Flip.flipY])
      (api.setFlag r.1 BulletFlag.BOUNCED, r.2)
  else
    (bullet, [])

/-- What `n` calls of `QedRipples::processMovement()` do to one bullet: the bullet afterwards
and the flip calls made on it, in call order. -/
def QedRipples.stepsLogged {B : Type} (api : BulletApi B) (bounceBounds : FloatRect) :
    Nat → B → B × List Flip
  | 0, bullet => (bullet, [])
  | n + 1, bullet =>
    let r := QedRipples.moveBulletLogged api bounceBounds bullet
    let rs := QedRipples.stepsLogged api bounceBounds n r.1
    (rs.1, r.2 ++ rs.2)

/-- The pattern after `n` calls of `QedRipples::processMovement()`. -/
def QedRipples.processMovementN {B : Type} (api : BulletApi B) :
    Nat → QedRipples B → QedRipples B
  | 0, p => p
  | n + 1, p => QedRipples.processMovementN api n (QedRipples.processMovement api p)

/-- A bullet of the test double just inside the top edge of the screen, moving up. -/
def risingBullet : PointBullet :=
  { position := ⟨100, 45⟩, velocity := ⟨0, -10⟩, flag := BulletFlag.NEUTRAL }

/-- A bullet of the test double that its next movement step puts exactly on the bottom edge of
the screen (`y = SCREENTOP + SCREENHEIGHT = 880`). -/
def sinkingBullet : PointBullet :=
  { position := ⟨100, 875⟩, velocity := ⟨0, 5⟩, flag := BulletFlag.NEUTRAL }

/-- A manager with three patterns that own bullets: an active `Bowap` at frame 7, an active
`FlyingSaucer` at frame 4 with one wave, and an inactive `QedRipples` at frame 3. -/
def threePatternManager : PatternManager PointBullet :=
  { activePatterns :=
      [AnyPattern.bowap
          { (Bowap.new ⟨100, 100⟩ 3 1 5 : Pattern PointBullet) with
            bullets := [PointBullet.at 100 100, PointBullet.at 5000 100]
            frameCounter := 7 },
        AnyPattern.flyingSaucer
          { (FlyingSaucer.new ⟨360, 300⟩ 2 1 5 : FlyingSaucer PointBullet) with
            bullets := [PointBullet.at 200 200, PointBullet.at 300 300]
            frameCounter := 4
            waveBulletCount := [2]
            waveFrameCount := [4] },
        AnyPattern.qedRipples
          { (QedRipples.new ⟨100, 100⟩ 3 1 5 SCREENBOUNDS : QedRipples PointBullet) with
            bullets := [PointBullet.at (-900) 0]
            frameCounter := 3
            active := false }] }

/-! ## Query sequences on the target-radius cache -/

namespace FlyingSaucer
variable {B : Type}

/-- A sequence of `getTargetRadius` calls on one pattern, for the listed frames in call order:
the values returned, in call order, and the pattern afterwards. -/
def queryFrames (k : Consts) : FlyingSaucer B → List Int → List ℚ × FlyingSaucer B
  | p, [] => ([], p)
  | p, frame :: rest =>
    let r := getTargetRadius k p frame
    let rs := queryFrames k r.2 rest
    (r.1 :: rs.1, rs.2)

/-- The frames `0, 1, ..., K` in increasing order. -/
def framesUpTo (K : Nat) : List Int :=
  List.map (fun (j : Nat) => (j : Int)) (List.range (K + 1))

/-- The value returned for frame `j` when the frames `0, 1, ..., K` are queried in increasing
order on the pattern `fresh`. -/
def inOrderRadius (k : Consts) (fresh : FlyingSaucer B) (K j : Nat) : ℚ :=
  ((queryFrames k fresh (framesUpTo K)).1[j]?).getD 0

/-- A sequence of queried frames that never skips ahead of a cache of the given size: every
frame is from 0 up to the number of cached frames at the time of its call, and a call for the
frame equal to that number caches one more frame. -/
def contiguous : Nat → List Int → Bool
  | _, [] => true
  | size, frame :: rest =>
    decide (0 ≤ frame) && decide (frame ≤ (size : Int)) &&
      contiguous (if frame = (size : Int) then size + 1 else size) rest

/-- The entry for frame `j` of a cache that was filled contiguously from the constructor's
`{ 0 }`: the placeholder 0 at index 0, the radius formula from index 1 on. -/
def cachedRadius (k : Consts) (j : Nat) : ℚ :=
  if j = 0 then 0 else computeTargetRadius k (j : Int)

end FlyingSaucer

/-! ## Spawn counts of update cycles -/

/-- The settings of a pattern that its constructor fixes: the active region, the active flag,
the stream count, the base speed, the source position, the shot frequency and the one-shot
latch. -/
def Pattern.setup {B : Type} (p : Pattern B) : FloatRect × Bool × Int × ℚ × Vector2f × ℚ × Bool :=
  (p.screenBounds, p.active, p.streamCount, p.baseSpeed, p.sourcePos, p.shotFrequency,
    p.shootOnlyOnce)

/-- The constructor `PatternManager()`. -/
def PatternManager.new {B : Type} : PatternManager B :=
  { activePatterns := [] }

/-- The number of bullets that the `spawnBullets()` call of one `update()` cycle adds to a
pattern: the size of its bullet vector after the call minus the size before it. An inactive
pattern is not asked to spawn. -/
def AnyPattern.spawnedInUpdate {B : Type} (api : BulletApi B) (k : Consts) (p : AnyPattern B)
    (g : Rng) : Int :=
  if p.getActive then
    let q := p.deleteOutOfBoundsBullets api
    ((q.spawnBullets api k g).1.getBullets.length : Int) - (q.getBullets.length : Int)
  else
    0

/-- The number of bullets that one `update()` call spawns in all patterns of a manager. -/
def PatternManager.spawnedInUpdate {B : Type} (api : BulletApi B) (k : Consts) :
    List (AnyPattern B) → Rng → Int
  | [], _ => 0
  | p :: rest, g =>
    p.spawnedInUpdate api k g + PatternManager.spawnedInUpdate api k rest (p.update api k g).2

/-- The numbers of bullets spawned by each of `n` consecutive `update()` calls, in call
order. -/
def PatternManager.spawnedPerCycle {B : Type} (api : BulletApi B) (k : Consts) :
    Nat → PatternManager B → Rng → List Int
  | 0, _, _ => []
  | n + 1, m, g =>
    PatternManager.spawnedInUpdate api k m.activePatterns g ::
      PatternManager.spawnedPerCycle api k n (m.update api k g).1 (m.update api k g).2

/-- The manager of the example scenario: a new manager to which a `Bowap` pattern constructed
with stream count 3, shot frequency 1 and base speed 5 has been added. -/
def bowapExample {B : Type} (sourcePos : Vector2f) : PatternManager B :=
  PatternManager.new.addPattern (AnyPattern.bowap (Bowap.new sourcePos 3 1 5))

/-! ## Reset runs -/

/-- A constructor call of one of the concrete pattern classes, with its arguments. -/
inductive PatternCtor where
  | bowap (sourcePos : Vector2f) (streamCount : Int) (shotFrequency baseSpeed : ℚ)
  | qedRipples (sourcePos : Vector2f) (streamCount : Int) (shotFrequency baseSpeed : ℚ)
      (bounceBounds : FloatRect)
  | flyingSaucer (sourcePos : Vector2f) (streamCount : Int) (shotFrequency baseSpeed : ℚ)
  | gengetsuTime (sourcePos : Vector2f) (streamCount : Int) (shotFrequency baseSpeed : ℚ)
  | windGod (sourcePos : Vector2f) (refreshDelay baseSpeed : ℚ)
  | mercuryPoison (sourcePos : Vector2f) (streamCount : Int) (shotFrequency baseSpeed : ℚ)
  | seamlessCeiling (sourcePos : Vector2f) (streamCount : Int) (shotFrequency baseSpeed : ℚ)

/-- The pattern that a constructor call builds and the generator afterwards; only the
constructor of `MercuryPoison` draws from `rand()`. -/
def AnyPattern.construct {B : Type} (k : Consts) : PatternCtor → Rng → AnyPattern B × Rng
  | PatternCtor.bowap sourcePos streamCount shotFrequency baseSpeed, g =>
    (AnyPattern.bowap (Bowap.new sourcePos streamCount shotFrequency baseSpeed), g)
  | PatternCtor.qedRipples sourcePos streamCount shotFrequency baseSpeed bounceBounds, g =>
    (AnyPattern.qedRipples
      (QedRipples.new sourcePos streamCount shotFrequency baseSpeed bounceBounds), g)
  | PatternCtor.flyingSaucer sourcePos streamCount shotFrequency baseSpeed, g =>
    (AnyPattern.flyingSaucer (FlyingSaucer.new sourcePos streamCount shotFrequency baseSpeed), g)
  | PatternCtor.gengetsuTime sourcePos streamCount shotFrequency baseSpeed, g =>
    (AnyPattern.gengetsuTime (GengetsuTime.new sourcePos streamCount shotFrequency baseSpeed), g)
  | PatternCtor.windGod sourcePos refreshDelay baseSpeed, g =>
    (AnyPattern.windGod (WindGod.new k sourcePos refreshDelay baseSpeed), g)
  | PatternCtor.mercuryPoison sourcePos streamCount shotFrequency baseSpeed, g =>
    ((MercuryPoison.new k sourcePos streamCount shotFrequency baseSpeed g).map
      AnyPattern.mercuryPoison id)
  | PatternCtor.seamlessCeiling sourcePos streamCount shotFrequency baseSpeed, g =>
    (AnyPattern.seamlessCeiling
      (SeamlessCeiling.new sourcePos streamCount shotFrequency baseSpeed), g)

/-- A pattern after `n` update cycles (the body of the loop of `PatternManager::update()`, `n`
times), and the generator afterwards. -/
def AnyPattern.updateN {B : Type} (api : BulletApi B) (k : Consts) :
    Nat → AnyPattern B → Rng → AnyPattern B × Rng
  | 0, p, g => (p, g)
  | n + 1, p, g => AnyPattern.updateN api k n (p.update api k g).1 (p.update api k g).2

/-- The fresh run: a pattern is constructed and run for `N` update cycles, with the draws of
`g`. -/
def AnyPattern.freshRun {B : Type} (api : BulletApi B) (k : Consts) (c : PatternCtor) (N : Nat)
    (g : Rng) : AnyPattern B × Rng :=
  let fresh : AnyPattern B × Rng := AnyPattern.construct k c g
  AnyPattern.updateN api k N fresh.1 fresh.2

/-- The reset run: a pattern is constructed and run for `M` update cycles with the draws of
`g0`; then `resetPattern()` is called and the pattern is run for `N` update cycles, with the
draws of `g` from the reset on. -/
def AnyPattern.resetRun {B : Type} (api : BulletApi B) (k : Consts) (c : PatternCtor)
    (M N : Nat) (g0 g : Rng) : AnyPattern B × Rng :=
  let aged := AnyPattern.freshRun api k c M g0
  let r := aged.1.resetPattern api k g
  AnyPattern.updateN api k N r.1 r.2

/-- The reset run in which `resetPattern()` is paired with `deleteAllBullets()`. -/
def AnyPattern.resetClearRun {B : Type} (api : BulletApi B) (k : Consts) (c : PatternCtor)
    (M N : Nat) (g0 g : Rng) : AnyPattern B × Rng :=
  let aged := AnyPattern.freshRun api k c M g0
  let r := aged.1.resetPattern api k g
  AnyPattern.updateN api k N r.1.deleteAllBullets r.2

/-- The constructor calls whose pattern state `resetPattern()` and `deleteAllBullets()` restore:
the classes `Bowap`, `QedRipples`, `GengetsuTime` and `MercuryPoison`, with a shot frequency
other than 0. -/
def PatternCtor.Restorable : PatternCtor → Prop
  | PatternCtor.bowap _ _ shotFrequency _ => shotFrequency ≠ 0
  | PatternCtor.qedRipples _ _ shotFrequency _ _ => shotFrequency ≠ 0
  | PatternCtor.gengetsuTime _ _ shotFrequency _ => shotFrequency ≠ 0
  | PatternCtor.mercuryPoison _ _ shotFrequency _ => shotFrequency ≠ 0
  | _ => False

/-- Two patterns of the same class with the same settings (and, for `QedRipples`, the same
bounce region). -/
def AnyPattern.sameSetup {B : Type} : AnyPattern B → AnyPattern B → Prop
  | AnyPattern.bowap a, AnyPattern.bowap b => a.setup = b.setup
  | AnyPattern.qedRipples a, AnyPattern.qedRipples b =>
    a.toPattern.setup = b.toPattern.setup ∧ a.bounceBounds = b.bounceBounds
  | AnyPattern.gengetsuTime a, AnyPattern.gengetsuTime b => a.setup = b.setup
  | AnyPattern.mercuryPoison a, AnyPattern.mercuryPoison b =>
    a.toPattern.setup = b.toPattern.setup
  | _, _ => False

/-! ## Positions in the bullet vector -/

/-- The vector `after` is the vector `before` with the entity `b` appended at the end: one entry
more, every index of `before` holds what it held, and `b` is at the first new index. -/
def appendedAtEnd {α : Type} (before after : List α) (b : α) : Prop :=
  after.length = before.length + 1 ∧
  (∀ i : Nat, i < before.length → after[i]? = before[i]?) ∧
  after[before.length]? = some b

/-- The vector `after` is the vector `before` with the entity `b` inserted at the front: one
entry more, `b` is at index 0, and what `before` held at index `i` is at index `i + 1`. -/
def insertedAtFront {α : Type} (before after : List α) (b : α) : Prop :=
  after.length = before.length + 1 ∧
  after[0]? = some b ∧
  (∀ i : Nat, after[i + 1]? = before[i]?)

/-! ## The phase of `WindGod` as a function of the elapsed frames -/

/-- The phase that `calculatePhase()` leaves in a `WindGod` whose frame counter is `e` frames
past its spawn point. -/
def WindGod.phaseAt {B : Type} (k : Consts) (p : WindGod B) (e : Int) : Int :=
  (WindGod.calculatePhase k { p with frameCounter := p.spawnPoint + e }).phase

/-- A freshly constructed `WindGod` whose refresh delay of 1/40 s is one frame
(`refreshFrames = int(1.5) = 1`). -/
def oneFrameRefresh : WindGod PointBullet :=
  WindGod.new sampleConsts ⟨360, 300⟩ (1 / 40) 5

/-! ## Emission rounds of `WindGod` -/

/-- The number of passes of the round loop `for (; i < scaleNumer / scaleDenom; i++)` of the
spawn branch of `WindGod::processMovement()`, which starts at `i = firstRound`. -/
def WindGod.emissionRounds {B : Type} (p : WindGod B) : Nat :=
  (Int.tdiv p.scaleNumer p.scaleDenom - WindGod.firstRound p).toNat

/-- The pattern after `n` consecutive spawning frames (`n` runs of the spawn branch). -/
def WindGod.emitBulletsN {B : Type} (api : BulletApi B) (k : Consts) :
    Nat → WindGod B → WindGod B
  | 0, p => p
  | n + 1, p => WindGod.emitBulletsN api k n (WindGod.emitBullets api k p)

/-- The total number of emission rounds of `n` consecutive spawning frames. -/
def WindGod.roundsOver {B : Type} (api : BulletApi B) (k : Consts) : Nat → WindGod B → Nat
  | 0, _ => 0
  | n + 1, p => WindGod.emissionRounds p + WindGod.roundsOver api k n (WindGod.emitBullets api k p)

/-- The density state of a `WindGod`: the ratio and the cycle counter. -/
def WindGod.rate {B : Type} (p : WindGod B) : Int × Int × Int :=
  (p.scaleNumer, p.scaleDenom, p.cycleCounter)

/-- A `WindGod` of the test double after its first `spawnBullets()` call: five spawners, first
layer, density ratio 3 / 2, cycle counter 0. -/
def spawnedWindGod : WindGod PointBullet :=
  (WindGod.spawnBullets pointApi sampleConsts (WindGod.new sampleConsts ⟨360, 300⟩ 1 5)
    sampleRng).1

/-- Modelled from the spec: the bullet classes are not among the embedded sources. The flag is
a tag that `setFlag` writes, and a talisman bullet is created with the flag `NEUTRAL`. -/
structure BulletApi.TagLaws {B : Type} (api : BulletApi B) : Prop where
  getFlag_setFlag : ∀ (b : B) (f : BulletFlag), api.getFlag (api.setFlag b f) = f
  getFlag_newTalismanBullet : ∀ (pos : Vector2f) (speed angle : ℚ) (color : Color)
    (radius : Int),
    api.getFlag (api.newTalismanBullet pos speed angle color radius) = BulletFlag.NEUTRAL

/-- The number of streams that are due at frame `f` of a `SeamlessCeiling`: the first stream
always, and one more for each of the three phase ends that `f` has passed. -/
def SeamlessCeiling.streamsAt (k : Consts) (f : Int) : Nat :=
  1 + (if f > k.SCOKJ_PHASE1END then 1 else 0) + (if f > k.SCOKJ_PHASE2END then 1 else 0)
    + (if f > k.SCOKJ_PHASE3END then 1 else 0)

/-- The pattern `p` with the bullets `added` at the back of its vector and counted in the
running counter `currentBulletCount`; nothing else differs. -/
def SeamlessCeiling.withStreams {B : Type} (p : SeamlessCeiling B) (added : List B) :
    SeamlessCeiling B :=
  { p with
    bullets := p.bullets ++ added
    currentBulletCount := p.currentBulletCount + (added.length : Int) }

/-- A `SeamlessCeiling` with stream count 2 at frame 960, after all three phase ends, with
three stream bullets pending in the running counter. -/
def lateCeiling : SeamlessCeiling PointBullet :=
  let p : SeamlessCeiling PointBullet := SeamlessCeiling.new ⟨360, 100⟩ 2 1 5
  { p with
    frameCounter := 960
    bullets := [PointBullet.at 360 100, PointBullet.at 361 100, PointBullet.at 362 100]
    currentBulletCount := 3 }

/-- The four shot sources that the constructor of `FlyingSaucer` places around the source
position, in the order of the vector `shotSources`. -/
def FlyingSaucer.sourcesAround (sourcePos : Vector2f) : List Vector2f :=
  [⟨sourcePos.x - 180, sourcePos.y + 50⟩, ⟨sourcePos.x + 180, sourcePos.y + 50⟩,
    ⟨sourcePos.x + 100, sourcePos.y - 150⟩, ⟨sourcePos.x - 100, sourcePos.y - 150⟩]

/-- A `FlyingSaucer` with stream count 2 at frame 60 whose flag `alternate` is set: the state
of the second burst. -/
def secondBurstSaucer : FlyingSaucer PointBullet :=
  let p : FlyingSaucer PointBullet := FlyingSaucer.new ⟨360, 300⟩ 2 1 5
  { p with frameCounter := 60, alternate := true }

/-- The three ways in which a call of `FlyingSaucer::getTargetRadius` ends: it reads a cached
entry, it appends the next entry, or it takes the branch that prints "Target Radius may be
bugged" and returns 0. -/
inductive RadiusBranch where
  | cached
  | appended
  | gap
deriving DecidableEq

/-- The branch that `getTargetRadius(frame)` takes in the state `p`: the two tests of
`getTargetRadius`, in its order. -/
def FlyingSaucer.radiusBranch {B : Type} (p : FlyingSaucer B) (frame : Int) : RadiusBranch :=
  if 0 ≤ frame ∧ frame < (p.targetRadii.length : Int) then
    RadiusBranch.cached
  else if (p.targetRadii.length : Int) ≠ frame then
    RadiusBranch.gap
  else
    RadiusBranch.appended

/-- The body of the outer loop of `FlyingSaucer::processMovement()` for one wave, as
`moveWave`, together with the record of the branches that its calls of `getTargetRadius` have
taken so far. -/
def FlyingSaucer.moveWaveLogged {B : Type} (api : BulletApi B) (k : Consts) (wave : Int)
    (s : FlyingSaucer B × List RadiusBranch) : FlyingSaucer B × List RadiusBranch :=
  (FlyingSaucer.moveWave api k wave s.1,
    s.2 ++ [FlyingSaucer.radiusBranch s.1 ((s.1.waveFrameCount[wave.toNat]?).getD 0)])

/-- The member `FlyingSaucer::processMovement()`, as `processMovement`, together with the
record of the branches that its calls of `getTargetRadius` take, in call order. -/
def FlyingSaucer.processMovementLogged {B : Type} (api : BulletApi B) (k : Consts)
    (p : FlyingSaucer B) : FlyingSaucer B × List RadiusBranch :=
  let p := { p with toWavePattern := p.toWavePattern.incrementWaveFrames }
  forLoop p.waveBulletCount.length (FlyingSaucer.moveWaveLogged api k) (p, [])

/-- The state of a `FlyingSaucer` in which an update cycle calls `processMovement()`: after
`deleteOutOfBoundsBullets()`, `spawnBullets()` and `incrementFrame()`. -/
def FlyingSaucer.beforeMove {B : Type} (api : BulletApi B) (k : Consts) (p : FlyingSaucer B)
    (g : Rng) : FlyingSaucer B :=
  let c : FlyingSaucer B :=
    { p with toWavePattern := p.toWavePattern.deleteOutOfBoundsBullets api }
  let r := FlyingSaucer.spawnBullets api k c g
  { r.1 with toPattern := r.1.toPattern.incrementFrame }

/-- The state of an active `FlyingSaucer` between update cycles in which every wave age is
cached: both wave vectors have one entry per wave, the wave ages do not increase along the
vector, the cache of target radii is not empty, and every wave age is a valid index of the
cache. -/
def FlyingSaucer.AgesCached {B : Type} (p : FlyingSaucer B) : Prop :=
  p.active = true ∧ p.waveBulletCount.length = p.waveFrameCount.length ∧
    p.waveFrameCount.Pairwise (fun a b => b ≤ a) ∧ 1 ≤ p.targetRadii.length ∧
    ∀ a ∈ p.waveFrameCount, 0 ≤ a ∧ a < (p.targetRadii.length : Int)

/-! ## Theorems -/

section BasePattern

variable {B : Type}

/-- The culling loop of the base class, started behind an already scanned prefix `P` with a
budget that covers the rest `R`, stops at the end of the vector with `R` filtered. -/
theorem Pattern.deleteOutOfBoundsLoop_append (api : BulletApi B) (sb : FloatRect) (R : List B) :
    ∀ (P : List B) (fuel : Nat), R.length ≤ fuel →
      Pattern.deleteOutOfBoundsLoop api sb fuel P.length (P ++ R)
        = ((P ++ R.filter (fun b => sb.contains (api.getPosition b))).length,
            P ++ R.filter (fun b => sb.contains (api.getPosition b))) := by
  induction R with
  | nil =>
    intro P fuel _
    cases fuel <;> simp [Pattern.deleteOutOfBoundsLoop]
  | cons r R ih =>
    intro P fuel h
    obtain ⟨f, rfl⟩ : ∃ f, fuel = f + 1 := ⟨fuel - 1, by simp at h; omega⟩
    have hget : (P ++ r :: R)[P.length]? = some r := by
      rw [List.getElem?_append_right (le_refl _)]
      simp
    have hR : R.length ≤ f := by simpa using h
    by_cases hc : sb.contains (api.getPosition r) = true
    · have h1 := ih (P ++ [r]) f hR
      simp only [List.length_append, List.length_singleton, List.append_assoc,
        List.singleton_append] at h1
      simp only [Pattern.deleteOutOfBoundsLoop, hget, hc, h1]
      simp [List.filter_cons, hc]
    · have h1 := ih P f hR
      have he : (P ++ r :: R).eraseIdx P.length = P ++ R := by
        rw [List.eraseIdx_append_of_length_le (le_refl _)]
        simp
      simp only [Pattern.deleteOutOfBoundsLoop, hget, hc, he, h1]
      simp [hc]

/-- C2. `Pattern::deleteOutOfBoundsBullets()` leaves exactly the bullets whose position the
active region contains, in their original order, whatever the vector and the region are; the
loop stops by its own exit test (its index has reached the end of the vector). -/
theorem Pattern.deleteOutOfBoundsBullets_filter (api : BulletApi B) (p : Pattern B) :
    (p.deleteOutOfBoundsBullets api).bullets
        = p.bullets.filter (fun b => p.screenBounds.contains (api.getPosition b)) ∧
      (Pattern.deleteOutOfBoundsLoop api p.screenBounds p.bullets.length 0 p.bullets).1
        = (p.deleteOutOfBoundsBullets api).bullets.length ∧
      (p.deleteOutOfBoundsBullets api).screenBounds = p.screenBounds ∧
      (p.deleteOutOfBoundsBullets api).frameCounter = p.frameCounter := by
  have h := Pattern.deleteOutOfBoundsLoop_append api p.screenBounds p.bullets [] p.bullets.length
    (le_refl _)
  simp only [List.length_nil, List.nil_append] at h
  simp [Pattern.deleteOutOfBoundsBullets, h]

/-- Once the one-shot latch is set, a pattern of shot frequency 0 answers `false` to every
`canShoot()` call. -/
theorem Pattern.canShootCalls_latched (frames : List Int) :
    ∀ p : Pattern B, p.shotFrequency = 0 → p.shootOnlyOnce = true →
      p.canShootCalls frames = List.replicate frames.length false := by
  induction frames with
  | nil => intro p _ _; rfl
  | cons frame rest ih =>
    intro p hf hl
    have h := ih { p with frameCounter := frame } hf hl
    rcases p with ⟨sb, bs, fc, ac, sc, sp, src, sf, so⟩
    simp only at hf hl
    subst hf hl
    simp [Pattern.canShootCalls, Pattern.canShoot, h, List.replicate_succ]

/-- C9. On a freshly constructed pattern of shot frequency 0, in every sequence of `canShoot()`
calls, whatever the frame counter is at each call, the first call answers `true` and every later
call answers `false`. -/
theorem Pattern.canShootCalls_frequency_zero (sourcePos : Vector2f) (streamCount : Int)
    (baseSpeed : ℚ) (frame : Int) (frames : List Int) :
    (Pattern.new sourcePos streamCount 0 baseSpeed : Pattern B).canShootCalls (frame :: frames)
      = true :: List.replicate frames.length false := by
  have h := Pattern.canShootCalls_latched frames
    { (Pattern.new sourcePos streamCount 0 baseSpeed : Pattern B) with
      frameCounter := frame, shootOnlyOnce := true } rfl rfl
  simpa [Pattern.canShootCalls, Pattern.canShoot, Pattern.new, Pattern.expandBounds] using h

/-- With the latch set and shot frequency 0, no `canShoot()` call of any later event answers
`true`, whatever resets happen in between. -/
theorem Pattern.lifetime_latched (api : BulletApi B) (events : List LifeEvent) :
    ∀ (p : Pattern B) (current : List Bool), p.shotFrequency = 0 → p.shootOnlyOnce = true →
      ∃ n, (Pattern.lifetime api p events current).flatten = current ++ List.replicate n false := by
  induction events with
  | nil => intro p current _ _; exact ⟨0, by simp [Pattern.lifetime]⟩
  | cons e rest ih =>
    intro p current hf hl
    cases e with
    | shoot frame =>
      obtain ⟨n, hn⟩ := ih { p with frameCounter := frame } (current ++ [false]) hf hl
      refine ⟨n + 1, ?_⟩
      rcases p with ⟨sb, bs, fc, ac, sc, sp, src, sf, so⟩
      simp only at hf hl
      subst hf hl
      simp [Pattern.lifetime, Pattern.canShoot, hn, List.replicate_succ]
    | reset =>
      obtain ⟨n, hn⟩ := ih (p.resetPattern api) [] hf hl
      refine ⟨n, ?_⟩
      simp [Pattern.lifetime, hn]

/-- With the latch still clear and shot frequency 0, the first `canShoot()` call of the events
answers `true` and all later ones answer `false`, whatever resets happen in between. -/
theorem Pattern.lifetime_unlatched (api : BulletApi B) (events : List LifeEvent) :
    ∀ (p : Pattern B) (current : List Bool), p.shotFrequency = 0 → p.shootOnlyOnce = false →
      (Pattern.lifetime api p events current).flatten = current ∨
      ∃ n, (Pattern.lifetime api p events current).flatten
        = current ++ true :: List.replicate n false := by
  induction events with
  | nil => intro p current _ _; exact Or.inl (by simp [Pattern.lifetime])
  | cons e rest ih =>
    intro p current hf hl
    cases e with
    | shoot frame =>
      obtain ⟨n, hn⟩ := Pattern.lifetime_latched api rest
        { p with frameCounter := frame, shootOnlyOnce := true } (current ++ [true]) hf rfl
      refine Or.inr ⟨n, ?_⟩
      rcases p with ⟨sb, bs, fc, ac, sc, sp, src, sf, so⟩
      simp only at hf hl
      subst hf hl
      simp [Pattern.lifetime, Pattern.canShoot, hn]
    | reset =>
      rcases ih (p.resetPattern api) [] hf hl with h | ⟨n, hn⟩
      · exact Or.inl (by simp [Pattern.lifetime, h])
      · exact Or.inr ⟨n, by simp [Pattern.lifetime, hn]⟩

/-- C10, as the code behaves: the latch of a pattern of shot frequency 0 is never cleared by
`resetPattern()`. Over any sequence of `canShoot()` and `resetPattern()` calls on a freshly
constructed pattern, the answers taken together are one `true` (the very first call) followed
by `false` only. -/
theorem Pattern.lifetime_frequency_zero (api : BulletApi B) (sourcePos : Vector2f)
    (streamCount : Int) (baseSpeed : ℚ) (events : List LifeEvent) :
    (Pattern.lifetime api (Pattern.new sourcePos streamCount 0 baseSpeed) events []).flatten = [] ∨
    ∃ n, (Pattern.lifetime api (Pattern.new sourcePos streamCount 0 baseSpeed) events []).flatten
      = true :: List.replicate n false := by
  simpa using Pattern.lifetime_unlatched api events
    (Pattern.new sourcePos streamCount 0 baseSpeed) [] rfl rfl

/-- C10 fails as stated: after `canShoot()`, `resetPattern()`, `canShoot()` on a fresh pattern
of shot frequency 0, the interval after the reset contains a call but no call answering
`true`. -/
theorem Pattern.lifetime_reset_does_not_rearm :
    ¬ (∀ interval ∈ Pattern.lifetime pointApi (Pattern.new ⟨100, 100⟩ 3 0 5)
          [LifeEvent.shoot 0, LifeEvent.reset, LifeEvent.shoot 0] [],
        interval ≠ [] → interval.count true = 1) := by
  decide!

end BasePattern

section Waves

variable {B : Type}

/-- C8. `addWave`: without an explicit count and with an empty running counter nothing
changes; without an explicit count and a running counter `c` that is not zero a wave of size `c`
and age 0 is appended and the counter is reset; with an explicit count `n` a wave of size `n`
and age 0 is appended and the counter is kept. The waves that exist keep their sizes and ages,
and vectors of equal length stay of equal length. -/
theorem WavePattern.addWave_spec (w : WavePattern B) (n : Int) :
    (n = 0 → w.currentBulletCount = 0 → w.addWave n = w) ∧
    (n = 0 → w.currentBulletCount ≠ 0 →
      (w.addWave n).waveBulletCount = w.waveBulletCount ++ [w.currentBulletCount] ∧
      (w.addWave n).waveFrameCount = w.waveFrameCount ++ [0] ∧
      (w.addWave n).currentBulletCount = 0) ∧
    (n ≠ 0 →
      (w.addWave n).waveBulletCount = w.waveBulletCount ++ [n] ∧
      (w.addWave n).waveFrameCount = w.waveFrameCount ++ [0] ∧
      (w.addWave n).currentBulletCount = w.currentBulletCount) ∧
    (w.addWave n).toPattern = w.toPattern ∧
    w.waveBulletCount <+: (w.addWave n).waveBulletCount ∧
    w.waveFrameCount <+: (w.addWave n).waveFrameCount ∧
    (w.waveBulletCount.length = w.waveFrameCount.length →
      (w.addWave n).waveBulletCount.length = (w.addWave n).waveFrameCount.length) := by
  unfold WavePattern.addWave
  by_cases hn : n = 0
  · by_cases hc : w.currentBulletCount = 0
    · simp [hn, hc]
    · simp [hn, hc]
  · simp [hn]

/-- The three cases of C8 on a concrete wave pattern. -/
theorem WavePattern.addWave_spec_witness :
    (sampleWaves.addWave 0 = sampleWaves) ∧
    (({ sampleWaves with currentBulletCount := 4 }.addWave 0).waveBulletCount = [2, 1, 3, 4]) ∧
    ((sampleWaves.addWave 7).waveBulletCount = [2, 1, 3, 7] ∧
      (sampleWaves.addWave 7).waveFrameCount = [30, 20, 10, 0] ∧
      (sampleWaves.addWave 7).currentBulletCount = 0) :=
  ⟨(WavePattern.addWave_spec sampleWaves 0).1 rfl rfl,
    ((WavePattern.addWave_spec { sampleWaves with currentBulletCount := 4 } 0).2.1 rfl
      (by decide)).1,
    (WavePattern.addWave_spec sampleWaves 7).2.2.1 (by decide)⟩

/-- One more summand of a prefix sum; past the end of the list the summand is 0. -/
theorem sum_take_succ_getD (l : List Int) :
    ∀ n : Nat, (l.take (n + 1)).sum = (l.take n).sum + (l[n]?).getD 0 := by
  induction l with
  | nil => intro n; simp
  | cons a l ih =>
    intro n
    cases n with
    | zero => simp
    | succ n =>
      have h := ih n
      simp only [List.take_succ_cons, List.sum_cons, List.getElem?_cons_succ] at h ⊢
      omega

/-- The loop of `getStartIndex` computes the sum of the first `n` wave sizes. -/
theorem WavePattern.startIndexOf_eq_sum_take (l : List Int) (n : Nat) :
    WavePattern.startIndexOf l (n : Int) = (l.take n).sum := by
  unfold WavePattern.startIndexOf forLoop
  simp only [Int.toNat_ofNat]
  induction n with
  | zero => simp
  | succ n ih =>
    rw [List.range_succ, List.foldl_append, ih, sum_take_succ_getD]
    simp

/-- Prefix sums of non-negative sizes grow with the prefix. -/
theorem sum_take_mono (l : List Int) (hl : ∀ c ∈ l, 0 ≤ c) :
    ∀ a b : Nat, a ≤ b → (l.take a).sum ≤ (l.take b).sum := by
  induction l with
  | nil => intro a b _; simp
  | cons c l ih =>
    intro a b hab
    have hc : 0 ≤ c := hl c (List.mem_cons_self _ _)
    have hl2 : ∀ c ∈ l, 0 ≤ c := fun x hx => hl x (List.mem_cons_of_mem _ hx)
    have hnn : ∀ b : Nat, 0 ≤ (l.take b).sum := fun b =>
      List.sum_nonneg (fun x hx => hl2 x (List.mem_of_mem_take hx))
    cases a with
    | zero =>
      cases b with
      | zero => simp
      | succ b =>
        have := hnn b
        simp only [List.take_zero, List.sum_nil, List.take_succ_cons, List.sum_cons]
        omega
    | succ a =>
      cases b with
      | zero => omega
      | succ b =>
        have := ih hl2 a b (by omega)
        simp only [List.take_succ_cons, List.sum_cons]
        omega

/-- Every index below the sum of positive wave sizes lies in the slice of some wave. -/
theorem exists_wave_of_lt_sum (l : List Int) (hl : ∀ c ∈ l, 1 ≤ c) :
    ∀ k : Int, 0 ≤ k → k < l.sum →
      ∃ j : Nat, j < l.length ∧ (l.take j).sum ≤ k ∧ k < (l.take (j + 1)).sum := by
  induction l with
  | nil => intro k h0 h1; simp at h1; omega
  | cons c l ih =>
    intro k h0 h1
    have hl2 : ∀ c ∈ l, 1 ≤ c := fun x hx => hl x (List.mem_cons_of_mem _ hx)
    by_cases hk : k < c
    · exact ⟨0, by simp, by simpa using h0, by simpa using hk⟩
    · obtain ⟨j, hj, h2, h3⟩ := ih hl2 (k - c) (by omega) (by simp at h1; omega)
      refine ⟨j + 1, by simpa using hj, ?_, ?_⟩
      · simp only [List.take_succ_cons, List.sum_cons]; omega
      · simp only [List.take_succ_cons, List.sum_cons] at h3 ⊢; omega

/-- C7. For a valid wave index `i`, `getStartIndex(i)` is the sum of the sizes of the waves
before `i` and `getEndIndex(i)` is `getStartIndex(i) + size_i - 1`; so `getStartIndex(0) = 0` and
`getStartIndex(i+1) = getEndIndex(i) + 1`. Under the wave invariant each slice is a non-empty
range of valid bullet indices, the last slice ends at the last bullet, and every bullet index
lies in the slice of exactly one wave. -/
theorem WavePattern.getStartIndex_getEndIndex_spec (w : WavePattern B) (i : Nat)
    (hi : i < w.waveBulletCount.length) :
    w.getStartIndex i = (w.waveBulletCount.take i).sum ∧
    w.getEndIndex i = w.getStartIndex i + w.waveBulletCount[i] - 1 ∧
    w.getStartIndex 0 = 0 ∧
    w.getStartIndex ((i : Int) + 1) = w.getEndIndex i + 1 ∧
    (w.WaveInvariant →
      0 ≤ w.getStartIndex i ∧ w.getStartIndex i ≤ w.getEndIndex i ∧
      w.getEndIndex i < (w.bullets.length : Int) ∧
      (i + 1 = w.waveBulletCount.length → w.getEndIndex i = (w.bullets.length : Int) - 1) ∧
      ∀ k : Int, 0 ≤ k → k < (w.bullets.length : Int) →
        ∃! j : Nat, j < w.waveBulletCount.length ∧
          w.getStartIndex j ≤ k ∧ k ≤ w.getEndIndex j) := by
  have hstart : ∀ n : Nat, w.getStartIndex (n : Int) = (w.waveBulletCount.take n).sum :=
    fun n => WavePattern.startIndexOf_eq_sum_take w.waveBulletCount n
  have hend : ∀ n : Nat, w.getEndIndex (n : Int)
      = (w.waveBulletCount.take (n + 1)).sum - 1 := by
    intro n
    unfold WavePattern.getEndIndex
    rw [hstart, sum_take_succ_getD]
    simp
  have hsucc : w.getStartIndex ((i : Int) + 1) = (w.waveBulletCount.take (i + 1)).sum := by
    have := hstart (i + 1)
    simpa using this
  have hgetD : (w.waveBulletCount[i]?).getD 0 = w.waveBulletCount[i] := by
    simp [List.getElem?_eq_getElem hi]
  refine ⟨hstart i, ?_, ?_, ?_, ?_⟩
  · rw [hend, hstart, sum_take_succ_getD, hgetD]
  · simpa using hstart 0
  · rw [hsucc, hend]; omega
  · rintro ⟨_, hpos, hsum⟩
    have hnn : ∀ c ∈ w.waveBulletCount, 0 ≤ c := fun c hc => by
      have := hpos c hc
      omega
    have hmem : 1 ≤ w.waveBulletCount[i] := hpos _ (List.getElem_mem hi)
    have htop : (w.waveBulletCount.take (i + 1)).sum ≤ (w.bullets.length : Int) := by
      rw [← hsum]
      have := sum_take_mono w.waveBulletCount hnn (i + 1) w.waveBulletCount.length (by omega)
      simpa using this
    have hbot : 0 ≤ (w.waveBulletCount.take i).sum := by
      have := sum_take_mono w.waveBulletCount hnn 0 i (by omega)
      simpa using this
    have hstep : (w.waveBulletCount.take (i + 1)).sum
        = (w.waveBulletCount.take i).sum + w.waveBulletCount[i] := by
      rw [sum_take_succ_getD, hgetD]
    refine ⟨by rw [hstart]; exact hbot, by rw [hstart, hend]; omega, by rw [hend]; omega, ?_, ?_⟩
    · intro hlast
      rw [hend, hlast, List.take_length, hsum]
    · intro k hk0 hk1
      obtain ⟨j, hj, h2, h3⟩ := exists_wave_of_lt_sum w.waveBulletCount hpos k hk0
        (by rw [hsum]; exact hk1)
      refine ⟨j, ⟨hj, by rw [hstart]; exact h2, by rw [hend]; omega⟩, ?_⟩
      rintro j' ⟨_, h4, h5⟩
      rw [hstart] at h4
      rw [hend] at h5
      rcases Nat.lt_trichotomy j' j with hlt | heq | hgt
      · have := sum_take_mono w.waveBulletCount hnn (j' + 1) j (by omega)
        omega
      · exact heq
      · have := sum_take_mono w.waveBulletCount hnn (j + 1) j' (by omega)
        omega

/-- C7 on a wave pattern with waves of sizes 2, 1 and 3: the last wave occupies the bullet
indices 3 to 5. -/
theorem WavePattern.getStartIndex_getEndIndex_spec_witness :
    sampleWaves.getStartIndex 2 = 3 ∧ sampleWaves.getEndIndex 2 = 5 ∧
      sampleWaves.getEndIndex 2 = (sampleWaves.bullets.length : Int) - 1 :=
  have h := WavePattern.getStartIndex_getEndIndex_spec sampleWaves 2 (by decide)
  have hinv : sampleWaves.WaveInvariant := by
    unfold WavePattern.WaveInvariant
    decide
  ⟨h.1, h.2.1, (h.2.2.2.2 hinv).2.2.2.1 rfl⟩

end Waves

section WaveCulling

variable {B : Type}

/-- The search of the inner culling loop finds the wave whose slice holds index `i`: when the
sizes before the searched part add up to at most `i` and the searched part reaches beyond `i`,
the search returns the first wave `k` whose prefix sum exceeds `i`. -/
theorem WavePattern.findWave_spec (i : Int) (l : List Int) :
    ∀ (j : Nat) (cum : Int), cum ≤ i → i < cum + l.sum →
      ∃ k, k < l.length ∧ WavePattern.findWave i j cum l = some (j + k) ∧
        cum + (l.take k).sum ≤ i ∧ i < cum + (l.take (k + 1)).sum := by
  induction l with
  | nil => intro j cum h1 h2; simp at h2; omega
  | cons c l ih =>
    intro j cum h1 h2
    by_cases hc : i < c + cum
    · refine ⟨0, by simp, by simp [WavePattern.findWave, hc], by simpa using h1, ?_⟩
      simp only [List.take_succ_cons, List.take_zero, List.sum_cons, List.sum_nil]
      omega
    · obtain ⟨k, hk, hf, h3, h4⟩ := ih (j + 1) (cum + c)
        (by omega) (by simp only [List.sum_cons] at h2; omega)
      refine ⟨k + 1, by simpa using hk, ?_, ?_, ?_⟩
      · simp only [WavePattern.findWave, hc, if_false, hf]
        congr 1
        omega
      · simp only [List.take_succ_cons, List.sum_cons]; omega
      · simp only [List.take_succ_cons, List.sum_cons] at h4 ⊢; omega

/-- Erasing an element lowers the sum by that element. -/
theorem sum_eraseIdx_of_getElem? (l : List Int) :
    ∀ (k : Nat) (c : Int), l[k]? = some c → (l.eraseIdx k).sum = l.sum - c := by
  induction l with
  | nil => intro k c h; simp at h
  | cons a l ih =>
    intro k c h
    cases k with
    | zero =>
      simp only [List.getElem?_cons_zero, Option.some.injEq] at h
      simp [h]
    | succ k =>
      simp only [List.getElem?_cons_succ] at h
      simp only [List.eraseIdx_cons_succ, List.sum_cons, ih k c h]
      omega

/-- Rewriting an element changes the sum by the difference. -/
theorem sum_modify_of_getElem? (f : Int → Int) (l : List Int) :
    ∀ (k : Nat) (c : Int), l[k]? = some c → (l.modify f k).sum = l.sum - c + f c := by
  induction l with
  | nil => intro k c h; simp at h
  | cons a l ih =>
    intro k c h
    cases k with
    | zero =>
      simp only [List.getElem?_cons_zero, Option.some.injEq] at h
      simp only [List.modify_zero_cons, List.sum_cons, h]
      omega
    | succ k =>
      simp only [List.getElem?_cons_succ] at h
      simp only [List.modify_succ_cons, List.sum_cons, ih k c h]
      omega

/-- Erasing the element that was just rewritten is erasing the original element. -/
theorem eraseIdx_modify_same {α : Type} (f : α → α) (l : List α) :
    ∀ k : Nat, (l.modify f k).eraseIdx k = l.eraseIdx k := by
  induction l with
  | nil => intro k; simp
  | cons a l ih =>
    intro k
    cases k with
    | zero => simp
    | succ k => simp [ih k]

/-- What the inner culling loop does for an erased index below the sum of the wave sizes: it
hits the wave `k` whose slice holds the index; that wave has a positive size `c`; a wave of
size 1 is erased from both vectors, a larger one is made one smaller. -/
theorem WavePattern.decrementWave_eq (i : Nat) (wbc wfc : List Int)
    (hi : (i : Int) < wbc.sum) :
    ∃ (k : Nat) (c : Int), wbc[k]? = some c ∧ 1 ≤ c ∧
      (wbc.take k).sum ≤ (i : Int) ∧ (i : Int) < (wbc.take k).sum + c ∧
      WavePattern.decrementWave i wbc wfc
        = if c = 1 then (wbc.eraseIdx k, wfc.eraseIdx k)
          else (wbc.modify (fun count => count - 1) k, wfc) := by
  obtain ⟨k, hk, hf, h1, h2⟩ := WavePattern.findWave_spec (i : Int) wbc 0 0
    (by omega) (by simpa using hi)
  have hget : wbc[k]? = some wbc[k] := List.getElem?_eq_getElem hk
  have hstep := sum_take_succ_getD wbc k
  rw [hget] at hstep
  simp only [Option.getD_some] at hstep
  have hc : 1 ≤ wbc[k] := by omega
  refine ⟨k, wbc[k], hget, hc, by omega, by omega, ?_⟩
  simp only [WavePattern.decrementWave, hf, Nat.zero_add, WavePattern.decrementWaveAt,
    List.getElem?_modify, hget, eraseIdx_modify_same]
  by_cases h1c : wbc[k] = 1
  · simp [h1c]
  · have : ¬ (wbc[k] - 1 ≤ 0) := by omega
    simp [h1c, this]

/-- The inner culling loop lowers the sum of the wave sizes by exactly one when the erased
index lies below that sum. -/
theorem WavePattern.decrementWave_sum (i : Nat) (wbc wfc : List Int)
    (hi : (i : Int) < wbc.sum) :
    (WavePattern.decrementWave i wbc wfc).1.sum = wbc.sum - 1 := by
  obtain ⟨k, c, hget, _, _, _, heq⟩ := WavePattern.decrementWave_eq i wbc wfc hi
  rw [heq]
  by_cases h1c : c = 1
  · simp only [h1c, if_true, sum_eraseIdx_of_getElem? wbc k c hget]
  · simp only [h1c, if_false, sum_modify_of_getElem? _ wbc k c hget]
    omega

/-- The inner culling loop keeps the wave vectors of equal length and every wave non-empty. -/
theorem WavePattern.decrementWave_valid (i : Nat) (wbc wfc : List Int)
    (hi : (i : Int) < wbc.sum) (hlen : wbc.length = wfc.length) (hpos : ∀ c ∈ wbc, 1 ≤ c) :
    (WavePattern.decrementWave i wbc wfc).1.length
        = (WavePattern.decrementWave i wbc wfc).2.length ∧
      ∀ c ∈ (WavePattern.decrementWave i wbc wfc).1, 1 ≤ c := by
  obtain ⟨k, c, hget, _, _, _, heq⟩ := WavePattern.decrementWave_eq i wbc wfc hi
  rw [heq]
  by_cases h1c : c = 1
  · simp only [h1c, if_true, List.length_eraseIdx, hlen]
    exact ⟨trivial, fun x hx => hpos x (List.mem_of_mem_eraseIdx hx)⟩
  · simp only [h1c, if_false, List.length_modify, hlen]
    refine ⟨trivial, fun x hx => ?_⟩
    obtain ⟨n, hn⟩ := List.getElem?_of_mem hx
    rw [List.getElem?_modify] at hn
    cases hln : wbc[n]? with
    | none => simp [hln] at hn
    | some y =>
      have hy : 1 ≤ y := hpos y (List.mem_iff_getElem?.mpr ⟨n, hln⟩)
      simp only [hln, Option.map_eq_map, Option.map_some', Option.some.injEq] at hn
      by_cases hkn : k = n
      · subst hkn
        have hcy : c = y := by
          rw [hget] at hln
          exact Option.some.inj hln
        simp only [if_true] at hn
        omega
      · simp only [hkn, if_false] at hn
        omega

/-- The culling loop of `WavePattern` treats the bullet vector and the loop index exactly as
the loop of the base class does. -/
theorem WavePattern.deleteOutOfBoundsLoop_bullets (api : BulletApi B) (sb : FloatRect) :
    ∀ (fuel : Nat) (s : WavePattern.CullState B),
      ((WavePattern.deleteOutOfBoundsLoop api sb fuel s).i,
        (WavePattern.deleteOutOfBoundsLoop api sb fuel s).bullets)
        = Pattern.deleteOutOfBoundsLoop api sb fuel s.i s.bullets := by
  intro fuel
  induction fuel with
  | zero => intro s; rfl
  | succ fuel ih =>
    intro s
    simp only [WavePattern.deleteOutOfBoundsLoop, Pattern.deleteOutOfBoundsLoop]
    cases hb : s.bullets[s.i]? with
    | none => rfl
    | some b =>
      by_cases hc : sb.contains (api.getPosition b) = true
      · simp only [hc, Bool.not_true, Bool.false_eq_true, if_false]
        exact ih _
      · simp only [Bool.not_eq_true] at hc
        simp only [hc, Bool.not_false, if_true]
        exact ih _

/-- Loop invariant rule for the culling loop of `WavePattern`: a property of the loop state
that survives an iteration that keeps the bullet and an iteration that erases it holds when the
loop stops. -/
theorem WavePattern.deleteOutOfBoundsLoop_induct (api : BulletApi B) (sb : FloatRect)
    (Inv : WavePattern.CullState B → Prop)
    (hkeep : ∀ (s : WavePattern.CullState B) (b : B), Inv s → s.bullets[s.i]? = some b →
      sb.contains (api.getPosition b) = true → Inv { s with i := s.i + 1 })
    (herase : ∀ (s : WavePattern.CullState B) (b : B), Inv s → s.bullets[s.i]? = some b →
      sb.contains (api.getPosition b) = false →
      Inv { i := s.i
            bullets := s.bullets.eraseIdx s.i
            waveBulletCount :=
              (WavePattern.decrementWave s.i s.waveBulletCount s.waveFrameCount).1
            waveFrameCount :=
              (WavePattern.decrementWave s.i s.waveBulletCount s.waveFrameCount).2 }) :
    ∀ (fuel : Nat) (s : WavePattern.CullState B), Inv s →
      Inv (WavePattern.deleteOutOfBoundsLoop api sb fuel s) := by
  intro fuel
  induction fuel with
  | zero => intro s hs; exact hs
  | succ fuel ih =>
    intro s hs
    simp only [WavePattern.deleteOutOfBoundsLoop]
    cases hb : s.bullets[s.i]? with
    | none => exact hs
    | some b =>
      by_cases hc : sb.contains (api.getPosition b) = true
      · simp only [hc, Bool.not_true, Bool.false_eq_true, if_false]
        exact ih _ (hkeep s b hs hb hc)
      · simp only [Bool.not_eq_true] at hc
        simp only [hc, Bool.not_false, if_true]
        exact ih _ (herase s b hs hb hc)

/-- The culling loop of `WavePattern` stops by its own exit test, with the in-bounds bullets
left: the budget of one iteration per bullet is enough. -/
theorem WavePattern.cullResult_exit (api : BulletApi B) (w : WavePattern B) :
    (WavePattern.cullResult api w).i = (WavePattern.cullResult api w).bullets.length ∧
      (WavePattern.cullResult api w).bullets
        = w.bullets.filter (fun b => w.screenBounds.contains (api.getPosition b)) := by
  have hb := WavePattern.deleteOutOfBoundsLoop_bullets api w.screenBounds w.bullets.length
    { i := 0, bullets := w.bullets, waveBulletCount := w.waveBulletCount,
      waveFrameCount := w.waveFrameCount }
  have hp := Pattern.deleteOutOfBoundsLoop_append api w.screenBounds w.bullets []
    w.bullets.length (le_refl _)
  simp only [List.length_nil, List.nil_append] at hp
  rw [hp] at hb
  have h2 : (WavePattern.cullResult api w).bullets
      = w.bullets.filter (fun b => w.screenBounds.contains (api.getPosition b)) :=
    (Prod.mk.inj hb).2
  exact ⟨by rw [h2]; exact (Prod.mk.inj hb).1, h2⟩

/-- The wave invariant holds in the loop state in which the culling loop stops. -/
theorem WavePattern.cullResult_valid (api : BulletApi B) (w : WavePattern B)
    (h : w.WaveInvariant) :
    (WavePattern.cullResult api w).waveBulletCount.length
        = (WavePattern.cullResult api w).waveFrameCount.length ∧
      (∀ c ∈ (WavePattern.cullResult api w).waveBulletCount, 1 ≤ c) ∧
      (WavePattern.cullResult api w).waveBulletCount.sum
        = ((WavePattern.cullResult api w).bullets.length : Int) := by
  exact WavePattern.deleteOutOfBoundsLoop_induct api w.screenBounds
    (fun s => s.waveBulletCount.length = s.waveFrameCount.length ∧
      (∀ c ∈ s.waveBulletCount, 1 ≤ c) ∧ s.waveBulletCount.sum = (s.bullets.length : Int))
    (fun s b hs _ _ => hs)
    (fun s b hs hb _ => by
      obtain ⟨hlen, hpos, hsum⟩ := hs
      have hi : s.i < s.bullets.length := (List.getElem?_eq_some.mp hb).1
      have hlt : (s.i : Int) < s.waveBulletCount.sum := by omega
      have hv := WavePattern.decrementWave_valid s.i s.waveBulletCount s.waveFrameCount
        hlt hlen hpos
      refine ⟨hv.1, hv.2, ?_⟩
      rw [WavePattern.decrementWave_sum s.i s.waveBulletCount s.waveFrameCount hlt]
      simp only [List.length_eraseIdx, hi, if_true]
      omega)
    w.bullets.length
    { i := 0
      bullets := w.bullets
      waveBulletCount := w.waveBulletCount
      waveFrameCount := w.waveFrameCount } h

/-- C3. `WavePattern::deleteOutOfBoundsBullets()` preserves the wave invariant: when the wave
vectors have equal length, every wave size is at least 1 and the sizes add up to the number of
bullets, the same holds after the call. The loop stops by its own exit test. -/
theorem WavePattern.deleteOutOfBoundsBullets_invariant (api : BulletApi B) (w : WavePattern B)
    (h : w.WaveInvariant) :
    (w.deleteOutOfBoundsBullets api).WaveInvariant ∧
      (WavePattern.cullResult api w).i = (w.deleteOutOfBoundsBullets api).bullets.length :=
  ⟨WavePattern.cullResult_valid api w h, (WavePattern.cullResult_exit api w).1⟩

/-- C3 on a wave pattern with waves of sizes 2, 1 and 3 of which three bullets are out of
bounds: the invariant holds before and after the call. -/
theorem WavePattern.deleteOutOfBoundsBullets_invariant_witness :
    sampleWaves.WaveInvariant ∧ (sampleWaves.deleteOutOfBoundsBullets pointApi).WaveInvariant :=
  have hinv : sampleWaves.WaveInvariant := by
    unfold WavePattern.WaveInvariant
    decide
  ⟨hinv, (WavePattern.deleteOutOfBoundsBullets_invariant pointApi sampleWaves hinv).1⟩

/-- C6, as the code behaves: when the wave sizes and the running counter together account for
every bullet and every bullet that no wave counts (index at or beyond the sum of the wave
sizes) is inside the active region, the equality still holds after
`WavePattern::deleteOutOfBoundsBullets()`, whatever the wave sizes and ages are. The loop stops
by its own exit test. -/
theorem WavePattern.deleteOutOfBoundsBullets_counted (api : BulletApi B) (w : WavePattern B)
    (hsum : w.waveBulletCount.sum + w.currentBulletCount = (w.bullets.length : Int))
    (htail : ∀ (k : Nat) (b : B), w.bullets[k]? = some b → w.waveBulletCount.sum ≤ (k : Int) →
      w.screenBounds.contains (api.getPosition b) = true) :
    (w.deleteOutOfBoundsBullets api).waveBulletCount.sum
        + (w.deleteOutOfBoundsBullets api).currentBulletCount
      = ((w.deleteOutOfBoundsBullets api).bullets.length : Int) ∧
    (WavePattern.cullResult api w).i = (w.deleteOutOfBoundsBullets api).bullets.length := by
  have key := WavePattern.deleteOutOfBoundsLoop_induct api w.screenBounds
    (fun s => s.waveBulletCount.sum + w.currentBulletCount = (s.bullets.length : Int) ∧
      ∀ (k : Nat) (b : B), s.bullets[k]? = some b → s.waveBulletCount.sum ≤ (k : Int) →
        w.screenBounds.contains (api.getPosition b) = true)
    (fun s b hs _ _ => hs)
    (fun s b hs hb hc => by
      obtain ⟨hsum, htail⟩ := hs
      have hi : s.i < s.bullets.length := (List.getElem?_eq_some.mp hb).1
      have hlt : (s.i : Int) < s.waveBulletCount.sum := by
        by_contra hge
        have := htail s.i b hb (by omega)
        rw [hc] at this
        exact Bool.false_ne_true this
      rw [WavePattern.decrementWave_sum s.i s.waveBulletCount s.waveFrameCount hlt]
      refine ⟨?_, ?_⟩
      · simp only [List.length_eraseIdx, hi, if_true]
        omega
      · intro k b' hk hge
        have hik : s.i ≤ k := by omega
        simp only [List.getElem?_eraseIdx_of_ge _ _ _ hik] at hk
        exact htail (k + 1) b' hk (by push_cast; omega))
    w.bullets.length
    { i := 0
      bullets := w.bullets
      waveBulletCount := w.waveBulletCount
      waveFrameCount := w.waveFrameCount } ⟨hsum, htail⟩
  exact ⟨key.1, (WavePattern.cullResult_exit api w).1⟩

/-- C6 as amended, on a wave pattern with one closed wave, of which a bullet is out of bounds,
and one uncounted bullet inside the active region. -/
theorem WavePattern.deleteOutOfBoundsBullets_counted_witness :
    (sampleTailInside.deleteOutOfBoundsBullets pointApi).waveBulletCount.sum
        + (sampleTailInside.deleteOutOfBoundsBullets pointApi).currentBulletCount
      = ((sampleTailInside.deleteOutOfBoundsBullets pointApi).bullets.length : Int) :=
  (WavePattern.deleteOutOfBoundsBullets_counted pointApi sampleTailInside (by decide)
    (by
      intro k b hk hge
      have h2 : (sampleTailInside.waveBulletCount.sum : Int) = 2 := by decide
      match k, hk with
      | 0, _ => omega
      | 1, _ => omega
      | 2, hk =>
        have hb : b = PointBullet.at 200 200 := (Option.some.inj hk).symm
        subst hb
        decide!
      | k + 3, hk => exact absurd hk (by simp [sampleTailInside]))).1

/-- C6 fails as stated: with one closed wave of two bullets and a third bullet counted in the
running counter only, the wave sizes and the counter account for all three bullets before the
call; the third bullet is out of bounds and culled, no wave and no counter is decremented, and
afterwards the bookkeeping counts three bullets where two are left. -/
theorem WavePattern.deleteOutOfBoundsBullets_uncounted_desync :
    (sampleAccumulating.waveBulletCount.sum + sampleAccumulating.currentBulletCount
        = (sampleAccumulating.bullets.length : Int)) ∧
      ¬ ((sampleAccumulating.deleteOutOfBoundsBullets pointApi).waveBulletCount.sum
          + (sampleAccumulating.deleteOutOfBoundsBullets pointApi).currentBulletCount
        = ((sampleAccumulating.deleteOutOfBoundsBullets pointApi).bullets.length : Int)) := by
  decide!

/-- Shifting the running sum and the wave index of the inner search. -/
theorem WavePattern.findWave_shift (i c : Int) (l : List Int) :
    ∀ (j : Nat) (cum : Int),
      WavePattern.findWave i (j + 1) (cum + c) l
        = (WavePattern.findWave (i - c) j cum l).map (fun k => k + 1) := by
  induction l with
  | nil => intro j cum; rfl
  | cons d l ih =>
    intro j cum
    simp only [WavePattern.findWave]
    by_cases h : i < d + (cum + c)
    · have h2 : i - c < d + cum := by omega
      simp [h, h2]
    · have h2 : ¬ (i - c < d + cum) := by omega
      simp only [h, h2, if_false]
      have := ih (j + 1) (cum + d)
      rw [← this]
      congr 1
      omega

/-- The breaking iteration of the inner loop at a wave behind the first one leaves the first
wave alone. -/
theorem WavePattern.decrementWaveAt_succ (k : Nat) (c a : Int) (cs as : List Int) :
    WavePattern.decrementWaveAt (k + 1) (c :: cs) (a :: as)
      = (c :: (WavePattern.decrementWaveAt k cs as).1,
          a :: (WavePattern.decrementWaveAt k cs as).2) := by
  simp only [WavePattern.decrementWaveAt, List.modify_succ_cons, List.getElem?_cons_succ,
    List.eraseIdx_cons_succ]
  split <;> rfl

/-- The inner culling loop, wave by wave: an erased index inside the first wave shrinks or
erases that wave; an index behind it is handled by the remaining waves. -/
theorem WavePattern.decrementWave_cons (i : Nat) (c a : Int) (cs as : List Int) (hc : 1 ≤ c) :
    WavePattern.decrementWave i (c :: cs) (a :: as)
      = if (i : Int) < c then
          (if c = 1 then (cs, as) else ((c - 1) :: cs, a :: as))
        else
          (c :: (WavePattern.decrementWave (i - c.toNat) cs as).1,
            a :: (WavePattern.decrementWave (i - c.toNat) cs as).2) := by
  by_cases h : (i : Int) < c
  · have h0 : (i : Int) < c + 0 := by omega
    simp only [WavePattern.decrementWave, WavePattern.findWave, h0, h, if_true,
      WavePattern.decrementWaveAt, List.modify_zero_cons, List.getElem?_cons_zero,
      Option.getD_some, List.eraseIdx_cons_zero]
    by_cases h1 : c = 1
    · simp [h1]
    · have : ¬ (c - 1 ≤ 0) := by omega
      simp [h1, this]
  · have h0 : ¬ ((i : Int) < c + 0) := by omega
    have hcast : ((i - c.toNat : Nat) : Int) = (i : Int) - c := by omega
    have hs := WavePattern.findWave_shift (i : Int) c cs 0 0
    simp only [Nat.zero_add, Int.zero_add] at hs
    simp only [WavePattern.decrementWave, WavePattern.findWave, h0, h, if_false, Int.zero_add,
      hs, hcast]
    cases hfw : WavePattern.findWave ((i : Int) - c) 0 0 cs with
    | none => rfl
    | some k => simp only [Option.map_some', WavePattern.decrementWaveAt_succ]

/-- Erasing an out-of-bounds bullet and running the inner culling loop for its index leaves
the wave-by-wave culling result as it was. -/
theorem cullWavesFrom_decrementWave (inB : B → Bool) (r : B) (hr : inB r = false) (C : List B)
    (wbc : List Int) :
    ∀ (wfc : List Int) (A : List B), wbc.length = wfc.length → (∀ c ∈ wbc, 1 ≤ c) →
      (A.length : Int) < wbc.sum →
      cullWavesFrom inB (A ++ C) (WavePattern.decrementWave A.length wbc wfc).1
          (WavePattern.decrementWave A.length wbc wfc).2
        = cullWavesFrom inB (A ++ r :: C) wbc wfc := by
  induction wbc with
  | nil => intro wfc A _ _ h; simp at h; omega
  | cons c cs ih =>
    intro wfc A hlen hpos hlt
    cases wfc with
    | nil => simp at hlen
    | cons a as =>
      have hc : 1 ≤ c := hpos c (List.mem_cons_self _ _)
      have hpos2 : ∀ x ∈ cs, 1 ≤ x := fun x hx => hpos x (List.mem_cons_of_mem _ hx)
      have hlen2 : cs.length = as.length := by simpa using hlen
      rw [WavePattern.decrementWave_cons _ _ _ _ _ hc]
      by_cases h : (A.length : Int) < c
      · simp only [h, if_true]
        by_cases h1 : c = 1
        · have hA : A = [] := by
            apply List.eq_nil_of_length_eq_zero
            omega
          subst hA
          subst h1
          simp [cullWavesFrom, hr]
        · obtain ⟨m, hm⟩ : ∃ m : Nat, c.toNat = A.length + (m + 1) :=
            ⟨c.toNat - A.length - 1, by omega⟩
          have hm1 : (c - 1).toNat = A.length + m := by omega
          simp only [h1, if_false, cullWavesFrom, hm, hm1, List.take_append, List.drop_append,
            List.take_succ_cons, List.drop_succ_cons, List.countP_append, List.countP_cons, hr]
          simp
      · simp only [h, if_false]
        have hle : c.toNat ≤ A.length := by omega
        obtain ⟨A1, A2, hA, hA1⟩ : ∃ A1 A2 : List B, A = A1 ++ A2 ∧ A1.length = c.toNat :=
          ⟨A.take c.toNat, A.drop c.toNat, (List.take_append_drop _ _).symm, by
            simp only [List.length_take]; omega⟩
        subst hA
        have hsub : (A1 ++ A2).length - c.toNat = A2.length := by
          simp only [List.length_append]; omega
        have hlt2 : (A2.length : Int) < cs.sum := by
          simp only [List.length_append, List.sum_cons] at hlt
          push_cast at hlt
          omega
        have := ih as A2 hlen2 hpos2 hlt2
        simp only [hsub, cullWavesFrom, List.append_assoc, List.take_left' hA1,
          List.drop_left' hA1, this]

/-- When every bullet is inside the active region the wave-by-wave culling result is the list
of waves itself. -/
theorem cullWavesFrom_all_inside (inB : B → Bool) (wbc : List Int) :
    ∀ (wfc : List Int) (P : List B), wbc.length = wfc.length → (∀ c ∈ wbc, 1 ≤ c) →
      wbc.sum = (P.length : Int) → (∀ b ∈ P, inB b = true) →
      cullWavesFrom inB P wbc wfc = List.zip wbc wfc := by
  induction wbc with
  | nil => intro wfc P _ _ _ _; simp [cullWavesFrom]
  | cons c cs ih =>
    intro wfc P hlen hpos hsum hin
    cases wfc with
    | nil => simp at hlen
    | cons a as =>
      have hc : 1 ≤ c := hpos c (List.mem_cons_self _ _)
      have hpos2 : ∀ x ∈ cs, 1 ≤ x := fun x hx => hpos x (List.mem_cons_of_mem _ hx)
      have hnn : 0 ≤ cs.sum := List.sum_nonneg (fun x hx => by have := hpos2 x hx; omega)
      simp only [List.sum_cons] at hsum
      have hcount : (P.take c.toNat).countP inB = c.toNat := by
        have h1 : (P.take c.toNat).countP inB = (P.take c.toNat).length :=
          List.countP_eq_length.mpr (fun b hb => hin b (List.mem_of_mem_take hb))
        rw [h1, List.length_take]
        omega
      have hrest := ih as (P.drop c.toNat) (by simpa using hlen) hpos2
        (by simp only [List.length_drop]; omega)
        (fun b hb => hin b (List.mem_of_mem_drop hb))
      have hne : c.toNat ≠ 0 := by omega
      have hcc : ((c.toNat : Nat) : Int) = c := by omega
      simp [cullWavesFrom, hcount, hrest, hne, hcc]

/-- The culling loop stops at once when its index is at the end of the vector. -/
theorem WavePattern.deleteOutOfBoundsLoop_done (api : BulletApi B) (sb : FloatRect)
    (fuel : Nat) (s : WavePattern.CullState B) (h : s.bullets[s.i]? = none) :
    WavePattern.deleteOutOfBoundsLoop api sb fuel s = s := by
  cases fuel with
  | zero => rfl
  | succ fuel => simp only [WavePattern.deleteOutOfBoundsLoop, h]

/-- The wave vectors that the culling loop of `WavePattern` leaves, started behind a scanned
in-bounds prefix `P` with a budget that covers the rest `R`: paired up, they are the
wave-by-wave culling result, and they have equal length. -/
theorem WavePattern.deleteOutOfBoundsLoop_waves (api : BulletApi B) (sb : FloatRect)
    (R : List B) :
    ∀ (P : List B) (wbc wfc : List Int) (fuel : Nat), R.length ≤ fuel →
      wbc.length = wfc.length → (∀ c ∈ wbc, 1 ≤ c) →
      wbc.sum = ((P ++ R).length : Int) →
      (∀ b ∈ P, sb.contains (api.getPosition b) = true) →
      List.zip
          (WavePattern.deleteOutOfBoundsLoop api sb fuel
            { i := P.length, bullets := P ++ R, waveBulletCount := wbc,
              waveFrameCount := wfc }).waveBulletCount
          (WavePattern.deleteOutOfBoundsLoop api sb fuel
            { i := P.length, bullets := P ++ R, waveBulletCount := wbc,
              waveFrameCount := wfc }).waveFrameCount
        = cullWavesFrom (fun b => sb.contains (api.getPosition b)) (P ++ R) wbc wfc := by
  induction R with
  | nil =>
    intro P wbc wfc fuel _ hlen hpos hsum hin
    rw [WavePattern.deleteOutOfBoundsLoop_done api sb fuel _ (by simp)]
    simp only [List.append_nil] at hsum ⊢
    exact (cullWavesFrom_all_inside _ wbc wfc P hlen hpos hsum hin).symm
  | cons r R ih =>
    intro P wbc wfc fuel hfuel hlen hpos hsum hin
    obtain ⟨f, rfl⟩ : ∃ f, fuel = f + 1 := ⟨fuel - 1, by simp at hfuel; omega⟩
    have hR : R.length ≤ f := by simpa using hfuel
    have hget : (P ++ r :: R)[P.length]? = some r := by
      rw [List.getElem?_append_right (le_refl _)]
      simp
    simp only [WavePattern.deleteOutOfBoundsLoop, hget]
    by_cases hc : sb.contains (api.getPosition r) = true
    · simp only [hc, Bool.not_true, Bool.false_eq_true, if_false]
      have h1 := ih (P ++ [r]) wbc wfc f hR hlen hpos (by simpa using hsum)
        (fun b hb => by
          rcases List.mem_append.mp hb with h | h
          · exact hin b h
          · simp only [List.mem_singleton] at h
            rw [h]
            exact hc)
      simp only [List.length_append, List.length_singleton, List.append_assoc,
        List.singleton_append] at h1
      exact h1
    · simp only [Bool.not_eq_true] at hc
      simp only [hc, Bool.not_false, if_true]
      have hlt : (P.length : Int) < wbc.sum := by
        rw [hsum]
        simp only [List.length_append, List.length_cons]
        push_cast
        omega
      have he : (P ++ r :: R).eraseIdx P.length = P ++ R := by
        rw [List.eraseIdx_append_of_length_le (le_refl _)]
        simp
      have hv := WavePattern.decrementWave_valid P.length wbc wfc hlt hlen hpos
      have hs := WavePattern.decrementWave_sum P.length wbc wfc hlt
      rw [he]
      rw [ih P _ _ f hR hv.1 hv.2 (by
        rw [hs, hsum]
        simp only [List.length_append, List.length_cons]
        push_cast
        omega) hin]
      exact cullWavesFrom_decrementWave _ r hc R wbc wfc P hlen hpos hlt

/-- The slice-indexed culling result and the wave-by-wave one agree, here for the waves `l`
that follow a prefix `pre` of the wave vector. -/
theorem culledWaves_aux (inB : B → Bool) (bs : List B) (l : List Int) :
    ∀ (as pre preA : List Int), l.length = as.length → pre.length = preA.length →
      (∀ c ∈ pre, 0 ≤ c) → (∀ c ∈ l, 0 ≤ c) →
      ((List.range l.length).map (fun i =>
          (((((bs.drop ((pre ++ l).take (pre.length + i)).sum.toNat).take
              (((pre ++ l)[pre.length + i]?).getD 0).toNat).countP inB : Nat) : Int),
            ((preA ++ as)[pre.length + i]?).getD 0))).filter
          (fun wave => decide (wave.1 ≠ 0))
        = cullWavesFrom inB (bs.drop pre.sum.toNat) l as := by
  induction l with
  | nil => intro as pre preA _ _ _ _; simp [cullWavesFrom]
  | cons c l ih =>
    intro as pre preA hlen hpre hnn hl
    cases as with
    | nil => simp at hlen
    | cons a as =>
      have hc : 0 ≤ c := hl c (List.mem_cons_self _ _)
      have hl2 : ∀ x ∈ l, 0 ≤ x := fun x hx => hl x (List.mem_cons_of_mem _ hx)
      have hpsum : 0 ≤ pre.sum := List.sum_nonneg hnn
      have h1 := ih as (pre ++ [c]) (preA ++ [a]) (by simpa using hlen) (by simp [hpre])
        (fun x hx => by
          rcases List.mem_append.mp hx with h | h
          · exact hnn x h
          · simp only [List.mem_singleton] at h
            omega) hl2
      have hsum : (pre ++ [c]).sum.toNat = pre.sum.toNat + c.toNat := by
        simp only [List.sum_append, List.sum_cons, List.sum_nil]
        omega
      rw [hsum, ← List.drop_drop] at h1
      simp only [List.length_append, List.length_singleton, List.append_assoc,
        List.singleton_append] at h1
      rw [List.length_cons, List.range_succ_eq_map, List.map_cons, List.map_map,
        List.filter_cons]
      have hfun : ((fun i =>
          (((((bs.drop ((pre ++ c :: l).take (pre.length + i)).sum.toNat).take
              (((pre ++ c :: l)[pre.length + i]?).getD 0).toNat).countP inB : Nat) : Int),
            ((preA ++ a :: as)[pre.length + i]?).getD 0)) ∘ Nat.succ)
          = (fun i =>
          (((((bs.drop ((pre ++ c :: l).take (pre.length + 1 + i)).sum.toNat).take
              (((pre ++ c :: l)[pre.length + 1 + i]?).getD 0).toNat).countP inB : Nat) : Int),
            ((preA ++ a :: as)[pre.length + 1 + i]?).getD 0)) := by
        funext i
        have : pre.length + i.succ = pre.length + 1 + i := by omega
        simp only [Function.comp, this]
      rw [hfun, h1]
      have hhead1 : (pre ++ c :: l).take (pre.length + 0) = pre := by
        simp
      have hhead2 : (pre ++ c :: l)[pre.length + 0]? = some c := by
        rw [List.getElem?_append_right (by omega)]
        simp
      have hhead3 : (preA ++ a :: as)[pre.length + 0]? = some a := by
        rw [List.getElem?_append_right (by omega)]
        simp [hpre]
      simp only [hhead1, hhead2, hhead3, Option.getD_some, cullWavesFrom]
      by_cases h0 : ((bs.drop pre.sum.toNat).take c.toNat).countP inB = 0
      · simp [h0]
      · simp [h0]

/-- Under the wave invariant the culling result stated on slices is the wave-by-wave one. -/
theorem WavePattern.culledWaves_eq (api : BulletApi B) (w : WavePattern B)
    (h : w.WaveInvariant) :
    w.culledWaves api
      = cullWavesFrom (fun b => w.screenBounds.contains (api.getPosition b)) w.bullets
          w.waveBulletCount w.waveFrameCount := by
  obtain ⟨hlen, hpos, _⟩ := h
  have hnn : ∀ c ∈ w.waveBulletCount, 0 ≤ c := fun c hc => by
    have := hpos c hc
    omega
  have haux := culledWaves_aux (fun b => w.screenBounds.contains (api.getPosition b))
    w.bullets w.waveBulletCount w.waveFrameCount [] [] hlen rfl (by simp) hnn
  simp only [List.nil_append, List.length_nil, Nat.zero_add, List.sum_nil, Int.toNat_zero,
    List.drop_zero] at haux
  rw [← haux]
  unfold WavePattern.culledWaves WavePattern.inBoundsInSlice
  congr 1
  apply List.map_congr_left
  intro i _
  have hstart : w.getStartIndex (i : Int) = (w.waveBulletCount.take i).sum :=
    WavePattern.startIndexOf_eq_sum_take w.waveBulletCount i
  have hend : w.getEndIndex (i : Int) - w.getStartIndex (i : Int) + 1
      = (w.waveBulletCount[i]?).getD 0 := by
    unfold WavePattern.getEndIndex
    simp only [Int.toNat_ofNat]
    omega
  rw [hend, hstart]

/-- C4. Under the wave invariant, `WavePattern::deleteOutOfBoundsBullets()` leaves the list of
(wave size, wave age) pairs in which each wave's size is replaced by the number of in-bounds
bullets in its slice `[getStartIndex(i), getEndIndex(i)]` and the waves of new size 0 are
dropped; each surviving wave keeps its own age and its place in the order, the two vectors keep
equal length, and the bullets left are the in-bounds ones. -/
theorem WavePattern.deleteOutOfBoundsBullets_waves (api : BulletApi B) (w : WavePattern B)
    (h : w.WaveInvariant) :
    List.zip (w.deleteOutOfBoundsBullets api).waveBulletCount
        (w.deleteOutOfBoundsBullets api).waveFrameCount = w.culledWaves api ∧
      (w.deleteOutOfBoundsBullets api).waveBulletCount.length
        = (w.deleteOutOfBoundsBullets api).waveFrameCount.length ∧
      (w.deleteOutOfBoundsBullets api).bullets
        = w.bullets.filter (fun b => w.screenBounds.contains (api.getPosition b)) := by
  have hw := WavePattern.deleteOutOfBoundsLoop_waves api w.screenBounds w.bullets []
    w.waveBulletCount w.waveFrameCount w.bullets.length (le_refl _) h.1 h.2.1
    (by simpa using h.2.2) (by simp)
  simp only [List.length_nil, List.nil_append] at hw
  refine ⟨?_, (WavePattern.cullResult_valid api w h).1, (WavePattern.cullResult_exit api w).2⟩
  rw [WavePattern.culledWaves_eq api w h]
  exact hw

/-- C4 on a wave pattern with waves of sizes 2, 1 and 3 and ages 30, 20 and 10, of which the
bullets at indices 1, 2 and 5 are out of bounds: the waves left are (1, 30) and (2, 10). -/
theorem WavePattern.deleteOutOfBoundsBullets_waves_witness :
    sampleWaves.culledWaves pointApi = [(1, 30), (2, 10)] ∧
      List.zip (sampleWaves.deleteOutOfBoundsBullets pointApi).waveBulletCount
        (sampleWaves.deleteOutOfBoundsBullets pointApi).waveFrameCount
        = sampleWaves.culledWaves pointApi :=
  have hinv : sampleWaves.WaveInvariant := by
    unfold WavePattern.WaveInvariant
    decide
  ⟨by decide!, (WavePattern.deleteOutOfBoundsBullets_waves pointApi sampleWaves hinv).1⟩

end WaveCulling

section Clock

variable {B : Type}

/-- A quantity that every pass through the body of a counted loop keeps is kept by the loop. -/
theorem forLoop_proj {σ α : Type} (proj : σ → α) (n : Int) (body : Int → σ → σ) (s : σ)
    (h : ∀ i t, proj (body i t) = proj t) : proj (forLoop n body s) = proj s := by
  unfold forLoop
  induction (List.range n.toNat) using List.reverseRecOn with
  | nil => rfl
  | append_singleton l a ih => rw [List.foldl_append, List.foldl_cons, List.foldl_nil, h, ih]

/-- A quantity that every pass through the body of a ranged loop keeps is kept by the loop. -/
theorem forRange_proj {σ α : Type} (proj : σ → α) (lo hi : Int) (body : Int → σ → σ) (s : σ)
    (h : ∀ i t, proj (body i t) = proj t) : proj (forRange lo hi body s) = proj s := by
  unfold forRange
  induction (List.range (hi - lo).toNat) using List.reverseRecOn with
  | nil => rfl
  | append_singleton l a ih => rw [List.foldl_append, List.foldl_cons, List.foldl_nil, h, ih]

/-- A quantity that every step of a left fold keeps is kept by the fold. -/
theorem foldl_proj {σ α β : Type} (proj : σ → α) (f : σ → β → σ) (l : List β) (s : σ)
    (h : ∀ t b, proj (f t b) = proj t) : proj (l.foldl f s) = proj s := by
  induction l using List.reverseRecOn with
  | nil => rfl
  | append_singleton l a ih => rw [List.foldl_append, List.foldl_cons, List.foldl_nil, h, ih]

/-- `canShoot()` leaves the frame counter alone. -/
@[simp] theorem Pattern.canShoot_frameCounter (p : Pattern B) :
    p.canShoot.2.frameCounter = p.frameCounter := by
  unfold Pattern.canShoot
  split_ifs <;> rfl

/-- `canShoot()` leaves the active flag alone. -/
@[simp] theorem Pattern.canShoot_active (p : Pattern B) : p.canShoot.2.active = p.active := by
  unfold Pattern.canShoot
  split_ifs <;> rfl

/-- `addWave` leaves the base subobject alone. -/
@[simp] theorem WavePattern.addWave_toPattern (w : WavePattern B) (n : Int) :
    (w.addWave n).toPattern = w.toPattern := by
  unfold WavePattern.addWave
  split_ifs <;> rfl

/-- Loop rule for the frame counter of a `Pattern`. -/
@[simp] theorem Pattern.base_forLoop_frameCounter (body : Int → Pattern B → Pattern B) (n : Int)
    (s : Pattern B) (h : ∀ i t, (body i t).frameCounter = t.frameCounter) :
    (forLoop n body s).frameCounter = s.frameCounter :=
  forLoop_proj (fun q : Pattern B => q.frameCounter) n body s h

/-- Loop rule for the active flag of a `Pattern`. -/
@[simp] theorem Pattern.base_forLoop_active (body : Int → Pattern B → Pattern B) (n : Int)
    (s : Pattern B) (h : ∀ i t, (body i t).active = t.active) :
    (forLoop n body s).active = s.active :=
  forLoop_proj (fun q : Pattern B => q.active) n body s h

/-- Loop rule for the frame counter of a `QedRipples`. -/
@[simp] theorem QedRipples.qed_forLoop_frameCounter (body : Int → QedRipples B → QedRipples B)
    (n : Int) (s : QedRipples B) (h : ∀ i t, (body i t).frameCounter = t.frameCounter) :
    (forLoop n body s).frameCounter = s.frameCounter :=
  forLoop_proj (fun q : QedRipples B => q.frameCounter) n body s h

/-- Loop rule for the active flag of a `QedRipples`. -/
@[simp] theorem QedRipples.qed_forLoop_active (body : Int → QedRipples B → QedRipples B)
    (n : Int) (s : QedRipples B) (h : ∀ i t, (body i t).active = t.active) :
    (forLoop n body s).active = s.active :=
  forLoop_proj (fun q : QedRipples B => q.active) n body s h

/-- Loop rule for the frame counter of a `FlyingSaucer`. -/
@[simp] theorem FlyingSaucer.saucer_forLoop_frameCounter (body : Int → FlyingSaucer B → FlyingSaucer B)
    (n : Int) (s : FlyingSaucer B) (h : ∀ i t, (body i t).frameCounter = t.frameCounter) :
    (forLoop n body s).frameCounter = s.frameCounter :=
  forLoop_proj (fun q : FlyingSaucer B => q.frameCounter) n body s h

/-- Loop rule for the active flag of a `FlyingSaucer`. -/
@[simp] theorem FlyingSaucer.saucer_forLoop_active (body : Int → FlyingSaucer B → FlyingSaucer B)
    (n : Int) (s : FlyingSaucer B) (h : ∀ i t, (body i t).active = t.active) :
    (forLoop n body s).active = s.active :=
  forLoop_proj (fun q : FlyingSaucer B => q.active) n body s h

/-- Loop rule for the frame counter of a `WindGod`. -/
@[simp] theorem WindGod.windGod_forLoop_frameCounter (body : Int → WindGod B → WindGod B)
    (n : Int) (s : WindGod B) (h : ∀ i t, (body i t).frameCounter = t.frameCounter) :
    (forLoop n body s).frameCounter = s.frameCounter :=
  forLoop_proj (fun q : WindGod B => q.frameCounter) n body s h

/-- Loop rule for the active flag of a `WindGod`. -/
@[simp] theorem WindGod.windGod_forLoop_active (body : Int → WindGod B → WindGod B)
    (n : Int) (s : WindGod B) (h : ∀ i t, (body i t).active = t.active) :
    (forLoop n body s).active = s.active :=
  forLoop_proj (fun q : WindGod B => q.active) n body s h

/-- Ranged loop rule for the frame counter of a `WindGod`. -/
@[simp] theorem WindGod.forRange_frameCounter (body : Int → WindGod B → WindGod B)
    (lo hi : Int) (s : WindGod B) (h : ∀ i t, (body i t).frameCounter = t.frameCounter) :
    (forRange lo hi body s).frameCounter = s.frameCounter :=
  forRange_proj (fun q : WindGod B => q.frameCounter) lo hi body s h

/-- Ranged loop rule for the active flag of a `WindGod`. -/
@[simp] theorem WindGod.forRange_active (body : Int → WindGod B → WindGod B)
    (lo hi : Int) (s : WindGod B) (h : ∀ i t, (body i t).active = t.active) :
    (forRange lo hi body s).active = s.active :=
  forRange_proj (fun q : WindGod B => q.active) lo hi body s h

/-- Loop rule for the frame counter of a `MercuryPoison`. -/
@[simp] theorem MercuryPoison.mercury_forLoop_frameCounter
    (body : Int → MercuryPoison B → MercuryPoison B)
    (n : Int) (s : MercuryPoison B) (h : ∀ i t, (body i t).frameCounter = t.frameCounter) :
    (forLoop n body s).frameCounter = s.frameCounter :=
  forLoop_proj (fun q : MercuryPoison B => q.frameCounter) n body s h

/-- Loop rule for the active flag of a `MercuryPoison`. -/
@[simp] theorem MercuryPoison.mercury_forLoop_active (body : Int → MercuryPoison B → MercuryPoison B)
    (n : Int) (s : MercuryPoison B) (h : ∀ i t, (body i t).active = t.active) :
    (forLoop n body s).active = s.active :=
  forLoop_proj (fun q : MercuryPoison B => q.active) n body s h

/-- Loop rule for the frame counter of a `SeamlessCeiling`. -/
@[simp] theorem SeamlessCeiling.ceiling_forLoop_frameCounter
    (body : Int → SeamlessCeiling B → SeamlessCeiling B)
    (n : Int) (s : SeamlessCeiling B) (h : ∀ i t, (body i t).frameCounter = t.frameCounter) :
    (forLoop n body s).frameCounter = s.frameCounter :=
  forLoop_proj (fun q : SeamlessCeiling B => q.frameCounter) n body s h

/-- Loop rule for the active flag of a `SeamlessCeiling`. -/
@[simp] theorem SeamlessCeiling.ceiling_forLoop_active
    (body : Int → SeamlessCeiling B → SeamlessCeiling B)
    (n : Int) (s : SeamlessCeiling B) (h : ∀ i t, (body i t).active = t.active) :
    (forLoop n body s).active = s.active :=
  forLoop_proj (fun q : SeamlessCeiling B => q.active) n body s h

/-- `Bowap::spawnBullets()` leaves the frame counter and the active flag alone. -/
theorem Bowap.bowap_spawnBullets_clock (api : BulletApi B) (k : Consts) (p : Pattern B) :
    (Bowap.spawnBullets api k p).frameCounter = p.frameCounter ∧
      (Bowap.spawnBullets api k p).active = p.active := by
  unfold Bowap.spawnBullets
  constructor <;> (simp only []; split_ifs <;> simp [Pattern.addRiceBullet])

/-- `QedRipples::spawnBullets()` leaves the frame counter and the active flag alone. -/
theorem QedRipples.qed_spawnBullets_clock (api : BulletApi B) (k : Consts) (p : QedRipples B)
    (g : Rng) :
    (QedRipples.spawnBullets api k p g).1.frameCounter = p.frameCounter ∧
      (QedRipples.spawnBullets api k p g).1.active = p.active := by
  unfold QedRipples.spawnBullets
  constructor <;> (simp only []; split_ifs <;> simp [Pattern.addRiceBullet])

/-- `GengetsuTime::spawnBullets()` leaves the frame counter and the active flag alone. -/
theorem GengetsuTime.gengetsu_spawnBullets_clock (api : BulletApi B) (p : Pattern B) (g : Rng) :
    (GengetsuTime.spawnBullets api p g).1.frameCounter = p.frameCounter ∧
      (GengetsuTime.spawnBullets api p g).1.active = p.active := by
  unfold GengetsuTime.spawnBullets
  constructor <;>
    (simp only []; split_ifs <;> simp [Pattern.addDotBullet, Pattern.addCircleBullet])

/-- One shot source of a burst leaves the frame counter alone. -/
@[simp] theorem FlyingSaucer.burstFrom_frameCounter (api : BulletApi B) (color : Color)
    (st : FlyingSaucer.BurstState B) (pos : Vector2f) :
    (FlyingSaucer.burstFrom api color st pos).pattern.frameCounter
      = st.pattern.frameCounter := by
  unfold FlyingSaucer.burstFrom FlyingSaucer.tagBatch
  simp only []
  split_ifs <;> simp [Pattern.addTalismanBullet, FlyingSaucer.addShot]

/-- One shot source of a burst leaves the active flag alone. -/
@[simp] theorem FlyingSaucer.burstFrom_active (api : BulletApi B) (color : Color)
    (st : FlyingSaucer.BurstState B) (pos : Vector2f) :
    (FlyingSaucer.burstFrom api color st pos).pattern.active = st.pattern.active := by
  unfold FlyingSaucer.burstFrom FlyingSaucer.tagBatch
  simp only []
  split_ifs <;> simp [Pattern.addTalismanBullet, FlyingSaucer.addShot]

/-- `FlyingSaucer::spawnBullets()` leaves the frame counter and the active flag alone. -/
theorem FlyingSaucer.saucer_spawnBullets_clock (api : BulletApi B) (k : Consts) (p : FlyingSaucer B)
    (g : Rng) :
    (FlyingSaucer.spawnBullets api k p g).1.frameCounter = p.frameCounter ∧
      (FlyingSaucer.spawnBullets api k p g).1.active = p.active := by
  unfold FlyingSaucer.spawnBullets
  constructor
  · simp only []
    split_ifs
    · simp only [WavePattern.addWave_toPattern]
      exact (foldl_proj (fun st : FlyingSaucer.BurstState B => st.pattern.frameCounter) _ _ _
        (fun t b => FlyingSaucer.burstFrom_frameCounter api _ t b)).trans
        (Pattern.canShoot_frameCounter p.toPattern)
    · simp
  · simp only []
    split_ifs
    · simp only [WavePattern.addWave_toPattern]
      exact (foldl_proj (fun st : FlyingSaucer.BurstState B => st.pattern.active) _ _ _
        (fun t b => FlyingSaucer.burstFrom_active api _ t b)).trans
        (Pattern.canShoot_active p.toPattern)
    · simp

/-- `getTargetRadius` changes nothing but the radius cache. -/
@[simp] theorem FlyingSaucer.getTargetRadius_toWavePattern (k : Consts) (p : FlyingSaucer B)
    (frame : Int) : (FlyingSaucer.getTargetRadius k p frame).2.toWavePattern = p.toWavePattern := by
  unfold FlyingSaucer.getTargetRadius
  split_ifs <;> rfl

/-- `FlyingSaucer::processMovement()` leaves the frame counter and the active flag alone. -/
theorem FlyingSaucer.saucer_processMovement_clock (api : BulletApi B) (k : Consts)
    (p : FlyingSaucer B) :
    (FlyingSaucer.processMovement api k p).frameCounter = p.frameCounter ∧
      (FlyingSaucer.processMovement api k p).active = p.active := by
  unfold FlyingSaucer.processMovement
  constructor <;> simp [FlyingSaucer.moveWave, WavePattern.incrementWaveFrames]

/-- `MercuryPoison::spawnBullets()` leaves the frame counter and the active flag alone. -/
theorem MercuryPoison.mercury_spawnBullets_clock (api : BulletApi B) (k : Consts) (p : MercuryPoison B)
    (g : Rng) :
    (MercuryPoison.spawnBullets api k p g).1.frameCounter = p.frameCounter ∧
      (MercuryPoison.spawnBullets api k p g).1.active = p.active := by
  unfold MercuryPoison.spawnBullets
  constructor <;>
    (simp only []; split_ifs <;>
      simp [MercuryPoison.addPair, Pattern.addCircleBullet])

/-- `MercuryPoison::processMovement()` leaves the frame counter and the active flag alone. -/
theorem MercuryPoison.mercury_processMovement_clock (api : BulletApi B) (k : Consts)
    (p : MercuryPoison B) :
    (MercuryPoison.processMovement api k p).frameCounter = p.frameCounter ∧
      (MercuryPoison.processMovement api k p).active = p.active := by
  unfold MercuryPoison.processMovement
  constructor <;> simp [WavePattern.incrementWaveFrames]

/-- One stream of a `SeamlessCeiling` leaves the frame counter alone. -/
@[simp] theorem SeamlessCeiling.addStream_frameCounter (api : BulletApi B) (src : Vector2f)
    (speed angle : ℚ) (color : Color) (p : SeamlessCeiling B) :
    (SeamlessCeiling.addStream api src speed angle color p).frameCounter = p.frameCounter := by
  unfold SeamlessCeiling.addStream
  simp [Pattern.addCircleBullet, WavePattern.incrementCurrentBulletCount]

/-- One stream of a `SeamlessCeiling` leaves the active flag alone. -/
@[simp] theorem SeamlessCeiling.addStream_active (api : BulletApi B) (src : Vector2f)
    (speed angle : ℚ) (color : Color) (p : SeamlessCeiling B) :
    (SeamlessCeiling.addStream api src speed angle color p).active = p.active := by
  unfold SeamlessCeiling.addStream
  simp [Pattern.addCircleBullet, WavePattern.incrementCurrentBulletCount]

/-- `SeamlessCeiling::spawnBullets()` leaves the frame counter and the active flag alone. -/
theorem SeamlessCeiling.ceiling_spawnBullets_clock (api : BulletApi B) (k : Consts)
    (p : SeamlessCeiling B) (g : Rng) :
    (SeamlessCeiling.spawnBullets api k p g).1.frameCounter = p.frameCounter ∧
      (SeamlessCeiling.spawnBullets api k p g).1.active = p.active := by
  have hc : ∀ (q : SeamlessCeiling B) (g : Rng),
      (SeamlessCeiling.spawnCeiling api k q g).1.frameCounter = q.frameCounter ∧
        (SeamlessCeiling.spawnCeiling api k q g).1.active = q.active := by
    intro q g
    unfold SeamlessCeiling.spawnCeiling
    constructor <;> (simp only []; split_ifs <;> simp [Pattern.addCircleBullet])
  have ha : ∀ (q : SeamlessCeiling B) (g : Rng),
      (SeamlessCeiling.spawnStreamsA api k q g).1.frameCounter = q.frameCounter ∧
        (SeamlessCeiling.spawnStreamsA api k q g).1.active = q.active := by
    intro q g
    unfold SeamlessCeiling.spawnStreamsA
    constructor <;> (simp only []; split_ifs <;> simp)
  have hb : ∀ (q : SeamlessCeiling B) (g : Rng),
      (SeamlessCeiling.spawnStreamsB api k q g).1.frameCounter = q.frameCounter ∧
        (SeamlessCeiling.spawnStreamsB api k q g).1.active = q.active := by
    intro q g
    unfold SeamlessCeiling.spawnStreamsB
    constructor <;> (simp only []; split_ifs <;> simp)
  unfold SeamlessCeiling.spawnBullets
  exact ⟨by rw [(hb _ _).1, (ha _ _).1, (hc _ _).1], by rw [(hb _ _).2, (ha _ _).2, (hc _ _).2]⟩

/-- The movement of one wave of a `SeamlessCeiling` leaves the frame counter alone. -/
@[simp] theorem SeamlessCeiling.moveWave_frameCounter (api : BulletApi B) (k : Consts)
    (wave : Int) (p : SeamlessCeiling B) :
    (SeamlessCeiling.moveWave api k wave p).frameCounter = p.frameCounter := by
  unfold SeamlessCeiling.moveWave
  simp only []
  split
  · rfl
  · split_ifs <;> rfl

/-- The movement of one wave of a `SeamlessCeiling` leaves the active flag alone. -/
@[simp] theorem SeamlessCeiling.moveWave_active (api : BulletApi B) (k : Consts)
    (wave : Int) (p : SeamlessCeiling B) :
    (SeamlessCeiling.moveWave api k wave p).active = p.active := by
  unfold SeamlessCeiling.moveWave
  simp only []
  split
  · rfl
  · split_ifs <;> rfl

/-- `SeamlessCeiling::processMovement()` leaves the frame counter and the active flag
alone. -/
theorem SeamlessCeiling.ceiling_processMovement_clock (api : BulletApi B) (k : Consts)
    (p : SeamlessCeiling B) :
    (SeamlessCeiling.processMovement api k p).frameCounter = p.frameCounter ∧
      (SeamlessCeiling.processMovement api k p).active = p.active := by
  unfold SeamlessCeiling.processMovement
  constructor <;> simp [WavePattern.incrementWaveFrames]

/-- `calculatePhase()` changes nothing but the phase. -/
@[simp] theorem WindGod.calculatePhase_toWavePattern (k : Consts) (p : WindGod B) :
    (WindGod.calculatePhase k p).toWavePattern = p.toWavePattern := by
  unfold WindGod.calculatePhase
  split_ifs <;> rfl

/-- `adjustSpawners()` leaves the `WavePattern` part alone. -/
@[simp] theorem WindGod.adjustSpawners_toWavePattern (k : Consts) (p : WindGod B) :
    (WindGod.adjustSpawners k p).toWavePattern = p.toWavePattern := by
  unfold WindGod.adjustSpawners
  simp only []
  split_ifs <;> rfl

/-- `WindGod::spawnBullets()` leaves the frame counter and the active flag alone. -/
theorem WindGod.windGod_spawnBullets_clock (api : BulletApi B) (k : Consts) (p : WindGod B) (g : Rng) :
    (WindGod.spawnBullets api k p g).1.frameCounter = p.frameCounter ∧
      (WindGod.spawnBullets api k p g).1.active = p.active := by
  unfold WindGod.spawnBullets
  constructor <;> (simp only []; split_ifs <;> simp [Pattern.addSpawner])

/-- Placing the spawners leaves the frame counter alone. -/
@[simp] theorem WindGod.placeSpawners_frameCounter (api : BulletApi B) (k : Consts)
    (angle velocityAngle : Int → ℚ) (dist : ℚ) (p : WindGod B) :
    (WindGod.placeSpawners api k angle velocityAngle dist p).frameCounter = p.frameCounter := by
  unfold WindGod.placeSpawners
  simp

/-- Placing the spawners leaves the active flag alone. -/
@[simp] theorem WindGod.placeSpawners_active (api : BulletApi B) (k : Consts)
    (angle velocityAngle : Int → ℚ) (dist : ℚ) (p : WindGod B) :
    (WindGod.placeSpawners api k angle velocityAngle dist p).active = p.active := by
  unfold WindGod.placeSpawners
  simp

/-- One spawner's emission leaves the frame counter alone. -/
@[simp] theorem WindGod.emitFrom_frameCounter (api : BulletApi B) (k : Consts) (j : Int)
    (p : WindGod B) : (WindGod.emitFrom api k j p).frameCounter = p.frameCounter := by
  unfold WindGod.emitFrom
  split
  · rfl
  · simp only []
    split_ifs <;> rfl

/-- One spawner's emission leaves the active flag alone. -/
@[simp] theorem WindGod.emitFrom_active (api : BulletApi B) (k : Consts) (j : Int)
    (p : WindGod B) : (WindGod.emitFrom api k j p).active = p.active := by
  unfold WindGod.emitFrom
  split
  · rfl
  · simp only []
    split_ifs <;> rfl

/-- The spawn branch of `WindGod::processMovement()` leaves the frame counter alone. -/
@[simp] theorem WindGod.emitBullets_frameCounter (api : BulletApi B) (k : Consts)
    (p : WindGod B) : (WindGod.emitBullets api k p).frameCounter = p.frameCounter := by
  unfold WindGod.emitBullets
  simp [WindGod.emissionRound]

/-- The spawn branch of `WindGod::processMovement()` leaves the active flag alone. -/
@[simp] theorem WindGod.emitBullets_active (api : BulletApi B) (k : Consts)
    (p : WindGod B) : (WindGod.emitBullets api k p).active = p.active := by
  unfold WindGod.emitBullets
  simp [WindGod.emissionRound]

/-- The spawner part of `WindGod::processMovement()` leaves the frame counter and the active
flag alone. -/
theorem WindGod.processSpawners_clock (api : BulletApi B) (k : Consts) (p : WindGod B)
    (g : Rng) :
    (WindGod.processSpawners api k p g).1.frameCounter = p.frameCounter ∧
      (WindGod.processSpawners api k p g).1.active = p.active := by
  unfold WindGod.processSpawners
  constructor <;> (simp only []; split_ifs <;> simp)

/-- `WindGod::processMovement()` leaves the frame counter and the active flag alone. -/
theorem WindGod.windGod_processMovement_clock (api : BulletApi B) (k : Consts) (p : WindGod B)
    (g : Rng) :
    (WindGod.processMovement api k p g).1.frameCounter = p.frameCounter ∧
      (WindGod.processMovement api k p g).1.active = p.active := by
  unfold WindGod.processMovement
  simp only []
  split_ifs with h1 h2 <;>
    first
    | (constructor <;>
        (first
          | rw [(WindGod.processSpawners_clock api k _ g).1]
          | rw [(WindGod.processSpawners_clock api k _ g).2]
          | skip) <;>
        simp [WavePattern.incrementWaveFrames, apply_ite WindGod.toWavePattern,
          apply_ite WavePattern.toPattern, apply_ite Pattern.frameCounter,
          apply_ite Pattern.active])

end Clock

section Counted
variable {B : Type}

/-- Rewriting one element keeps the length of a vector. -/
theorem modifyAt_length {α : Type} (f : α → α) (i : Int) (l : List α) :
    (modifyAt f i l).length = l.length := by
  unfold modifyAt
  split_ifs <;> simp

/-- Rewriting a range of elements keeps the length of a vector. -/
theorem modifyRange_length {α : Type} (f : α → α) (lo hi : Int) (l : List α) :
    (modifyRange f lo hi l).length = l.length := by
  unfold modifyRange
  exact foldl_proj (fun acc : List α => acc.length) _ _ _ (fun t b => modifyAt_length f _ t)

/-- A counted loop whose body adds `c` to a quantity adds `c` once per iteration. -/
theorem forLoop_count {σ : Type} (len : σ → Nat) (c : Nat) (n : Int) (body : Int → σ → σ)
    (s : σ) (h : ∀ i t, len (body i t) = len t + c) :
    len (forLoop n body s) = len s + n.toNat * c := by
  unfold forLoop
  induction n.toNat with
  | zero => simp
  | succ m ih =>
    rw [List.range_succ, List.foldl_append, List.foldl_cons, List.foldl_nil, h, ih]
    ring

/-- `canShoot()` leaves the stream count alone. -/
@[simp] theorem Pattern.canShoot_streamCount (p : Pattern B) :
    p.canShoot.2.streamCount = p.streamCount := by
  unfold Pattern.canShoot
  split_ifs <;> rfl

/-- `canShoot()` leaves the bullets alone. -/
@[simp] theorem Pattern.canShoot_bullets (p : Pattern B) :
    p.canShoot.2.bullets = p.bullets := by
  unfold Pattern.canShoot
  split_ifs <;> rfl

/-- The spawn loop of one shot source keeps the bookkeeping and the shot sources and adds
`streamCount` bullets. -/
theorem FlyingSaucer.forLoop_addShot (api : BulletApi B) (pos : Vector2f) (shotAngle : Int)
    (color : Color) (n : Int) (p : FlyingSaucer B) :
    (forLoop n (FlyingSaucer.addShot api pos shotAngle color) p).toWavePattern.book
        = p.toWavePattern.book ∧
      (forLoop n (FlyingSaucer.addShot api pos shotAngle color) p).shotSources = p.shotSources ∧
      (forLoop n (FlyingSaucer.addShot api pos shotAngle color) p).bullets.length
        = p.bullets.length + n.toNat :=
  ⟨forLoop_proj (fun q : FlyingSaucer B => q.toWavePattern.book) n _ p (fun _ _ => rfl),
    forLoop_proj (fun q : FlyingSaucer B => q.shotSources) n _ p (fun _ _ => rfl),
    by
      have h := forLoop_count (fun q : FlyingSaucer B => q.bullets.length) 1 n
        (FlyingSaucer.addShot api pos shotAngle color) p
        (by intro i t; simp [FlyingSaucer.addShot, Pattern.addTalismanBullet])
      simpa using h⟩

/-- The rotation tagging keeps the bookkeeping, the shot sources and the number of bullets. -/
theorem FlyingSaucer.tagBatch_book (api : BulletApi B) (pos : Vector2f) (index : Int)
    (p : FlyingSaucer B) :
    (FlyingSaucer.tagBatch api pos index p).toWavePattern.book = p.toWavePattern.book ∧
      (FlyingSaucer.tagBatch api pos index p).shotSources = p.shotSources ∧
      (FlyingSaucer.tagBatch api pos index p).bullets.length = p.bullets.length := by
  unfold FlyingSaucer.tagBatch
  simp only []
  split_ifs <;>
    first
    | exact ⟨rfl, rfl, rfl⟩
    | exact ⟨rfl, rfl, modifyRange_length _ _ _ _⟩

/-- One shot source of a burst keeps the bookkeeping and the shot sources and adds
`streamCount` bullets. -/
theorem FlyingSaucer.burstFrom_book (api : BulletApi B) (color : Color)
    (st : FlyingSaucer.BurstState B) (pos : Vector2f) :
    (FlyingSaucer.burstFrom api color st pos).pattern.toWavePattern.book
        = st.pattern.toWavePattern.book ∧
      (FlyingSaucer.burstFrom api color st pos).pattern.shotSources = st.pattern.shotSources ∧
      (FlyingSaucer.burstFrom api color st pos).pattern.bullets.length
        = st.pattern.bullets.length + st.pattern.streamCount.toNat := by
  have h1 := FlyingSaucer.forLoop_addShot api pos st.shotAngle color st.pattern.streamCount
    st.pattern
  have h2 := FlyingSaucer.tagBatch_book api pos (st.pattern.bullets.length : Int)
    (forLoop st.pattern.streamCount (FlyingSaucer.addShot api pos st.shotAngle color) st.pattern)
  unfold FlyingSaucer.burstFrom
  simp only []
  split_ifs <;>
    exact ⟨h2.1.trans h1.1, h2.2.1.trans h1.2.1, h2.2.2.trans h1.2.2⟩

/-- The loop over the shot sources keeps the bookkeeping and the shot sources and adds
`streamCount` bullets per shot source. -/
theorem FlyingSaucer.foldl_burstFrom (api : BulletApi B) (color : Color) (l : List Vector2f) :
    ∀ st : FlyingSaucer.BurstState B,
      (l.foldl (FlyingSaucer.burstFrom api color) st).pattern.toWavePattern.book
          = st.pattern.toWavePattern.book ∧
        (l.foldl (FlyingSaucer.burstFrom api color) st).pattern.shotSources
          = st.pattern.shotSources ∧
        (l.foldl (FlyingSaucer.burstFrom api color) st).pattern.bullets.length
          = st.pattern.bullets.length + l.length * st.pattern.streamCount.toNat := by
  induction l with
  | nil => intro st; simp
  | cons pos l ih =>
    intro st
    have h1 := FlyingSaucer.burstFrom_book api color st pos
    have h2 := ih (FlyingSaucer.burstFrom api color st pos)
    have hsc : (FlyingSaucer.burstFrom api color st pos).pattern.streamCount
        = st.pattern.streamCount := congrArg (fun b => b.2.2.2) h1.1
    simp only [List.foldl_cons, List.length_cons]
    refine ⟨h2.1.trans h1.1, h2.2.1.trans h1.2.1, ?_⟩
    rw [h2.2.2, h1.2.2, hsc]
    ring

/-- The conversion to `int` keeps a value that fits. -/
theorem toInt32_of_fits (z : Int) (h0 : 0 ≤ z) (h1 : z < 2147483648) : toInt32 z = z := by
  unfold toInt32
  omega

/-- Adding a wave for `n` new bullets that are already in the vector re-establishes the wave
invariant, provided the running counter is empty. -/
theorem WavePattern.addWave_counted (w : WavePattern B) (n : Int) (hn : 0 ≤ n)
    (hcbc : w.currentBulletCount = 0)
    (hlen : w.waveBulletCount.length = w.waveFrameCount.length)
    (hpos : ∀ c ∈ w.waveBulletCount, 1 ≤ c)
    (hsum : w.waveBulletCount.sum + n = (w.bullets.length : Int)) :
    (w.addWave n).WaveInvariant ∧ (w.addWave n).currentBulletCount = 0 := by
  unfold WavePattern.addWave WavePattern.WaveInvariant
  by_cases h0 : n = 0
  · subst h0
    simp only [hcbc, if_true]
    exact ⟨⟨hlen, hpos, by simpa using hsum⟩, trivial⟩
  · simp only [h0, if_false, List.length_append, List.length_singleton, hlen,
      List.sum_append, List.sum_cons, List.sum_nil, add_zero, true_and]
    refine ⟨⟨?_, hsum⟩, hcbc⟩
    intro c hc
    rcases List.mem_append.mp hc with h | h
    · exact hpos c h
    · simp only [List.mem_singleton] at h
      omega

/-- `FlyingSaucer::spawnBullets()` keeps all bullets counted in waves. -/
theorem FlyingSaucer.saucer_spawnBullets_counted (api : BulletApi B) (k : Consts) (p : FlyingSaucer B)
    (g : Rng) (h : p.Counted) : (FlyingSaucer.spawnBullets api k p g).1.Counted := by
  obtain ⟨⟨hlen, hpos, hsum⟩, hcbc, hsc0, hsc1, hsrc⟩ := h
  unfold FlyingSaucer.spawnBullets
  simp only []
  split_ifs
  · have hf := FlyingSaucer.foldl_burstFrom api
      (colorAt k.UFO_BULLETCOLORS
        ((((rand (rand g).2).1.toNat % k.UFO_BULLETCOLORS.length : Nat) : Int)))
      p.shotSources
      { pattern := { p with toPattern := p.toPattern.canShoot.2 }
        shotAngle := Int.tmod (rand g).1 360
        sourceCount := 0
        rng := (rand (rand g).2).2 }
    obtain ⟨hbook, hss, hbl⟩ := hf
    simp only [WavePattern.book, Prod.mk.injEq, Pattern.canShoot_streamCount,
      Pattern.canShoot_bullets] at hbook hss hbl
    obtain ⟨hb1, hb2, hb3, hb4⟩ := hbook
    have hfit : toInt32 (4 * p.streamCount) = 4 * p.streamCount :=
      toInt32_of_fits _ (by omega) hsc1
    have haw := WavePattern.addWave_counted
      (List.foldl (FlyingSaucer.burstFrom api
        (colorAt k.UFO_BULLETCOLORS
          ((((rand (rand g).2).1.toNat % k.UFO_BULLETCOLORS.length : Nat) : Int))))
        { pattern := { p with toPattern := p.toPattern.canShoot.2 }
          shotAngle := Int.tmod (rand g).1 360
          sourceCount := 0
          rng := (rand (rand g).2).2 } p.shotSources).pattern.toWavePattern
      (4 * p.streamCount) (by omega) (by rw [hb3]; exact hcbc) (by rw [hb1, hb2]; exact hlen)
      (by rw [hb1]; exact hpos)
      (by rw [hb1, hbl, hsum, hsrc]; push_cast; omega)
    refine ⟨?_, ?_, ?_, ?_, ?_⟩
    · simp only [hss, hsrc, hb4, Nat.cast_ofNat, hfit]
      exact haw.1
    · simp only [hss, hsrc, hb4, Nat.cast_ofNat, hfit]
      exact haw.2
    · simp only [WavePattern.addWave_toPattern, hb4]
      exact hsc0
    · simp only [WavePattern.addWave_toPattern, hb4]
      exact hsc1
    · simp only [hss]
      exact hsrc
  · exact ⟨⟨hlen, hpos, by simpa using hsum⟩, hcbc, by simpa using hsc0, by simpa using hsc1,
      hsrc⟩

/-- The movement of one wave keeps the bookkeeping, the shot sources and the number of
bullets of a `FlyingSaucer`. -/
theorem FlyingSaucer.moveWave_book (api : BulletApi B) (k : Consts) (wave : Int)
    (p : FlyingSaucer B) :
    ((FlyingSaucer.moveWave api k wave p).toWavePattern.book,
        (FlyingSaucer.moveWave api k wave p).shotSources,
        (FlyingSaucer.moveWave api k wave p).bullets.length)
      = (p.toWavePattern.book, p.shotSources, p.bullets.length) := by
  have hs : ∀ frame, (FlyingSaucer.getTargetRadius k p frame).2.shotSources = p.shotSources := by
    intro frame
    unfold FlyingSaucer.getTargetRadius
    split_ifs <;> rfl
  unfold FlyingSaucer.moveWave
  simp only [WavePattern.book, FlyingSaucer.getTargetRadius_toWavePattern, hs,
    modifyRange_length]

/-- `FlyingSaucer::processMovement()` keeps all bullets counted in waves. -/
theorem FlyingSaucer.saucer_processMovement_counted (api : BulletApi B) (k : Consts)
    (p : FlyingSaucer B) (h : p.Counted) : (FlyingSaucer.processMovement api k p).Counted := by
  obtain ⟨⟨hlen, hpos, hsum⟩, hcbc, hsc0, hsc1, hsrc⟩ := h
  have hloop := forLoop_proj
    (fun q : FlyingSaucer B => (q.toWavePattern.book, q.shotSources, q.bullets.length))
    ((({ p with toWavePattern := p.toWavePattern.incrementWaveFrames } :
      FlyingSaucer B).waveBulletCount.length : Nat) : Int)
    (FlyingSaucer.moveWave api k)
    { p with toWavePattern := p.toWavePattern.incrementWaveFrames }
    (fun i t => FlyingSaucer.moveWave_book api k i t)
  simp only [WavePattern.book, Prod.mk.injEq, WavePattern.incrementWaveFrames] at hloop
  obtain ⟨⟨h1, h2, h3, h4⟩, h5, h6⟩ := hloop
  unfold FlyingSaucer.processMovement FlyingSaucer.Counted WavePattern.WaveInvariant
  simp only [WavePattern.incrementWaveFrames]
  rw [h1, h2, h3, h4, h5, h6]
  exact ⟨⟨by simpa using hlen, hpos, hsum⟩, hcbc, hsc0, hsc1, hsrc⟩

/-- The spawn loop of a `MercuryPoison` wave keeps the bookkeeping and adds two bullets per
iteration. -/
theorem MercuryPoison.forLoop_addPair (api : BulletApi B) (k : Consts) (shotAngle : Int)
    (n : Int) (p : MercuryPoison B) :
    (forLoop n (MercuryPoison.addPair api k shotAngle) p).toWavePattern.book
        = p.toWavePattern.book ∧
      (forLoop n (MercuryPoison.addPair api k shotAngle) p).alternate = p.alternate ∧
      (forLoop n (MercuryPoison.addPair api k shotAngle) p).bullets.length
        = p.bullets.length + n.toNat * 2 :=
  ⟨forLoop_proj (fun q : MercuryPoison B => q.toWavePattern.book) n _ p (fun _ _ => rfl),
    forLoop_proj (fun q : MercuryPoison B => q.alternate) n _ p (fun _ _ => rfl),
    forLoop_count (fun q : MercuryPoison B => q.bullets.length) 2 n
      (MercuryPoison.addPair api k shotAngle) p
      (by intro i t; simp [MercuryPoison.addPair, Pattern.addCircleBullet])⟩

/-- `MercuryPoison::spawnBullets()` keeps all bullets counted in waves. -/
theorem MercuryPoison.mercury_spawnBullets_counted (api : BulletApi B) (k : Consts)
    (p : MercuryPoison B) (g : Rng) (h : p.Counted) :
    (MercuryPoison.spawnBullets api k p g).1.Counted := by
  obtain ⟨⟨hlen, hpos, hsum⟩, hcbc, hsc0, hsc1⟩ := h
  have hf := MercuryPoison.forLoop_addPair api k (Int.tmod (rand g).1 360) p.streamCount
    { p with toPattern := p.toPattern.canShoot.2 }
  obtain ⟨hbook, _, hbl⟩ := hf
  simp only [WavePattern.book, Prod.mk.injEq, Pattern.canShoot_streamCount,
    Pattern.canShoot_bullets] at hbook hbl
  obtain ⟨hb1, hb2, hb3, hb4⟩ := hbook
  have haw := WavePattern.addWave_counted
    (forLoop p.streamCount (MercuryPoison.addPair api k (Int.tmod (rand g).1 360))
      { p with toPattern := p.toPattern.canShoot.2 }).toWavePattern
    (p.streamCount * 2) (by omega) (by rw [hb3]; exact hcbc) (by rw [hb1, hb2]; exact hlen)
    (by rw [hb1]; exact hpos)
    (by rw [hb1, hbl, hsum]; push_cast; omega)
  obtain ⟨⟨ha1, ha2, ha3⟩, ha4⟩ := haw
  simp only [WavePattern.addWave_toPattern] at ha3
  unfold MercuryPoison.spawnBullets MercuryPoison.Counted WavePattern.WaveInvariant
  simp only [Pattern.canShoot_streamCount]
  split_ifs <;>
    simp only [modifyRange_length, WavePattern.addWave_toPattern, hb4,
      Pattern.canShoot_streamCount, Pattern.canShoot_bullets] <;>
    first
    | exact ⟨⟨hlen, hpos, hsum⟩, hcbc, hsc0, hsc1⟩
    | exact ⟨⟨ha1, ha2, ha3⟩, ha4, hsc0, hsc1⟩

/-- `MercuryPoison::processMovement()` keeps all bullets counted in waves. -/
theorem MercuryPoison.mercury_processMovement_counted (api : BulletApi B) (k : Consts)
    (p : MercuryPoison B) (h : p.Counted) : (MercuryPoison.processMovement api k p).Counted := by
  obtain ⟨⟨hlen, hpos, hsum⟩, hcbc, hsc0, hsc1⟩ := h
  have hloop := forLoop_proj
    (fun q : MercuryPoison B => (q.toWavePattern.book, q.bullets.length))
    ((({ p with toWavePattern := p.toWavePattern.incrementWaveFrames } :
      MercuryPoison B).waveBulletCount.length : Nat) : Int)
    (fun wave q =>
      { q with
        bullets := modifyRange
          (MercuryPoison.moveBullet api k ((q.waveFrameCount[wave.toNat]?).getD 0))
          (q.getStartIndex wave) (q.getEndIndex wave) q.bullets })
    { p with toWavePattern := p.toWavePattern.incrementWaveFrames }
    (by intro i t; simp [WavePattern.book, modifyRange_length])
  simp only [WavePattern.book, Prod.mk.injEq, WavePattern.incrementWaveFrames] at hloop
  obtain ⟨⟨h1, h2, h3, h4⟩, h6⟩ := hloop
  unfold MercuryPoison.processMovement MercuryPoison.Counted WavePattern.WaveInvariant
  simp only [WavePattern.incrementWaveFrames]
  rw [h1, h2, h3, h4, h6]
  exact ⟨⟨by simpa using hlen, hpos, hsum⟩, hcbc, hsc0, hsc1⟩

end Counted

section Manager

variable {B : Type}

/-- The virtual `deleteOutOfBoundsBullets()` leaves the frame counter and the active flag
alone, whatever the class of the pattern. -/
theorem AnyPattern.deleteOutOfBoundsBullets_clock (api : BulletApi B) (p : AnyPattern B) :
    (p.deleteOutOfBoundsBullets api).toPattern.frameCounter = p.toPattern.frameCounter ∧
      (p.deleteOutOfBoundsBullets api).toPattern.active = p.toPattern.active := by
  cases p <;> exact ⟨rfl, rfl⟩

/-- The virtual `spawnBullets()` leaves the frame counter and the active flag alone, whatever
the class of the pattern. -/
theorem AnyPattern.any_spawnBullets_clock (api : BulletApi B) (k : Consts) (p : AnyPattern B)
    (g : Rng) :
    (p.spawnBullets api k g).1.toPattern.frameCounter = p.toPattern.frameCounter ∧
      (p.spawnBullets api k g).1.toPattern.active = p.toPattern.active := by
  cases p with
  | pattern p => exact ⟨rfl, rfl⟩
  | wavePattern p => exact ⟨rfl, rfl⟩
  | bowap p => exact Bowap.bowap_spawnBullets_clock api k p
  | qedRipples p => exact QedRipples.qed_spawnBullets_clock api k p g
  | flyingSaucer p => exact FlyingSaucer.saucer_spawnBullets_clock api k p g
  | gengetsuTime p => exact GengetsuTime.gengetsu_spawnBullets_clock api p g
  | windGod p => exact WindGod.windGod_spawnBullets_clock api k p g
  | mercuryPoison p => exact MercuryPoison.mercury_spawnBullets_clock api k p g
  | seamlessCeiling p => exact SeamlessCeiling.ceiling_spawnBullets_clock api k p g

/-- The virtual `processMovement()` leaves the frame counter and the active flag alone,
whatever the class of the pattern. -/
theorem AnyPattern.any_processMovement_clock (api : BulletApi B) (k : Consts) (p : AnyPattern B)
    (g : Rng) :
    (p.processMovement api k g).1.toPattern.frameCounter = p.toPattern.frameCounter ∧
      (p.processMovement api k g).1.toPattern.active = p.toPattern.active := by
  cases p with
  | pattern p => exact ⟨rfl, rfl⟩
  | wavePattern p => exact ⟨rfl, rfl⟩
  | bowap p => exact ⟨rfl, rfl⟩
  | qedRipples p => exact ⟨rfl, rfl⟩
  | flyingSaucer p => exact FlyingSaucer.saucer_processMovement_clock api k p
  | gengetsuTime p => exact ⟨rfl, rfl⟩
  | windGod p => exact WindGod.windGod_processMovement_clock api k p g
  | mercuryPoison p => exact MercuryPoison.mercury_processMovement_clock api k p
  | seamlessCeiling p => exact SeamlessCeiling.ceiling_processMovement_clock api k p

/-- `incrementFrame()` acts on the base subobject. -/
theorem AnyPattern.incrementFrame_toPattern (p : AnyPattern B) :
    p.incrementFrame.toPattern = p.toPattern.incrementFrame := by
  cases p <;> rfl

/-- The loop of `update()` keeps the number of patterns. -/
theorem PatternManager.updateLoop_length (api : BulletApi B) (k : Consts)
    (l : List (AnyPattern B)) :
    ∀ g : Rng, (PatternManager.updateLoop api k l g).1.length = l.length := by
  induction l with
  | nil => intro g; rfl
  | cons p rest ih => intro g; simp [PatternManager.updateLoop, ih]

/-- The loop of `update()` replaces the pattern at each index by the result of the loop body
on that pattern, run with the generator as the patterns before it left it. -/
theorem PatternManager.updateLoop_getElem? (api : BulletApi B) (k : Consts)
    (l : List (AnyPattern B)) :
    ∀ (g : Rng) (i : Nat) (p : AnyPattern B), l[i]? = some p →
      ∃ gi : Rng, (PatternManager.updateLoop api k l g).1[i]? = some (p.update api k gi).1 := by
  induction l with
  | nil => intro g i p h; simp at h
  | cons q rest ih =>
    intro g i p h
    cases i with
    | zero =>
      simp only [List.getElem?_cons_zero, Option.some.injEq] at h
      subst h
      exact ⟨g, by simp [PatternManager.updateLoop]⟩
    | succ i =>
      simp only [List.getElem?_cons_succ] at h
      obtain ⟨gi, hgi⟩ := ih (q.update api k g).2 i p h
      exact ⟨gi, by simpa [PatternManager.updateLoop] using hgi⟩

/-- C1. `PatternManager::update()`, for a manager in which every shot timer that the cycle
evaluates has an answer (each divisor `int(FPS / frequency)` of an active pattern is within
`int` and not zero; with a zero divisor the program ends at the modulo in `canShoot` and the
cycle does not complete). The call keeps the number and the order of the patterns and treats
the pattern at every index on its own: an inactive pattern is left exactly as it is (frame
counter, bullets, wave bookkeeping and all); an active pattern is replaced by the result of
`deleteOutOfBoundsBullets`, then `spawnBullets`, then `incrementFrame`, then
`processMovement`, each once and in that order. Culling and spawning leave the frame counter
alone, so spawning sees the counter as it was before the call, and after the call the counter is
larger by exactly 1 and the pattern is still active. -/
theorem PatternManager.update_spec (api : BulletApi B) (k : Consts) (m : PatternManager B)
    (g : Rng) (i : Nat) (p : AnyPattern B) (h : m.activePatterns[i]? = some p)
    (_hdef : ∀ q ∈ m.activePatterns, q.getActive = true → q.timersDefined = true) :
    (m.update api k g).1.activePatterns.length = m.activePatterns.length ∧
    ∃ gi : Rng,
      (m.update api k g).1.activePatterns[i]? = some (p.update api k gi).1 ∧
      (p.getActive = false → (p.update api k gi).1 = p) ∧
      (p.getActive = true →
        (p.update api k gi).1
          = (((p.deleteOutOfBoundsBullets api).spawnBullets api k gi).1.incrementFrame.processMovement
              api k ((p.deleteOutOfBoundsBullets api).spawnBullets api k gi).2).1 ∧
        (p.deleteOutOfBoundsBullets api).toPattern.frameCounter = p.toPattern.frameCounter ∧
        ((p.deleteOutOfBoundsBullets api).spawnBullets api k gi).1.toPattern.frameCounter
          = p.toPattern.frameCounter ∧
        (p.update api k gi).1.toPattern.frameCounter = p.toPattern.frameCounter + 1 ∧
        (p.update api k gi).1.getActive = true) := by
  refine ⟨PatternManager.updateLoop_length api k m.activePatterns g, ?_⟩
  obtain ⟨gi, hgi⟩ := PatternManager.updateLoop_getElem? api k m.activePatterns g i p h
  refine ⟨gi, hgi, ?_, ?_⟩
  · intro hin
    simp [AnyPattern.update, hin]
  · intro hact
    have hd := AnyPattern.deleteOutOfBoundsBullets_clock api p
    have hs := AnyPattern.any_spawnBullets_clock api k (p.deleteOutOfBoundsBullets api) gi
    have hm := AnyPattern.any_processMovement_clock api k
      ((p.deleteOutOfBoundsBullets api).spawnBullets api k gi).1.incrementFrame
      ((p.deleteOutOfBoundsBullets api).spawnBullets api k gi).2
    have hact2 : ((p.deleteOutOfBoundsBullets api).spawnBullets api k gi).1.toPattern.active
        = true := by
      rw [hs.2, hd.2]
      exact hact
    have hupd : (p.update api k gi).1
        = (((p.deleteOutOfBoundsBullets api).spawnBullets api k gi).1.incrementFrame.processMovement
            api k ((p.deleteOutOfBoundsBullets api).spawnBullets api k gi).2).1 := by
      simp [AnyPattern.update, hact]
    refine ⟨hupd, hd.1, by rw [hs.1, hd.1], ?_, ?_⟩
    · rw [hupd, hm.1, AnyPattern.incrementFrame_toPattern]
      simp only [Pattern.incrementFrame, hact2, if_true]
      rw [hs.1, hd.1]
    · rw [hupd]
      unfold AnyPattern.getActive
      rw [hm.2, AnyPattern.incrementFrame_toPattern]
      simp only [Pattern.incrementFrame, hact2, if_true]

/-- C1 on a manager with an active `Bowap` pattern at frame 7 and an inactive `QedRipples`
pattern at frame 3: the first pattern's counter moves to 8, the second pattern is untouched. -/
theorem PatternManager.update_spec_witness :
    (∃ gi : Rng, ∃ p : AnyPattern PointBullet,
        sampleManager.activePatterns[0]? = some p ∧
        (sampleManager.update pointApi sampleConsts sampleRng).1.activePatterns[0]?
          = some (p.update pointApi sampleConsts gi).1 ∧
        (p.update pointApi sampleConsts gi).1.toPattern.frameCounter = 8) ∧
    (∃ gi : Rng, ∃ p : AnyPattern PointBullet,
        sampleManager.activePatterns[1]? = some p ∧
        (sampleManager.update pointApi sampleConsts sampleRng).1.activePatterns[1]?
          = some (p.update pointApi sampleConsts gi).1 ∧
        (p.update pointApi sampleConsts gi).1 = p) := by
  have hdef : ∀ q ∈ sampleManager.activePatterns, q.getActive = true →
      q.timersDefined = true := by
    intro q hq _
    simp only [sampleManager, List.mem_cons, List.mem_singleton, List.not_mem_nil,
      or_false] at hq
    rcases hq with rfl | rfl <;> decide!
  constructor
  · obtain ⟨_, gi, h1, _, h3⟩ := PatternManager.update_spec pointApi sampleConsts sampleManager
      sampleRng 0 _ rfl hdef
    exact ⟨gi, _, rfl, h1, (h3 rfl).2.2.2.1⟩
  · obtain ⟨_, gi, h1, h2, _⟩ := PatternManager.update_spec pointApi sampleConsts sampleManager
      sampleRng 1 _ rfl hdef
    exact ⟨gi, _, rfl, h1, h2 rfl⟩

end Manager

section CountedManager
variable {B : Type}

/-- One pass of the body of `PatternManager::update()` keeps all bullets of a `FlyingSaucer`
or a `MercuryPoison` counted in waves. -/
theorem AnyPattern.update_counted (api : BulletApi B) (k : Consts) (p : AnyPattern B) (g : Rng)
    (h : p.Counted) : (p.update api k g).1.Counted := by
  unfold AnyPattern.update
  split_ifs
  · cases p with
    | flyingSaucer q =>
      have h1 : ({ q with toWavePattern := q.toWavePattern.deleteOutOfBoundsBullets api } :
          FlyingSaucer B).Counted :=
        ⟨WavePattern.cullResult_valid api q.toWavePattern h.1, h.2.1, h.2.2.1, h.2.2.2.1,
          h.2.2.2.2⟩
      have h2 := FlyingSaucer.saucer_spawnBullets_counted api k _ g h1
      have h3 : ({ (FlyingSaucer.spawnBullets api k
            { q with toWavePattern := q.toWavePattern.deleteOutOfBoundsBullets api } g).1 with
          toPattern := (FlyingSaucer.spawnBullets api k
            { q with toWavePattern := q.toWavePattern.deleteOutOfBoundsBullets api }
            g).1.toPattern.incrementFrame } : FlyingSaucer B).Counted := by
        unfold FlyingSaucer.Counted WavePattern.WaveInvariant Pattern.incrementFrame
        split_ifs <;> exact h2
      exact FlyingSaucer.saucer_processMovement_counted api k _ h3
    | mercuryPoison q =>
      have h1 : ({ q with toWavePattern := q.toWavePattern.deleteOutOfBoundsBullets api } :
          MercuryPoison B).Counted :=
        ⟨WavePattern.cullResult_valid api q.toWavePattern h.1, h.2.1, h.2.2.1, h.2.2.2⟩
      have h2 := MercuryPoison.mercury_spawnBullets_counted api k _ g h1
      have h3 : ({ (MercuryPoison.spawnBullets api k
            { q with toWavePattern := q.toWavePattern.deleteOutOfBoundsBullets api } g).1 with
          toPattern := (MercuryPoison.spawnBullets api k
            { q with toWavePattern := q.toWavePattern.deleteOutOfBoundsBullets api }
            g).1.toPattern.incrementFrame } : MercuryPoison B).Counted := by
        unfold MercuryPoison.Counted WavePattern.WaveInvariant Pattern.incrementFrame
        split_ifs <;> exact h2
      exact MercuryPoison.mercury_processMovement_counted api k _ h3
    | pattern q => exact h.elim
    | wavePattern q => exact h.elim
    | bowap q => exact h.elim
    | qedRipples q => exact h.elim
    | gengetsuTime q => exact h.elim
    | windGod q => exact h.elim
    | seamlessCeiling q => exact h.elim
  · exact h

/-- A freshly constructed `FlyingSaucer` or `MercuryPoison` owns no bullets and no waves. -/
theorem AnyPattern.counted_of_fresh (k : Consts) (p : AnyPattern B)
    (h : p.FreshExplicitWave k) : p.Counted := by
  rcases h with ⟨src, sc, sf, speed, h0, h1, rfl⟩ | ⟨src, sc, sf, speed, g, h0, h1, rfl⟩
  · refine ⟨?_, rfl, h0, h1, rfl⟩
    unfold WavePattern.WaveInvariant
    refine ⟨rfl, ?_, rfl⟩
    intro c hc
    cases hc
  · refine ⟨?_, rfl, h0, h1⟩
    unfold WavePattern.WaveInvariant
    refine ⟨rfl, ?_, rfl⟩
    intro c hc
    cases hc

/-- Repeated `update()` calls keep all bullets of the pattern at a given index counted in
waves. -/
theorem PatternManager.updateN_counted (api : BulletApi B) (k : Consts) (n : Nat) :
    ∀ (m : PatternManager B) (g : Rng) (i : Nat) (p : AnyPattern B),
      m.activePatterns[i]? = some p → p.Counted →
      ∃ q : AnyPattern B,
        (PatternManager.updateN api k n m g).1.activePatterns[i]? = some q ∧ q.Counted := by
  induction n with
  | zero => intro m g i p h hc; exact ⟨p, h, hc⟩
  | succ n ih =>
    intro m g i p h hc
    obtain ⟨gi, hgi⟩ := PatternManager.updateLoop_getElem? api k m.activePatterns g i p h
    exact ih (PatternManager.update api k m g).1 (PatternManager.update api k m g).2 i
      (p.update api k gi).1 hgi (AnyPattern.update_counted api k p gi hc)

/-- C5, as the code behaves: for a freshly constructed `FlyingSaucer` or `MercuryPoison` (the
two classes that close every burst with `addWave(count)`) with a stream count that is not
negative, owned by a manager at any index, after every number of `update()` cycles the pattern
satisfies the wave invariant; in particular the sum of its wave sizes equals the number of
bullets it owns. -/
theorem PatternManager.updateN_waves_match (api : BulletApi B) (k : Consts)
    (m : PatternManager B) (g : Rng) (i : Nat) (p : AnyPattern B)
    (h : m.activePatterns[i]? = some p) (hfresh : p.FreshExplicitWave k) (n : Nat) :
    ∃ w : WavePattern B,
      ((PatternManager.updateN api k n m g).1.activePatterns[i]?).bind AnyPattern.toWavePattern?
        = some w ∧
      w.WaveInvariant ∧ w.waveBulletCount.sum = (w.bullets.length : Int) := by
  obtain ⟨q, hq, hc⟩ := PatternManager.updateN_counted api k n m g i p h
    (AnyPattern.counted_of_fresh k p hfresh)
  cases q with
  | flyingSaucer q => exact ⟨q.toWavePattern, by simp [hq, AnyPattern.toWavePattern?], hc.1, hc.1.2.2⟩
  | mercuryPoison q => exact ⟨q.toWavePattern, by simp [hq, AnyPattern.toWavePattern?], hc.1, hc.1.2.2⟩
  | pattern q => exact hc.elim
  | wavePattern q => exact hc.elim
  | bowap q => exact hc.elim
  | qedRipples q => exact hc.elim
  | gengetsuTime q => exact hc.elim
  | windGod q => exact hc.elim
  | seamlessCeiling q => exact hc.elim

/-- C5 as amended, on a manager that owns a fresh `FlyingSaucer` and a fresh
`MercuryPoison`, after 61 cycles. -/
theorem PatternManager.updateN_waves_match_witness :
    (∃ w : WavePattern PointBullet,
      ((PatternManager.updateN pointApi sampleConsts 61 saucerManager
          sampleRng).1.activePatterns[0]?).bind AnyPattern.toWavePattern? = some w ∧
      w.WaveInvariant ∧ w.waveBulletCount.sum = (w.bullets.length : Int)) ∧
    (∃ w : WavePattern PointBullet,
      ((PatternManager.updateN pointApi sampleConsts 61 saucerManager
          sampleRng).1.activePatterns[1]?).bind AnyPattern.toWavePattern? = some w ∧
      w.WaveInvariant ∧ w.waveBulletCount.sum = (w.bullets.length : Int)) :=
  ⟨PatternManager.updateN_waves_match pointApi sampleConsts saucerManager sampleRng 0 _ rfl
      (Or.inl ⟨⟨360, 300⟩, 2, 1, 5, by decide!, by decide!, rfl⟩) 61,
    PatternManager.updateN_waves_match pointApi sampleConsts saucerManager sampleRng 1 _ rfl
      (Or.inr ⟨⟨360, 300⟩, 3, 4, 5, sampleRng, by decide!, by decide!, rfl⟩) 61⟩

/-- C5 fails as stated: after one `update()` cycle a fresh `SeamlessCeiling` with stream count 1
owns a ceiling wave of 4 bullets and one stream bullet that only the running counter counts;
after one cycle a fresh `WindGod` owns the spawner wave of 5 and 10 emitted bullets that only
the running counter counts. In both the sum of the wave sizes differs from the number of
bullets. -/
theorem PatternManager.updateN_waves_mismatch :
    (¬ ∀ w ∈ (PatternManager.updateN pointApi sampleConsts 1 ceilingManager
          sampleRng).1.waveParts,
        w.waveBulletCount.sum = (w.bullets.length : Int)) ∧
    (¬ ∀ w ∈ (PatternManager.updateN pointApi sampleConsts 1 windGodManager
          sampleRng).1.waveParts,
        w.waveBulletCount.sum = (w.bullets.length : Int)) := by
  decide!

end CountedManager

section Float32

/-- The power `twoPow e` is `2 ^ e`. -/
theorem twoPow_eq_zpow (e : Int) : twoPow e = (2 : ℚ) ^ e := by
  unfold twoPow
  split_ifs with h
  · obtain ⟨n, rfl⟩ := Int.eq_ofNat_of_zero_le h
    simp
  · have h' : 0 ≤ -e := by omega
    obtain ⟨n, hn⟩ := Int.eq_ofNat_of_zero_le h'
    have he : e = -(n : Int) := by omega
    subst he
    simp

/-- The halving loop with enough budget finds the binary logarithm. -/
theorem log2Loop_spec : ∀ (fuel n : Nat), n ≤ fuel → n ≠ 0 →
    2 ^ log2Loop fuel n ≤ n ∧ n < 2 ^ (log2Loop fuel n + 1)
  | 0, n, h, h0 => absurd (Nat.le_zero.mp h) h0
  | fuel + 1, n, h, h0 => by
    unfold log2Loop
    by_cases h2 : 2 ≤ n
    · rw [if_pos h2]
      have ih := log2Loop_spec fuel (n / 2) (by omega) (by omega)
      constructor
      · rw [pow_succ]
        omega
      · rw [pow_succ]
        omega
    · rw [if_neg h2]
      constructor
      · simp; omega
      · simp; omega

/-- The binary logarithm brackets its argument between two powers of 2. -/
theorem natLog2_spec (n : Nat) (h0 : n ≠ 0) : 2 ^ natLog2 n ≤ n ∧ n < 2 ^ (natLog2 n + 1) :=
  log2Loop_spec n n (le_refl n) h0

/-- The binary exponent brackets the magnitude of a nonzero rational between two powers
of 2. -/
theorem binaryExponent_spec (q : ℚ) (h0 : q ≠ 0) :
    (2 : ℚ) ^ binaryExponent q ≤ |q| ∧ |q| < (2 : ℚ) ^ (binaryExponent q + 1) := by
  have hnum : q.num.natAbs ≠ 0 := by
    simpa using Rat.num_ne_zero.mpr h0
  have hden : q.den ≠ 0 := q.den_nz
  obtain ⟨a1, a2⟩ := natLog2_spec q.num.natAbs hnum
  obtain ⟨b1, b2⟩ := natLog2_spec q.den hden
  have habs : |q| = (q.num.natAbs : ℚ) / (q.den : ℚ) := by
    have h1 : |q| = |(q.num : ℚ)| / |(q.den : ℚ)| := by
      rw [← abs_div, Rat.num_div_den]
    have h3 : |(q.num : ℚ)| = (q.num.natAbs : ℚ) := by
      rw [← Int.cast_abs, ← Int.natCast_natAbs, Int.cast_natCast]
    rw [h1, Nat.abs_cast, h3]
  have hdpos : (0 : ℚ) < (q.den : ℚ) := by exact_mod_cast Nat.pos_of_ne_zero hden
  have a1' : (2 : ℚ) ^ natLog2 q.num.natAbs ≤ (q.num.natAbs : ℚ) := by exact_mod_cast a1
  have a2' : (q.num.natAbs : ℚ) < (2 : ℚ) ^ (natLog2 q.num.natAbs + 1) := by exact_mod_cast a2
  have b1' : (2 : ℚ) ^ natLog2 q.den ≤ (q.den : ℚ) := by exact_mod_cast b1
  have b2' : (q.den : ℚ) < (2 : ℚ) ^ (natLog2 q.den + 1) := by exact_mod_cast b2
  have h2 : (0 : ℚ) < 2 := by norm_num
  have e0lo : (2 : ℚ) ^ ((natLog2 q.num.natAbs : Int) - (natLog2 q.den : Int) - 1) ≤ |q| := by
    rw [habs, le_div_iff₀ hdpos]
    have : (2 : ℚ) ^ ((natLog2 q.num.natAbs : Int) - (natLog2 q.den : Int) - 1)
        * (2 : ℚ) ^ (natLog2 q.den + 1) = (2 : ℚ) ^ natLog2 q.num.natAbs := by
      rw [← zpow_natCast (2 : ℚ) (natLog2 q.den + 1), ← zpow_add₀ (ne_of_gt h2),
        ← zpow_natCast]
      congr 1
      push_cast
      ring
    calc (2 : ℚ) ^ ((natLog2 q.num.natAbs : Int) - (natLog2 q.den : Int) - 1) * (q.den : ℚ)
        ≤ (2 : ℚ) ^ ((natLog2 q.num.natAbs : Int) - (natLog2 q.den : Int) - 1)
            * (2 : ℚ) ^ (natLog2 q.den + 1) :=
          mul_le_mul_of_nonneg_left (le_of_lt b2') (le_of_lt (zpow_pos h2 _))
      _ = (2 : ℚ) ^ natLog2 q.num.natAbs := this
      _ ≤ _ := a1'
  have e0hi : |q| < (2 : ℚ) ^ ((natLog2 q.num.natAbs : Int) - (natLog2 q.den : Int) + 1) := by
    rw [habs, div_lt_iff₀ hdpos]
    have : (2 : ℚ) ^ ((natLog2 q.num.natAbs : Int) - (natLog2 q.den : Int) + 1)
        * (2 : ℚ) ^ natLog2 q.den = (2 : ℚ) ^ (natLog2 q.num.natAbs + 1) := by
      rw [← zpow_natCast (2 : ℚ) (natLog2 q.den), ← zpow_add₀ (ne_of_gt h2),
        ← zpow_natCast]
      congr 1
      push_cast
      ring
    calc (q.num.natAbs : ℚ) < (2 : ℚ) ^ (natLog2 q.num.natAbs + 1) := a2'
      _ = (2 : ℚ) ^ ((natLog2 q.num.natAbs : Int) - (natLog2 q.den : Int) + 1)
            * (2 : ℚ) ^ natLog2 q.den := this.symm
      _ ≤ (2 : ℚ) ^ ((natLog2 q.num.natAbs : Int) - (natLog2 q.den : Int) + 1) * (q.den : ℚ) :=
          mul_le_mul_of_nonneg_left b1' (le_of_lt (zpow_pos h2 _))
  unfold binaryExponent
  simp only [twoPow_eq_zpow]
  split_ifs with h
  · exact ⟨h, e0hi⟩
  · refine ⟨e0lo, ?_⟩
    rw [sub_add_cancel]
    exact lt_of_not_le h

/-- An integer is its own rounding. -/
theorem roundHalfEven_intCast (n : Int) : roundHalfEven (n : ℚ) = n := by
  unfold roundHalfEven
  simp

/-- Rounding to the nearest integer moves a number by at most one half. -/
theorem roundHalfEven_error (q : ℚ) : |(roundHalfEven q : ℚ) - q| ≤ 1 / 2 := by
  have h1 := Int.floor_le q
  have h2 := Int.lt_floor_add_one q
  unfold roundHalfEven
  split_ifs with a b c
  · rw [abs_le]; constructor <;> linarith
  · rw [abs_le]; push_cast; constructor <;> linarith
  · rw [abs_le]; push_cast at *; constructor <;> linarith
  · rw [abs_le]; push_cast at *; constructor <;> linarith

/-- Rounding to the nearest integer keeps a number on its side of every integer. -/
theorem roundHalfEven_mono_int (q : ℚ) (n : Int) :
    ((n : ℚ) ≤ q → n ≤ roundHalfEven q) ∧ (q ≤ (n : ℚ) → roundHalfEven q ≤ n) := by
  have h1 := Int.floor_le q
  have h2 := Int.lt_floor_add_one q
  constructor
  · intro h
    have hf : n ≤ ⌊q⌋ := Int.le_floor.mpr h
    unfold roundHalfEven
    split_ifs <;> omega
  · intro h
    have hc : ⌊q⌋ ≤ n := by
      have : (⌊q⌋ : ℚ) ≤ n := le_trans h1 h
      exact_mod_cast this
    by_cases hq : (⌊q⌋ : ℚ) = q
    · have : q - ⌊q⌋ < 1 / 2 := by rw [hq]; norm_num
      unfold roundHalfEven
      rw [if_pos this]
      exact hc
    · have hlt : (⌊q⌋ : ℚ) < n := lt_of_lt_of_le (lt_of_le_of_ne h1 hq) h
      have : ⌊q⌋ < n := by exact_mod_cast hlt
      unfold roundHalfEven
      split_ifs <;> omega

/-- The spacing of the `float` values is a positive power of 2. -/
theorem float32Spacing_eq (q : ℚ) :
    float32Spacing q = (2 : ℚ) ^ (max (binaryExponent q) (-126) - 23) := by
  unfold float32Spacing
  exact twoPow_eq_zpow _

/-- The spacing of the `float` values is positive. -/
theorem float32Spacing_pos (q : ℚ) : 0 < float32Spacing q := by
  rw [float32Spacing_eq]
  exact zpow_pos (by norm_num) _

/-- A number `n * 2 ^ k` with fewer than 25 significant bits and an exponent in the range of
`float` is a `float` value: the conversion leaves it as it is. -/
theorem toFloat32_of_representable (n k : Int) (hn : |n| < 2 ^ 24) (hk : -149 ≤ k) :
    toFloat32 ((n : ℚ) * (2 : ℚ) ^ k) = (n : ℚ) * (2 : ℚ) ^ k := by
  by_cases h0 : n = 0
  · subst h0
    simp [toFloat32]
  have h2 : (0 : ℚ) < 2 := by norm_num
  have hq0 : (n : ℚ) * (2 : ℚ) ^ k ≠ 0 :=
    mul_ne_zero (by exact_mod_cast h0) (ne_of_gt (zpow_pos h2 _))
  obtain ⟨hlo, _⟩ := binaryExponent_spec _ hq0
  have habs : |(n : ℚ) * (2 : ℚ) ^ k| < (2 : ℚ) ^ (24 + k) := by
    rw [abs_mul, abs_of_pos (zpow_pos h2 k), zpow_add₀ (ne_of_gt h2)]
    apply mul_lt_mul_of_pos_right _ (zpow_pos h2 k)
    have : |(n : ℚ)| < ((2 ^ 24 : Int) : ℚ) := by
      rw [← Int.cast_abs]
      exact_mod_cast hn
    rw [Int.cast_pow] at this
    exact_mod_cast this
  have hexp : binaryExponent ((n : ℚ) * (2 : ℚ) ^ k) < 24 + k := by
    have := lt_of_le_of_lt hlo habs
    exact (zpow_lt_zpow_iff_right₀ (by norm_num : (1 : ℚ) < 2)).mp this
  have hu : max (binaryExponent ((n : ℚ) * (2 : ℚ) ^ k)) (-126) - 23 ≤ k := by
    rcases max_cases (binaryExponent ((n : ℚ) * (2 : ℚ) ^ k)) (-126) with ⟨h, _⟩ | ⟨h, _⟩
    · rw [h]; omega
    · rw [h]; omega
  unfold toFloat32
  rw [if_neg hq0, float32Spacing_eq]
  generalize max (binaryExponent ((n : ℚ) * (2 : ℚ) ^ k)) (-126) - 23 = u at hu
  obtain ⟨d, hd⟩ := Int.eq_ofNat_of_zero_le (show 0 ≤ k - u by omega)
  have hk' : k = u + (d : Int) := by omega
  have hquot : (n : ℚ) * (2 : ℚ) ^ k / (2 : ℚ) ^ u = ((n * 2 ^ d : Int) : ℚ) := by
    rw [hk', zpow_add₀ (ne_of_gt h2), zpow_natCast]
    field_simp
    ring
  rw [hquot, roundHalfEven_intCast, hk', zpow_add₀ (ne_of_gt h2), zpow_natCast]
  push_cast
  ring_nf

/-- An integer below `2 ^ 24` in magnitude is a `float` value. -/
theorem toFloat32_intCast (n : Int) (hn : |n| < 2 ^ 24) : toFloat32 (n : ℚ) = n := by
  have h := toFloat32_of_representable n 0 hn (by norm_num)
  simpa using h

/-- Every `float` value is an integer multiple of the spacing at it. -/
theorem float32_multiple (q : ℚ) (h : toFloat32 q = q) :
    ∃ n : Int, q = (n : ℚ) * (2 : ℚ) ^ (max (binaryExponent q) (-126) - 23) := by
  by_cases h0 : q = 0
  · exact ⟨0, by simp [h0]⟩
  · unfold toFloat32 at h
    rw [if_neg h0, float32Spacing_eq] at h
    exact ⟨_, h.symm⟩

/-- The conversion to `float` of a number from 1 on is at least 1. -/
theorem toFloat32_one_le (q : ℚ) (h : 1 ≤ q) : 1 ≤ toFloat32 q := by
  have h2 : (0 : ℚ) < 2 := by norm_num
  have hq0 : q ≠ 0 := by linarith
  obtain ⟨hlo, hhi⟩ := binaryExponent_spec q hq0
  rw [abs_of_pos (by linarith)] at hlo hhi
  have he : 0 ≤ binaryExponent q := by
    have h1 : (2 : ℚ) ^ (0 : Int) < (2 : ℚ) ^ (binaryExponent q + 1) := by
      rw [zpow_zero]; linarith
    have := (zpow_lt_zpow_iff_right₀ (by norm_num : (1 : ℚ) < 2)).mp h1
    omega
  have hmax : max (binaryExponent q) (-126) = binaryExponent q := max_eq_left (by omega)
  unfold toFloat32
  rw [if_neg hq0, float32Spacing_eq, hmax]
  have hu := zpow_pos h2 (binaryExponent q - 23)
  have hsplit : ((2 ^ 23 : Int) : ℚ) * (2 : ℚ) ^ (binaryExponent q - 23)
      = (2 : ℚ) ^ binaryExponent q := by
    rw [zpow_sub₀ (ne_of_gt h2)]
    push_cast
    field_simp
    norm_num
    ring
  have hint : ((2 ^ 23 : Int) : ℚ) ≤ q / (2 : ℚ) ^ (binaryExponent q - 23) := by
    rw [le_div_iff₀ hu]
    rw [hsplit]
    exact hlo
  have hr := (roundHalfEven_mono_int (q / (2 : ℚ) ^ (binaryExponent q - 23)) (2 ^ 23)).1 hint
  have hr' : ((2 ^ 23 : Int) : ℚ)
      ≤ (roundHalfEven (q / (2 : ℚ) ^ (binaryExponent q - 23)) : ℚ) := by exact_mod_cast hr
  calc (1 : ℚ) ≤ (2 : ℚ) ^ binaryExponent q := by
        have := zpow_le_zpow_right₀ (by norm_num : (1 : ℚ) ≤ 2) he
        simpa using this
    _ = ((2 ^ 23 : Int) : ℚ) * (2 : ℚ) ^ (binaryExponent q - 23) := hsplit.symm
    _ ≤ _ := mul_le_mul_of_nonneg_right hr' (le_of_lt hu)

/-- The conversion to `float` of a number from 0 up to `1 - 2 ^ (-25)` is at least 0 and
below 1. -/
theorem toFloat32_lt_one (q : ℚ) (h0 : 0 ≤ q) (h1 : q < 1 - 1 / 2 ^ 25) :
    0 ≤ toFloat32 q ∧ toFloat32 q < 1 := by
  have h2 : (0 : ℚ) < 2 := by norm_num
  by_cases hq0 : q = 0
  · subst hq0
    simp [toFloat32]
  have hqpos : 0 < q := lt_of_le_of_ne h0 (Ne.symm hq0)
  obtain ⟨hlo, hhi⟩ := binaryExponent_spec q hq0
  rw [abs_of_pos hqpos] at hlo hhi
  have hq1 : q < 1 := by
    have : (0 : ℚ) < 1 / 2 ^ 25 := by positivity
    linarith
  have he : binaryExponent q < 0 := by
    have h3 : (2 : ℚ) ^ binaryExponent q < (2 : ℚ) ^ (0 : Int) := by
      rw [zpow_zero]; linarith
    exact (zpow_lt_zpow_iff_right₀ (by norm_num : (1 : ℚ) < 2)).mp h3
  have hu24 : max (binaryExponent q) (-126) - 23 ≤ -24 := by
    rcases max_cases (binaryExponent q) (-126) with ⟨h, _⟩ | ⟨h, _⟩
    · rw [h]; omega
    · rw [h]; omega
  unfold toFloat32
  rw [if_neg hq0, float32Spacing_eq]
  generalize max (binaryExponent q) (-126) - 23 = u at hu24
  have hu := zpow_pos h2 u
  obtain ⟨d, hd⟩ := Int.eq_ofNat_of_zero_le (show 0 ≤ -u by omega)
  have hud : u = -(d : Int) := by omega
  have hd24 : 24 ≤ d := by omega
  have hpow : (2 : ℚ) ^ u = 1 / (2 : ℚ) ^ d := by
    rw [hud, zpow_neg, zpow_natCast, one_div]
  have hdpos : (0 : ℚ) < (2 : ℚ) ^ d := by positivity
  have hd25 : (2 : ℚ) ^ 24 ≤ (2 : ℚ) ^ d :=
    pow_le_pow_right₀ (by norm_num) hd24
  constructor
  · apply mul_nonneg _ (le_of_lt hu)
    have := (roundHalfEven_mono_int (q / (2 : ℚ) ^ u) 0).1
      (by simpa using div_nonneg h0 (le_of_lt hu))
    exact_mod_cast this
  · have hx : q / (2 : ℚ) ^ u < ((2 ^ d - 1 : Int) : ℚ) + 1 / 2 := by
      rw [hpow, div_div_eq_mul_div, div_one]
      push_cast
      have : q * (2 : ℚ) ^ d < (1 - 1 / 2 ^ 25) * (2 : ℚ) ^ d :=
        mul_lt_mul_of_pos_right h1 hdpos
      have h25 : (1 : ℚ) / 2 ^ 25 * (2 : ℚ) ^ d ≥ 1 / 2 := by
        have : (1 : ℚ) / 2 ^ 25 * (2 : ℚ) ^ 24 = 1 / 2 := by norm_num
        rw [← this]
        exact mul_le_mul_of_nonneg_left hd25 (by positivity)
      linarith
    have hr : roundHalfEven (q / (2 : ℚ) ^ u) ≤ 2 ^ d - 1 := by
      have herr := roundHalfEven_error (q / (2 : ℚ) ^ u)
      rw [abs_le] at herr
      have : (roundHalfEven (q / (2 : ℚ) ^ u) : ℚ) < ((2 ^ d - 1 : Int) : ℚ) + 1 := by
        linarith [herr.2]
      have : roundHalfEven (q / (2 : ℚ) ^ u) < (2 ^ d - 1 : Int) + 1 := by exact_mod_cast this
      omega
    have hr' : (roundHalfEven (q / (2 : ℚ) ^ u) : ℚ) ≤ (2 : ℚ) ^ d - 1 := by
      exact_mod_cast hr
    generalize (roundHalfEven (q / (2 : ℚ) ^ u) : ℚ) = r at hr'
    rw [hpow, mul_one_div, div_lt_one hdpos]
    linarith

/-- A positive integer quotient of 60 by a `float` value is a `float` value: its odd part
divides 15. -/
theorem toFloat32_quotient (f : ℚ) (m : Int) (hf : toFloat32 f = f) (hm : 0 < m)
    (h : (60 : ℚ) / f = (m : ℚ)) : toFloat32 (m : ℚ) = (m : ℚ) := by
  have h2 : (0 : ℚ) < 2 := by norm_num
  have hmq : (0 : ℚ) < (m : ℚ) := by exact_mod_cast hm
  have hf0 : f ≠ 0 := by
    intro h0
    rw [h0, div_zero] at h
    linarith
  have hprod : (60 : ℚ) = (m : ℚ) * f := by
    field_simp at h
    linarith
  obtain ⟨N, hN⟩ := float32_multiple f hf
  generalize max (binaryExponent f) (-126) - 23 = u at hN
  -- the period divides 60 times a power of 2
  have hdvd : ∃ d : Nat, m ∣ 60 * 2 ^ d := by
    by_cases hu : 0 ≤ u
    · obtain ⟨d, rfl⟩ := Int.eq_ofNat_of_zero_le hu
      refine ⟨0, N * 2 ^ d, ?_⟩
      have : ((60 * 2 ^ 0 : Int) : ℚ) = ((m * (N * 2 ^ d) : Int) : ℚ) := by
        push_cast
        rw [hprod, hN, zpow_natCast]
      exact_mod_cast this
    · obtain ⟨d, hd⟩ := Int.eq_ofNat_of_zero_le (show 0 ≤ -u by omega)
      have hud : u = -(d : Int) := by omega
      refine ⟨d, N, ?_⟩
      have : ((60 * 2 ^ d : Int) : ℚ) = ((m * N : Int) : ℚ) := by
        push_cast
        rw [hprod, hN, hud, zpow_neg, zpow_natCast]
        field_simp
      exact_mod_cast this
  obtain ⟨d, hd⟩ := hdvd
  obtain ⟨j, m1, hodd, hm1⟩ := Nat.exists_eq_two_pow_mul_odd (Int.natAbs_ne_zero.mpr (ne_of_gt hm))
  have hmabs : (m.natAbs : Int) = m := by omega
  have hdn : m.natAbs ∣ 60 * 2 ^ d := by
    have := Int.natAbs_dvd_natAbs.mpr hd
    simpa [Int.natAbs_mul, Int.natAbs_pow] using this
  have hm1d : m1 ∣ 15 * 2 ^ (d + 2) := by
    have h1 : m1 ∣ m.natAbs := ⟨2 ^ j, by rw [hm1]; ring⟩
    have h3 : (60 : Nat) * 2 ^ d = 15 * 2 ^ (d + 2) := by ring
    rw [← h3]
    exact dvd_trans h1 hdn
  have hcop : Nat.Coprime m1 (2 ^ (d + 2)) :=
    Nat.Coprime.pow_right _ (Nat.coprime_two_right.mpr hodd)
  have hm15 : m1 ∣ 15 := hcop.dvd_of_dvd_mul_right hm1d
  have hle : m1 ≤ 15 := Nat.le_of_dvd (by norm_num) hm15
  have hrep := toFloat32_of_representable (m1 : Int) (j : Int)
    (by rw [abs_of_nonneg (by omega)]; omega) (by omega)
  have hval : (m : ℚ) = ((m1 : Int) : ℚ) * (2 : ℚ) ^ (j : Int) := by
    have : (m : ℚ) = ((m.natAbs : Int) : ℚ) := by rw [hmabs]
    rw [this, hm1, zpow_natCast]
    push_cast
    ring
  rw [hval]
  exact hrep

/-- The `float` values above 60 start at `60 + 2 ^ (-18)`: the spacing there is `2 ^ (-18)`. -/
theorem float32_above_sixty (f : ℚ) (hf : toFloat32 f = f) (h : 60 < f) :
    60 + 1 / 2 ^ 18 ≤ f := by
  have h2 : (0 : ℚ) < 2 := by norm_num
  have hf0 : f ≠ 0 := by linarith
  obtain ⟨_, hhi⟩ := binaryExponent_spec f hf0
  rw [abs_of_pos (by linarith)] at hhi
  have he : 5 ≤ binaryExponent f := by
    have h3 : (2 : ℚ) ^ (5 : Int) < (2 : ℚ) ^ (binaryExponent f + 1) := by
      have : (2 : ℚ) ^ (5 : Int) = 32 := by norm_num
      rw [this]
      linarith
    have := (zpow_lt_zpow_iff_right₀ (by norm_num : (1 : ℚ) < 2)).mp h3
    omega
  obtain ⟨N, hN⟩ := float32_multiple f hf
  have hu : -18 ≤ max (binaryExponent f) (-126) - 23 := by
    have := le_max_left (binaryExponent f) (-126)
    omega
  generalize max (binaryExponent f) (-126) - 23 = u at hN hu
  obtain ⟨d, hd⟩ := Int.eq_ofNat_of_zero_le (show 0 ≤ u + 18 by omega)
  have hud : u = (d : Int) + (-18) := by omega
  have hval : f = ((N * 2 ^ d : Int) : ℚ) / 2 ^ 18 := by
    rw [hN, hud, zpow_add₀ (ne_of_gt h2), zpow_natCast, zpow_neg]
    push_cast
    have : (2 : ℚ) ^ (18 : Int) = 2 ^ 18 := by norm_num
    rw [this]
    field_simp
  have hK : (60 * 2 ^ 18 : Int) < N * 2 ^ d := by
    have : ((60 * 2 ^ 18 : Int) : ℚ) < ((N * 2 ^ d : Int) : ℚ) := by
      rw [hval, lt_div_iff₀ (by positivity)] at h
      push_cast
      push_cast at h
      linarith
    exact_mod_cast this
  have hK' : ((60 * 2 ^ 18 + 1 : Int) : ℚ) ≤ ((N * 2 ^ d : Int) : ℚ) := by
    exact_mod_cast Int.add_one_le_iff.mpr hK
  rw [hval, le_div_iff₀ (by positivity)]
  push_cast at hK' ⊢
  linarith

end Float32

section Timing

variable {B : Type}

/-- The conversion `int(x)` leaves a whole number as it is. -/
theorem truncToInt_intCast (m : Int) : truncToInt (m : ℚ) = m := by
  simp [truncToInt]

/-- The conversion `int(x)` of a value from 0 up to, but not including, 1 is 0. -/
theorem truncToInt_of_lt_one (q : ℚ) (h0 : 0 ≤ q) (h1 : q < 1) : truncToInt q = 0 := by
  unfold truncToInt
  have hnum : 0 ≤ q.num := Rat.num_nonneg.mpr h0
  have hlt : q.num < (q.den : Int) := Rat.lt_one_iff_num_lt_denom.mp h1
  exact Int.tdiv_eq_zero_of_lt hnum hlt

/-- C11, as the code behaves: periodic timing for a frequency `f > 0` that is a `float` value
(the type of the parameter and of the member) and for which `FPS / f` is a whole number `m`
within `int`. The `float` quotient is then `m` itself, the divisor `int(FPS / f)` is
`m = floor(FPS / f)`, and for every value of the frame counter (in particular every `n ≥ 0`)
`canShoot(f)` answers true exactly when the frame counter is a multiple of `floor(FPS / f)`;
the member `canShoot()` of a pattern whose shot frequency is `f` gives the same answer and
leaves the pattern as it is. -/
theorem Pattern.canShoot_periodic (p : Pattern B) (f : ℚ) (m : Int) (hfloat : toFloat32 f = f)
    (hf : 0 < f) (hm : FPS / f = m) (_hint : m < 2147483648) :
    Pattern.shotPeriod f = ⌊FPS / f⌋ ∧
    (p.canShootAt f = true ↔ ⌊FPS / f⌋ ∣ p.frameCounter) ∧
    (p.shotFrequency = f →
      (p.canShoot.1 = true ↔ ⌊FPS / f⌋ ∣ p.frameCounter) ∧ p.canShoot.2 = p) := by
  have hfloor : ⌊FPS / f⌋ = m := by rw [hm]; exact Int.floor_intCast m
  have hmpos : 0 < m := by
    have h1 : (0 : ℚ) < FPS / f := div_pos (by norm_num [FPS]) hf
    rw [hm] at h1
    exact_mod_cast h1
  have hquot : toFloat32 (m : ℚ) = (m : ℚ) :=
    toFloat32_quotient f m hfloat hmpos (by simpa [FPS] using hm)
  have hperiod : Pattern.shotPeriod f = m := by
    unfold Pattern.shotPeriod
    rw [hm, hquot]
    exact truncToInt_intCast m
  have key : ∀ n : Int, Int.tmod n m = 0 ↔ m ∣ n := by
    intro n
    constructor
    · intro h
      exact Int.dvd_of_tmod_eq_zero h
    · intro h
      exact Int.tmod_eq_zero_of_dvd h
  refine ⟨by rw [hperiod, hfloor], ?_, ?_⟩
  · unfold Pattern.canShootAt
    rw [hperiod, hfloor]
    simp [key]
  · intro hp
    have hne : p.shotFrequency ≠ 0 := by rw [hp]; exact ne_of_gt hf
    unfold Pattern.canShoot
    rw [if_neg hne, hp, hperiod, hfloor]
    simp [key]

/-- C11 as amended, at frequency 4 (a `float` value, period 15) and frame 30, for `canShoot(4)`
and for `canShoot()` of a pattern constructed with shot frequency 4. -/
theorem Pattern.canShoot_periodic_witness :
    toFloat32 4 = 4 ∧ ⌊FPS / 4⌋ = 15 ∧ Pattern.shotPeriod 4 = ⌊FPS / 4⌋ ∧
    (({ (Pattern.new ⟨100, 100⟩ 3 4 5 : Pattern PointBullet) with frameCounter := 30 }).canShootAt 4
        = true ↔ ⌊FPS / 4⌋ ∣ (30 : Int)) ∧
    (({ (Pattern.new ⟨100, 100⟩ 3 4 5 : Pattern PointBullet) with frameCounter := 30 }).canShoot.1
        = true ↔ ⌊FPS / 4⌋ ∣ (30 : Int)) := by
  have h := Pattern.canShoot_periodic
    { (Pattern.new ⟨100, 100⟩ 3 4 5 : Pattern PointBullet) with frameCounter := 30 } 4 15
    (by decide!) (by norm_num) (by norm_num [FPS]) (by norm_num)
  exact ⟨by decide!, by norm_num [FPS], h.1, h.2.1, (h.2.2 rfl).1⟩

/-- C11 fails as stated: for the frequency 1.2 the quotient `FPS / 1.2 = 50` is a whole
number, but the call `canShoot(1.2)` receives the `float` nearest to 1.2, which is
`5033165 / 4194304`, a little above 1.2; the `float` quotient lies below 50 and the divisor
`int(FPS / f)` is 49. At frame counter 49 the call answers true although 49 is not a multiple
of 50, and at frame counter 50 it answers false. -/
theorem Pattern.canShoot_decimal_frequency :
    (0 : ℚ) < 6 / 5 ∧ FPS / (6 / 5) = ((50 : Int) : ℚ) ∧ ⌊FPS / (6 / 5)⌋ = 50 ∧
    toFloat32 (6 / 5) = 5033165 / 4194304 ∧
    Pattern.shotPeriod (toFloat32 (6 / 5)) = 49 ∧
    ({ (Pattern.new ⟨100, 100⟩ 3 0 5 : Pattern PointBullet) with
        frameCounter := 49 }).canShootAt (toFloat32 (6 / 5)) = true ∧
    ¬ ((50 : Int) ∣ 49) ∧
    ({ (Pattern.new ⟨100, 100⟩ 3 0 5 : Pattern PointBullet) with
        frameCounter := 50 }).canShootAt (toFloat32 (6 / 5)) = false ∧
    (50 : Int) ∣ 50 := by
  refine ⟨by norm_num, by norm_num [FPS], by norm_num [FPS], by decide!, by decide!, by decide!,
    by decide, by decide!, by decide⟩

/-- A stream count below `2 ^ 24` in magnitude is stored as it is. -/
theorem WavePattern.storedStreamCount_eq (streamCount : Int) (h : |streamCount| < 2 ^ 24) :
    WavePattern.storedStreamCount streamCount = streamCount := by
  unfold WavePattern.storedStreamCount
  rw [toFloat32_intCast streamCount h]
  exact truncToInt_intCast streamCount

/-- The stream count 16777217 = `2 ^ 24 + 1` is not a `float` value: a pattern derived from
`WavePattern` stores 16777216 for it. -/
theorem WavePattern.storedStreamCount_rounds :
    WavePattern.storedStreamCount 16777217 = 16777216 ∧
    (FlyingSaucer.new ⟨360, 300⟩ 16777217 1 5 : FlyingSaucer PointBullet).streamCount
      = 16777216 := by
  constructor <;> decide!

/-- A `WindGod` constructed with the `float` nearest to 0.35 as refresh delay has
`refreshFrames = 21`: the exact product with `FPS` lies below 21 and the `float` product is
21. -/
theorem WindGod.new_refreshFrames_rounds :
    toFloat32 (35 / 100) * FPS < 21 ∧
    (WindGod.new sampleConsts ⟨360, 300⟩ (toFloat32 (35 / 100)) 5
      : WindGod PointBullet).refreshFrames = 21 := by
  constructor <;> decide!

/-- The shot periods of the `float` values nearest to 0.1 and 0.2 are 600 and 300: the `float`
quotients are rounded up to the whole numbers. -/
theorem Pattern.shotPeriod_of_tenths :
    Pattern.shotPeriod (toFloat32 (1 / 10)) = 600 ∧
    Pattern.shotPeriod (toFloat32 (1 / 5)) = 300 := by
  constructor <;> decide!

/-- A frequency from `FPS * (1 + 2 ^ (-24))` on has shot period `int(FPS / frequency) = 0`. -/
theorem Pattern.shotPeriod_far_above_FPS (f : ℚ) (h : FPS * (1 + 1 / 2 ^ 24) ≤ f) :
    Pattern.shotPeriod f = 0 := by
  unfold Pattern.shotPeriod
  have hF : (0 : ℚ) < FPS := by norm_num [FPS]
  have hf : 0 < f := lt_of_lt_of_le (by norm_num [FPS]) h
  have hq : FPS / f < 1 - 1 / 2 ^ 25 := by
    rw [div_lt_iff₀ hf]
    have : FPS * (1 + 1 / 2 ^ 24) * (1 - 1 / 2 ^ 25) ≤ f * (1 - 1 / 2 ^ 25) :=
      mul_le_mul_of_nonneg_right h (by norm_num)
    have h2 : FPS < FPS * (1 + 1 / 2 ^ 24) * (1 - 1 / 2 ^ 25) := by norm_num [FPS]
    linarith
  have hb := toFloat32_lt_one (FPS / f) (le_of_lt (div_pos hF hf)) hq
  exact truncToInt_of_lt_one _ hb.1 hb.2

/-- A frequency above `FPS` that is a `float` value has shot period
`int(FPS / frequency) = 0`. -/
theorem Pattern.shotPeriod_above_FPS (f : ℚ) (hfloat : toFloat32 f = f) (h : FPS < f) :
    Pattern.shotPeriod f = 0 := by
  apply Pattern.shotPeriod_far_above_FPS
  have hgap := float32_above_sixty f hfloat (by simpa [FPS] using h)
  have : FPS * (1 + 1 / 2 ^ 24) ≤ 60 + 1 / 2 ^ 18 := by norm_num [FPS]
  linarith

/-- The constructor stores the shot frequency it is given, whatever its value. -/
theorem Pattern.new_shotFrequency (sourcePos : Vector2f) (streamCount : Int) (shotFrequency : ℚ)
    (baseSpeed : ℚ) :
    (Pattern.new sourcePos streamCount shotFrequency baseSpeed : Pattern B).shotFrequency
      = shotFrequency := rfl

/-- C12. The constructor at shot frequency 120: the stored shot frequency is 120, not `FPS`,
and the divisor `int(FPS / shotFrequency)` of `canShoot()` is 0, not 1. -/
theorem Pattern.new_frequency_not_clamped :
    (Pattern.new ⟨100, 100⟩ 3 120 5 : Pattern PointBullet).shotFrequency = 120 ∧
    (Pattern.new ⟨100, 100⟩ 3 120 5 : Pattern PointBullet).shotFrequency ≠ FPS ∧
    Pattern.shotPeriod (Pattern.new ⟨100, 100⟩ 3 120 5 : Pattern PointBullet).shotFrequency
      = 0 := by
  refine ⟨rfl, ?_, ?_⟩
  · show (120 : ℚ) ≠ FPS
    norm_num [FPS]
  · exact Pattern.shotPeriod_far_above_FPS 120 (by norm_num [FPS])

end Timing

section Deactivate

variable {B : Type}

/-- The calls `setActive(false)` and `resetPattern()` leave a pattern inactive with frame
counter 0, owning the bullets it owned, each after its `resetBullet()`. -/
theorem AnyPattern.resetPattern_setActive (api : BulletApi B) (k : Consts) (p : AnyPattern B)
    (g : Rng) :
    ((p.setActive false).resetPattern api k g).1.getActive = false ∧
    ((p.setActive false).resetPattern api k g).1.toPattern.frameCounter = 0 ∧
    ((p.setActive false).resetPattern api k g).1.getBullets
      = p.getBullets.map api.resetBullet := by
  cases p <;>
    simp [AnyPattern.setActive, AnyPattern.resetPattern, AnyPattern.mapPattern,
      AnyPattern.getActive, AnyPattern.getBullets, AnyPattern.toPattern, Pattern.resetPattern,
      WindGod.resetPattern, MercuryPoison.resetPattern, Prod.map]

/-- The call `deleteAllBullets()` empties the bullet vector and the wave bookkeeping and leaves
the frame counter and the active flag alone. -/
theorem AnyPattern.deleteAllBullets_spec (p : AnyPattern B) :
    p.deleteAllBullets.getActive = p.getActive ∧
    p.deleteAllBullets.toPattern.frameCounter = p.toPattern.frameCounter ∧
    p.deleteAllBullets.getBullets = [] ∧
    ∀ w, p.deleteAllBullets.toWavePattern? = some w →
      w.waveBulletCount = [] ∧ w.waveFrameCount = [] ∧ w.currentBulletCount = 0 := by
  cases p <;>
    simp [AnyPattern.deleteAllBullets, AnyPattern.getActive, AnyPattern.getBullets,
      AnyPattern.toPattern, AnyPattern.toWavePattern?, Pattern.deleteAllBullets,
      WavePattern.deleteAllBullets]

/-- The loop of `deactivateAllPatterns()` keeps the number of patterns. -/
theorem PatternManager.deactivateLoop_length (api : BulletApi B) (k : Consts)
    (l : List (AnyPattern B)) : ∀ (i : Nat) (g : Rng),
    (PatternManager.deactivateLoop api k i l g).1.length = l.length := by
  induction l with
  | nil => intro i g; rfl
  | cons p rest ih =>
    intro i g
    simp [PatternManager.deactivateLoop, ih]

/-- The loop of `deactivateAllPatterns()` treats the pattern at every index on its own: it is
deactivated and reset, and its bullets are deleted unless its index is 0. -/
theorem PatternManager.deactivateLoop_getElem? (api : BulletApi B) (k : Consts)
    (l : List (AnyPattern B)) : ∀ (i : Nat) (g : Rng) (j : Nat) (p : AnyPattern B),
    l[j]? = some p →
    ∃ gj : Rng,
      (PatternManager.deactivateLoop api k i l g).1[j]?
        = some (if i + j ≠ 0 then ((p.setActive false).resetPattern api k gj).1.deleteAllBullets
            else ((p.setActive false).resetPattern api k gj).1) := by
  induction l with
  | nil => intro i g j p h; simp at h
  | cons q rest ih =>
    intro i g j p h
    cases j with
    | zero =>
      simp only [List.getElem?_cons_zero, Option.some.injEq] at h
      subst h
      exact ⟨g, by simp [PatternManager.deactivateLoop]⟩
    | succ j =>
      simp only [List.getElem?_cons_succ] at h
      obtain ⟨gj, hgj⟩ := ih (i + 1) ((q.setActive false).resetPattern api k g).2 j p h
      refine ⟨gj, ?_⟩
      have e : i + 1 + j = i + (j + 1) := by omega
      rw [e] at hgj
      simpa [PatternManager.deactivateLoop] using hgj

/-- C13. `PatternManager::deactivateAllPatterns()` on any manager, whatever the state of its
patterns: the number of patterns is kept, and the pattern at every index is afterwards inactive
with frame counter 0. The pattern at index 0 owns the same bullets as before, in the same order,
each after the `resetBullet()` call that `resetPattern()` makes on it; every pattern at an index
from 1 on owns no bullet, and if its class derives from `WavePattern` both wave vectors are empty
and `currentBulletCount` is 0. -/
theorem PatternManager.deactivateAllPatterns_spec (api : BulletApi B) (k : Consts)
    (m : PatternManager B) (g : Rng) :
    (m.deactivateAllPatterns api k g).1.activePatterns.length = m.activePatterns.length ∧
    (∀ (i : Nat) (p : AnyPattern B), m.activePatterns[i]? = some p →
      ∃ q : AnyPattern B, (m.deactivateAllPatterns api k g).1.activePatterns[i]? = some q ∧
        q.getActive = false ∧ q.toPattern.frameCounter = 0 ∧
        (i = 0 → q.getBullets = p.getBullets.map api.resetBullet) ∧
        (1 ≤ i → q.getBullets = [] ∧
          ∀ w, q.toWavePattern? = some w →
            w.waveBulletCount = [] ∧ w.waveFrameCount = [] ∧ w.currentBulletCount = 0)) := by
  refine ⟨PatternManager.deactivateLoop_length api k m.activePatterns 0 g, ?_⟩
  intro i p h
  obtain ⟨gi, hgi⟩ := PatternManager.deactivateLoop_getElem? api k m.activePatterns 0 g i p h
  have hr := AnyPattern.resetPattern_setActive api k p gi
  have hd := AnyPattern.deleteAllBullets_spec ((p.setActive false).resetPattern api k gi).1
  by_cases hi : i = 0
  · subst hi
    refine ⟨_, hgi, ?_⟩
    simp only [Nat.add_zero, ne_eq, not_true_eq_false, if_false]
    exact ⟨hr.1, hr.2.1, fun _ => hr.2.2, fun h1 => absurd h1 (by omega)⟩
  · refine ⟨_, hgi, ?_⟩
    have hne : 0 + i ≠ 0 := by omega
    simp only [if_pos hne]
    exact ⟨hd.1.trans hr.1, hd.2.1.trans hr.2.1, fun h0 => absurd h0 hi,
      fun _ => ⟨hd.2.2.1, hd.2.2.2⟩⟩

/-- C13 on a manager with three patterns that all own bullets: afterwards the `Bowap` at index
0 is inactive at frame 0 with its two bullets, and the `FlyingSaucer` at index 1 is inactive at
frame 0 with no bullet and empty wave vectors. -/
theorem PatternManager.deactivateAllPatterns_spec_witness :
    (∃ q : AnyPattern PointBullet,
      (threePatternManager.deactivateAllPatterns pointApi sampleConsts sampleRng).1.activePatterns[0]?
        = some q ∧
      q.getActive = false ∧ q.toPattern.frameCounter = 0 ∧
      q.getBullets = [PointBullet.at 100 100, PointBullet.at 5000 100]) ∧
    (∃ q : AnyPattern PointBullet,
      (threePatternManager.deactivateAllPatterns pointApi sampleConsts sampleRng).1.activePatterns[1]?
        = some q ∧
      q.getActive = false ∧ q.toPattern.frameCounter = 0 ∧ q.getBullets = [] ∧
      ∀ w, q.toWavePattern? = some w →
        w.waveBulletCount = [] ∧ w.waveFrameCount = [] ∧ w.currentBulletCount = 0) := by
  have h := (PatternManager.deactivateAllPatterns_spec pointApi sampleConsts threePatternManager
    sampleRng).2
  constructor
  · obtain ⟨q, h1, h2, h3, h4, _⟩ := h 0 _ rfl
    exact ⟨q, h1, h2, h3, h4 rfl⟩
  · obtain ⟨q, h1, h2, h3, _, h5⟩ := h 1 _ rfl
    exact ⟨q, h1, h2, h3, (h5 (le_refl 1)).1, (h5 (le_refl 1)).2⟩

end Deactivate

section Collision

variable {B : Type}

/-- C14. `PatternManager::checkPlayerCollision(hitbox)` answers true exactly when some pattern
of the manager is active and owns a bullet whose own collision test against the hitbox is true.
The answer is the same as on the manager without its inactive patterns, so their bullets never
decide it. The member assigns to nothing: it is a function from the manager and the hitbox to
the answer, and the manager is what it was. -/
theorem PatternManager.checkPlayerCollision_spec (api : BulletApi B) (m : PatternManager B)
    (hitbox : CircleShape) :
    (m.checkPlayerCollision api hitbox = true ↔
      ∃ p ∈ m.activePatterns, p.getActive = true ∧
        ∃ b ∈ p.getBullets, api.checkPlayerCollision b hitbox = true) ∧
    m.checkPlayerCollision api hitbox
      = PatternManager.checkPlayerCollision api
          { activePatterns := m.activePatterns.filter AnyPattern.getActive } hitbox := by
  constructor
  · simp [PatternManager.checkPlayerCollision, List.any_eq_true]
  · simp only [PatternManager.checkPlayerCollision]
    induction m.activePatterns with
    | nil => rfl
    | cons p rest ih =>
      by_cases hp : p.getActive = true
      · simp only [List.filter_cons, hp, if_true, List.any_cons, ih]
      · have hp2 : p.getActive = false := by simpa using hp
        simp only [List.filter_cons, hp2, Bool.false_and, Bool.false_or, List.any_cons, ih]
        rfl

/-- C14 on a manager with two active patterns and an inactive one: a hitbox on a bullet of the
active `FlyingSaucer` collides, a hitbox on the only bullet of the inactive `QedRipples` does
not. -/
theorem PatternManager.checkPlayerCollision_spec_witness :
    threePatternManager.checkPlayerCollision pointApi ⟨⟨300, 300⟩, 4⟩ = true ∧
    threePatternManager.checkPlayerCollision pointApi ⟨⟨-900, 0⟩, 4⟩ = false ∧
    (threePatternManager.checkPlayerCollision pointApi ⟨⟨-900, 0⟩, 4⟩ = true ↔
      ∃ p ∈ threePatternManager.activePatterns, p.getActive = true ∧
        ∃ b ∈ p.getBullets, pointApi.checkPlayerCollision b ⟨⟨-900, 0⟩, 4⟩ = true) :=
  ⟨by decide!, by decide!,
    (PatternManager.checkPlayerCollision_spec pointApi threePatternManager ⟨⟨-900, 0⟩, 4⟩).1⟩

end Collision

section TargetRadius

variable {B : Type}

/-- C17. `FlyingSaucer::getTargetRadius(frame)` called twice in a row, in any state of the
cache `targetRadii` and for any frame (in particular every `frame ≥ 0`): the second call returns
the value the first call returned and leaves the pattern, and with it the cache, exactly as the
first call left it. -/
theorem FlyingSaucer.getTargetRadius_idempotent (k : Consts) (p : FlyingSaucer B) (frame : Int) :
    (FlyingSaucer.getTargetRadius k (FlyingSaucer.getTargetRadius k p frame).2 frame).1
      = (FlyingSaucer.getTargetRadius k p frame).1 ∧
    (FlyingSaucer.getTargetRadius k (FlyingSaucer.getTargetRadius k p frame).2 frame).2
      = (FlyingSaucer.getTargetRadius k p frame).2 := by
  by_cases h1 : 0 ≤ frame ∧ frame < (p.targetRadii.length : Int)
  · simp [FlyingSaucer.getTargetRadius, h1]
  · by_cases h2 : (p.targetRadii.length : Int) ≠ frame
    · simp [FlyingSaucer.getTargetRadius, h1, h2]
    · have h3 : (p.targetRadii.length : Int) = frame := not_not.mp h2
      have h4 : frame.toNat = p.targetRadii.length := by omega
      have h0 : 0 ≤ frame := by omega
      have e1 : FlyingSaucer.getTargetRadius k p frame
          = (FlyingSaucer.computeTargetRadius k frame,
              { p with
                targetRadii := p.targetRadii ++ [FlyingSaucer.computeTargetRadius k frame] }) := by
        unfold FlyingSaucer.getTargetRadius
        rw [if_neg h1, if_neg h2]
      rw [e1]
      have hlt : 0 ≤ frame ∧
          frame < ((p.targetRadii ++ [FlyingSaucer.computeTargetRadius k frame]).length : Int) := by
        constructor
        · exact h0
        · simp only [List.length_append, List.length_singleton]; omega
      unfold FlyingSaucer.getTargetRadius
      simp only [if_pos hlt]
      constructor
      · rw [h4]
        simp
      · trivial

end TargetRadius

section Bounce

variable {B : Type}

/-- The logged loop body computes the bullet that the loop body computes. -/
theorem QedRipples.moveBulletLogged_fst (api : BulletApi B) (bb : FloatRect) (b : B) :
    (QedRipples.moveBulletLogged api bb b).1 = QedRipples.moveBullet api bb b := by
  unfold QedRipples.moveBulletLogged QedRipples.moveBullet
  simp only []
  split_ifs <;> rfl

/-- After `n` calls of `QedRipples::processMovement()` the pattern owns, at every index, the
bullet that the `n` logged steps make of the bullet it owned there. -/
theorem QedRipples.processMovementN_bullets (api : BulletApi B) (n : Nat) :
    ∀ p : QedRipples B,
      (QedRipples.processMovementN api n p).bullets
        = p.bullets.map (fun b => (QedRipples.stepsLogged api p.bounceBounds n b).1) ∧
      (QedRipples.processMovementN api n p).bounceBounds = p.bounceBounds := by
  induction n with
  | zero => intro p; simp [QedRipples.processMovementN, QedRipples.stepsLogged]
  | succ n ih =>
    intro p
    have h := ih (QedRipples.processMovement api p)
    simp only [QedRipples.processMovementN]
    refine ⟨?_, h.2⟩
    rw [h.1]
    simp [QedRipples.processMovement, QedRipples.stepsLogged, QedRipples.moveBulletLogged_fst]

/-- A bullet that is flagged BOUNCED only moves: no flip is applied to it. -/
theorem QedRipples.moveBulletLogged_bounced (api : BulletApi B) (laws : api.BounceLaws)
    (bb : FloatRect) (b : B) (hb : api.getFlag b = BulletFlag.BOUNCED) :
    QedRipples.moveBulletLogged api bb b = (api.processMovement b, []) := by
  have hf : api.getFlag (api.processMovement b) = BulletFlag.BOUNCED := by
    rw [laws.getFlag_processMovement, hb]
  unfold QedRipples.moveBulletLogged
  simp only [hf, true_or, if_true]
  split_ifs <;> rfl

/-- A bullet that is flagged BOUNCED is not flipped in any number of steps and stays
flagged. -/
theorem QedRipples.stepsLogged_bounced (api : BulletApi B) (laws : api.BounceLaws)
    (bb : FloatRect) (n : Nat) :
    ∀ b : B, api.getFlag b = BulletFlag.BOUNCED →
      (QedRipples.stepsLogged api bb n b).2 = [] ∧
      api.getFlag (QedRipples.stepsLogged api bb n b).1 = BulletFlag.BOUNCED := by
  induction n with
  | zero => intro b hb; exact ⟨rfl, hb⟩
  | succ n ih =>
    intro b hb
    have h1 := QedRipples.moveBulletLogged_bounced api laws bb b hb
    have hf : api.getFlag (api.processMovement b) = BulletFlag.BOUNCED := by
      rw [laws.getFlag_processMovement, hb]
    have h2 := ih (api.processMovement b) hf
    simp only [QedRipples.stepsLogged, h1, List.nil_append]
    exact h2

/-- One step applies no flip, or exactly one flip to a bullet that was not flagged BOUNCED,
after which the bullet is flagged BOUNCED and has exactly one velocity component negated. -/
theorem QedRipples.moveBulletLogged_cases (api : BulletApi B) (laws : api.BounceLaws)
    (bb : FloatRect) (b : B) :
    (QedRipples.moveBulletLogged api bb b = (api.processMovement b, [])) ∨
    (api.getFlag b ≠ BulletFlag.BOUNCED ∧
      api.getFlag (QedRipples.moveBulletLogged api bb b).1 = BulletFlag.BOUNCED ∧
      (((QedRipples.moveBulletLogged api bb b).2 = [Flip.flipX] ∧
          api.getVelocity (QedRipples.moveBulletLogged api bb b).1
            = ⟨-(api.getVelocity (api.processMovement b)).x,
                (api.getVelocity (api.processMovement b)).y⟩) ∨
        ((QedRipples.moveBulletLogged api bb b).2 = [Flip.flipY] ∧
          api.getVelocity (QedRipples.moveBulletLogged api bb b).1
            = ⟨(api.getVelocity (api.processMovement b)).x,
                -(api.getVelocity (api.processMovement b)).y⟩))) := by
  by_cases hb : api.getFlag b = BulletFlag.BOUNCED
  · exact Or.inl (QedRipples.moveBulletLogged_bounced api laws bb b hb)
  · have hf : api.getFlag (api.processMovement b) ≠ BulletFlag.BOUNCED := by
      rw [laws.getFlag_processMovement]; exact hb
    unfold QedRipples.moveBulletLogged
    simp only []
    split_ifs with h1 h2 h3
    · exact Or.inl rfl
    · refine Or.inr ⟨hb, laws.getFlag_setFlag _ _, Or.inl ⟨rfl, ?_⟩⟩
      simp only [laws.getVelocity_setFlag, laws.getVelocity_flipX]
    · refine Or.inr ⟨hb, laws.getFlag_setFlag _ _, Or.inr ⟨rfl, ?_⟩⟩
      simp only [laws.getVelocity_setFlag, laws.getVelocity_flipY]
    · exact Or.inl rfl

/-- In any number of steps at most one flip is applied to a bullet. -/
theorem QedRipples.stepsLogged_length (api : BulletApi B) (laws : api.BounceLaws)
    (bb : FloatRect) (n : Nat) :
    ∀ b : B, (QedRipples.stepsLogged api bb n b).2.length ≤ 1 := by
  induction n with
  | zero => intro b; simp [QedRipples.stepsLogged]
  | succ n ih =>
    intro b
    simp only [QedRipples.stepsLogged]
    rcases QedRipples.moveBulletLogged_cases api laws bb b with h | ⟨_, hflag, h | h⟩
    · rw [h]
      simpa using ih (api.processMovement b)
    · have h2 := (QedRipples.stepsLogged_bounced api laws bb n _ hflag).1
      rw [h2, h.1]
      simp
    · have h2 := (QedRipples.stepsLogged_bounced api laws bb n _ hflag).1
      rw [h2, h.1]
      simp

/-- The test double keeps the laws of the bullet flag and of the flips. -/
theorem pointApi_bounceLaws : pointApi.BounceLaws :=
  { getFlag_setFlag := fun _ _ => rfl
    getFlag_processMovement := fun _ => rfl
    getVelocity_flipX := fun _ => rfl
    getVelocity_flipY := fun _ => rfl
    getVelocity_setFlag := fun _ _ => rfl }

/-- C19. Bounce once: for bullet classes whose flag is a tag that only `setFlag` writes and
whose `flipX` and `flipY` negate one velocity component each, and for every `QedRipples`
pattern and every number `n` of `processMovement()` calls: the pattern then owns, at every
index, what the `n` logged steps make of the bullet it owned there; the flips applied to a
bullet in those `n` steps are at most one, whatever flag it starts with (NEUTRAL at creation);
a bullet flagged BOUNCED is not flipped at all and stays flagged; and a step that flips applies
exactly one of `flipX` and `flipY` to a bullet that was not flagged BOUNCED, negating exactly
one component of the velocity the bullet has after its movement, and flags it BOUNCED. -/
theorem QedRipples.bounce_once (api : BulletApi B) (laws : api.BounceLaws) (p : QedRipples B)
    (n : Nat) :
    (QedRipples.processMovementN api n p).bullets
      = p.bullets.map (fun b => (QedRipples.stepsLogged api p.bounceBounds n b).1) ∧
    (∀ b : B, (QedRipples.stepsLogged api p.bounceBounds n b).2.length ≤ 1) ∧
    (∀ b : B, api.getFlag b = BulletFlag.BOUNCED →
      (QedRipples.stepsLogged api p.bounceBounds n b).2 = [] ∧
      api.getFlag (QedRipples.stepsLogged api p.bounceBounds n b).1 = BulletFlag.BOUNCED) ∧
    (∀ b : B,
      ((QedRipples.moveBulletLogged api p.bounceBounds b).1
        = QedRipples.moveBullet api p.bounceBounds b) ∧
      ((QedRipples.moveBulletLogged api p.bounceBounds b = (api.processMovement b, [])) ∨
        (api.getFlag b ≠ BulletFlag.BOUNCED ∧
          api.getFlag (QedRipples.moveBulletLogged api p.bounceBounds b).1
            = BulletFlag.BOUNCED ∧
          (((QedRipples.moveBulletLogged api p.bounceBounds b).2 = [Flip.flipX] ∧
              api.getVelocity (QedRipples.moveBulletLogged api p.bounceBounds b).1
                = ⟨-(api.getVelocity (api.processMovement b)).x,
                    (api.getVelocity (api.processMovement b)).y⟩) ∨
            ((QedRipples.moveBulletLogged api p.bounceBounds b).2 = [Flip.flipY] ∧
              api.getVelocity (QedRipples.moveBulletLogged api p.bounceBounds b).1
                = ⟨(api.getVelocity (api.processMovement b)).x,
                    -(api.getVelocity (api.processMovement b)).y⟩))))) :=
  ⟨(QedRipples.processMovementN_bullets api n p).1,
    QedRipples.stepsLogged_length api laws p.bounceBounds n,
    QedRipples.stepsLogged_bounced api laws p.bounceBounds n,
    fun b => ⟨QedRipples.moveBulletLogged_fst api p.bounceBounds b,
      QedRipples.moveBulletLogged_cases api laws p.bounceBounds b⟩⟩

/-- C19 on a pattern with one bullet that leaves the screen through the top edge in the first
of four steps: it is flipped once (`flipY`), and the three later steps do not flip it. -/
theorem QedRipples.bounce_once_witness :
    (QedRipples.stepsLogged pointApi SCREENBOUNDS 4 risingBullet).2 = [Flip.flipY] ∧
    (QedRipples.stepsLogged pointApi SCREENBOUNDS 4 risingBullet).2.length ≤ 1 ∧
    (QedRipples.processMovementN pointApi 4
        { (QedRipples.new ⟨100, 100⟩ 3 1 5 SCREENBOUNDS : QedRipples PointBullet) with
          bullets := [risingBullet] }).bullets
      = [{ position := ⟨100, 65⟩, velocity := ⟨0, 10⟩, flag := BulletFlag.BOUNCED }] := by
  have h := QedRipples.bounce_once pointApi pointApi_bounceLaws
    { (QedRipples.new ⟨100, 100⟩ 3 1 5 SCREENBOUNDS : QedRipples PointBullet) with
      bullets := [risingBullet] } 4
  refine ⟨by decide!, h.2.1 risingBullet, ?_⟩
  rw [h.1]
  decide!

/-- A bullet whose position after its movement step lies strictly below the bottom edge of the
bounce region is left as its own movement step leaves it: not flipped, not tagged. -/
theorem QedRipples.moveBullet_below (api : BulletApi B) (bb : FloatRect) (b : B)
    (h : (api.getPosition (api.processMovement b)).y > bb.top + bb.height) :
    QedRipples.moveBulletLogged api bb b = (api.processMovement b, []) := by
  unfold QedRipples.moveBulletLogged
  simp only [h, or_true, if_true]
  split_ifs <;> rfl

/-- C20. A bullet that its movement step puts exactly on the bottom edge of the bounce region
(`y = top + height = 880` for `SCREENBOUNDS`): the position is not contained in the region, the
test `pos.y > top + height` of the loop body is false, and the bullet is flipped with `flipY`
and tagged BOUNCED. -/
theorem QedRipples.moveBullet_on_bottom_edge :
    SCREENBOUNDS.top + SCREENBOUNDS.height = 880 ∧
    pointApi.getPosition (pointApi.processMovement sinkingBullet) = ⟨100, 880⟩ ∧
    SCREENBOUNDS.contains ⟨100, 880⟩ = false ∧
    QedRipples.moveBulletLogged pointApi SCREENBOUNDS sinkingBullet
      = ({ position := ⟨100, 880⟩, velocity := ⟨0, -5⟩, flag := BulletFlag.BOUNCED },
          [Flip.flipY]) ∧
    QedRipples.moveBullet pointApi SCREENBOUNDS sinkingBullet
      = { position := ⟨100, 880⟩, velocity := ⟨0, -5⟩, flag := BulletFlag.BOUNCED } := by
  decide!

end Bounce

section Order
variable {B : Type}

/-- A call of `getTargetRadius` for a frame from 0 up to the size of a contiguously filled
cache returns the entry of that frame and leaves the cache contiguously filled, one entry
longer when the frame was the first frame not cached yet. -/
theorem FlyingSaucer.getTargetRadius_contiguous (k : Consts) (p : FlyingSaucer B) (size : Nat)
    (hsize : 1 ≤ size)
    (hinv : p.targetRadii = List.map (FlyingSaucer.cachedRadius k) (List.range size))
    (frame : Int) (h0 : 0 ≤ frame) (h1 : frame ≤ (size : Int)) :
    (FlyingSaucer.getTargetRadius k p frame).1 = FlyingSaucer.cachedRadius k frame.toNat ∧
    (FlyingSaucer.getTargetRadius k p frame).2.targetRadii
      = List.map (FlyingSaucer.cachedRadius k)
          (List.range (if frame = (size : Int) then size + 1 else size)) := by
  have hlen : p.targetRadii.length = size := by rw [hinv]; simp
  have e : ((frame.toNat : Nat) : Int) = frame := Int.toNat_of_nonneg h0
  by_cases hlt : frame < (size : Int)
  · have hc : 0 ≤ frame ∧ frame < (p.targetRadii.length : Int) := ⟨h0, by rw [hlen]; exact hlt⟩
    have hne : ¬ frame = (size : Int) := by omega
    unfold FlyingSaucer.getTargetRadius
    simp only [if_pos hc, if_neg hne]
    refine ⟨?_, hinv⟩
    have hn : frame.toNat < size := by omega
    rw [hinv]
    simp only [List.getElem?_map, List.getElem?_range hn, Option.map_some', Option.getD_some]
  · have heq : frame = (size : Int) := by omega
    have hc : ¬ (0 ≤ frame ∧ frame < (p.targetRadii.length : Int)) := by
      rw [hlen]; omega
    have hc2 : ¬ ((p.targetRadii.length : Int) ≠ frame) := by
      rw [hlen]; omega
    have hz : ¬ frame.toNat = 0 := by omega
    unfold FlyingSaucer.getTargetRadius
    simp only [if_neg hc, if_neg hc2, if_pos heq]
    refine ⟨?_, ?_⟩
    · unfold FlyingSaucer.cachedRadius
      rw [if_neg hz, e]
    · rw [hinv, List.range_succ, List.map_append]
      have hs : ¬ size = 0 := by omega
      simp only [List.map_cons, List.map_nil, FlyingSaucer.cachedRadius, if_neg hs, heq]

/-- A sequence of calls that never skips ahead of a contiguously filled cache returns, for
every call, the entry of the queried frame. -/
theorem FlyingSaucer.queryFrames_contiguous (k : Consts) (frames : List Int) :
    ∀ (p : FlyingSaucer B) (size : Nat), 1 ≤ size →
      p.targetRadii = List.map (FlyingSaucer.cachedRadius k) (List.range size) →
      FlyingSaucer.contiguous size frames = true →
      (FlyingSaucer.queryFrames k p frames).1
        = frames.map (fun frame => FlyingSaucer.cachedRadius k frame.toNat) := by
  induction frames with
  | nil => intro p size _ _ _; rfl
  | cons frame rest ih =>
    intro p size hsize hinv hc
    simp only [FlyingSaucer.contiguous, Bool.and_eq_true, decide_eq_true_eq] at hc
    obtain ⟨⟨h0, h1⟩, hrest⟩ := hc
    have hstep := FlyingSaucer.getTargetRadius_contiguous k p size hsize hinv frame h0 h1
    have hsize2 : 1 ≤ (if frame = (size : Int) then size + 1 else size) := by
      split_ifs <;> omega
    have := ih (FlyingSaucer.getTargetRadius k p frame).2 _ hsize2 hstep.2 hrest
    simp only [FlyingSaucer.queryFrames, List.map_cons, hstep.1, this]

/-- The frames `s, s + 1, ...` in increasing order never skip ahead of a cache of size `s`. -/
theorem FlyingSaucer.contiguous_range' (n : Nat) :
    ∀ s : Nat, FlyingSaucer.contiguous s (List.map (fun (j : Nat) => (j : Int)) (List.range' s n))
      = true := by
  induction n with
  | zero => intro s; rfl
  | succ n ih =>
    intro s
    simp only [List.range'_succ, List.map_cons, FlyingSaucer.contiguous, if_true]
    simp [ih (s + 1)]

/-- The frames `0, 1, ..., K` in increasing order never skip ahead of the cache of a freshly
constructed pattern. -/
theorem FlyingSaucer.contiguous_framesUpTo (K : Nat) :
    FlyingSaucer.contiguous 1 (FlyingSaucer.framesUpTo K) = true := by
  unfold FlyingSaucer.framesUpTo
  rw [List.range_eq_range', List.range'_succ]
  simp only [List.map_cons, FlyingSaucer.contiguous]
  have := FlyingSaucer.contiguous_range' K 1
  simpa using this

/-- The cache of a freshly constructed pattern is contiguously filled with one entry. -/
theorem FlyingSaucer.new_targetRadii (k : Consts) (sourcePos : Vector2f) (streamCount : Int)
    (shotFrequency baseSpeed : ℚ) :
    (FlyingSaucer.new sourcePos streamCount shotFrequency baseSpeed : FlyingSaucer B).targetRadii
      = List.map (FlyingSaucer.cachedRadius k) (List.range 1) := by
  rfl

/-- The value returned for frame `j` in the increasing order is the entry of frame `j`. -/
theorem FlyingSaucer.inOrderRadius_eq (k : Consts) (sourcePos : Vector2f) (streamCount : Int)
    (shotFrequency baseSpeed : ℚ) (K j : Nat) (hj : j ≤ K) :
    FlyingSaucer.inOrderRadius k
      (FlyingSaucer.new sourcePos streamCount shotFrequency baseSpeed : FlyingSaucer B) K j
      = FlyingSaucer.cachedRadius k j := by
  unfold FlyingSaucer.inOrderRadius
  rw [FlyingSaucer.queryFrames_contiguous k _ _ 1 (le_refl 1)
    (FlyingSaucer.new_targetRadii k sourcePos streamCount shotFrequency baseSpeed)
    (FlyingSaucer.contiguous_framesUpTo K)]
  unfold FlyingSaucer.framesUpTo
  have hj2 : j < K + 1 := by omega
  simp [List.getElem?_range hj2]

/-- A call of `getTargetRadius` for a frame beyond the size of the cache takes the guarded path:
it returns 0 and leaves the pattern as it is. -/
theorem FlyingSaucer.getTargetRadius_ahead (k : Consts) (p : FlyingSaucer B) (frame : Int)
    (h : (p.targetRadii.length : Int) < frame) :
    FlyingSaucer.getTargetRadius k p frame = (0, p) := by
  have hc : ¬ (0 ≤ frame ∧ frame < (p.targetRadii.length : Int)) := by omega
  have hc2 : (p.targetRadii.length : Int) ≠ frame := by omega
  unfold FlyingSaucer.getTargetRadius
  rw [if_neg hc, if_pos hc2]

/-- C18, as the code behaves: for every sequence of `getTargetRadius` calls on a freshly constructed
`FlyingSaucer` that never skips ahead of the cache (each queried frame is from 0 up to the
number of frames cached at the time of the call; repeated and earlier frames are allowed) and
whose frames are at most `K`, the value returned by every call equals the value returned for
the same frame when the frames `0, 1, ..., K` are queried in increasing order. A call that does
skip ahead returns 0 and caches nothing. -/
theorem FlyingSaucer.getTargetRadius_order (k : Consts) (sourcePos : Vector2f)
    (streamCount : Int) (shotFrequency baseSpeed : ℚ) (K : Nat) (frames : List Int)
    (hcont : FlyingSaucer.contiguous 1 frames = true)
    (hK : ∀ frame ∈ frames, frame ≤ (K : Int)) :
    (∀ (i : Nat) (frame : Int), frames[i]? = some frame →
      (FlyingSaucer.queryFrames k
          (FlyingSaucer.new sourcePos streamCount shotFrequency baseSpeed : FlyingSaucer B)
          frames).1[i]?
        = some (FlyingSaucer.inOrderRadius k
            (FlyingSaucer.new sourcePos streamCount shotFrequency baseSpeed : FlyingSaucer B)
            K frame.toNat)) ∧
    (∀ (p : FlyingSaucer B) (frame : Int), (p.targetRadii.length : Int) < frame →
      FlyingSaucer.getTargetRadius k p frame = (0, p)) := by
  refine ⟨?_, FlyingSaucer.getTargetRadius_ahead k⟩
  intro i frame hi
  rw [FlyingSaucer.queryFrames_contiguous k frames _ 1 (le_refl 1)
    (FlyingSaucer.new_targetRadii k sourcePos streamCount shotFrequency baseSpeed) hcont]
  have hle : frame.toNat ≤ K := by
    have := hK frame (List.mem_iff_getElem?.mpr ⟨i, hi⟩)
    omega
  rw [FlyingSaucer.inOrderRadius_eq k sourcePos streamCount shotFrequency baseSpeed K _ hle]
  simp [List.getElem?_map, hi]

/-- C18 as amended, on the call sequence 1, 0, 2, 1: the third call, for frame 2, returns the
value that frame 2 has in the increasing order, `17 / 45` for the sample constants. -/
theorem FlyingSaucer.getTargetRadius_order_witness :
    FlyingSaucer.contiguous 1 [1, 0, 2, 1] = true ∧
    (FlyingSaucer.queryFrames sampleConsts
        (FlyingSaucer.new ⟨360, 300⟩ 2 1 5 : FlyingSaucer PointBullet) [1, 0, 2, 1]).1[2]?
      = some (FlyingSaucer.inOrderRadius sampleConsts
          (FlyingSaucer.new ⟨360, 300⟩ 2 1 5 : FlyingSaucer PointBullet) 2 2) ∧
    FlyingSaucer.inOrderRadius sampleConsts
        (FlyingSaucer.new ⟨360, 300⟩ 2 1 5 : FlyingSaucer PointBullet) 2 2 = 17 / 45 :=
  ⟨by decide,
    (FlyingSaucer.getTargetRadius_order sampleConsts ⟨360, 300⟩ 2 1 5 2 [1, 0, 2, 1] (by decide)
      (by decide)).1 2 2 rfl,
    by decide!⟩

/-- C18 fails as stated: querying the frames 0..2 in the order 2, 0, 1 on a freshly constructed
`FlyingSaucer` returns 0 for frame 2, while the increasing order returns `17 / 45` for it (sample
values for the constants of the `UFO` namespace). -/
theorem FlyingSaucer.getTargetRadius_skip_ahead :
    List.Perm [2, 0, 1] (FlyingSaucer.framesUpTo 2) ∧
    (FlyingSaucer.queryFrames sampleConsts
        (FlyingSaucer.new ⟨360, 300⟩ 2 1 5 : FlyingSaucer PointBullet) [2, 0, 1]).1
      = [0, 0, 8 / 45] ∧
    (FlyingSaucer.queryFrames sampleConsts
        (FlyingSaucer.new ⟨360, 300⟩ 2 1 5 : FlyingSaucer PointBullet)
        (FlyingSaucer.framesUpTo 2)).1 = [0, 8 / 45, 17 / 45] ∧
    (FlyingSaucer.queryFrames sampleConsts
        (FlyingSaucer.new ⟨360, 300⟩ 2 1 5 : FlyingSaucer PointBullet) [2, 0, 1]).1[0]?
      ≠ some (FlyingSaucer.inOrderRadius sampleConsts
          (FlyingSaucer.new ⟨360, 300⟩ 2 1 5 : FlyingSaucer PointBullet) 2 2) := by
  decide!

end Order

section BowapExample
variable {B : Type}

/-- With a shot frequency other than 0, `canShoot()` changes nothing. -/
theorem Pattern.canShoot_of_frequency (p : Pattern B) (h : p.shotFrequency ≠ 0) :
    p.canShoot
      = (decide (Int.tmod p.frameCounter (Pattern.shotPeriod p.shotFrequency) = 0), p) := by
  unfold Pattern.canShoot
  rw [if_neg h]

/-- Loop rule for the number of bullets of a `Pattern`: a body that adds one bullet per pass
adds as many bullets as there are passes. -/
theorem Pattern.base_forLoop_length (body : Int → Pattern B → Pattern B) (n : Int)
    (s : Pattern B) (h : ∀ i t, (body i t).bullets.length = t.bullets.length + 1) :
    (forLoop n body s).bullets.length = s.bullets.length + n.toNat := by
  have := forLoop_count (fun q : Pattern B => q.bullets.length) 1 n body s h
  simpa using this

/-- `Bowap::spawnBullets()` with a shot frequency other than 0: the settings and the frame
counter stay, and `streamCount` bullets are added on the frames that are multiples of the
period. -/
theorem Bowap.bowap_spawnBullets_count (api : BulletApi B) (k : Consts) (p : Pattern B)
    (h : p.shotFrequency ≠ 0) :
    (Bowap.spawnBullets api k p).setup = p.setup ∧
    (Bowap.spawnBullets api k p).frameCounter = p.frameCounter ∧
    ((Bowap.spawnBullets api k p).bullets.length : Int)
      = p.bullets.length
        + (if Int.tmod p.frameCounter (Pattern.shotPeriod p.shotFrequency) = 0
            then ((p.streamCount.toNat : Nat) : Int) else 0) := by
  unfold Bowap.spawnBullets
  simp only [Pattern.canShoot_of_frequency p h, decide_eq_true_eq]
  split_ifs with hc
  · refine ⟨forLoop_proj (fun q : Pattern B => q.setup) _ _ p (fun _ _ => rfl),
      forLoop_proj (fun q : Pattern B => q.frameCounter) _ _ p (fun _ _ => rfl), ?_⟩
    rw [Pattern.base_forLoop_length]
    · simp
    · intro i t
      simp [Pattern.addRiceBullet]
  · exact ⟨rfl, rfl, by simp⟩

/-- `incrementFrame()` on an active pattern. -/
theorem Pattern.incrementFrame_of_active (p : Pattern B) (h : p.active = true) :
    p.incrementFrame = { p with frameCounter := p.frameCounter + 1 } := by
  unfold Pattern.incrementFrame
  rw [if_pos h]

/-- One `update()` cycle of an active `Bowap` with a shot frequency other than 0: the settings
stay, the frame counter grows by 1, and the spawn step adds `streamCount` bullets when the
frame counter it sees is a multiple of the period. -/
theorem AnyPattern.update_bowap (api : BulletApi B) (k : Consts) (p : Pattern B) (g : Rng)
    (ha : p.active = true) (h : p.shotFrequency ≠ 0) :
    ∃ q : Pattern B, (AnyPattern.bowap p).update api k g = (AnyPattern.bowap q, g) ∧
      q.setup = p.setup ∧ q.frameCounter = p.frameCounter + 1 ∧
      (AnyPattern.bowap p).spawnedInUpdate api k g
        = (if Int.tmod p.frameCounter (Pattern.shotPeriod p.shotFrequency) = 0
            then ((p.streamCount.toNat : Nat) : Int) else 0) := by
  have hf : (p.deleteOutOfBoundsBullets api).shotFrequency ≠ 0 := h
  have hs := Bowap.bowap_spawnBullets_count api k (p.deleteOutOfBoundsBullets api) hf
  have hq : (Bowap.spawnBullets api k (p.deleteOutOfBoundsBullets api)).setup = p.setup := hs.1
  have hact : (Bowap.spawnBullets api k (p.deleteOutOfBoundsBullets api)).active = true :=
    (congrArg (fun s => s.2.1) hq).trans ha
  refine ⟨((Bowap.spawnBullets api k (p.deleteOutOfBoundsBullets api)).incrementFrame).processMovement
    api, ?_, ?_, ?_, ?_⟩
  · simp [AnyPattern.update, AnyPattern.getActive, AnyPattern.toPattern, ha,
      AnyPattern.deleteOutOfBoundsBullets, AnyPattern.spawnBullets, AnyPattern.incrementFrame,
      AnyPattern.mapPattern, AnyPattern.processMovement]
  · rw [Pattern.incrementFrame_of_active _ hact]
    exact hq
  · rw [Pattern.incrementFrame_of_active _ hact]
    exact congrArg (fun n => n + 1) hs.2.1
  · have hlen := hs.2.2
    simp only [AnyPattern.spawnedInUpdate, AnyPattern.getActive, AnyPattern.toPattern, ha,
      if_true, AnyPattern.deleteOutOfBoundsBullets, AnyPattern.spawnBullets,
      AnyPattern.getBullets]
    rw [hlen]
    simp only [add_sub_cancel_left]
    rfl

/-- The spawn counts of `n` consecutive `update()` cycles of a manager that owns one active
`Bowap` with a shot frequency other than 0: cycle `i` sees the frame counter `i` frames after
the first and spawns `streamCount` bullets when that is a multiple of the period. -/
theorem PatternManager.spawnedPerCycle_bowap (api : BulletApi B) (k : Consts) (n : Nat) :
    ∀ (p : Pattern B) (g : Rng), p.active = true → p.shotFrequency ≠ 0 →
      PatternManager.spawnedPerCycle api k n { activePatterns := [AnyPattern.bowap p] } g
        = List.map
            (fun (i : Nat) =>
              if Int.tmod (p.frameCounter + (i : Int)) (Pattern.shotPeriod p.shotFrequency) = 0
                then ((p.streamCount.toNat : Nat) : Int) else 0)
            (List.range n) := by
  induction n with
  | zero => intro p g _ _; rfl
  | succ n ih =>
    intro p g ha h
    obtain ⟨q, hupd, hsetup, hframe, hspawn⟩ := AnyPattern.update_bowap api k p g ha h
    have hqa : q.active = true := (congrArg (fun s => s.2.1) hsetup).trans ha
    have hqf : q.shotFrequency = p.shotFrequency := congrArg (fun s => s.2.2.2.2.2.1) hsetup
    have hqs : q.streamCount = p.streamCount := congrArg (fun s => s.2.2.1) hsetup
    have hqf0 : q.shotFrequency ≠ 0 := by rw [hqf]; exact h
    have hm : (PatternManager.update api k { activePatterns := [AnyPattern.bowap p] } g)
        = ({ activePatterns := [AnyPattern.bowap q] }, g) := by
      simp [PatternManager.update, PatternManager.updateLoop, hupd]
    simp only [PatternManager.spawnedPerCycle, hm, PatternManager.spawnedInUpdate, hspawn,
      add_zero]
    rw [ih q g hqa hqf0, List.range_succ_eq_map, List.map_cons, List.map_map, hqf, hqs, hframe]
    simp only [Nat.cast_zero, add_zero, List.cons.injEq, true_and]
    apply List.map_congr_left
    intro i _
    simp only [Function.comp, Nat.cast_succ]
    rw [add_assoc, add_comm 1 (i : Int)]

/-- The period of shot frequency 1 is `FPS = 60` frames. -/
theorem Pattern.shotPeriod_one : Pattern.shotPeriod 1 = 60 := by
  decide!

/-- The spawn counts of the first `n` `update()` cycles of the example manager. -/
theorem PatternManager.spawnedPerCycle_bowapExample (api : BulletApi B) (k : Consts)
    (sourcePos : Vector2f) (g : Rng) (n : Nat) :
    PatternManager.spawnedPerCycle api k n (bowapExample sourcePos) g
      = List.map (fun (i : Nat) => if Int.tmod (i : Int) 60 = 0 then (3 : Int) else 0)
          (List.range n) := by
  have h := PatternManager.spawnedPerCycle_bowap api k n
    (Bowap.new sourcePos 3 1 5 : Pattern B) g rfl
    (by show (1 : ℚ) ≠ 0; exact one_ne_zero)
  have e : (bowapExample sourcePos : PatternManager B)
      = { activePatterns := [AnyPattern.bowap (Bowap.new sourcePos 3 1 5)] } := rfl
  rw [e, h]
  apply List.map_congr_left
  intro i _
  have h1 : (Bowap.new sourcePos 3 1 5 : Pattern B).shotFrequency = 1 := rfl
  have h2 : (Bowap.new sourcePos 3 1 5 : Pattern B).frameCounter = 0 := rfl
  have h3 : (Bowap.new sourcePos 3 1 5 : Pattern B).streamCount = 3 := rfl
  rw [h1, h2, h3, Pattern.shotPeriod_one, zero_add]
  rfl

/-- C15, as the code behaves: a `Bowap` pattern constructed with stream count 3, shot frequency 1 and base
speed 5 and added to a new manager, for any bullet classes, constants and source position: the
spawn step of `update()` cycle number `i + 1` sees frame counter `i` and adds 3 bullets when `i`
is a multiple of 60 and none otherwise. The first 60 cycles therefore spawn one shot of 3
bullets (at frame 0); the second shot (at frame 60) is spawned by cycle 61, after which 6
bullets have been created in total. -/
theorem PatternManager.bowap_example_spawns (api : BulletApi B) (k : Consts)
    (sourcePos : Vector2f) (g : Rng) :
    (∀ n : Nat, PatternManager.spawnedPerCycle api k n (bowapExample sourcePos) g
      = List.map (fun (i : Nat) => if Int.tmod (i : Int) 60 = 0 then (3 : Int) else 0)
          (List.range n)) ∧
    PatternManager.spawnedPerCycle api k 60 (bowapExample sourcePos) g
      = 3 :: List.replicate 59 0 ∧
    (PatternManager.spawnedPerCycle api k 60 (bowapExample sourcePos) g).sum = 3 ∧
    PatternManager.spawnedPerCycle api k 61 (bowapExample sourcePos) g
      = 3 :: List.replicate 59 0 ++ [3] ∧
    (PatternManager.spawnedPerCycle api k 61 (bowapExample sourcePos) g).sum = 6 := by
  refine ⟨PatternManager.spawnedPerCycle_bowapExample api k sourcePos g, ?_, ?_, ?_, ?_⟩ <;>
    (rw [PatternManager.spawnedPerCycle_bowapExample]; decide)

/-- C15 fails as stated: after exactly 60 `update()` cycles of the example manager the spawn
steps have added 3 bullets in total, not 6; with the bullets of the test double, which stay
where they are spawned inside the active region, the pattern then owns 3 bullets and its frame
counter is 60. -/
theorem PatternManager.bowap_example_one_shot :
    (PatternManager.spawnedPerCycle pointApi sampleConsts 60 (bowapExample ⟨100, 100⟩)
        sampleRng).sum = 3 ∧
    (PatternManager.spawnedPerCycle pointApi sampleConsts 60 (bowapExample ⟨100, 100⟩)
        sampleRng).sum ≠ 6 ∧
    ((PatternManager.updateN pointApi sampleConsts 60 (bowapExample ⟨100, 100⟩)
        sampleRng).1.activePatterns.map (fun p => (p.getBullets.length, p.toPattern.frameCounter)))
      = [(3, 60)] := by
  refine ⟨?_, ?_, ?_⟩
  · rw [PatternManager.spawnedPerCycle_bowapExample]; decide
  · rw [PatternManager.spawnedPerCycle_bowapExample]; decide
  · decide!

end BowapExample

section Reset
variable {B : Type}

/-- `incrementFrame()` keeps the settings. -/
theorem Pattern.incrementFrame_setup (p : Pattern B) : p.incrementFrame.setup = p.setup := by
  unfold Pattern.incrementFrame
  split_ifs <;> rfl

/-- `QedRipples::spawnBullets()` with a shot frequency other than 0 keeps the settings and the
bounce region. -/
theorem QedRipples.qed_spawnBullets_setup (api : BulletApi B) (k : Consts) (p : QedRipples B)
    (g : Rng) (h : p.shotFrequency ≠ 0) :
    (QedRipples.spawnBullets api k p g).1.toPattern.setup = p.toPattern.setup ∧
    (QedRipples.spawnBullets api k p g).1.bounceBounds = p.bounceBounds := by
  unfold QedRipples.spawnBullets
  simp only [Pattern.canShoot_of_frequency p.toPattern h, decide_eq_true_eq]
  split_ifs <;> first
    | exact ⟨rfl, rfl⟩
    | exact ⟨forLoop_proj (fun q : QedRipples B => q.toPattern.setup) _ _ _ (fun _ _ => rfl),
        forLoop_proj (fun q : QedRipples B => q.bounceBounds) _ _ _ (fun _ _ => rfl)⟩

/-- `GengetsuTime::spawnBullets()` with a shot frequency other than 0 keeps the settings. -/
theorem GengetsuTime.gengetsu_spawnBullets_setup (api : BulletApi B) (p : Pattern B) (g : Rng)
    (h : p.shotFrequency ≠ 0) :
    (GengetsuTime.spawnBullets api p g).1.setup = p.setup := by
  unfold GengetsuTime.spawnBullets
  simp only [Pattern.canShoot_of_frequency p h, decide_eq_true_eq]
  split_ifs <;> first
    | rfl
    | exact forLoop_proj (fun q : Pattern B => q.setup) _ _ _ (fun _ _ => rfl)

/-- `MercuryPoison::spawnBullets()` with a shot frequency other than 0 keeps the settings. -/
theorem MercuryPoison.mercury_spawnBullets_setup (api : BulletApi B) (k : Consts)
    (p : MercuryPoison B) (g : Rng) (h : p.shotFrequency ≠ 0) :
    (MercuryPoison.spawnBullets api k p g).1.toPattern.setup = p.toPattern.setup := by
  have hloop : ∀ (shotAngle : Int) (q : MercuryPoison B),
      (forLoop q.streamCount (MercuryPoison.addPair api k shotAngle) q).toPattern.setup
        = q.toPattern.setup := fun shotAngle q =>
    forLoop_proj (fun t : MercuryPoison B => t.toPattern.setup) _ _ q (fun _ _ => rfl)
  unfold MercuryPoison.spawnBullets
  simp only [Pattern.canShoot_of_frequency p.toPattern h, decide_eq_true_eq]
  split_ifs <;> first | rfl | (simp only [Pattern.setup, WavePattern.addWave_toPattern]; exact hloop _ p)

/-- `MercuryPoison::processMovement()` keeps the settings. -/
theorem MercuryPoison.mercury_processMovement_setup (api : BulletApi B) (k : Consts)
    (p : MercuryPoison B) :
    (MercuryPoison.processMovement api k p).toPattern.setup = p.toPattern.setup := by
  unfold MercuryPoison.processMovement
  exact forLoop_proj (fun q : MercuryPoison B => q.toPattern.setup) _ _ _ (fun _ _ => rfl)

/-- One update cycle of a `Bowap` with a shot frequency other than 0 keeps the class and the
settings. -/
theorem AnyPattern.update_bowap_setup (api : BulletApi B) (k : Consts) (p : Pattern B) (g : Rng)
    (h : p.shotFrequency ≠ 0) :
    ∃ q : Pattern B, ((AnyPattern.bowap p).update api k g).1 = AnyPattern.bowap q ∧
      q.setup = p.setup := by
  by_cases ha : p.active = true
  · obtain ⟨q, hq, hs, _⟩ := AnyPattern.update_bowap api k p g ha h
    exact ⟨q, by rw [hq], hs⟩
  · exact ⟨p, by simp [AnyPattern.update, AnyPattern.getActive, AnyPattern.toPattern, ha], rfl⟩

/-- One update cycle of a `GengetsuTime` with a shot frequency other than 0 keeps the class
and the settings. -/
theorem AnyPattern.update_gengetsu_setup (api : BulletApi B) (k : Consts) (p : Pattern B)
    (g : Rng) (h : p.shotFrequency ≠ 0) :
    ∃ q : Pattern B, ((AnyPattern.gengetsuTime p).update api k g).1 = AnyPattern.gengetsuTime q ∧
      q.setup = p.setup := by
  by_cases ha : p.active = true
  · refine ⟨((GengetsuTime.spawnBullets api (p.deleteOutOfBoundsBullets api)
      g).1.incrementFrame).processMovement api, ?_, ?_⟩
    · simp [AnyPattern.update, AnyPattern.getActive, AnyPattern.toPattern, ha,
        AnyPattern.deleteOutOfBoundsBullets, AnyPattern.spawnBullets, AnyPattern.incrementFrame,
        AnyPattern.mapPattern, AnyPattern.processMovement, Prod.map]
    · have h1 := GengetsuTime.gengetsu_spawnBullets_setup api (p.deleteOutOfBoundsBullets api) g h
      have h2 := Pattern.incrementFrame_setup
        (GengetsuTime.spawnBullets api (p.deleteOutOfBoundsBullets api) g).1
      exact h2.trans h1
  · exact ⟨p, by simp [AnyPattern.update, AnyPattern.getActive, AnyPattern.toPattern, ha], rfl⟩

/-- One update cycle of a `QedRipples` with a shot frequency other than 0 keeps the class, the
settings and the bounce region. -/
theorem AnyPattern.update_qed_setup (api : BulletApi B) (k : Consts) (p : QedRipples B)
    (g : Rng) (h : p.shotFrequency ≠ 0) :
    ∃ q : QedRipples B, ((AnyPattern.qedRipples p).update api k g).1 = AnyPattern.qedRipples q ∧
      q.toPattern.setup = p.toPattern.setup ∧ q.bounceBounds = p.bounceBounds := by
  by_cases ha : p.active = true
  · have h1 := QedRipples.qed_spawnBullets_setup api k
      { p with toPattern := p.toPattern.deleteOutOfBoundsBullets api } g h
    have h2 := Pattern.incrementFrame_setup
      (QedRipples.spawnBullets api k
        { p with toPattern := p.toPattern.deleteOutOfBoundsBullets api } g).1.toPattern
    refine ⟨QedRipples.processMovement api
      { (QedRipples.spawnBullets api k
          { p with toPattern := p.toPattern.deleteOutOfBoundsBullets api } g).1 with
        toPattern := (QedRipples.spawnBullets api k
          { p with toPattern := p.toPattern.deleteOutOfBoundsBullets api }
          g).1.toPattern.incrementFrame }, ?_, ?_, ?_⟩
    · simp [AnyPattern.update, AnyPattern.getActive, AnyPattern.toPattern, ha,
        AnyPattern.deleteOutOfBoundsBullets, AnyPattern.spawnBullets, AnyPattern.incrementFrame,
        AnyPattern.mapPattern, AnyPattern.processMovement, Prod.map]
    · exact h2.trans h1.1
    · exact h1.2
  · exact ⟨p, by simp [AnyPattern.update, AnyPattern.getActive, AnyPattern.toPattern, ha],
      rfl, rfl⟩

/-- One update cycle of a `MercuryPoison` with a shot frequency other than 0 keeps the class
and the settings. -/
theorem AnyPattern.update_mercury_setup (api : BulletApi B) (k : Consts) (p : MercuryPoison B)
    (g : Rng) (h : p.shotFrequency ≠ 0) :
    ∃ q : MercuryPoison B,
      ((AnyPattern.mercuryPoison p).update api k g).1 = AnyPattern.mercuryPoison q ∧
      q.toPattern.setup = p.toPattern.setup := by
  by_cases ha : p.active = true
  · have h1 := MercuryPoison.mercury_spawnBullets_setup api k
      { p with toWavePattern := p.toWavePattern.deleteOutOfBoundsBullets api } g h
    have h2 := Pattern.incrementFrame_setup
      (MercuryPoison.spawnBullets api k
        { p with toWavePattern := p.toWavePattern.deleteOutOfBoundsBullets api } g).1.toPattern
    have h3 := MercuryPoison.mercury_processMovement_setup api k
      { (MercuryPoison.spawnBullets api k
          { p with toWavePattern := p.toWavePattern.deleteOutOfBoundsBullets api } g).1 with
        toPattern := (MercuryPoison.spawnBullets api k
          { p with toWavePattern := p.toWavePattern.deleteOutOfBoundsBullets api }
          g).1.toPattern.incrementFrame }
    refine ⟨_, ?_, (h3.trans h2).trans h1⟩
    simp [AnyPattern.update, AnyPattern.getActive, AnyPattern.toPattern, ha,
      AnyPattern.deleteOutOfBoundsBullets, AnyPattern.spawnBullets, AnyPattern.incrementFrame,
      AnyPattern.mapPattern, AnyPattern.processMovement, Prod.map]
  · exact ⟨p, by simp [AnyPattern.update, AnyPattern.getActive, AnyPattern.toPattern, ha], rfl⟩

/-- One update cycle keeps the class and the settings of a pattern whose shot frequency is not
0. -/
theorem AnyPattern.update_sameSetup (api : BulletApi B) (k : Consts) (p0 p : AnyPattern B)
    (g : Rng) (hf : p0.toPattern.shotFrequency ≠ 0) (h : AnyPattern.sameSetup p0 p) :
    AnyPattern.sameSetup p0 (p.update api k g).1 := by
  cases p0 <;> cases p <;> simp only [AnyPattern.sameSetup] at h <;> try exact h.elim
  case bowap.bowap a b =>
    have hb : b.shotFrequency ≠ 0 := by
      rw [← show a.shotFrequency = b.shotFrequency from congrArg (fun s => s.2.2.2.2.2.1) h]
      exact hf
    obtain ⟨q, hq, hs⟩ := AnyPattern.update_bowap_setup api k b g hb
    rw [hq]
    exact h.trans hs.symm
  case gengetsuTime.gengetsuTime a b =>
    have hb : b.shotFrequency ≠ 0 := by
      rw [← show a.shotFrequency = b.shotFrequency from congrArg (fun s => s.2.2.2.2.2.1) h]
      exact hf
    obtain ⟨q, hq, hs⟩ := AnyPattern.update_gengetsu_setup api k b g hb
    rw [hq]
    exact h.trans hs.symm
  case qedRipples.qedRipples a b =>
    have hb : b.shotFrequency ≠ 0 := by
      rw [← show a.shotFrequency = b.shotFrequency from congrArg (fun s => s.2.2.2.2.2.1) h.1]
      exact hf
    obtain ⟨q, hq, hs, hbb⟩ := AnyPattern.update_qed_setup api k b g hb
    rw [hq]
    exact ⟨h.1.trans hs.symm, h.2.trans hbb.symm⟩
  case mercuryPoison.mercuryPoison a b =>
    have hb : b.shotFrequency ≠ 0 := by
      rw [← show a.shotFrequency = b.shotFrequency from congrArg (fun s => s.2.2.2.2.2.1) h]
      exact hf
    obtain ⟨q, hq, hs⟩ := AnyPattern.update_mercury_setup api k b g hb
    rw [hq]
    exact h.trans hs.symm

/-- Any number of update cycles keeps the class and the settings of a pattern whose shot
frequency is not 0. -/
theorem AnyPattern.updateN_sameSetup (api : BulletApi B) (k : Consts) (p0 : AnyPattern B)
    (hf : p0.toPattern.shotFrequency ≠ 0) (n : Nat) :
    ∀ (p : AnyPattern B) (g : Rng), AnyPattern.sameSetup p0 p →
      AnyPattern.sameSetup p0 (AnyPattern.updateN api k n p g).1 := by
  induction n with
  | zero => intro p g h; exact h
  | succ n ih =>
    intro p g h
    exact ih _ _ (AnyPattern.update_sameSetup api k p0 p g hf h)

/-- The settings of a freshly constructed pattern do not depend on the draws of its
construction. -/
theorem AnyPattern.construct_sameSetup (k : Consts) (c : PatternCtor) (hc : c.Restorable)
    (g0 g : Rng) :
    AnyPattern.sameSetup (AnyPattern.construct k c g).1
      (AnyPattern.construct k c g0 : AnyPattern B × Rng).1 := by
  cases c <;> first
    | exact hc.elim
    | exact rfl
    | exact ⟨rfl, rfl⟩

/-- The shot frequency of a freshly constructed restorable pattern is not 0. -/
theorem AnyPattern.construct_shotFrequency (k : Consts) (c : PatternCtor) (hc : c.Restorable)
    (g : Rng) :
    (AnyPattern.construct k c g : AnyPattern B × Rng).1.toPattern.shotFrequency ≠ 0 := by
  cases c <;> exact hc.elim

/-- `resetPattern()` followed by `deleteAllBullets()` turns a pattern that has the class and the
settings of a freshly constructed restorable pattern into that freshly constructed pattern, and
leaves the generator as the construction leaves it. -/
theorem AnyPattern.reset_clear_restores (api : BulletApi B) (k : Consts) (c : PatternCtor)
    (hc : c.Restorable) (g : Rng) (p : AnyPattern B)
    (h : AnyPattern.sameSetup (AnyPattern.construct k c g).1 p) :
    ((p.resetPattern api k g).1.deleteAllBullets, (p.resetPattern api k g).2)
      = AnyPattern.construct k c g := by
  cases c <;> try exact hc.elim
  case bowap sourcePos streamCount shotFrequency baseSpeed =>
    cases p <;> (simp only [AnyPattern.construct, AnyPattern.sameSetup] at h; try exact h.elim)
    case bowap b =>
      rcases b with ⟨sb, bl, fc, act, sc, bs, sp, sf, latch⟩
      simp only [Pattern.setup, Prod.mk.injEq] at h
      obtain ⟨h1, h2, h3, h4, h5, h6, h7⟩ := h
      subst h1 h2 h3 h4 h5 h6 h7
      rfl
  case gengetsuTime sourcePos streamCount shotFrequency baseSpeed =>
    cases p <;> (simp only [AnyPattern.construct, AnyPattern.sameSetup] at h; try exact h.elim)
    case gengetsuTime b =>
      rcases b with ⟨sb, bl, fc, act, sc, bs, sp, sf, latch⟩
      simp only [Pattern.setup, Prod.mk.injEq] at h
      obtain ⟨h1, h2, h3, h4, h5, h6, h7⟩ := h
      subst h1 h2 h3 h4 h5 h6 h7
      rfl
  case qedRipples sourcePos streamCount shotFrequency baseSpeed bounceBounds =>
    cases p <;> (simp only [AnyPattern.construct, AnyPattern.sameSetup] at h; try exact h.elim)
    case qedRipples b =>
      rcases b with ⟨⟨sb, bl, fc, act, sc, bs, sp, sf, latch⟩, bb⟩
      simp only [Pattern.setup, Prod.mk.injEq] at h
      obtain ⟨⟨h1, h2, h3, h4, h5, h6, h7⟩, h8⟩ := h
      subst h1 h2 h3 h4 h5 h6 h7 h8
      rfl
  case mercuryPoison sourcePos streamCount shotFrequency baseSpeed =>
    cases p <;>
      (simp only [AnyPattern.construct, AnyPattern.sameSetup, Prod.map_fst] at h; try exact h.elim)
    case mercuryPoison b =>
      rcases b with ⟨⟨⟨sb, bl, fc, act, sc, bs, sp, sf, latch⟩, wbc, wfc, cbc⟩, alt, ss, cnt, we⟩
      simp only [Pattern.setup, Prod.mk.injEq] at h
      obtain ⟨h1, h2, h3, h4, h5, h6, h7⟩ := h
      subst h1 h2 h3 h4 h5 h6 h7
      rfl

/-- C16, as the code behaves: reset reproducibility when `resetPattern()` is paired with
`deleteAllBullets()`: for every `Bowap`, `QedRipples`, `GengetsuTime` and `MercuryPoison`
constructed with a shot frequency other than 0, every `M` and every `N`, running `M` update
cycles on the freshly constructed pattern, then calling `resetPattern()` and
`deleteAllBullets()`, then running `N` update cycles gives the same pattern state and leaves
the same generator as constructing the pattern and running `N` update cycles with the same
draws; in particular the pattern owns the same number of bullets. -/
theorem AnyPattern.resetClearRun_reproduces (api : BulletApi B) (k : Consts) (c : PatternCtor)
    (hc : c.Restorable) (M N : Nat) (g0 g : Rng) :
    AnyPattern.resetClearRun api k c M N g0 g = AnyPattern.freshRun api k c N g ∧
    (AnyPattern.resetClearRun api k c M N g0 g).1.getBullets.length
      = (AnyPattern.freshRun api k c N g).1.getBullets.length := by
  have hinv : AnyPattern.sameSetup (AnyPattern.construct k c g).1
      (AnyPattern.freshRun api k c M g0).1 :=
    AnyPattern.updateN_sameSetup api k _ (AnyPattern.construct_shotFrequency k c hc g) M _ _
      (AnyPattern.construct_sameSetup k c hc g0 g)
  have hrestore := AnyPattern.reset_clear_restores api k c hc g _ hinv
  have e : AnyPattern.resetClearRun api k c M N g0 g = AnyPattern.freshRun api k c N g := by
    unfold AnyPattern.resetClearRun
    simp only []
    have h1 : ((AnyPattern.freshRun api k c M g0).1.resetPattern api k g).1.deleteAllBullets
        = (AnyPattern.construct k c g).1 := by
      have := congrArg Prod.fst hrestore
      exact this
    have h2 : ((AnyPattern.freshRun api k c M g0).1.resetPattern api k g).2
        = (AnyPattern.construct k c g : AnyPattern B × Rng).2 := by
      have := congrArg Prod.snd hrestore
      exact this
    rw [h1, h2]
    rfl
  exact ⟨e, by rw [e]⟩

/-- C16 as amended, on a `MercuryPoison` with stream count 3 and shot frequency 4, aged by 3
update cycles, reset, cleared and run for 2 cycles: the state is that of the fresh run, which
owns 6 bullets. -/
theorem AnyPattern.resetClearRun_reproduces_witness :
    (PatternCtor.mercuryPoison ⟨360, 300⟩ 3 4 5).Restorable ∧
    AnyPattern.resetClearRun pointApi sampleConsts (PatternCtor.mercuryPoison ⟨360, 300⟩ 3 4 5)
        3 2 sampleRng (fun n => 5 * n + 1)
      = AnyPattern.freshRun pointApi sampleConsts (PatternCtor.mercuryPoison ⟨360, 300⟩ 3 4 5) 2
          (fun n => 5 * n + 1) ∧
    (AnyPattern.freshRun pointApi sampleConsts (PatternCtor.mercuryPoison ⟨360, 300⟩ 3 4 5) 2
        (fun n => 5 * n + 1)).1.getBullets.length = 6 :=
  ⟨by show (4 : ℚ) ≠ 0; norm_num,
    (AnyPattern.resetClearRun_reproduces pointApi sampleConsts
      (PatternCtor.mercuryPoison ⟨360, 300⟩ 3 4 5) (by show (4 : ℚ) ≠ 0; norm_num) 3 2 sampleRng
      (fun n => 5 * n + 1)).1,
    by decide!⟩

/-- C16 fails as stated: a `Bowap` with stream count 3 and shot frequency 1 that is run for one
update cycle, reset and run for one more cycle owns 6 bullets (the 3 it kept across the reset
and the 3 of the new shot), a freshly constructed one owns 3 after one cycle. Two more facts
bound what holds instead: with shot frequency 0 even the reset paired with `deleteAllBullets()`
does not reproduce the fresh run (0 bullets against 3, the one-shot latch stays set), and a
`FlyingSaucer` that is reset and cleared tags its next burst with the opposite rotation flags,
because its `alternate` member is not reset. -/
theorem AnyPattern.resetRun_keeps_bullets :
    (AnyPattern.resetRun pointApi sampleConsts (PatternCtor.bowap ⟨100, 100⟩ 3 1 5) 1 1
        sampleRng sampleRng).1.getBullets.length = 6 ∧
    (AnyPattern.freshRun pointApi sampleConsts (PatternCtor.bowap ⟨100, 100⟩ 3 1 5) 1
        sampleRng).1.getBullets.length = 3 ∧
    (AnyPattern.resetRun pointApi sampleConsts (PatternCtor.bowap ⟨100, 100⟩ 3 1 5) 1 1
        sampleRng sampleRng).1.getBullets.length
      ≠ (AnyPattern.freshRun pointApi sampleConsts (PatternCtor.bowap ⟨100, 100⟩ 3 1 5) 1
          sampleRng).1.getBullets.length ∧
    (AnyPattern.resetClearRun pointApi sampleConsts (PatternCtor.bowap ⟨100, 100⟩ 3 0 5) 1 1
        sampleRng sampleRng).1.getBullets.length = 0 ∧
    (AnyPattern.freshRun pointApi sampleConsts (PatternCtor.bowap ⟨100, 100⟩ 3 0 5) 1
        sampleRng).1.getBullets.length = 3 ∧
    (AnyPattern.resetClearRun pointApi sampleConsts (PatternCtor.flyingSaucer ⟨360, 300⟩ 2 1 5)
        1 1 sampleRng sampleRng).1.getBullets.map pointApi.getFlag
      ≠ (AnyPattern.freshRun pointApi sampleConsts (PatternCtor.flyingSaucer ⟨360, 300⟩ 2 1 5) 1
          sampleRng).1.getBullets.map pointApi.getFlag := by
  decide!

end Reset

section Bounds
variable {B : Type}

/-- C21. `expandBounds(factor)` in exact arithmetic, for every active region and every factor:
the region afterwards is `(left - factor * SCREENWIDTH, top - factor * SCREENHEIGHT,
width + 2 * factor * SCREENWIDTH, height + 2 * factor * SCREENHEIGHT)`; its centre is where it
was, horizontally and vertically; and the active region of a freshly constructed base `Pattern`
is `(-22, -44, 864, 1008)`. -/
theorem Pattern.expandBounds_spec (p : Pattern B) (factor : ℚ) :
    (p.expandBounds factor).screenBounds
      = ⟨p.screenBounds.left - factor * SCREENWIDTH, p.screenBounds.top - factor * SCREENHEIGHT,
          p.screenBounds.width + 2 * factor * SCREENWIDTH,
          p.screenBounds.height + 2 * factor * SCREENHEIGHT⟩ ∧
    (p.expandBounds factor).screenBounds.left + (p.expandBounds factor).screenBounds.width / 2
      = p.screenBounds.left + p.screenBounds.width / 2 ∧
    (p.expandBounds factor).screenBounds.top + (p.expandBounds factor).screenBounds.height / 2
      = p.screenBounds.top + p.screenBounds.height / 2 ∧
    (∀ (sourcePos : Vector2f) (streamCount : Int) (shotFrequency baseSpeed : ℚ),
      (Pattern.new sourcePos streamCount shotFrequency baseSpeed : Pattern B).screenBounds
        = ⟨-22, -44, 864, 1008⟩) := by
  refine ⟨?_, ?_, ?_, ?_⟩
  · simp only [Pattern.expandBounds, FloatRect.mk.injEq]
    refine ⟨by ring, by ring, by ring, by ring⟩
  · simp only [Pattern.expandBounds]
    ring
  · simp only [Pattern.expandBounds]
    ring
  · intro sourcePos streamCount shotFrequency baseSpeed
    simp only [Pattern.new, Pattern.expandBounds, SCREENBOUNDS, SCREENLEFT, SCREENTOP, SCREENWIDTH,
      SCREENHEIGHT, FloatRect.mk.injEq]
    norm_num

/-- C28. The active region of a constructed pattern is 864 by 1008; `expandBounds(1)` on it,
as the constructor of `FlyingSaucer` calls it, gives a region of 2304 by 2688, which is not
three times 864 by 1008. -/
theorem FlyingSaucer.new_bounds_not_tripled :
    (Pattern.new ⟨360, 300⟩ 2 1 5 : Pattern PointBullet).screenBounds = ⟨-22, -44, 864, 1008⟩ ∧
    ((Pattern.new ⟨360, 300⟩ 2 1 5 : Pattern PointBullet).expandBounds 1).screenBounds
      = ⟨-742, -884, 2304, 2688⟩ ∧
    (FlyingSaucer.new ⟨360, 300⟩ 2 1 5 : FlyingSaucer PointBullet).screenBounds
      = ⟨-742, -884, 2304, 2688⟩ ∧
    (2304 : ℚ) ≠ 3 * 864 ∧ (2688 : ℚ) ≠ 3 * 1008 := by
  decide!

/-- C30. A `SeamlessCeiling` constructed with shot frequency 5, which is positive and at most
`FPS`: the divisor `int(FPS / (shotFrequency * 14))` of its stream timer is 0. -/
theorem SeamlessCeiling.stream_period_zero :
    Pattern.shotPeriod ((SeamlessCeiling.new ⟨360, 100⟩ 1 5 5 :
      SeamlessCeiling PointBullet).shotFrequency * 14) = 0 ∧
    (0 : ℚ) < (SeamlessCeiling.new ⟨360, 100⟩ 1 5 5 : SeamlessCeiling PointBullet).shotFrequency ∧
    (SeamlessCeiling.new ⟨360, 100⟩ 1 5 5 : SeamlessCeiling PointBullet).shotFrequency ≤ FPS := by
  decide!

/-- The conversion `int(x)` of a value that is not negative is its floor. -/
theorem truncToInt_of_nonneg (q : ℚ) (h0 : 0 ≤ q) : truncToInt q = ⌊q⌋ := by
  unfold truncToInt
  rw [Rat.floor_def]
  exact Int.tdiv_eq_ediv (Rat.num_nonneg.mpr h0) (Int.ofNat_nonneg _)

/-- The stream period is 0 for every shot frequency above `FPS / 14` whose product with 14 is
a `float` value, and at least 1 for every positive shot frequency up to `FPS / 14`. -/
theorem SeamlessCeiling.stream_period (f : ℚ) (hf : 0 < f) :
    (toFloat32 (f * 14) = f * 14 → FPS / 14 < f → Pattern.shotPeriod (f * 14) = 0) ∧
    (f ≤ FPS / 14 → 1 ≤ Pattern.shotPeriod (f * 14)) := by
  constructor
  · intro hfloat h
    apply Pattern.shotPeriod_above_FPS _ hfloat
    have : FPS / 14 * 14 < f * 14 := by nlinarith
    simpa [FPS] using this
  · intro h
    unfold Pattern.shotPeriod
    have h14 : 0 < f * 14 := by linarith
    have h1 : (1 : ℚ) ≤ FPS / (f * 14) := by
      rw [le_div_iff₀ h14]
      have : f * 14 ≤ FPS / 14 * 14 := by nlinarith
      simpa [FPS] using this
    have h2 := toFloat32_one_le _ h1
    rw [truncToInt_of_nonneg _ (le_trans zero_le_one h2)]
    exact Int.le_floor.mpr (by simpa using h2)

end Bounds

section Helpers
variable {B : Type}

/-- Appending puts the new element at the end. -/
theorem appendedAtEnd_append {α : Type} (l : List α) (b : α) : appendedAtEnd l (l ++ [b]) b := by
  refine ⟨by simp, ?_, by simp⟩
  intro i hi
  exact List.getElem?_append_left hi

/-- Consing puts the new element at the front. -/
theorem insertedAtFront_cons {α : Type} (l : List α) (b : α) : insertedAtFront l (b :: l) b :=
  ⟨by simp, by simp, fun i => by simp⟩

/-- C22. For every bullet vector: `addSpawner` puts the new spawner at index 0 and moves every
bullet up by one index, in order; `addCircleBullet`, `addRiceBullet`, `addDotBullet`,
`addTalismanBullet`, `addBubbleBullet`, `addArrowheadBullet` and `addLaser` put the new bullet at
the end and leave every index as it was; each helper makes the vector longer by exactly 1. -/
theorem Pattern.add_helpers_spec (api : BulletApi B) (p : Pattern B) (position : Vector2f)
    (speed angleDegrees : ℚ) (color : Color) (radius : Int) (visible : Bool)
    (maxWidth growthSpeed activationDelay activeDuration : ℚ) :
    insertedAtFront p.bullets
      (p.addSpawner api position speed angleDegrees visible color radius).bullets
      (api.newSpawner position speed angleDegrees visible color radius) ∧
    appendedAtEnd p.bullets (p.addCircleBullet api position speed angleDegrees color radius).bullets
      (api.newCircleBullet position speed angleDegrees color radius) ∧
    appendedAtEnd p.bullets (p.addRiceBullet api position speed angleDegrees color radius).bullets
      (api.newRiceBullet position speed angleDegrees color radius) ∧
    appendedAtEnd p.bullets (p.addDotBullet api position speed angleDegrees color radius).bullets
      (api.newDotBullet position speed angleDegrees color radius) ∧
    appendedAtEnd p.bullets
      (p.addTalismanBullet api position speed angleDegrees color radius).bullets
      (api.newTalismanBullet position speed angleDegrees color radius) ∧
    appendedAtEnd p.bullets (p.addBubbleBullet api position speed angleDegrees color radius).bullets
      (api.newBubbleBullet position speed angleDegrees color radius) ∧
    appendedAtEnd p.bullets
      (p.addArrowheadBullet api position speed angleDegrees color radius).bullets
      (api.newArrowheadBullet position speed angleDegrees color radius) ∧
    appendedAtEnd p.bullets
      (p.addLaser api position angleDegrees maxWidth growthSpeed activationDelay activeDuration
        color).bullets
      (api.newLaser position angleDegrees maxWidth growthSpeed activationDelay activeDuration
        color) :=
  ⟨insertedAtFront_cons _ _, appendedAtEnd_append _ _, appendedAtEnd_append _ _,
    appendedAtEnd_append _ _, appendedAtEnd_append _ _, appendedAtEnd_append _ _,
    appendedAtEnd_append _ _, appendedAtEnd_append _ _⟩

/-- C22 on a vector of two bullets: the spawner goes in front of them, the rice bullet behind
them. -/
theorem Pattern.add_helpers_spec_witness :
    (({ (Pattern.new ⟨100, 100⟩ 3 1 5 : Pattern PointBullet) with
          bullets := [PointBullet.at 1 1, PointBullet.at 2 2] }).addSpawner pointApi ⟨7, 7⟩ 0 0
        false RED 4).bullets = [PointBullet.at 7 7, PointBullet.at 1 1, PointBullet.at 2 2] ∧
    (({ (Pattern.new ⟨100, 100⟩ 3 1 5 : Pattern PointBullet) with
          bullets := [PointBullet.at 1 1, PointBullet.at 2 2] }).addRiceBullet pointApi ⟨7, 7⟩ 0 0
        RED 4).bullets = [PointBullet.at 1 1, PointBullet.at 2 2, PointBullet.at 7 7] ∧
    insertedAtFront [PointBullet.at 1 1, PointBullet.at 2 2]
      (({ (Pattern.new ⟨100, 100⟩ 3 1 5 : Pattern PointBullet) with
          bullets := [PointBullet.at 1 1, PointBullet.at 2 2] }).addSpawner pointApi ⟨7, 7⟩ 0 0
        false RED 4).bullets (PointBullet.at 7 7) :=
  ⟨rfl, rfl,
    (Pattern.add_helpers_spec pointApi
      { (Pattern.new ⟨100, 100⟩ 3 1 5 : Pattern PointBullet) with
        bullets := [PointBullet.at 1 1, PointBullet.at 2 2] } ⟨7, 7⟩ 0 0 RED 4 false 0 0 0 0).1⟩

/-- C23. `getTargetRadius(frame)` for every cache state: a frame greater than the number of
cached entries returns 0 and leaves the pattern, and with it the cache, as it is; the frame
equal to the number of cached entries appends exactly one entry, the value of the radius
formula for it, and returns that value; a frame from 0 up to the number of cached entries
returns the cached entry and leaves the pattern as it is. The function is total: it returns a
value in every case (a negative frame, which no wave age is, also returns 0). -/
theorem FlyingSaucer.getTargetRadius_cases (k : Consts) (p : FlyingSaucer B) (frame : Int) :
    ((p.targetRadii.length : Int) < frame → FlyingSaucer.getTargetRadius k p frame = (0, p)) ∧
    ((p.targetRadii.length : Int) = frame →
      FlyingSaucer.getTargetRadius k p frame
        = (FlyingSaucer.computeTargetRadius k frame,
            { p with targetRadii := p.targetRadii ++ [FlyingSaucer.computeTargetRadius k frame] })) ∧
    (0 ≤ frame → frame < (p.targetRadii.length : Int) →
      ∃ r : ℚ, p.targetRadii[frame.toNat]? = some r ∧
        FlyingSaucer.getTargetRadius k p frame = (r, p)) ∧
    (frame < 0 → FlyingSaucer.getTargetRadius k p frame = (0, p)) := by
  refine ⟨FlyingSaucer.getTargetRadius_ahead k p frame, ?_, ?_, ?_⟩
  · intro h
    have hc : ¬ (0 ≤ frame ∧ frame < (p.targetRadii.length : Int)) := by omega
    have hc2 : ¬ ((p.targetRadii.length : Int) ≠ frame) := by omega
    unfold FlyingSaucer.getTargetRadius
    rw [if_neg hc, if_neg hc2]
  · intro h0 h1
    have hlt : frame.toNat < p.targetRadii.length := by omega
    refine ⟨p.targetRadii[frame.toNat], List.getElem?_eq_getElem hlt, ?_⟩
    unfold FlyingSaucer.getTargetRadius
    rw [if_pos ⟨h0, h1⟩, List.getElem?_eq_getElem hlt]
    rfl
  · intro h
    have hc : ¬ (0 ≤ frame ∧ frame < (p.targetRadii.length : Int)) := by omega
    have hc2 : (p.targetRadii.length : Int) ≠ frame := by omega
    unfold FlyingSaucer.getTargetRadius
    rw [if_neg hc, if_pos hc2]

/-- C23 on a freshly constructed pattern, whose cache holds one entry: frame 3 returns 0 and
changes nothing, frame 1 appends and returns the value of the formula. -/
theorem FlyingSaucer.getTargetRadius_cases_witness :
    FlyingSaucer.getTargetRadius sampleConsts
        (FlyingSaucer.new ⟨360, 300⟩ 2 1 5 : FlyingSaucer PointBullet) 3
      = (0, FlyingSaucer.new ⟨360, 300⟩ 2 1 5) ∧
    (FlyingSaucer.getTargetRadius sampleConsts
        (FlyingSaucer.new ⟨360, 300⟩ 2 1 5 : FlyingSaucer PointBullet) 1).1 = 8 / 45 ∧
    (FlyingSaucer.getTargetRadius sampleConsts
        (FlyingSaucer.new ⟨360, 300⟩ 2 1 5 : FlyingSaucer PointBullet) 1).2.targetRadii
      = [0, 8 / 45] :=
  ⟨(FlyingSaucer.getTargetRadius_cases sampleConsts
      (FlyingSaucer.new ⟨360, 300⟩ 2 1 5 : FlyingSaucer PointBullet) 3).1 (by decide),
    by decide!, by decide!⟩

end Helpers

section Phase
variable {B : Type}

/-- The phase as a function of the elapsed frames, case by case. -/
theorem WindGod.phaseAt_cases (k : Consts) (p : WindGod B) (e : Int) :
    WindGod.phaseAt k p e =
      if e < k.MOF_LAYER1CHECKPOINT then 1
      else if e < k.MOF_LAYER2CHECKPOINT then 2
      else if e ≤ k.MOF_LAYER3CHECKPOINT then 3
      else if e < k.MOF_LAYER3CHECKPOINT + p.refreshFrames then 4
      else if e < k.MOF_LAYER4CHECKPOINT + p.refreshFrames then 5
      else if e < k.MOF_LAYER5CHECKPOINT + p.refreshFrames then 6
      else if e ≤ k.MOF_LAYER6CHECKPOINT + p.refreshFrames then 7
      else if e < k.MOF_LAYER6CHECKPOINT + p.refreshFrames * 2 then 8
      else p.phase := by
  unfold WindGod.phaseAt WindGod.calculatePhase
  simp only [add_assoc, add_lt_add_iff_left, add_le_add_iff_left]
  split_ifs <;> rfl

/-- Before the end of the second rest the phase is one of 1 to 8, and each value goes with its
own range of elapsed frames. -/
theorem WindGod.phaseAt_range (k : Consts) (p : WindGod B) (e : Int)
    (h : e < k.MOF_LAYER6CHECKPOINT + p.refreshFrames * 2) :
    (WindGod.phaseAt k p e = 1 ∧ e < k.MOF_LAYER1CHECKPOINT) ∨
    (WindGod.phaseAt k p e = 2 ∧ k.MOF_LAYER1CHECKPOINT ≤ e ∧ e < k.MOF_LAYER2CHECKPOINT) ∨
    (WindGod.phaseAt k p e = 3 ∧ k.MOF_LAYER2CHECKPOINT ≤ e ∧ e ≤ k.MOF_LAYER3CHECKPOINT) ∨
    (WindGod.phaseAt k p e = 4 ∧ k.MOF_LAYER3CHECKPOINT < e ∧
      e < k.MOF_LAYER3CHECKPOINT + p.refreshFrames) ∨
    (WindGod.phaseAt k p e = 5 ∧ k.MOF_LAYER3CHECKPOINT + p.refreshFrames ≤ e ∧
      e < k.MOF_LAYER4CHECKPOINT + p.refreshFrames) ∨
    (WindGod.phaseAt k p e = 6 ∧ k.MOF_LAYER4CHECKPOINT + p.refreshFrames ≤ e ∧
      e < k.MOF_LAYER5CHECKPOINT + p.refreshFrames) ∨
    (WindGod.phaseAt k p e = 7 ∧ k.MOF_LAYER5CHECKPOINT + p.refreshFrames ≤ e ∧
      e ≤ k.MOF_LAYER6CHECKPOINT + p.refreshFrames) ∨
    (WindGod.phaseAt k p e = 8 ∧ k.MOF_LAYER6CHECKPOINT + p.refreshFrames < e) := by
  rw [WindGod.phaseAt_cases]
  by_cases c1 : e < k.MOF_LAYER1CHECKPOINT
  · rw [if_pos c1]; exact Or.inl ⟨rfl, c1⟩
  rw [if_neg c1]
  by_cases c2 : e < k.MOF_LAYER2CHECKPOINT
  · rw [if_pos c2]; exact Or.inr (Or.inl ⟨rfl, not_lt.mp c1, c2⟩)
  rw [if_neg c2]
  by_cases c3 : e ≤ k.MOF_LAYER3CHECKPOINT
  · rw [if_pos c3]; exact Or.inr (Or.inr (Or.inl ⟨rfl, not_lt.mp c2, c3⟩))
  rw [if_neg c3]
  by_cases c4 : e < k.MOF_LAYER3CHECKPOINT + p.refreshFrames
  · rw [if_pos c4]; exact Or.inr (Or.inr (Or.inr (Or.inl ⟨rfl, not_le.mp c3, c4⟩)))
  rw [if_neg c4]
  by_cases c5 : e < k.MOF_LAYER4CHECKPOINT + p.refreshFrames
  · rw [if_pos c5]
    exact Or.inr (Or.inr (Or.inr (Or.inr (Or.inl ⟨rfl, not_lt.mp c4, c5⟩))))
  rw [if_neg c5]
  by_cases c6 : e < k.MOF_LAYER5CHECKPOINT + p.refreshFrames
  · rw [if_pos c6]
    exact Or.inr (Or.inr (Or.inr (Or.inr (Or.inr (Or.inl ⟨rfl, not_lt.mp c5, c6⟩)))))
  rw [if_neg c6]
  by_cases c7 : e ≤ k.MOF_LAYER6CHECKPOINT + p.refreshFrames
  · rw [if_pos c7]
    exact Or.inr (Or.inr (Or.inr (Or.inr (Or.inr (Or.inr (Or.inl ⟨rfl, not_lt.mp c6, c7⟩))))))
  rw [if_neg c7, if_pos h]
  exact Or.inr (Or.inr (Or.inr (Or.inr (Or.inr (Or.inr (Or.inr ⟨rfl, not_le.mp c7⟩))))))

/-- With increasing checkpoints and a positive refresh time the phase does not decrease with
the elapsed frames, up to the end of the second rest. -/
theorem WindGod.phaseAt_mono (k : Consts) (p : WindGod B)
    (h12 : k.MOF_LAYER1CHECKPOINT < k.MOF_LAYER2CHECKPOINT)
    (h23 : k.MOF_LAYER2CHECKPOINT < k.MOF_LAYER3CHECKPOINT)
    (h34 : k.MOF_LAYER3CHECKPOINT < k.MOF_LAYER4CHECKPOINT)
    (h45 : k.MOF_LAYER4CHECKPOINT < k.MOF_LAYER5CHECKPOINT)
    (h56 : k.MOF_LAYER5CHECKPOINT < k.MOF_LAYER6CHECKPOINT)
    (hr : 0 < p.refreshFrames) (e1 e2 : Int) (h1 : e1 ≤ e2)
    (h2 : e2 < k.MOF_LAYER6CHECKPOINT + 2 * p.refreshFrames) :
    WindGod.phaseAt k p e1 ≤ WindGod.phaseAt k p e2 := by
  have r1 := WindGod.phaseAt_range k p e1 (by omega)
  have r2 := WindGod.phaseAt_range k p e2 (by omega)
  generalize WindGod.phaseAt k p e1 = a at r1 ⊢
  generalize WindGod.phaseAt k p e2 = b at r2 ⊢
  omega

/-- The phase at an elapsed frame count, read off the range that the count lies in. -/
theorem WindGod.phaseAt_of_range (k : Consts) (p : WindGod B)
    (h12 : k.MOF_LAYER1CHECKPOINT < k.MOF_LAYER2CHECKPOINT)
    (h23 : k.MOF_LAYER2CHECKPOINT < k.MOF_LAYER3CHECKPOINT)
    (h34 : k.MOF_LAYER3CHECKPOINT < k.MOF_LAYER4CHECKPOINT)
    (h45 : k.MOF_LAYER4CHECKPOINT < k.MOF_LAYER5CHECKPOINT)
    (h56 : k.MOF_LAYER5CHECKPOINT < k.MOF_LAYER6CHECKPOINT)
    (hr : 0 < p.refreshFrames) (e : Int) :
    (e < k.MOF_LAYER1CHECKPOINT → WindGod.phaseAt k p e = 1) ∧
    (k.MOF_LAYER1CHECKPOINT ≤ e → e < k.MOF_LAYER2CHECKPOINT → WindGod.phaseAt k p e = 2) ∧
    (k.MOF_LAYER2CHECKPOINT ≤ e → e ≤ k.MOF_LAYER3CHECKPOINT → WindGod.phaseAt k p e = 3) ∧
    (k.MOF_LAYER3CHECKPOINT < e → e < k.MOF_LAYER3CHECKPOINT + p.refreshFrames →
      WindGod.phaseAt k p e = 4) ∧
    (k.MOF_LAYER3CHECKPOINT + p.refreshFrames ≤ e →
      e < k.MOF_LAYER4CHECKPOINT + p.refreshFrames → WindGod.phaseAt k p e = 5) ∧
    (k.MOF_LAYER4CHECKPOINT + p.refreshFrames ≤ e →
      e < k.MOF_LAYER5CHECKPOINT + p.refreshFrames → WindGod.phaseAt k p e = 6) ∧
    (k.MOF_LAYER5CHECKPOINT + p.refreshFrames ≤ e →
      e ≤ k.MOF_LAYER6CHECKPOINT + p.refreshFrames → WindGod.phaseAt k p e = 7) ∧
    (k.MOF_LAYER6CHECKPOINT + p.refreshFrames < e →
      e < k.MOF_LAYER6CHECKPOINT + 2 * p.refreshFrames → WindGod.phaseAt k p e = 8) := by
  by_cases hT : e < k.MOF_LAYER6CHECKPOINT + p.refreshFrames * 2
  · have r := WindGod.phaseAt_range k p e hT
    generalize WindGod.phaseAt k p e = a at r ⊢
    omega
  · refine ⟨?_, ?_, ?_, ?_, ?_, ?_, ?_, ?_⟩ <;> intros <;> omega

/-- From the end of the second rest on `calculatePhase()` changes nothing. -/
theorem WindGod.calculatePhase_stale (k : Consts) (p : WindGod B)
    (h12 : k.MOF_LAYER1CHECKPOINT < k.MOF_LAYER2CHECKPOINT)
    (h23 : k.MOF_LAYER2CHECKPOINT < k.MOF_LAYER3CHECKPOINT)
    (h34 : k.MOF_LAYER3CHECKPOINT < k.MOF_LAYER4CHECKPOINT)
    (h45 : k.MOF_LAYER4CHECKPOINT < k.MOF_LAYER5CHECKPOINT)
    (h56 : k.MOF_LAYER5CHECKPOINT < k.MOF_LAYER6CHECKPOINT)
    (hr : 0 < p.refreshFrames) (e : Int)
    (he : k.MOF_LAYER6CHECKPOINT + 2 * p.refreshFrames ≤ e) :
    WindGod.calculatePhase k { p with frameCounter := p.spawnPoint + e }
      = { p with frameCounter := p.spawnPoint + e } := by
  unfold WindGod.calculatePhase
  simp only [add_assoc, add_lt_add_iff_left, add_le_add_iff_left]
  iterate 8 rw [if_neg (by omega)]

/-- C25, as the code behaves: `calculatePhase()` as a function of the elapsed frames
`e = frameCounter - spawnPoint`, for checkpoints `L1 < L2 < L3 < L4 < L5 < L6` and
`refreshFrames = r > 0`. The phase is set to 1 for `e < L1`, 2 for `L1 ≤ e < L2`, 3 for
`L2 ≤ e ≤ L3`, 4 for `L3 < e < L3 + r`, 5 for `L3 + r ≤ e < L4 + r`, 6 for
`L4 + r ≤ e < L5 + r`, 7 for `L5 + r ≤ e ≤ L6 + r` and 8 for `L6 + r < e < L6 + 2r`; for
`e ≥ L6 + 2r` the pattern, and with it the phase, is left as it is. The phase does not decrease
with `e` below `L6 + 2r`. The values 1, 2, 3, 5, 6 and 7 are always taken; 4 and 8 are taken
when `r ≥ 2`, and for `r = 1` no frame below `L6 + 2r` has phase 4 or 8. -/
theorem WindGod.calculatePhase_spec (k : Consts) (p : WindGod B)
    (h12 : k.MOF_LAYER1CHECKPOINT < k.MOF_LAYER2CHECKPOINT)
    (h23 : k.MOF_LAYER2CHECKPOINT < k.MOF_LAYER3CHECKPOINT)
    (h34 : k.MOF_LAYER3CHECKPOINT < k.MOF_LAYER4CHECKPOINT)
    (h45 : k.MOF_LAYER4CHECKPOINT < k.MOF_LAYER5CHECKPOINT)
    (h56 : k.MOF_LAYER5CHECKPOINT < k.MOF_LAYER6CHECKPOINT)
    (hr : 0 < p.refreshFrames) :
    (∀ e : Int,
      (e < k.MOF_LAYER1CHECKPOINT → WindGod.phaseAt k p e = 1) ∧
      (k.MOF_LAYER1CHECKPOINT ≤ e → e < k.MOF_LAYER2CHECKPOINT → WindGod.phaseAt k p e = 2) ∧
      (k.MOF_LAYER2CHECKPOINT ≤ e → e ≤ k.MOF_LAYER3CHECKPOINT → WindGod.phaseAt k p e = 3) ∧
      (k.MOF_LAYER3CHECKPOINT < e → e < k.MOF_LAYER3CHECKPOINT + p.refreshFrames →
        WindGod.phaseAt k p e = 4) ∧
      (k.MOF_LAYER3CHECKPOINT + p.refreshFrames ≤ e →
        e < k.MOF_LAYER4CHECKPOINT + p.refreshFrames → WindGod.phaseAt k p e = 5) ∧
      (k.MOF_LAYER4CHECKPOINT + p.refreshFrames ≤ e →
        e < k.MOF_LAYER5CHECKPOINT + p.refreshFrames → WindGod.phaseAt k p e = 6) ∧
      (k.MOF_LAYER5CHECKPOINT + p.refreshFrames ≤ e →
        e ≤ k.MOF_LAYER6CHECKPOINT + p.refreshFrames → WindGod.phaseAt k p e = 7) ∧
      (k.MOF_LAYER6CHECKPOINT + p.refreshFrames < e →
        e < k.MOF_LAYER6CHECKPOINT + 2 * p.refreshFrames → WindGod.phaseAt k p e = 8)) ∧
    (∀ e : Int, k.MOF_LAYER6CHECKPOINT + 2 * p.refreshFrames ≤ e →
      WindGod.calculatePhase k { p with frameCounter := p.spawnPoint + e }
        = { p with frameCounter := p.spawnPoint + e }) ∧
    (∀ e1 e2 : Int, e1 ≤ e2 → e2 < k.MOF_LAYER6CHECKPOINT + 2 * p.refreshFrames →
      WindGod.phaseAt k p e1 ≤ WindGod.phaseAt k p e2) ∧
    (WindGod.phaseAt k p (k.MOF_LAYER1CHECKPOINT - 1) = 1 ∧
      WindGod.phaseAt k p k.MOF_LAYER1CHECKPOINT = 2 ∧
      WindGod.phaseAt k p k.MOF_LAYER2CHECKPOINT = 3 ∧
      WindGod.phaseAt k p (k.MOF_LAYER3CHECKPOINT + p.refreshFrames) = 5 ∧
      WindGod.phaseAt k p (k.MOF_LAYER4CHECKPOINT + p.refreshFrames) = 6 ∧
      WindGod.phaseAt k p (k.MOF_LAYER5CHECKPOINT + p.refreshFrames) = 7) ∧
    (2 ≤ p.refreshFrames →
      WindGod.phaseAt k p (k.MOF_LAYER3CHECKPOINT + 1) = 4 ∧
      WindGod.phaseAt k p (k.MOF_LAYER6CHECKPOINT + p.refreshFrames + 1) = 8) ∧
    (p.refreshFrames = 1 →
      ∀ e : Int, e < k.MOF_LAYER6CHECKPOINT + 2 * p.refreshFrames →
        WindGod.phaseAt k p e ≠ 4 ∧ WindGod.phaseAt k p e ≠ 8) := by
  have hcases := WindGod.phaseAt_of_range k p h12 h23 h34 h45 h56 hr
  refine ⟨hcases, WindGod.calculatePhase_stale k p h12 h23 h34 h45 h56 hr,
    WindGod.phaseAt_mono k p h12 h23 h34 h45 h56 hr, ?_, ?_, ?_⟩
  · exact ⟨(hcases _).1 (by omega), (hcases _).2.1 (by omega) (by omega),
      (hcases _).2.2.1 (by omega) (by omega), (hcases _).2.2.2.2.1 (by omega) (by omega),
      (hcases _).2.2.2.2.2.1 (by omega) (by omega),
      (hcases _).2.2.2.2.2.2.1 (by omega) (by omega)⟩
  · intro h2
    exact ⟨(hcases _).2.2.2.1 (by omega) (by omega),
      (hcases _).2.2.2.2.2.2.2 (by omega) (by omega)⟩
  · intro h1 e he
    have r := WindGod.phaseAt_range k p e (by omega)
    generalize WindGod.phaseAt k p e = a at r ⊢
    omega

/-- C25 as amended, on a `WindGod` with a refresh time of 60 frames and the sample
checkpoints 3, 6, 9, 12, 15, 18: the elapsed frames 2, 3, 6, 10, 69, 72, 75, 79 have the phases
1 to 8. -/
theorem WindGod.calculatePhase_spec_witness :
    (WindGod.new sampleConsts ⟨360, 300⟩ 1 5 : WindGod PointBullet).refreshFrames = 60 ∧
    (List.map (WindGod.phaseAt sampleConsts
        (WindGod.new sampleConsts ⟨360, 300⟩ 1 5 : WindGod PointBullet))
      [2, 3, 6, 10, 69, 72, 75, 79]) = [1, 2, 3, 4, 5, 6, 7, 8] ∧
    WindGod.phaseAt sampleConsts (WindGod.new sampleConsts ⟨360, 300⟩ 1 5 : WindGod PointBullet)
        10
      ≤ WindGod.phaseAt sampleConsts
          (WindGod.new sampleConsts ⟨360, 300⟩ 1 5 : WindGod PointBullet) 72 := by
  refine ⟨by decide!, by decide!, ?_⟩
  exact (WindGod.calculatePhase_spec sampleConsts
    (WindGod.new sampleConsts ⟨360, 300⟩ 1 5 : WindGod PointBullet) (by decide) (by decide)
    (by decide) (by decide) (by decide) (by decide!)).2.2.1 10 72 (by decide) (by decide!)

/-- C25 fails as stated: with a refresh time of one frame, which is positive, no elapsed frame
count gives phase 4 on a freshly constructed `WindGod`, because the range `L3 < e < L3 + 1` of
the first rest holds no frame. -/
theorem WindGod.phase_four_skipped :
    oneFrameRefresh.refreshFrames = 1 ∧ 0 < oneFrameRefresh.refreshFrames ∧
    ¬ ∃ e : Int, WindGod.phaseAt sampleConsts oneFrameRefresh e = 4 := by
  refine ⟨by decide!, by decide!, ?_⟩
  rintro ⟨e, he⟩
  have hcases := WindGod.phaseAt_cases sampleConsts oneFrameRefresh e
  have hr : oneFrameRefresh.refreshFrames = 1 := by decide!
  have hp : oneFrameRefresh.phase = 0 := rfl
  rw [he, hr, hp] at hcases
  simp only [sampleConsts] at hcases
  split_ifs at hcases <;> omega

end Phase

section Fairness
variable {B : Type}

/-- Induction over a counted loop: a property that holds before the loop and that every pass
carries from its index to the next holds after the loop for the number of passes. -/
theorem forLoop_induct {σ : Type} (Inv : Nat → σ → Prop) (n : Int) (body : Int → σ → σ) (s : σ)
    (h0 : Inv 0 s)
    (hstep : ∀ (i : Nat) (t : σ), i < n.toNat → Inv i t → Inv (i + 1) (body (i : Int) t)) :
    Inv n.toNat (forLoop n body s) := by
  unfold forLoop
  have key : ∀ m : Nat, m ≤ n.toNat →
      Inv m (List.foldl (fun (acc : σ) (k : Nat) => body (k : Int) acc) s (List.range m)) := by
    intro m
    induction m with
    | zero => intro _; exact h0
    | succ m ih =>
      intro hm
      rw [List.range_succ, List.foldl_append, List.foldl_cons, List.foldl_nil]
      exact hstep m _ (by omega) (ih (by omega))
  exact key n.toNat (le_refl _)

/-- Induction over a ranged loop. -/
theorem forRange_induct {σ : Type} (Inv : Nat → σ → Prop) (lo hi : Int) (body : Int → σ → σ)
    (s : σ) (h0 : Inv 0 s)
    (hstep : ∀ (i : Nat) (t : σ), i < (hi - lo).toNat → Inv i t →
      Inv (i + 1) (body (lo + (i : Int)) t)) :
    Inv (hi - lo).toNat (forRange lo hi body s) := by
  unfold forRange
  have key : ∀ m : Nat, m ≤ (hi - lo).toNat →
      Inv m (List.foldl (fun (acc : σ) (k : Nat) => body (lo + (k : Int)) acc) s
        (List.range m)) := by
    intro m
    induction m with
    | zero => intro _; exact h0
    | succ m ih =>
      intro hm
      rw [List.range_succ, List.foldl_append, List.foldl_cons, List.foldl_nil]
      exact hstep m _ (by omega) (ih (by omega))
  exact key _ (le_refl _)

/-- One spawner's turn, for a spawner that is in the vector: one bullet is appended, the running
counter grows by 1, and the density state stays. -/
theorem WindGod.emitFrom_count (api : BulletApi B) (k : Consts) (i : Nat) (p : WindGod B)
    (hi : i < p.bullets.length) :
    (WindGod.emitFrom api k (i : Int) p).bullets.length = p.bullets.length + 1 ∧
    (WindGod.emitFrom api k (i : Int) p).currentBulletCount = p.currentBulletCount + 1 ∧
    (WindGod.emitFrom api k (i : Int) p).rate = p.rate := by
  have h : (if 0 ≤ (i : Int) then p.bullets[(i : Int).toNat]? else none)
      = some (p.bullets[i]) := by
    rw [if_pos (Int.ofNat_nonneg i)]
    simp [List.getElem?_eq_getElem hi]
  unfold WindGod.emitFrom
  rw [h]
  simp only []
  split_ifs <;>
    simp [Pattern.addTalismanBullet, modifyAt_length, WavePattern.incrementCurrentBulletCount,
      WindGod.rate]

/-- One emission round with all spawners in the vector: `PETALCOUNT` bullets are appended, the
running counter grows by `PETALCOUNT`, and the density state stays. -/
theorem WindGod.emissionRound_count (api : BulletApi B) (k : Consts) (p : WindGod B)
    (hP : k.MOF_PETALCOUNT.toNat ≤ p.bullets.length) :
    (WindGod.emissionRound api k p).bullets.length
      = p.bullets.length + k.MOF_PETALCOUNT.toNat ∧
    (WindGod.emissionRound api k p).currentBulletCount
      = p.currentBulletCount + (k.MOF_PETALCOUNT.toNat : Int) ∧
    (WindGod.emissionRound api k p).rate = p.rate := by
  have h := forLoop_induct
    (fun (i : Nat) (t : WindGod B) => t.bullets.length = p.bullets.length + i ∧
      t.currentBulletCount = p.currentBulletCount + (i : Int) ∧ t.rate = p.rate)
    k.MOF_PETALCOUNT (WindGod.emitFrom api k) p ⟨rfl, by simp, rfl⟩
    (by
      intro i t hi hinv
      have hlen : i < t.bullets.length := by omega
      have hc := WindGod.emitFrom_count api k i t hlen
      refine ⟨by omega, ?_, hc.2.2.trans hinv.2.2⟩
      rw [hc.2.1, hinv.2.1]
      push_cast
      ring)
  unfold WindGod.emissionRound
  exact h

/-- The spawn branch with all spawners in the vector: it runs `emissionRounds` rounds, each of
`PETALCOUNT` bullets, keeps the ratio and advances the cycle counter cyclically. -/
theorem WindGod.emitBullets_count (api : BulletApi B) (k : Consts) (p : WindGod B)
    (hP : k.MOF_PETALCOUNT.toNat ≤ p.bullets.length) :
    (WindGod.emitBullets api k p).bullets.length
      = p.bullets.length + WindGod.emissionRounds p * k.MOF_PETALCOUNT.toNat ∧
    (WindGod.emitBullets api k p).currentBulletCount
      = p.currentBulletCount
        + ((WindGod.emissionRounds p * k.MOF_PETALCOUNT.toNat : Nat) : Int) ∧
    (WindGod.emitBullets api k p).rate
      = (p.scaleNumer, p.scaleDenom,
          if p.cycleCounter ≥ p.scaleDenom - 1 then 0 else p.cycleCounter + 1) := by
  have h := forRange_induct
    (fun (m : Nat) (t : WindGod B) =>
      t.bullets.length = p.bullets.length + m * k.MOF_PETALCOUNT.toNat ∧
      t.currentBulletCount
        = p.currentBulletCount + ((m * k.MOF_PETALCOUNT.toNat : Nat) : Int) ∧
      t.rate = (p.scaleNumer, p.scaleDenom,
        if p.cycleCounter ≥ p.scaleDenom - 1 then 0 else p.cycleCounter + 1))
    (WindGod.firstRound p) (Int.tdiv p.scaleNumer p.scaleDenom)
    (fun _ q => WindGod.emissionRound api k q)
    { p with
      cycleCounter := if p.cycleCounter ≥ p.scaleDenom - 1 then 0 else p.cycleCounter + 1 }
    ⟨by simp, by simp, rfl⟩
    (by
      intro m t hm hinv
      have hlen : k.MOF_PETALCOUNT.toNat ≤ t.bullets.length := by
        rw [hinv.1]; omega
      have hc := WindGod.emissionRound_count api k t hlen
      refine ⟨?_, ?_, hc.2.2.trans hinv.2.2⟩
      · rw [hc.1, hinv.1]; ring
      · rw [hc.2.1, hinv.2.1]
        push_cast
        ring)
  exact h

/-- The number of rounds of a spawning frame: the whole part of the ratio, and one more when
the cycle counter is below the remainder of the ratio. -/
theorem WindGod.emissionRounds_eq (p : WindGod B) (hN : 0 ≤ p.scaleNumer)
    (hD : 0 < p.scaleDenom) (hc0 : 0 ≤ p.cycleCounter) :
    (WindGod.emissionRounds p : Int)
      = p.scaleNumer / p.scaleDenom
        + (if p.cycleCounter % p.scaleDenom < p.scaleNumer % p.scaleDenom then 1 else 0) := by
  unfold WindGod.emissionRounds WindGod.firstRound
  rw [Int.tdiv_eq_ediv hN (le_of_lt hD), Int.tmod_eq_emod hc0 (le_of_lt hD),
    Int.tmod_eq_emod hN (le_of_lt hD)]
  have hq : 0 ≤ p.scaleNumer / p.scaleDenom := Int.ediv_nonneg hN (le_of_lt hD)
  split_ifs <;> omega

/-- A run of spawning frames splits into two runs. -/
theorem WindGod.roundsOver_add (api : BulletApi B) (k : Consts) (a b : Nat) :
    ∀ p : WindGod B,
      WindGod.roundsOver api k (a + b) p
        = WindGod.roundsOver api k a p
          + WindGod.roundsOver api k b (WindGod.emitBulletsN api k a p) := by
  induction a with
  | zero => intro p; simp [WindGod.roundsOver, WindGod.emitBulletsN]
  | succ a ih =>
    intro p
    have e : a + 1 + b = (a + b) + 1 := by omega
    rw [e]
    simp only [WindGod.roundsOver, WindGod.emitBulletsN, ih]
    omega

/-- A run of spawning frames during which the cycle counter does not wrap around before the
last frame: the rounds are the whole part of the ratio per frame, plus one for every cycle
counter value of the run that is below the remainder. -/
theorem WindGod.roundsOver_segment (api : BulletApi B) (k : Consts) (n : Nat) :
    ∀ p : WindGod B, 0 ≤ p.scaleNumer → 0 < p.scaleDenom → 0 ≤ p.cycleCounter →
      p.cycleCounter + (n : Int) ≤ p.scaleDenom → p.cycleCounter < p.scaleDenom →
      k.MOF_PETALCOUNT.toNat ≤ p.bullets.length →
      (WindGod.roundsOver api k n p : Int)
        = (n : Int) * (p.scaleNumer / p.scaleDenom)
          + (min (p.cycleCounter + (n : Int)) (p.scaleNumer % p.scaleDenom)
            - min p.cycleCounter (p.scaleNumer % p.scaleDenom)) ∧
      (WindGod.emitBulletsN api k n p).rate
        = (p.scaleNumer, p.scaleDenom,
            if p.cycleCounter + (n : Int) = p.scaleDenom then 0 else p.cycleCounter + (n : Int)) ∧
      p.bullets.length ≤ (WindGod.emitBulletsN api k n p).bullets.length := by
  induction n with
  | zero =>
    intro p hN hD hc0 hn hc1 hP
    refine ⟨by simp [WindGod.roundsOver], ?_, le_refl _⟩
    have : ¬ p.cycleCounter + ((0 : Nat) : Int) = p.scaleDenom := by omega
    simp only [WindGod.emitBulletsN, if_neg this]
    simp [WindGod.rate]
  | succ n ih =>
    intro p hN hD hc0 hn hc1 hP
    have hstep := WindGod.emitBullets_count api k p hP
    have hround := WindGod.emissionRounds_eq p hN hD hc0
    have hmod : p.cycleCounter % p.scaleDenom = p.cycleCounter :=
      Int.emod_eq_of_lt hc0 hc1
    rw [hmod] at hround
    have hr0 : 0 ≤ p.scaleNumer % p.scaleDenom := Int.emod_nonneg _ (ne_of_gt hD)
    have hrate := hstep.2.2
    simp only [WindGod.rate, Prod.mk.injEq] at hrate
    obtain ⟨hN', hD', hc'⟩ := hrate
    have hlen' : k.MOF_PETALCOUNT.toNat ≤ (WindGod.emitBullets api k p).bullets.length := by
      rw [hstep.1]; omega
    have hlen2 : p.bullets.length ≤ (WindGod.emitBullets api k p).bullets.length := by
      rw [hstep.1]; omega
    simp only [WindGod.roundsOver, WindGod.emitBulletsN]
    cases n with
    | zero =>
      refine ⟨?_, ?_, hlen2⟩
      · simp only [WindGod.roundsOver]
        push_cast
        rw [hround]
        split_ifs <;> omega
      · simp only [WindGod.emitBulletsN, WindGod.rate, Prod.mk.injEq]
        refine ⟨hN', hD', ?_⟩
        rw [hc']
        push_cast
        split_ifs <;> omega
    | succ m =>
      have hcn : p.cycleCounter + ((m + 1 + 1 : Nat) : Int) ≤ p.scaleDenom := hn
      have hc'' : (WindGod.emitBullets api k p).cycleCounter = p.cycleCounter + 1 := by
        rw [hc']
        have : ¬ p.cycleCounter ≥ p.scaleDenom - 1 := by push_cast at hcn; omega
        rw [if_neg this]
      have hih := ih (WindGod.emitBullets api k p) (by rw [hN']; exact hN)
        (by rw [hD']; exact hD) (by rw [hc'']; omega)
        (by rw [hc'', hD']; push_cast at hcn ⊢; omega)
        (by rw [hc'', hD']; push_cast at hcn; omega) hlen'
      rw [hN', hD', hc''] at hih
      refine ⟨?_, ?_, le_trans hlen2 hih.2.2⟩
      · push_cast
        push_cast at hih
        rw [hih.1, hround]
        generalize p.scaleNumer / p.scaleDenom = q
        generalize p.scaleNumer % p.scaleDenom = r at hr0 ⊢
        have e : ((m : Int) + 1 + 1) * q = ((m : Int) + 1) * q + q := by ring
        rw [e]
        split_ifs <;> omega
      · rw [hih.2.1]
        simp only [Prod.mk.injEq, true_and]
        push_cast
        split_ifs <;> omega

/-- C24. Emission-rate fairness of the spawn branch of `WindGod::processMovement()`, for a
density ratio `N = scaleNumer ≥ 0`, `D = scaleDenom > 0`, a cycle counter in `[0, D)` and a
bullet vector that holds the `PETALCOUNT` spawners: a spawning frame runs `floor(N / D)`
emission rounds plus one more exactly when `cycleCounter mod D < N mod D`; every round appends
`PETALCOUNT` bullets and increments `currentBulletCount` `PETALCOUNT` times; the ratio is kept
and the cycle counter stays in `[0, D)`; and `D` consecutive spawning frames run exactly `N`
rounds in total. -/
theorem WindGod.emission_fairness (api : BulletApi B) (k : Consts) (p : WindGod B)
    (hN : 0 ≤ p.scaleNumer) (hD : 0 < p.scaleDenom) (hc0 : 0 ≤ p.cycleCounter)
    (hc1 : p.cycleCounter < p.scaleDenom)
    (hP : k.MOF_PETALCOUNT.toNat ≤ p.bullets.length) :
    (WindGod.emissionRounds p : Int)
      = p.scaleNumer / p.scaleDenom
        + (if p.cycleCounter % p.scaleDenom < p.scaleNumer % p.scaleDenom then 1 else 0) ∧
    (WindGod.emitBullets api k p).bullets.length
      = p.bullets.length + WindGod.emissionRounds p * k.MOF_PETALCOUNT.toNat ∧
    (WindGod.emitBullets api k p).currentBulletCount
      = p.currentBulletCount
        + ((WindGod.emissionRounds p * k.MOF_PETALCOUNT.toNat : Nat) : Int) ∧
    (WindGod.emitBullets api k p).scaleNumer = p.scaleNumer ∧
    (WindGod.emitBullets api k p).scaleDenom = p.scaleDenom ∧
    0 ≤ (WindGod.emitBullets api k p).cycleCounter ∧
    (WindGod.emitBullets api k p).cycleCounter < p.scaleDenom ∧
    (WindGod.roundsOver api k p.scaleDenom.toNat p : Int) = p.scaleNumer := by
  have hstep := WindGod.emitBullets_count api k p hP
  have hrate := hstep.2.2
  simp only [WindGod.rate, Prod.mk.injEq] at hrate
  obtain ⟨hN', hD', hc'⟩ := hrate
  refine ⟨WindGod.emissionRounds_eq p hN hD hc0, hstep.1, hstep.2.1, hN', hD', ?_, ?_, ?_⟩
  · rw [hc']; split_ifs <;> omega
  · rw [hc']; split_ifs <;> omega
  · have hsplit : p.scaleDenom.toNat
        = (p.scaleDenom - p.cycleCounter).toNat + p.cycleCounter.toNat := by omega
    rw [hsplit, WindGod.roundsOver_add]
    have h1 := WindGod.roundsOver_segment api k (p.scaleDenom - p.cycleCounter).toNat p hN hD
      hc0 (by omega) hc1 hP
    have hrate1 := h1.2.1
    have hfull : p.cycleCounter + (((p.scaleDenom - p.cycleCounter).toNat : Nat) : Int)
        = p.scaleDenom := by omega
    rw [if_pos hfull] at hrate1
    simp only [WindGod.rate, Prod.mk.injEq] at hrate1
    obtain ⟨hN1, hD1, hc1'⟩ := hrate1
    have h2 := WindGod.roundsOver_segment api k p.cycleCounter.toNat
      (WindGod.emitBulletsN api k (p.scaleDenom - p.cycleCounter).toNat p)
      (by rw [hN1]; exact hN) (by rw [hD1]; exact hD) (by rw [hc1'])
      (by rw [hc1', hD1]; omega) (by rw [hc1', hD1]; exact hD) (le_trans hP h1.2.2)
    rw [hN1, hD1, hc1'] at h2
    push_cast
    rw [h1.1, h2.1, hfull]
    have hr0 : 0 ≤ p.scaleNumer % p.scaleDenom := Int.emod_nonneg _ (ne_of_gt hD)
    have hr1 : p.scaleNumer % p.scaleDenom < p.scaleDenom := Int.emod_lt_of_pos _ hD
    have hdm := Int.ediv_add_emod p.scaleNumer p.scaleDenom
    have e1 : (((p.scaleDenom - p.cycleCounter).toNat : Nat) : Int)
        = p.scaleDenom - p.cycleCounter := by omega
    have e2 : ((p.cycleCounter.toNat : Nat) : Int) = p.cycleCounter := by omega
    rw [e1, e2]
    have e3 : (p.scaleDenom - p.cycleCounter) * (p.scaleNumer / p.scaleDenom)
        + p.cycleCounter * (p.scaleNumer / p.scaleDenom)
        = p.scaleDenom * (p.scaleNumer / p.scaleDenom) := by ring
    generalize p.scaleNumer % p.scaleDenom = r at hr0 hr1 hdm ⊢
    generalize p.scaleNumer / p.scaleDenom = q at e3 hdm ⊢
    omega

/-- C24 on a `WindGod` after its first spawn, with ratio 3 / 2 and cycle counter 0: the first
spawning frame runs 2 rounds and appends 10 bullets, and two consecutive spawning frames run 3
rounds. -/
theorem WindGod.emission_fairness_witness :
    spawnedWindGod.scaleNumer = 3 ∧ spawnedWindGod.scaleDenom = 2 ∧
    spawnedWindGod.cycleCounter = 0 ∧ spawnedWindGod.bullets.length = 5 ∧
    WindGod.emissionRounds spawnedWindGod = 2 ∧
    (WindGod.emitBullets pointApi sampleConsts spawnedWindGod).bullets.length = 15 ∧
    (WindGod.roundsOver pointApi sampleConsts spawnedWindGod.scaleDenom.toNat spawnedWindGod
      : Int) = spawnedWindGod.scaleNumer := by
  refine ⟨by decide!, by decide!, by decide!, by decide!, by decide!, by decide!, ?_⟩
  exact (WindGod.emission_fairness pointApi sampleConsts spawnedWindGod (by decide!)
    (by decide!) (by decide!) (by decide!) (by decide!)).2.2.2.2.2.2.2

end Fairness

section Ranges
variable {B : Type}

/-- The element at index `j` after `v[i]->f()`. -/
theorem modifyAt_getElem? {α : Type} (f : α → α) (i : Int) (l : List α) (j : Nat) :
    (modifyAt f i l)[j]? = if i = (j : Int) then (l[j]?).map f else l[j]? := by
  unfold modifyAt
  by_cases h0 : 0 ≤ i
  · rw [if_pos h0, List.getElem?_modify]
    by_cases hij : i = (j : Int)
    · have : i.toNat = j := by omega
      rw [if_pos hij]
      cases l[j]? <;> simp [this]
    · have : ¬ i.toNat = j := by omega
      rw [if_neg hij]
      cases l[j]? <;> simp [this]
  · rw [if_neg h0]
    have : ¬ i = (j : Int) := by omega
    rw [if_neg this]

/-- The element at index `j` after the loop `for (j = lo; j <= hi; j++) v[j]->f()`: rewritten
inside the range, untouched outside. -/
theorem modifyRange_getElem? {α : Type} (f : α → α) (lo hi : Int) (l : List α) (j : Nat) :
    (modifyRange f lo hi l)[j]?
      = if lo ≤ (j : Int) ∧ (j : Int) ≤ hi then (l[j]?).map f else l[j]? := by
  unfold modifyRange
  have key : ∀ m : Nat,
      (List.foldl (fun (acc : List α) (k : Nat) => modifyAt f (lo + (k : Int)) acc) l
          (List.range m))[j]?
        = if lo ≤ (j : Int) ∧ (j : Int) < lo + (m : Int) then (l[j]?).map f else l[j]? := by
    intro m
    induction m with
    | zero =>
      have : ¬ (lo ≤ (j : Int) ∧ (j : Int) < lo + ((0 : Nat) : Int)) := by omega
      rw [if_neg this]
      rfl
    | succ m ih =>
      rw [List.range_succ, List.foldl_append, List.foldl_cons, List.foldl_nil,
        modifyAt_getElem?, ih]
      by_cases h1 : lo + (m : Int) = (j : Int)
      · have h2 : ¬ (lo ≤ (j : Int) ∧ (j : Int) < lo + (m : Int)) := by omega
        have h3 : lo ≤ (j : Int) ∧ (j : Int) < lo + ((m + 1 : Nat) : Int) := by
          push_cast; omega
        rw [if_pos h1, if_neg h2, if_pos h3]
      · rw [if_neg h1]
        by_cases h2 : lo ≤ (j : Int) ∧ (j : Int) < lo + (m : Int)
        · have h3 : lo ≤ (j : Int) ∧ (j : Int) < lo + ((m + 1 : Nat) : Int) := by
            push_cast; omega
          rw [if_pos h2, if_pos h3]
        · have h3 : ¬ (lo ≤ (j : Int) ∧ (j : Int) < lo + ((m + 1 : Nat) : Int)) := by
            push_cast; omega
          rw [if_neg h2, if_neg h3]
  rw [key]
  by_cases h : lo ≤ (j : Int) ∧ (j : Int) ≤ hi
  · have h' : lo ≤ (j : Int) ∧ (j : Int) < lo + (((hi - lo + 1).toNat : Nat) : Int) := by omega
    rw [if_pos h, if_pos h']
  · have h' : ¬ (lo ≤ (j : Int) ∧ (j : Int) < lo + (((hi - lo + 1).toNat : Nat) : Int)) := by
      omega
    rw [if_neg h, if_neg h']

/-- Rewriting the entries from the end of a prefix to the end of the vector rewrites exactly
the rest behind the prefix. -/
theorem modifyRange_suffix {α : Type} (f : α → α) (A Bs : List α) (lo hi : Int)
    (hlo : lo = (A.length : Int)) (hhi : hi = ((A ++ Bs).length : Int) - 1) :
    modifyRange f lo hi (A ++ Bs) = A ++ Bs.map f := by
  apply List.ext_getElem?
  intro j
  rw [modifyRange_getElem?]
  by_cases hj : j < A.length
  · have h : ¬ (lo ≤ (j : Int) ∧ (j : Int) ≤ hi) := by omega
    rw [if_neg h, List.getElem?_append_left hj, List.getElem?_append_left hj]
  · have hj' : A.length ≤ j := by omega
    rw [List.getElem?_append_right hj', List.getElem?_append_right hj', List.getElem?_map]
    by_cases hb : j - A.length < Bs.length
    · have h : lo ≤ (j : Int) ∧ (j : Int) ≤ hi := by
        rw [hlo, hhi, List.length_append]; push_cast; omega
      rw [if_pos h]
    · have hnone : Bs[j - A.length]? = none := List.getElem?_eq_none (by omega)
      rw [hnone]
      split_ifs <;> rfl

end Ranges

section Ceiling
variable {B : Type}

/-- The test double keeps the tag laws. -/
theorem pointApi_tagLaws : pointApi.TagLaws :=
  { getFlag_setFlag := fun _ _ => rfl
    getFlag_newTalismanBullet := fun _ _ _ _ _ => rfl }

/-- Appending two groups of stream bullets one after the other appends their concatenation. -/
theorem SeamlessCeiling.withStreams_withStreams (p : SeamlessCeiling B) (a b : List B) :
    (p.withStreams a).withStreams b = p.withStreams (a ++ b) := by
  simp only [SeamlessCeiling.withStreams, List.append_assoc, List.length_append, Nat.cast_add,
    add_assoc]

/-- Appending no stream bullet changes nothing. -/
theorem SeamlessCeiling.withStreams_nil (p : SeamlessCeiling B) : p.withStreams [] = p := by
  simp [SeamlessCeiling.withStreams]

/-- One stream appends `streamCount` bullets, counts each of them in the running counter and
changes nothing else. -/
theorem SeamlessCeiling.addStream_spec (api : BulletApi B) (src : Vector2f) (speed angle : ℚ)
    (color : Color) (p : SeamlessCeiling B) :
    ∃ added : List B, SeamlessCeiling.addStream api src speed angle color p = p.withStreams added
      ∧ added.length = p.streamCount.toNat := by
  unfold SeamlessCeiling.addStream
  exact forLoop_induct
    (fun (i : Nat) (t : SeamlessCeiling B) =>
      ∃ added : List B, t = p.withStreams added ∧ added.length = i)
    p.streamCount _ p ⟨[], (SeamlessCeiling.withStreams_nil p).symm, rfl⟩
    (by
      rintro i t _ ⟨added, rfl, hlen⟩
      refine ⟨added ++ [api.newCircleBullet src speed
        (angle + (i : Int) * 360 / (p.withStreams added).streamCount) color 7], ?_, ?_⟩
      · simp [SeamlessCeiling.withStreams, Pattern.addCircleBullet,
          WavePattern.incrementCurrentBulletCount, add_assoc]
      · simp [hlen])

/-- The clock and the stream parameters of a pattern with appended stream bullets. -/
theorem SeamlessCeiling.withStreams_clock (p : SeamlessCeiling B) (a : List B) :
    (p.withStreams a).frameCounter = p.frameCounter ∧
    (p.withStreams a).shotFrequency = p.shotFrequency ∧
    (p.withStreams a).streamCount = p.streamCount := ⟨rfl, rfl, rfl⟩

/-- A stream that runs only when its condition holds appends `streamCount` bullets or none. -/
theorem SeamlessCeiling.guarded_addStream (api : BulletApi B) (src : Vector2f) (speed angle : ℚ)
    (color : Color) (p : SeamlessCeiling B) (cond : Prop) [Decidable cond] :
    ∃ added : List B,
      (if cond then SeamlessCeiling.addStream api src speed angle color p else p)
        = p.withStreams added
      ∧ added.length = p.streamCount.toNat * (if cond then 1 else 0) := by
  by_cases h : cond
  · obtain ⟨added, h1, h2⟩ := SeamlessCeiling.addStream_spec api src speed angle color p
    exact ⟨added, by rw [if_pos h, h1], by rw [if_pos h, h2, Nat.mul_one]⟩
  · exact ⟨[], by rw [if_neg h, SeamlessCeiling.withStreams_nil], by rw [if_neg h]; rfl⟩

/-- The two stream blocks of `SeamlessCeiling::spawnBullets()` on a frame where the stream
timer is true. -/
theorem SeamlessCeiling.streams_spec (api : BulletApi B) (k : Consts) (q : SeamlessCeiling B)
    (g : Rng) (h : q.toPattern.canShootAt (q.shotFrequency * 14) = true) :
    ∃ added : List B,
      (SeamlessCeiling.spawnStreamsB api k (SeamlessCeiling.spawnStreamsA api k q g).1
          (SeamlessCeiling.spawnStreamsA api k q g).2).1 = q.withStreams added
      ∧ added.length = q.streamCount.toNat * SeamlessCeiling.streamsAt k q.frameCounter := by
  obtain ⟨a1, e1, l1⟩ := SeamlessCeiling.addStream_spec api
    (q.toPattern.generateRandomPosition k.SCOKJ_STREAMVARIANCEXY k.SCOKJ_STREAMVARIANCEXY g).1
    q.baseSpeed (45 + q.frameCounter * (8 / 10)) GREEN q
  have hA : ∃ a2 : List B, (SeamlessCeiling.spawnStreamsA api k q g).1 = q.withStreams a2
      ∧ a2.length = q.streamCount.toNat
          * (1 + (if q.frameCounter > k.SCOKJ_PHASE1END then 1 else 0)) := by
    unfold SeamlessCeiling.spawnStreamsA
    rw [if_pos h]
    simp only []
    rw [e1]
    obtain ⟨a2, e2, l2⟩ := SeamlessCeiling.guarded_addStream api
      (q.toPattern.generateRandomPosition k.SCOKJ_STREAMVARIANCEXY k.SCOKJ_STREAMVARIANCEXY g).1
      ((q.withStreams a1).baseSpeed * (12 / 10)) (20 - (q.withStreams a1).frameCounter) CYAN
      (q.withStreams a1) ((q.withStreams a1).frameCounter > k.SCOKJ_PHASE1END)
    refine ⟨a1 ++ a2, ?_, ?_⟩
    · rw [e2, SeamlessCeiling.withStreams_withStreams]
    · rw [List.length_append, l1, l2]
      have : (q.withStreams a1).frameCounter = q.frameCounter := rfl
      have hs : (q.withStreams a1).streamCount = q.streamCount := rfl
      rw [this, hs, Nat.mul_add, Nat.mul_one]
  obtain ⟨a2, eA, lA⟩ := hA
  rw [eA]
  generalize (SeamlessCeiling.spawnStreamsA api k q g).2 = g2
  have hB : (q.withStreams a2).toPattern.canShootAt ((q.withStreams a2).shotFrequency * 14)
      = true := h
  unfold SeamlessCeiling.spawnStreamsB
  rw [if_pos hB]
  simp only []
  obtain ⟨a3, e3, l3⟩ := SeamlessCeiling.guarded_addStream api
    ((q.withStreams a2).toPattern.generateRandomPosition k.SCOKJ_STREAMVARIANCEXY
      k.SCOKJ_STREAMVARIANCEXY g2).1
    (q.withStreams a2).baseSpeed (40 + (q.withStreams a2).frameCounter * (16 / 10)) BLUE
    (q.withStreams a2) ((q.withStreams a2).frameCounter > k.SCOKJ_PHASE2END)
  rw [e3]
  obtain ⟨a4, e4, l4⟩ := SeamlessCeiling.guarded_addStream api
    ((q.withStreams a2).toPattern.generateRandomPosition k.SCOKJ_STREAMVARIANCEXY
      k.SCOKJ_STREAMVARIANCEXY g2).1
    (((q.withStreams a2).withStreams a3).baseSpeed * (11 / 10))
    (60 - ((q.withStreams a2).withStreams a3).frameCounter * 2) MAGENTA
    ((q.withStreams a2).withStreams a3)
    (((q.withStreams a2).withStreams a3).frameCounter > k.SCOKJ_PHASE3END)
  rw [e4]
  refine ⟨a2 ++ (a3 ++ a4), ?_, ?_⟩
  · rw [SeamlessCeiling.withStreams_withStreams, SeamlessCeiling.withStreams_withStreams]
  · rw [List.length_append, List.length_append, lA, l3, l4]
    have f1 : ((q.withStreams a2).withStreams a3).frameCounter = q.frameCounter := rfl
    have f2 : (q.withStreams a2).frameCounter = q.frameCounter := rfl
    have s1 : ((q.withStreams a2).withStreams a3).streamCount = q.streamCount := rfl
    have s2 : (q.withStreams a2).streamCount = q.streamCount := rfl
    rw [f1, f2, s1, s2]
    unfold SeamlessCeiling.streamsAt
    ring

/-- The two stream blocks of `SeamlessCeiling::spawnBullets()` on a frame where the stream
timer is false change nothing. -/
theorem SeamlessCeiling.streams_idle (api : BulletApi B) (k : Consts) (q : SeamlessCeiling B)
    (g : Rng) (h : q.toPattern.canShootAt (q.shotFrequency * 14) = false) :
    (SeamlessCeiling.spawnStreamsB api k (SeamlessCeiling.spawnStreamsA api k q g).1
        (SeamlessCeiling.spawnStreamsA api k q g).2).1 = q := by
  have hA : SeamlessCeiling.spawnStreamsA api k q g = (q, g) := by
    unfold SeamlessCeiling.spawnStreamsA
    rw [h]; rfl
  rw [hA]
  unfold SeamlessCeiling.spawnStreamsB
  rw [h]; rfl

/-- The member `addWave()` with its default argument: the pending bullets, if there are any,
become a wave of age 0 and the running counter is cleared. -/
theorem WavePattern.addWave_zero (w : WavePattern B) :
    w.addWave 0
      = { w with
          waveBulletCount :=
            w.waveBulletCount ++ (if w.currentBulletCount = 0 then [] else [w.currentBulletCount])
          waveFrameCount := w.waveFrameCount ++ (if w.currentBulletCount = 0 then [] else [0])
          currentBulletCount := 0 } := by
  unfold WavePattern.addWave
  by_cases h : w.currentBulletCount = 0
  · simp [h]
    cases w
    simp_all
  · simp [h]

/-- The member `addWave(bulletCount)` with a nonzero argument: one wave of that size and of
age 0 is recorded. -/
theorem WavePattern.addWave_of_ne_zero (w : WavePattern B) (n : Int) (h : n ≠ 0) :
    w.addWave n
      = { w with
          waveBulletCount := w.waveBulletCount ++ [n]
          waveFrameCount := w.waveFrameCount ++ [0] } := by
  unfold WavePattern.addWave
  rw [if_neg h]

/-- The ceiling loop of `SeamlessCeiling::spawnBullets()` appends one circle bullet per pass
and changes nothing else. -/
theorem SeamlessCeiling.ceiling_loop (api : BulletApi B) (src : Vector2f) (f : Int → ℚ)
    (dir : ℚ) (n : Int) (q0 : SeamlessCeiling B) :
    forLoop n
        (fun i (q : SeamlessCeiling B) =>
          { q with toPattern := q.toPattern.addCircleBullet api src (f i) dir YELLOW 7 }) q0
      = { q0 with
          bullets := q0.bullets ++ (List.range n.toNat).map
            (fun (i : Nat) => api.newCircleBullet src (f (i : Int)) dir YELLOW 7) } := by
  exact forLoop_induct
    (fun (i : Nat) (t : SeamlessCeiling B) =>
      t = { q0 with
            bullets := q0.bullets ++ (List.range i).map
              (fun (i : Nat) => api.newCircleBullet src (f (i : Int)) dir YELLOW 7) })
    n _ q0 (by simp)
    (by
      rintro i t _ rfl
      simp [Pattern.addCircleBullet, List.range_succ])

/-- The ceiling part of `SeamlessCeiling::spawnBullets()` keeps the clock and the stream
parameters. -/
theorem SeamlessCeiling.spawnCeiling_clock (api : BulletApi B) (k : Consts)
    (p : SeamlessCeiling B) (g : Rng) :
    (SeamlessCeiling.spawnCeiling api k p g).1.frameCounter = p.frameCounter ∧
    (SeamlessCeiling.spawnCeiling api k p g).1.shotFrequency = p.shotFrequency ∧
    (SeamlessCeiling.spawnCeiling api k p g).1.streamCount = p.streamCount := by
  have hcs : p.toPattern.canShoot.2.frameCounter = p.frameCounter ∧
      p.toPattern.canShoot.2.shotFrequency = p.shotFrequency ∧
      p.toPattern.canShoot.2.streamCount = p.streamCount := by
    unfold Pattern.canShoot
    split_ifs <;> exact ⟨rfl, rfl, rfl⟩
  unfold SeamlessCeiling.spawnCeiling
  by_cases h : p.toPattern.canShoot.1 = true
  · simp only [h, if_true]
    rw [SeamlessCeiling.ceiling_loop]
    simp only [WavePattern.addWave_toPattern]
    exact hcs
  · simp only [h]
    exact hcs

/-- The ceiling part of `SeamlessCeiling::spawnBullets()` on a frame where the ceiling timer is
true. -/
theorem SeamlessCeiling.spawnCeiling_fire (api : BulletApi B) (laws : api.TagLaws) (k : Consts)
    (p : SeamlessCeiling B) (g : Rng) (hC : 1 ≤ k.SCOKJ_CEILINGCOUNT)
    (h : p.toPattern.canShoot.1 = true) :
    ∃ batch : List B, batch.length = k.SCOKJ_CEILINGCOUNT.toNat ∧
      (∀ b ∈ batch, api.getFlag b = BulletFlag.ISCEILING) ∧
      (SeamlessCeiling.spawnCeiling api k p g).1.bullets = p.bullets ++ batch ∧
      (SeamlessCeiling.spawnCeiling api k p g).1.waveBulletCount
        = p.waveBulletCount ++ (if p.currentBulletCount = 0 then [] else [p.currentBulletCount])
          ++ [k.SCOKJ_CEILINGCOUNT] ∧
      (SeamlessCeiling.spawnCeiling api k p g).1.waveFrameCount
        = p.waveFrameCount ++ (if p.currentBulletCount = 0 then [] else [0]) ++ [0] ∧
      (SeamlessCeiling.spawnCeiling api k p g).1.currentBulletCount = 0 := by
  have hcs : p.toPattern.canShoot.2.bullets = p.bullets := by
    unfold Pattern.canShoot
    split_ifs <;> rfl
  have hne : k.SCOKJ_CEILINGCOUNT ≠ 0 := by omega
  unfold SeamlessCeiling.spawnCeiling
  simp only [h, if_true]
  rw [SeamlessCeiling.ceiling_loop, WavePattern.addWave_zero,
    WavePattern.addWave_of_ne_zero _ _ hne]
  simp only [hcs]
  rw [modifyRange_suffix _ _ _ _ _
    (by rw [List.length_append, List.length_map, List.length_range]; push_cast; omega) rfl]
  refine ⟨_, ?_, ?_, rfl, trivial, trivial, trivial⟩
  · rw [List.length_map, List.length_map, List.length_range]
  · intro b hb
    obtain ⟨c, _, rfl⟩ := List.mem_map.mp hb
    exact laws.getFlag_setFlag c _

end Ceiling

section CeilingClaim
variable {B : Type}

/-- C27. Phase-gated streams of `SeamlessCeiling::spawnBullets()`, for a ceiling count of at
least 1 and bullets whose flag is the tag that `setFlag` writes. The call is the ceiling part
followed by the two stream blocks. On a frame `f` where the stream timer
`canShoot(shotFrequency * 14)` is true, the stream blocks append exactly
`streamCount * (1 + [f > PHASE1END] + [f > PHASE2END] + [f > PHASE3END])` bullets behind those
of the ceiling part (a negative `streamCount` runs no loop pass and counts as 0), add the same
number to `currentBulletCount` and change nothing else; on a
frame where it is false they change nothing. On a frame where the ceiling timer `canShoot()`
is true, the ceiling part first closes the pending bullets into a wave of their own (when there
are any) and then appends exactly `CEILINGCOUNT` bullets, all tagged `ISCEILING`, as one new
wave of size `CEILINGCOUNT` and age 0, leaving the running counter at 0. -/
theorem SeamlessCeiling.spawnBullets_phases (api : BulletApi B) (laws : api.TagLaws)
    (k : Consts) (p : SeamlessCeiling B) (g : Rng) (hC : 1 ≤ k.SCOKJ_CEILINGCOUNT) :
    (p.toPattern.canShootAt (p.shotFrequency * 14) = true →
      ∃ added : List B,
        (SeamlessCeiling.spawnBullets api k p g).1
          = (SeamlessCeiling.spawnCeiling api k p g).1.withStreams added ∧
        added.length = p.streamCount.toNat * SeamlessCeiling.streamsAt k p.frameCounter) ∧
    (p.toPattern.canShootAt (p.shotFrequency * 14) = false →
      (SeamlessCeiling.spawnBullets api k p g).1 = (SeamlessCeiling.spawnCeiling api k p g).1) ∧
    (p.toPattern.canShoot.1 = true →
      ∃ batch : List B, batch.length = k.SCOKJ_CEILINGCOUNT.toNat ∧
        (∀ b ∈ batch, api.getFlag b = BulletFlag.ISCEILING) ∧
        (SeamlessCeiling.spawnCeiling api k p g).1.bullets = p.bullets ++ batch ∧
        (SeamlessCeiling.spawnCeiling api k p g).1.waveBulletCount
          = p.waveBulletCount
            ++ (if p.currentBulletCount = 0 then [] else [p.currentBulletCount])
            ++ [k.SCOKJ_CEILINGCOUNT] ∧
        (SeamlessCeiling.spawnCeiling api k p g).1.waveFrameCount
          = p.waveFrameCount ++ (if p.currentBulletCount = 0 then [] else [0]) ++ [0] ∧
        (SeamlessCeiling.spawnCeiling api k p g).1.currentBulletCount = 0) := by
  have hclock := SeamlessCeiling.spawnCeiling_clock api k p g
  have htimer : (SeamlessCeiling.spawnCeiling api k p g).1.toPattern.canShootAt
      ((SeamlessCeiling.spawnCeiling api k p g).1.shotFrequency * 14)
      = p.toPattern.canShootAt (p.shotFrequency * 14) := by
    unfold Pattern.canShootAt
    rw [hclock.1, hclock.2.1]
  refine ⟨?_, ?_, ?_⟩
  · intro h
    obtain ⟨added, e, l⟩ := SeamlessCeiling.streams_spec api k
      (SeamlessCeiling.spawnCeiling api k p g).1 (SeamlessCeiling.spawnCeiling api k p g).2
      (htimer.trans h)
    rw [hclock.1, hclock.2.2] at l
    exact ⟨added, e, l⟩
  · intro h
    exact SeamlessCeiling.streams_idle api k _ _ (htimer.trans h)
  · intro h
    exact SeamlessCeiling.spawnCeiling_fire api laws k p g hC h

/-- C27 on a pattern with stream count 2 at frame 960, where both timers are true, all three
phase ends are passed and three stream bullets are pending: the ceiling part closes the three
into a wave and adds a wave of four tagged bullets, and the stream blocks append eight
bullets. -/
theorem SeamlessCeiling.spawnBullets_phases_witness :
    (1 : Int) ≤ sampleConsts.SCOKJ_CEILINGCOUNT ∧
    lateCeiling.toPattern.canShootAt (lateCeiling.shotFrequency * 14) = true ∧
    lateCeiling.toPattern.canShoot.1 = true ∧
    SeamlessCeiling.streamsAt sampleConsts lateCeiling.frameCounter = 4 ∧
    (SeamlessCeiling.spawnCeiling pointApi sampleConsts lateCeiling (fun _ => 7)).1.waveBulletCount
      = [3, 4] ∧
    (SeamlessCeiling.spawnBullets pointApi sampleConsts lateCeiling (fun _ => 7)).1.bullets.length
      = 15 ∧
    (SeamlessCeiling.spawnBullets pointApi sampleConsts lateCeiling
      (fun _ => 7)).1.currentBulletCount = 8 ∧
    ∃ added : List PointBullet,
      (SeamlessCeiling.spawnBullets pointApi sampleConsts lateCeiling (fun _ => 7)).1
        = (SeamlessCeiling.spawnCeiling pointApi sampleConsts lateCeiling
            (fun _ => 7)).1.withStreams added ∧
      added.length
        = lateCeiling.streamCount.toNat
          * SeamlessCeiling.streamsAt sampleConsts lateCeiling.frameCounter :=
  ⟨by decide, by decide!, by decide!, by decide!, by decide!, by decide!, by decide!,
    (SeamlessCeiling.spawnBullets_phases pointApi pointApi_tagLaws sampleConsts lateCeiling
      (fun _ => 7) (by decide)).1 (by decide!)⟩

end CeilingClaim


section Tagging
variable {B : Type}

/-- The spawn loop of one shot source of a `FlyingSaucer` appends one talisman per pass and
changes nothing else. -/
theorem FlyingSaucer.addShot_loop (api : BulletApi B) (pos : Vector2f) (shotAngle : Int)
    (color : Color) (n : Int) (p : FlyingSaucer B) :
    forLoop n (FlyingSaucer.addShot api pos shotAngle color) p
      = { p with
          bullets := p.bullets ++ (List.range n.toNat).map
            (fun (i : Nat) => api.newTalismanBullet pos p.baseSpeed
              ((shotAngle + Int.tdiv ((i : Int) * 360) p.streamCount : Int) : ℚ) color
              STANDARDTALISMANBULLETRADIUS) } := by
  exact forLoop_induct
    (fun (i : Nat) (t : FlyingSaucer B) =>
      t = { p with
            bullets := p.bullets ++ (List.range i).map
              (fun (i : Nat) => api.newTalismanBullet pos p.baseSpeed
                ((shotAngle + Int.tdiv ((i : Int) * 360) p.streamCount : Int) : ℚ) color
                STANDARDTALISMANBULLETRADIUS) })
    n _ p (by simp)
    (by
      rintro i t _ rfl
      simp [FlyingSaucer.addShot, Pattern.addTalismanBullet, List.range_succ])

/-- The rotation tagging of a batch of untagged bullets at the back of the vector: the batch
is tagged `REVERSEROTATION` when the two position tests differ and the flag `alternate` is not
set, or when they agree and it is set; otherwise it stays `NEUTRAL`. -/
theorem FlyingSaucer.tagBatch_appended (api : BulletApi B) (laws : api.TagLaws) (pos : Vector2f)
    (p : FlyingSaucer B) (batch : List B)
    (hb : ∀ b ∈ batch, api.getFlag b = BulletFlag.NEUTRAL) :
    ∃ tagged : List B,
      FlyingSaucer.tagBatch api pos (p.bullets.length : Int)
          { p with bullets := p.bullets ++ batch }
        = { p with bullets := p.bullets ++ tagged } ∧
      tagged.length = batch.length ∧
      ∀ b ∈ tagged, api.getFlag b
        = if xor (xor (decide (pos.x > p.sourcePos.x)) (decide (pos.y > p.sourcePos.y)))
            p.alternate
          then BulletFlag.REVERSEROTATION else BulletFlag.NEUTRAL := by
  unfold FlyingSaucer.tagBatch
  simp only []
  by_cases hc : xor (xor (decide (pos.x > p.sourcePos.x)) (decide (pos.y > p.sourcePos.y)))
      p.alternate = true
  · have hc2 : (if p.alternate = true
        then !xor (decide (pos.x > p.sourcePos.x)) (decide (pos.y > p.sourcePos.y))
        else xor (decide (pos.x > p.sourcePos.x)) (decide (pos.y > p.sourcePos.y))) = true := by
      revert hc
      cases p.alternate <;>
        cases xor (decide (pos.x > p.sourcePos.x)) (decide (pos.y > p.sourcePos.y)) <;> simp
    rw [if_pos hc2, if_pos hc, modifyRange_suffix _ _ _ _ _ rfl rfl]
    refine ⟨_, rfl, List.length_map _ _, ?_⟩
    intro b hb2
    obtain ⟨c, _, rfl⟩ := List.mem_map.mp hb2
    exact laws.getFlag_setFlag c _
  · have hc2 : ¬ (if p.alternate = true
        then !xor (decide (pos.x > p.sourcePos.x)) (decide (pos.y > p.sourcePos.y))
        else xor (decide (pos.x > p.sourcePos.x)) (decide (pos.y > p.sourcePos.y))) = true := by
      revert hc
      cases p.alternate <;>
        cases xor (decide (pos.x > p.sourcePos.x)) (decide (pos.y > p.sourcePos.y)) <;> simp
    rw [if_neg hc2, if_neg hc]
    exact ⟨batch, rfl, rfl, hb⟩

/-- One shot source of a burst: `streamCount` bullets go to the back of the vector, tagged as
the rotation tagging says, and nothing else of the pattern changes. -/
theorem FlyingSaucer.burstFrom_spec (api : BulletApi B) (laws : api.TagLaws) (color : Color)
    (st : FlyingSaucer.BurstState B) (pos : Vector2f) :
    ∃ tagged : List B,
      (FlyingSaucer.burstFrom api color st pos).pattern
        = { st.pattern with bullets := st.pattern.bullets ++ tagged } ∧
      tagged.length = st.pattern.streamCount.toNat ∧
      ∀ b ∈ tagged, api.getFlag b
        = if xor (xor (decide (pos.x > st.pattern.sourcePos.x))
              (decide (pos.y > st.pattern.sourcePos.y))) st.pattern.alternate
          then BulletFlag.REVERSEROTATION else BulletFlag.NEUTRAL := by
  have hpat : (FlyingSaucer.burstFrom api color st pos).pattern
      = FlyingSaucer.tagBatch api pos (st.pattern.bullets.length : Int)
          (forLoop st.pattern.streamCount (FlyingSaucer.addShot api pos st.shotAngle color)
            st.pattern) := by
    unfold FlyingSaucer.burstFrom
    simp only []
    split_ifs <;> rfl
  rw [hpat, FlyingSaucer.addShot_loop]
  obtain ⟨tagged, e, l, hf⟩ := FlyingSaucer.tagBatch_appended api laws pos st.pattern
    ((List.range st.pattern.streamCount.toNat).map
      (fun (i : Nat) => api.newTalismanBullet pos st.pattern.baseSpeed
        ((st.shotAngle + Int.tdiv ((i : Int) * 360) st.pattern.streamCount : Int) : ℚ) color
        STANDARDTALISMANBULLETRADIUS))
    (by
      intro b hb
      obtain ⟨i, _, rfl⟩ := List.mem_map.mp hb
      exact laws.getFlag_newTalismanBullet _ _ _ _ _)
  refine ⟨tagged, e, ?_, hf⟩
  rw [l, List.length_map, List.length_range]

/-- The loop over the four shot sources of the constructor: four batches of `streamCount`
bullets go to the back of the vector; the batches of sources 0 and 2 are tagged
`REVERSEROTATION` when the flag `alternate` is not set, those of sources 1 and 3 when it is
set, and the other two stay `NEUTRAL`. -/
theorem FlyingSaucer.burst_four (api : BulletApi B) (laws : api.TagLaws) (color : Color)
    (st : FlyingSaucer.BurstState B) (sp : Vector2f) (hsp : st.pattern.sourcePos = sp) :
    ∃ b0 b1 b2 b3 : List B,
      (List.foldl (FlyingSaucer.burstFrom api color) st (FlyingSaucer.sourcesAround sp)).pattern
        = { st.pattern with bullets := st.pattern.bullets ++ (b0 ++ (b1 ++ (b2 ++ b3))) } ∧
      b0.length = st.pattern.streamCount.toNat ∧ b1.length = st.pattern.streamCount.toNat ∧
      b2.length = st.pattern.streamCount.toNat ∧ b3.length = st.pattern.streamCount.toNat ∧
      (∀ b ∈ b0, api.getFlag b
        = if st.pattern.alternate then BulletFlag.NEUTRAL else BulletFlag.REVERSEROTATION) ∧
      (∀ b ∈ b1, api.getFlag b
        = if st.pattern.alternate then BulletFlag.REVERSEROTATION else BulletFlag.NEUTRAL) ∧
      (∀ b ∈ b2, api.getFlag b
        = if st.pattern.alternate then BulletFlag.NEUTRAL else BulletFlag.REVERSEROTATION) ∧
      (∀ b ∈ b3, api.getFlag b
        = if st.pattern.alternate then BulletFlag.REVERSEROTATION else BulletFlag.NEUTRAL) := by
  subst hsp
  unfold FlyingSaucer.sourcesAround
  simp only [List.foldl_cons, List.foldl_nil]
  obtain ⟨b0, e0, l0, f0⟩ := FlyingSaucer.burstFrom_spec api laws color st
    ⟨st.pattern.sourcePos.x - 180, st.pattern.sourcePos.y + 50⟩
  generalize FlyingSaucer.burstFrom api color st
    ⟨st.pattern.sourcePos.x - 180, st.pattern.sourcePos.y + 50⟩ = st1 at e0 ⊢
  obtain ⟨b1, e1, l1, f1⟩ := FlyingSaucer.burstFrom_spec api laws color st1
    ⟨st.pattern.sourcePos.x + 180, st.pattern.sourcePos.y + 50⟩
  generalize FlyingSaucer.burstFrom api color st1
    ⟨st.pattern.sourcePos.x + 180, st.pattern.sourcePos.y + 50⟩ = st2 at e1 ⊢
  obtain ⟨b2, e2, l2, f2⟩ := FlyingSaucer.burstFrom_spec api laws color st2
    ⟨st.pattern.sourcePos.x + 100, st.pattern.sourcePos.y - 150⟩
  generalize FlyingSaucer.burstFrom api color st2
    ⟨st.pattern.sourcePos.x + 100, st.pattern.sourcePos.y - 150⟩ = st3 at e2 ⊢
  obtain ⟨b3, e3, l3, f3⟩ := FlyingSaucer.burstFrom_spec api laws color st3
    ⟨st.pattern.sourcePos.x - 100, st.pattern.sourcePos.y - 150⟩
  generalize FlyingSaucer.burstFrom api color st3
    ⟨st.pattern.sourcePos.x - 100, st.pattern.sourcePos.y - 150⟩ = st4 at e3 ⊢
  have x1 : ¬ st.pattern.sourcePos.x - 180 > st.pattern.sourcePos.x := by linarith
  have y1 : st.pattern.sourcePos.y + 50 > st.pattern.sourcePos.y := by linarith
  have x2 : st.pattern.sourcePos.x + 180 > st.pattern.sourcePos.x := by linarith
  have x3 : st.pattern.sourcePos.x + 100 > st.pattern.sourcePos.x := by linarith
  have y3 : ¬ st.pattern.sourcePos.y - 150 > st.pattern.sourcePos.y := by linarith
  have x4 : ¬ st.pattern.sourcePos.x - 100 > st.pattern.sourcePos.x := by linarith
  rw [e0] at l1 f1 e1
  simp only [] at l1 f1 e1
  rw [e1] at l2 f2 e2
  simp only [] at l2 f2 e2
  rw [e2] at l3 f3 e3
  simp only [] at l3 f3 e3
  refine ⟨b0, b1, b2, b3, ?_, l0, l1, l2, l3, ?_, ?_, ?_, ?_⟩
  · rw [e3]
    simp only [List.append_assoc]
  · intro b hb
    rw [f0 b hb]
    cases st.pattern.alternate <;> simp [x1, y1]
  · intro b hb
    rw [f1 b hb]
    cases st.pattern.alternate <;> simp [x2, y1]
  · intro b hb
    rw [f2 b hb]
    cases st.pattern.alternate <;> simp [x3, y3]
  · intro b hb
    rw [f3 b hb]
    cases st.pattern.alternate <;> simp [x4, y3]

/-- `canShoot()` leaves the source position alone. -/
theorem Pattern.canShoot_sourcePos (p : Pattern B) :
    p.canShoot.2.sourcePos = p.sourcePos := by
  unfold Pattern.canShoot
  split_ifs <;> rfl

/-- `getTargetRadius` changes the cache of target radii only. -/
theorem FlyingSaucer.getTargetRadius_tagging (k : Consts) (p : FlyingSaucer B) (frame : Int) :
    (FlyingSaucer.getTargetRadius k p frame).2.alternate = p.alternate ∧
    (FlyingSaucer.getTargetRadius k p frame).2.shotSources = p.shotSources := by
  unfold FlyingSaucer.getTargetRadius
  split_ifs <;> exact ⟨rfl, rfl⟩

/-- `FlyingSaucer::processMovement()` leaves the flag `alternate`, the shot sources, the source
position and the stream count alone. -/
theorem FlyingSaucer.processMovement_tagging (api : BulletApi B) (k : Consts)
    (p : FlyingSaucer B) :
    (FlyingSaucer.processMovement api k p).alternate = p.alternate ∧
    (FlyingSaucer.processMovement api k p).shotSources = p.shotSources ∧
    (FlyingSaucer.processMovement api k p).sourcePos = p.sourcePos ∧
    (FlyingSaucer.processMovement api k p).streamCount = p.streamCount := by
  have h := forLoop_proj
    (fun q : FlyingSaucer B => (q.alternate, q.shotSources, q.sourcePos, q.streamCount))
    ((p.toWavePattern.incrementWaveFrames).waveBulletCount.length : Int)
    (FlyingSaucer.moveWave api k)
    { p with toWavePattern := p.toWavePattern.incrementWaveFrames }
    (by
      intro i t
      have h1 := FlyingSaucer.getTargetRadius_tagging k t ((t.waveFrameCount[i.toNat]?).getD 0)
      have h2 := FlyingSaucer.getTargetRadius_toWavePattern k t
        ((t.waveFrameCount[i.toNat]?).getD 0)
      simp only [FlyingSaucer.moveWave, h1.1, h1.2, h2])
  simp only [Prod.mk.injEq] at h
  exact h

/-- The loop over any list of shot sources keeps the flag `alternate`, the source position,
the stream count and the shot sources. -/
theorem FlyingSaucer.foldl_burstFrom_tagging (api : BulletApi B) (laws : api.TagLaws)
    (color : Color) (l : List Vector2f) :
    ∀ st : FlyingSaucer.BurstState B,
      (l.foldl (FlyingSaucer.burstFrom api color) st).pattern.alternate = st.pattern.alternate ∧
      (l.foldl (FlyingSaucer.burstFrom api color) st).pattern.sourcePos
        = st.pattern.sourcePos ∧
      (l.foldl (FlyingSaucer.burstFrom api color) st).pattern.streamCount
        = st.pattern.streamCount ∧
      (l.foldl (FlyingSaucer.burstFrom api color) st).pattern.shotSources
        = st.pattern.shotSources ∧
      (l.foldl (FlyingSaucer.burstFrom api color) st).pattern.waveBulletCount
        = st.pattern.waveBulletCount ∧
      (l.foldl (FlyingSaucer.burstFrom api color) st).pattern.waveFrameCount
        = st.pattern.waveFrameCount := by
  induction l with
  | nil => intro st; exact ⟨rfl, rfl, rfl, rfl, rfl, rfl⟩
  | cons pos l ih =>
    intro st
    obtain ⟨b, e, _, _⟩ := FlyingSaucer.burstFrom_spec api laws color st pos
    have h := ih (FlyingSaucer.burstFrom api color st pos)
    rw [e] at h
    exact h

/-- The answer of `canShoot()` depends on the shot frequency, the one-shot latch and the frame
counter only. -/
theorem Pattern.canShoot_congr (p q : Pattern B) (h1 : q.shotFrequency = p.shotFrequency)
    (h2 : q.shootOnlyOnce = p.shootOnlyOnce) (h3 : q.frameCounter = p.frameCounter) :
    q.canShoot.1 = p.canShoot.1 := by
  unfold Pattern.canShoot
  rw [h1, h2, h3]
  split_ifs <;> rfl

/-- `FlyingSaucer::spawnBullets()` keeps the shot sources, the source position and the stream
count, and toggles the flag `alternate` exactly on a burst. -/
theorem FlyingSaucer.spawnBullets_frame (api : BulletApi B) (laws : api.TagLaws) (k : Consts)
    (p : FlyingSaucer B) (g : Rng) :
    (FlyingSaucer.spawnBullets api k p g).1.shotSources = p.shotSources ∧
    (FlyingSaucer.spawnBullets api k p g).1.sourcePos = p.sourcePos ∧
    (FlyingSaucer.spawnBullets api k p g).1.streamCount = p.streamCount ∧
    (FlyingSaucer.spawnBullets api k p g).1.alternate
      = (if p.toPattern.canShoot.1 then !p.alternate else p.alternate) := by
  have hf := FlyingSaucer.foldl_burstFrom_tagging api laws
    (colorAt k.UFO_BULLETCOLORS
      ((((rand (rand g).2).1.toNat % k.UFO_BULLETCOLORS.length : Nat) : Int)))
    p.shotSources
    { pattern := { p with toPattern := p.toPattern.canShoot.2 }
      shotAngle := Int.tmod (rand g).1 360
      sourceCount := 0
      rng := (rand (rand g).2).2 }
  obtain ⟨ha, hp, hs, hss, _, _⟩ := hf
  simp only [Pattern.canShoot_streamCount, Pattern.canShoot_sourcePos] at ha hp hs hss
  unfold FlyingSaucer.spawnBullets
  by_cases h : p.toPattern.canShoot.1 = true
  · simp only [h, if_true, WavePattern.addWave_toPattern]
    exact ⟨hss, hp, hs, congrArg (fun b => !b) ha⟩
  · simp only [h]
    exact ⟨rfl, Pattern.canShoot_sourcePos _, Pattern.canShoot_streamCount _, rfl⟩

end Tagging

section TaggingClaim
variable {B : Type}

/-- C26. Rotation tagging of `FlyingSaucer::spawnBullets()`, for a pattern with
`streamCount ≥ 1` (and `4 * streamCount` within `int`) whose shot sources are the four that
the constructor places around the source position, and bullets that are created `NEUTRAL` and
whose flag is the tag that `setFlag` writes. On a burst (`canShoot()` true) four batches of
`streamCount` bullets each are appended, one per shot source in order, and one wave of size
`4 * streamCount` and age 0 is added; the batches of sources 0 and 2 are tagged
`REVERSEROTATION` and those of sources 1 and 3 stay `NEUTRAL` when the flag `alternate` is not
set, and the other way round when it is set; the burst toggles `alternate`. Without a burst
the bullets, the waves and `alternate` stay. The call keeps the shot sources, the source
position and the stream count; a whole update cycle of an active pattern toggles `alternate`
exactly when it bursts and keeps the rest; and the constructor leaves `alternate` unset, so
the first burst tags sources 0 and 2 and every following burst swaps the two pairs. -/
theorem FlyingSaucer.spawnBullets_tagging (api : BulletApi B) (laws : api.TagLaws) (k : Consts)
    (p : FlyingSaucer B) (g : Rng) (hsc : 1 ≤ p.streamCount)
    (hfit : 4 * p.streamCount < 2147483648)
    (hsrc : p.shotSources = FlyingSaucer.sourcesAround p.sourcePos) :
    (p.toPattern.canShoot.1 = true →
      ∃ b0 b1 b2 b3 : List B,
        (FlyingSaucer.spawnBullets api k p g).1.bullets
          = p.bullets ++ (b0 ++ (b1 ++ (b2 ++ b3))) ∧
        b0.length = p.streamCount.toNat ∧ b1.length = p.streamCount.toNat ∧
        b2.length = p.streamCount.toNat ∧ b3.length = p.streamCount.toNat ∧
        (∀ b ∈ b0, api.getFlag b
          = if p.alternate then BulletFlag.NEUTRAL else BulletFlag.REVERSEROTATION) ∧
        (∀ b ∈ b1, api.getFlag b
          = if p.alternate then BulletFlag.REVERSEROTATION else BulletFlag.NEUTRAL) ∧
        (∀ b ∈ b2, api.getFlag b
          = if p.alternate then BulletFlag.NEUTRAL else BulletFlag.REVERSEROTATION) ∧
        (∀ b ∈ b3, api.getFlag b
          = if p.alternate then BulletFlag.REVERSEROTATION else BulletFlag.NEUTRAL) ∧
        (FlyingSaucer.spawnBullets api k p g).1.waveBulletCount
          = p.waveBulletCount ++ [4 * p.streamCount] ∧
        (FlyingSaucer.spawnBullets api k p g).1.waveFrameCount = p.waveFrameCount ++ [0] ∧
        (FlyingSaucer.spawnBullets api k p g).1.alternate = !p.alternate) ∧
    (p.toPattern.canShoot.1 = false →
      (FlyingSaucer.spawnBullets api k p g).1.bullets = p.bullets ∧
      (FlyingSaucer.spawnBullets api k p g).1.waveBulletCount = p.waveBulletCount ∧
      (FlyingSaucer.spawnBullets api k p g).1.waveFrameCount = p.waveFrameCount ∧
      (FlyingSaucer.spawnBullets api k p g).1.alternate = p.alternate) ∧
    ((FlyingSaucer.spawnBullets api k p g).1.shotSources = p.shotSources ∧
      (FlyingSaucer.spawnBullets api k p g).1.sourcePos = p.sourcePos ∧
      (FlyingSaucer.spawnBullets api k p g).1.streamCount = p.streamCount) ∧
    (p.active = true →
      ∃ q : FlyingSaucer B,
        (AnyPattern.update api k (AnyPattern.flyingSaucer p) g).1 = AnyPattern.flyingSaucer q ∧
        q.alternate = (if p.toPattern.canShoot.1 then !p.alternate else p.alternate) ∧
        q.shotSources = p.shotSources ∧ q.sourcePos = p.sourcePos ∧
        q.streamCount = p.streamCount) ∧
    (∀ (sourcePos : Vector2f) (streamCount : Int) (shotFrequency baseSpeed : ℚ),
      (FlyingSaucer.new sourcePos streamCount shotFrequency baseSpeed : FlyingSaucer B).alternate
        = false ∧
      (FlyingSaucer.new sourcePos streamCount shotFrequency baseSpeed
        : FlyingSaucer B).shotSources
        = FlyingSaucer.sourcesAround
          (FlyingSaucer.new sourcePos streamCount shotFrequency baseSpeed
            : FlyingSaucer B).sourcePos) := by
  have hframe := FlyingSaucer.spawnBullets_frame api laws k p g
  refine ⟨?_, ?_, ⟨hframe.1, hframe.2.1, hframe.2.2.1⟩, ?_, ?_⟩
  · intro h
    obtain ⟨b0, b1, b2, b3, e, l0, l1, l2, l3, f0, f1, f2, f3⟩ :=
      FlyingSaucer.burst_four api laws
        (colorAt k.UFO_BULLETCOLORS
          ((((rand (rand g).2).1.toNat % k.UFO_BULLETCOLORS.length : Nat) : Int)))
        { pattern := { p with toPattern := p.toPattern.canShoot.2 }
          shotAngle := Int.tmod (rand g).1 360
          sourceCount := 0
          rng := (rand (rand g).2).2 }
        p.sourcePos (Pattern.canShoot_sourcePos _)
    simp only [Pattern.canShoot_streamCount, Pattern.canShoot_bullets] at e l0 l1 l2 l3
    simp only [hsrc] at e
    have hfit2 : toInt32 (4 * p.streamCount) = 4 * p.streamCount :=
      toInt32_of_fits _ (by omega) hfit
    have hne : (4 : Int) * p.streamCount ≠ 0 := by omega
    have hlen4 : (FlyingSaucer.sourcesAround p.sourcePos).length = 4 := rfl
    refine ⟨b0, b1, b2, b3, ?_, l0, l1, l2, l3, f0, f1, f2, f3, ?_, ?_, ?_⟩
    · unfold FlyingSaucer.spawnBullets
      simp only [h, if_true, WavePattern.addWave_toPattern, hsrc, e]
    · unfold FlyingSaucer.spawnBullets
      simp only [h, if_true, hsrc, e, hlen4, Nat.cast_ofNat, Pattern.canShoot_streamCount,
        hfit2]
      rw [WavePattern.addWave_of_ne_zero _ _ hne]
    · unfold FlyingSaucer.spawnBullets
      simp only [h, if_true, hsrc, e, hlen4, Nat.cast_ofNat, Pattern.canShoot_streamCount,
        hfit2]
      rw [WavePattern.addWave_of_ne_zero _ _ hne]
    · rw [hframe.2.2.2, if_pos h]
  · intro h
    refine ⟨?_, ?_, ?_, ?_⟩
    · unfold FlyingSaucer.spawnBullets
      simp only [h]
      exact Pattern.canShoot_bullets _
    · unfold FlyingSaucer.spawnBullets
      simp only [h]
      rfl
    · unfold FlyingSaucer.spawnBullets
      simp only [h]
      rfl
    · rw [hframe.2.2.2, h]
      rfl
  · intro hact
    have hc := Pattern.canShoot_congr p.toPattern
      (p.toWavePattern.deleteOutOfBoundsBullets api).toPattern rfl rfl rfl
    have hs := FlyingSaucer.spawnBullets_frame api laws k
      { p with toWavePattern := p.toWavePattern.deleteOutOfBoundsBullets api } g
    have hm := FlyingSaucer.processMovement_tagging api k
      { (FlyingSaucer.spawnBullets api k
          { p with toWavePattern := p.toWavePattern.deleteOutOfBoundsBullets api } g).1 with
        toPattern := (FlyingSaucer.spawnBullets api k
          { p with toWavePattern := p.toWavePattern.deleteOutOfBoundsBullets api }
          g).1.toPattern.incrementFrame }
    have hi : ∀ q : Pattern B, q.incrementFrame.sourcePos = q.sourcePos ∧
        q.incrementFrame.streamCount = q.streamCount := by
      intro q
      unfold Pattern.incrementFrame
      split_ifs <;> exact ⟨rfl, rfl⟩
    refine ⟨FlyingSaucer.processMovement api k
      { (FlyingSaucer.spawnBullets api k
          { p with toWavePattern := p.toWavePattern.deleteOutOfBoundsBullets api } g).1 with
        toPattern := (FlyingSaucer.spawnBullets api k
          { p with toWavePattern := p.toWavePattern.deleteOutOfBoundsBullets api }
          g).1.toPattern.incrementFrame }, ?_, ?_, ?_, ?_, ?_⟩
    · unfold AnyPattern.update
      rw [if_pos (show (AnyPattern.flyingSaucer p).getActive = true from hact)]
      rfl
    · rw [hm.1]
      exact hs.2.2.2.trans (by rw [hc])
    · rw [hm.2.1]
      exact hs.1
    · rw [hm.2.2.1]
      exact ((hi _).1).trans hs.2.1
    · rw [hm.2.2.2]
      exact ((hi _).2).trans hs.2.2.1
  · intro sourcePos streamCount shotFrequency baseSpeed
    exact ⟨rfl, rfl⟩

end TaggingClaim

section TaggingWitness

/-- C26 on the second burst of a pattern with stream count 2 (frame 60, `alternate` set): eight
bullets and one wave of size 8 are added, the batches of sources 1 and 3 are tagged and those
of sources 0 and 2 stay `NEUTRAL`; on the first burst of the fresh pattern it is the batches
of sources 0 and 2 that are tagged. -/
theorem FlyingSaucer.spawnBullets_tagging_witness :
    (1 : Int) ≤ secondBurstSaucer.streamCount ∧
    secondBurstSaucer.toPattern.canShoot.1 = true ∧
    ((FlyingSaucer.spawnBullets pointApi sampleConsts secondBurstSaucer (fun _ => 7)).1.bullets.map
        pointApi.getFlag)
      = [BulletFlag.NEUTRAL, BulletFlag.NEUTRAL, BulletFlag.REVERSEROTATION,
          BulletFlag.REVERSEROTATION, BulletFlag.NEUTRAL, BulletFlag.NEUTRAL,
          BulletFlag.REVERSEROTATION, BulletFlag.REVERSEROTATION] ∧
    ((FlyingSaucer.spawnBullets pointApi sampleConsts
        (FlyingSaucer.new ⟨360, 300⟩ 2 1 5 : FlyingSaucer PointBullet) (fun _ => 7)).1.bullets.map
        pointApi.getFlag)
      = [BulletFlag.REVERSEROTATION, BulletFlag.REVERSEROTATION, BulletFlag.NEUTRAL,
          BulletFlag.NEUTRAL, BulletFlag.REVERSEROTATION, BulletFlag.REVERSEROTATION,
          BulletFlag.NEUTRAL, BulletFlag.NEUTRAL] ∧
    (FlyingSaucer.spawnBullets pointApi sampleConsts secondBurstSaucer
      (fun _ => 7)).1.waveBulletCount = [8] ∧
    (FlyingSaucer.spawnBullets pointApi sampleConsts secondBurstSaucer
      (fun _ => 7)).1.shotSources = secondBurstSaucer.shotSources ∧
    (FlyingSaucer.spawnBullets pointApi sampleConsts secondBurstSaucer
      (fun _ => 7)).1.sourcePos = secondBurstSaucer.sourcePos ∧
    (FlyingSaucer.spawnBullets pointApi sampleConsts secondBurstSaucer
      (fun _ => 7)).1.streamCount = secondBurstSaucer.streamCount :=
  ⟨by decide!, by decide!, by decide!, by decide!, by decide!,
    (FlyingSaucer.spawnBullets_tagging pointApi pointApi_tagLaws sampleConsts secondBurstSaucer
      (fun _ => 7) (by decide!) (by decide!) (by decide!)).2.2.1⟩

end TaggingWitness


section CacheGap
variable {B : Type}

/-- The first component of a loop over pairs whose body acts on the first component as a
given body does is the loop of that body. -/
theorem forLoop_fst {σ τ : Type} (n : Int) (bodyL : Int → σ × τ → σ × τ) (body : Int → σ → σ)
    (s : σ × τ) (h : ∀ i t, (bodyL i t).1 = body i t.1) :
    (forLoop n bodyL s).1 = forLoop n body s.1 := by
  unfold forLoop
  induction n.toNat with
  | zero => rfl
  | succ m ih =>
    rw [List.range_succ, List.foldl_append, List.foldl_append, List.foldl_cons, List.foldl_nil,
      List.foldl_cons, List.foldl_nil, h, ih]

/-- The inner culling loop keeps the wave vectors of equal length and only erases wave
ages. -/
theorem WavePattern.decrementWave_ages (i : Nat) (wbc wfc : List Int)
    (hlen : wbc.length = wfc.length) :
    (WavePattern.decrementWave i wbc wfc).1.length
        = (WavePattern.decrementWave i wbc wfc).2.length ∧
      List.Sublist (WavePattern.decrementWave i wbc wfc).2 wfc := by
  unfold WavePattern.decrementWave
  cases WavePattern.findWave (i : Int) 0 0 wbc with
  | none => exact ⟨hlen, List.Sublist.refl _⟩
  | some j =>
    simp only [WavePattern.decrementWaveAt]
    split_ifs
    · refine ⟨?_, List.eraseIdx_sublist _ _⟩
      simp only [List.length_eraseIdx, List.length_modify, hlen]
    · exact ⟨by simp only [List.length_modify, hlen], List.Sublist.refl _⟩

/-- Culling keeps the wave vectors of equal length and only erases wave ages. -/
theorem WavePattern.cull_ages (api : BulletApi B) (w : WavePattern B)
    (hlen : w.waveBulletCount.length = w.waveFrameCount.length) :
    (w.deleteOutOfBoundsBullets api).waveBulletCount.length
        = (w.deleteOutOfBoundsBullets api).waveFrameCount.length ∧
      List.Sublist (w.deleteOutOfBoundsBullets api).waveFrameCount w.waveFrameCount := by
  exact WavePattern.deleteOutOfBoundsLoop_induct api w.screenBounds
    (fun s => s.waveBulletCount.length = s.waveFrameCount.length ∧
      List.Sublist s.waveFrameCount w.waveFrameCount)
    (fun s b hs _ _ => hs)
    (fun s b hs _ _ => by
      have h := WavePattern.decrementWave_ages s.i s.waveBulletCount s.waveFrameCount hs.1
      exact ⟨h.1, h.2.trans hs.2⟩)
    w.bullets.length
    { i := 0
      bullets := w.bullets
      waveBulletCount := w.waveBulletCount
      waveFrameCount := w.waveFrameCount } ⟨hlen, List.Sublist.refl _⟩

/-- The member `addWave` keeps the wave vectors of equal length and records at most one new
wave, of age 0. -/
theorem WavePattern.addWave_ages (w : WavePattern B) (n : Int)
    (hlen : w.waveBulletCount.length = w.waveFrameCount.length) :
    (w.addWave n).waveBulletCount.length = (w.addWave n).waveFrameCount.length ∧
      ((w.addWave n).waveFrameCount = w.waveFrameCount ∨
        (w.addWave n).waveFrameCount = w.waveFrameCount ++ [0]) := by
  unfold WavePattern.addWave
  split_ifs
  · exact ⟨hlen, Or.inl rfl⟩
  · exact ⟨by simp [hlen], Or.inr rfl⟩
  · exact ⟨by simp [hlen], Or.inr rfl⟩

/-- One shot source of a burst leaves the cache of target radii alone. -/
theorem FlyingSaucer.burstFrom_radii (api : BulletApi B) (color : Color)
    (st : FlyingSaucer.BurstState B) (pos : Vector2f) :
    (FlyingSaucer.burstFrom api color st pos).pattern.targetRadii = st.pattern.targetRadii := by
  have h1 : (forLoop st.pattern.streamCount (FlyingSaucer.addShot api pos st.shotAngle color)
      st.pattern).targetRadii = st.pattern.targetRadii :=
    forLoop_proj (fun q : FlyingSaucer B => q.targetRadii) _ _ _ (fun _ _ => rfl)
  have h2 : ∀ (index : Int) (q : FlyingSaucer B),
      (FlyingSaucer.tagBatch api pos index q).targetRadii = q.targetRadii := by
    intro index q
    unfold FlyingSaucer.tagBatch
    simp only []
    split_ifs <;> rfl
  unfold FlyingSaucer.burstFrom
  simp only []
  split_ifs <;> exact (h2 _ _).trans h1

/-- `FlyingSaucer::spawnBullets()` leaves the cache of target radii alone, keeps the wave
vectors of equal length and records at most one new wave, of age 0. -/
theorem FlyingSaucer.spawnBullets_ages (api : BulletApi B) (k : Consts) (p : FlyingSaucer B)
    (g : Rng) (hlen : p.waveBulletCount.length = p.waveFrameCount.length) :
    (FlyingSaucer.spawnBullets api k p g).1.targetRadii = p.targetRadii ∧
    (FlyingSaucer.spawnBullets api k p g).1.waveBulletCount.length
      = (FlyingSaucer.spawnBullets api k p g).1.waveFrameCount.length ∧
    ((FlyingSaucer.spawnBullets api k p g).1.waveFrameCount = p.waveFrameCount ∨
      (FlyingSaucer.spawnBullets api k p g).1.waveFrameCount = p.waveFrameCount ++ [0]) := by
  have hf := FlyingSaucer.foldl_burstFrom api
    (colorAt k.UFO_BULLETCOLORS
      ((((rand (rand g).2).1.toNat % k.UFO_BULLETCOLORS.length : Nat) : Int)))
    p.shotSources
    { pattern := { p with toPattern := p.toPattern.canShoot.2 }
      shotAngle := Int.tmod (rand g).1 360
      sourceCount := 0
      rng := (rand (rand g).2).2 }
  have hr := foldl_proj (fun st : FlyingSaucer.BurstState B => st.pattern.targetRadii)
    (FlyingSaucer.burstFrom api
      (colorAt k.UFO_BULLETCOLORS
        ((((rand (rand g).2).1.toNat % k.UFO_BULLETCOLORS.length : Nat) : Int))))
    p.shotSources
    { pattern := { p with toPattern := p.toPattern.canShoot.2 }
      shotAngle := Int.tmod (rand g).1 360
      sourceCount := 0
      rng := (rand (rand g).2).2 }
    (fun t b => FlyingSaucer.burstFrom_radii api _ t b)
  obtain ⟨hbook, _, _⟩ := hf
  simp only [WavePattern.book, Prod.mk.injEq] at hbook
  obtain ⟨hb1, hb2, _, _⟩ := hbook
  unfold FlyingSaucer.spawnBullets
  by_cases h : p.toPattern.canShoot.1 = true
  · simp only [h, if_true]
    have ha := WavePattern.addWave_ages
      (List.foldl (FlyingSaucer.burstFrom api
        (colorAt k.UFO_BULLETCOLORS
          ((((rand (rand g).2).1.toNat % k.UFO_BULLETCOLORS.length : Nat) : Int))))
        { pattern := { p with toPattern := p.toPattern.canShoot.2 }
          shotAngle := Int.tmod (rand g).1 360
          sourceCount := 0
          rng := (rand (rand g).2).2 } p.shotSources).pattern.toWavePattern
      (toInt32 (((List.foldl (FlyingSaucer.burstFrom api
        (colorAt k.UFO_BULLETCOLORS
          ((((rand (rand g).2).1.toNat % k.UFO_BULLETCOLORS.length : Nat) : Int))))
        { pattern := { p with toPattern := p.toPattern.canShoot.2 }
          shotAngle := Int.tmod (rand g).1 360
          sourceCount := 0
          rng := (rand (rand g).2).2 } p.shotSources).pattern.shotSources.length : Int)
        * (List.foldl (FlyingSaucer.burstFrom api
        (colorAt k.UFO_BULLETCOLORS
          ((((rand (rand g).2).1.toNat % k.UFO_BULLETCOLORS.length : Nat) : Int))))
        { pattern := { p with toPattern := p.toPattern.canShoot.2 }
          shotAngle := Int.tmod (rand g).1 360
          sourceCount := 0
          rng := (rand (rand g).2).2 } p.shotSources).pattern.streamCount))
      (by rw [hb1, hb2]; exact hlen)
    rw [hb2] at ha
    exact ⟨hr, ha.1, ha.2⟩
  · simp only [h]
    exact ⟨rfl, hlen, Or.inl rfl⟩

/-- The branch record describes `getTargetRadius`: on `cached` the call returns the cached
entry and leaves the pattern, on `gap` it returns 0 and leaves the pattern, on `appended` it
returns the value of the radius formula and appends it to the cache. -/
theorem FlyingSaucer.getTargetRadius_branch (k : Consts) (p : FlyingSaucer B) (frame : Int) :
    FlyingSaucer.getTargetRadius k p frame
      = match FlyingSaucer.radiusBranch p frame with
        | RadiusBranch.cached => ((p.targetRadii[frame.toNat]?).getD 0, p)
        | RadiusBranch.gap => (0, p)
        | RadiusBranch.appended =>
          (FlyingSaucer.computeTargetRadius k frame,
            { p with targetRadii := p.targetRadii ++ [FlyingSaucer.computeTargetRadius k frame] })
    := by
  unfold FlyingSaucer.getTargetRadius FlyingSaucer.radiusBranch
  split_ifs <;> rfl

/-- A call of `getTargetRadius` with a frame from 0 up to the number of cached entries does
not take the gap branch, and afterwards the frame is a valid index of the cache; the cache
never shrinks. -/
theorem FlyingSaucer.getTargetRadius_covers (k : Consts) (p : FlyingSaucer B) (frame : Int)
    (h0 : 0 ≤ frame) (h1 : frame ≤ (p.targetRadii.length : Int)) :
    FlyingSaucer.radiusBranch p frame ≠ RadiusBranch.gap ∧
    frame < ((FlyingSaucer.getTargetRadius k p frame).2.targetRadii.length : Int) ∧
    p.targetRadii.length ≤ (FlyingSaucer.getTargetRadius k p frame).2.targetRadii.length := by
  unfold FlyingSaucer.getTargetRadius FlyingSaucer.radiusBranch
  by_cases hc : 0 ≤ frame ∧ frame < (p.targetRadii.length : Int)
  · rw [if_pos hc, if_pos hc]
    exact ⟨by decide, hc.2, le_refl _⟩
  · have hc2 : ¬ ((p.targetRadii.length : Int) ≠ frame) := by omega
    rw [if_neg hc, if_neg hc, if_neg hc2, if_neg hc2]
    refine ⟨by decide, ?_, ?_⟩
    · simp only [List.length_append, List.length_singleton]
      push_cast
      omega
    · simp only [List.length_append, List.length_singleton]
      omega

/-- The body of the wave loop of `FlyingSaucer::processMovement()` keeps the wave vectors and
the active flag, and its cache of target radii is the one that its call of `getTargetRadius`
leaves. -/
theorem FlyingSaucer.moveWave_ages (api : BulletApi B) (k : Consts) (wave : Int)
    (p : FlyingSaucer B) :
    (FlyingSaucer.moveWave api k wave p).waveFrameCount = p.waveFrameCount ∧
    (FlyingSaucer.moveWave api k wave p).waveBulletCount = p.waveBulletCount ∧
    (FlyingSaucer.moveWave api k wave p).active = p.active ∧
    (FlyingSaucer.moveWave api k wave p).targetRadii
      = (FlyingSaucer.getTargetRadius k p ((p.waveFrameCount[wave.toNat]?).getD 0)).2.targetRadii
    := by
  have h := FlyingSaucer.getTargetRadius_toWavePattern k p
    ((p.waveFrameCount[wave.toNat]?).getD 0)
  simp only [FlyingSaucer.moveWave, h]
  exact ⟨trivial, trivial, trivial, trivial⟩

/-- `FlyingSaucer::processMovement()` never shrinks the cache of target radii. -/
theorem FlyingSaucer.processMovement_radii_mono (api : BulletApi B) (k : Consts)
    (p : FlyingSaucer B) :
    p.targetRadii.length ≤ (FlyingSaucer.processMovement api k p).targetRadii.length := by
  unfold FlyingSaucer.processMovement
  simp only []
  have h := forLoop_induct
    (fun (_ : Nat) (t : FlyingSaucer B) => p.targetRadii.length ≤ t.targetRadii.length)
    (((p.toWavePattern.incrementWaveFrames).waveBulletCount.length : Nat) : Int)
    (FlyingSaucer.moveWave api k)
    { p with toWavePattern := p.toWavePattern.incrementWaveFrames } (le_refl _)
    (by
      intro i t _ ht
      rw [(FlyingSaucer.moveWave_ages api k (i : Int) t).2.2.2]
      refine le_trans ht ?_
      unfold FlyingSaucer.getTargetRadius
      split_ifs
      · exact le_refl _
      · exact le_refl _
      · simp only [List.length_append, List.length_singleton]
        omega)
  exact h

/-- The wave loop of `FlyingSaucer::processMovement()`, started in a state whose wave ages lie
between 0 and the number of cached target radii: no call of `getTargetRadius` takes the gap
branch, there is one call per wave, the wave vectors and the active flag stay, and afterwards
every wave age is a valid index of the cache. -/
theorem FlyingSaucer.moveLoop_spec (api : BulletApi B) (k : Consts) (t0 : FlyingSaucer B)
    (hlen : t0.waveBulletCount.length = t0.waveFrameCount.length)
    (hages : ∀ a ∈ t0.waveFrameCount, 0 ≤ a ∧ a ≤ (t0.targetRadii.length : Int)) :
    (forLoop (t0.waveBulletCount.length : Int) (FlyingSaucer.moveWaveLogged api k)
        (t0, [])).1.waveFrameCount = t0.waveFrameCount ∧
    (forLoop (t0.waveBulletCount.length : Int) (FlyingSaucer.moveWaveLogged api k)
        (t0, [])).1.waveBulletCount = t0.waveBulletCount ∧
    (forLoop (t0.waveBulletCount.length : Int) (FlyingSaucer.moveWaveLogged api k)
        (t0, [])).1.active = t0.active ∧
    (∀ a ∈ t0.waveFrameCount,
      a < ((forLoop (t0.waveBulletCount.length : Int) (FlyingSaucer.moveWaveLogged api k)
        (t0, [])).1.targetRadii.length : Int)) ∧
    RadiusBranch.gap ∉ (forLoop (t0.waveBulletCount.length : Int)
      (FlyingSaucer.moveWaveLogged api k) (t0, [])).2 ∧
    (forLoop (t0.waveBulletCount.length : Int) (FlyingSaucer.moveWaveLogged api k)
      (t0, [])).2.length = t0.waveBulletCount.length := by
  have h := forLoop_induct
    (fun (i : Nat) (s : FlyingSaucer B × List RadiusBranch) =>
      s.1.waveFrameCount = t0.waveFrameCount ∧ s.1.waveBulletCount = t0.waveBulletCount ∧
      s.1.active = t0.active ∧ t0.targetRadii.length ≤ s.1.targetRadii.length ∧
      (∀ (j : Nat) (a : Int), j < i → t0.waveFrameCount[j]? = some a →
        a < (s.1.targetRadii.length : Int)) ∧
      RadiusBranch.gap ∉ s.2 ∧ s.2.length = i)
    (t0.waveBulletCount.length : Int) (FlyingSaucer.moveWaveLogged api k) (t0, [])
    ⟨rfl, rfl, rfl, le_refl _, fun j a hj _ => absurd hj (Nat.not_lt_zero j),
      List.not_mem_nil _, rfl⟩
    (by
      rintro i ⟨t, log⟩ hi ⟨h1, h2, h3, h4, h5, h6, h7⟩
      simp only [Int.toNat_ofNat] at hi
      simp only at h1 h2 h3 h4 h5 h6 h7
      have hiw : i < t0.waveFrameCount.length := by omega
      have hget : t.waveFrameCount[((i : Nat) : Int).toNat]? = some t0.waveFrameCount[i] := by
        rw [h1, Int.toNat_ofNat]
        exact List.getElem?_eq_getElem hiw
      have hmem : t0.waveFrameCount[i] ∈ t0.waveFrameCount := List.getElem_mem hiw
      have hb := hages _ hmem
      have hm := FlyingSaucer.moveWave_ages api k (i : Int) t
      have hcov := FlyingSaucer.getTargetRadius_covers k t t0.waveFrameCount[i] hb.1
        (by omega)
      simp only [FlyingSaucer.moveWaveLogged, hget, Option.getD_some]
      rw [hget] at hm
      simp only [Option.getD_some] at hm
      refine ⟨hm.1.trans h1, hm.2.1.trans h2, hm.2.2.1.trans h3, ?_, ?_, ?_, ?_⟩
      · rw [hm.2.2.2]
        exact le_trans h4 hcov.2.2
      · intro j a hj hja
        rw [hm.2.2.2]
        by_cases hji : j = i
        · subst hji
          rw [List.getElem?_eq_getElem hiw] at hja
          have : t0.waveFrameCount[j] = a := Option.some.inj hja
          rw [← this]
          exact hcov.2.1
        · have := h5 j a (by omega) hja
          have hmono := hcov.2.2
          omega
      · intro hmem2
        rcases List.mem_append.mp hmem2 with hl | hl
        · exact h6 hl
        · simp only [List.mem_singleton] at hl
          exact hcov.1 hl.symm
      · simp only [List.length_append, List.length_singleton, h7])
  simp only [Int.toNat_ofNat] at h
  obtain ⟨h1, h2, h3, _, h5, h6, h7⟩ := h
  refine ⟨h1, h2, h3, ?_, h6, h7⟩
  intro a ha
  obtain ⟨j, hj, hja⟩ := List.getElem_of_mem ha
  exact h5 j a (by omega) (by rw [List.getElem?_eq_getElem hj, hja])

/-- The logged movement is the movement: its first component is the result of
`processMovement()`. -/
theorem FlyingSaucer.processMovementLogged_fst (api : BulletApi B) (k : Consts)
    (p : FlyingSaucer B) :
    (FlyingSaucer.processMovementLogged api k p).1 = FlyingSaucer.processMovement api k p := by
  unfold FlyingSaucer.processMovementLogged FlyingSaucer.processMovement
  exact forLoop_fst _ _ (FlyingSaucer.moveWave api k) _ (fun _ _ => rfl)

/-- An update cycle up to its call of `processMovement()` keeps every wave age cached. -/
theorem FlyingSaucer.beforeMove_agesCached (api : BulletApi B) (k : Consts)
    (p : FlyingSaucer B) (g : Rng) (h : p.AgesCached) :
    (FlyingSaucer.beforeMove api k p g).AgesCached := by
  obtain ⟨hact, hlen, hpw, hL, hin⟩ := h
  have hc := WavePattern.cull_ages api p.toWavePattern hlen
  have hs := FlyingSaucer.spawnBullets_ages api k
    { p with toWavePattern := p.toWavePattern.deleteOutOfBoundsBullets api } g hc.1
  have hclock := FlyingSaucer.saucer_spawnBullets_clock api k
    { p with toWavePattern := p.toWavePattern.deleteOutOfBoundsBullets api } g
  have hcin : ∀ a ∈ (p.toWavePattern.deleteOutOfBoundsBullets api).waveFrameCount,
      0 ≤ a ∧ a < (p.targetRadii.length : Int) := fun a ha => hin a (hc.2.subset ha)
  have hcpw : (p.toWavePattern.deleteOutOfBoundsBullets api).waveFrameCount.Pairwise
      (fun a b => b ≤ a) := hpw.sublist hc.2
  have hinc : ∀ q : Pattern B, q.incrementFrame.active = q.active := by
    intro q
    unfold Pattern.incrementFrame
    split_ifs <;> rfl
  unfold FlyingSaucer.AgesCached FlyingSaucer.beforeMove
  simp only []
  refine ⟨?_, hs.2.1, ?_, ?_, ?_⟩
  · rw [hinc, hclock.2]
    exact hact
  · rcases hs.2.2 with e | e
    · rw [e]
      exact hcpw
    · rw [e]
      refine List.pairwise_append.mpr ⟨hcpw, List.pairwise_singleton _ _, ?_⟩
      intro a ha b hb
      simp only [List.mem_singleton] at hb
      rw [hb]
      exact (hcin a ha).1
  · rw [hs.1]
    exact hL
  · intro a ha
    rw [hs.1]
    rcases hs.2.2 with e | e
    · rw [e] at ha
      exact hcin a ha
    · rw [e] at ha
      rcases List.mem_append.mp ha with h1 | h1
      · exact hcin a h1
      · simp only [List.mem_singleton] at h1
        rw [h1]
        exact ⟨le_refl _, by exact_mod_cast hL⟩

/-- The call of `processMovement()` in a state whose wave ages are all cached: after the age
increment every wave age is between 1 and the number of cached target radii, no call of
`getTargetRadius` takes the gap branch, there is one call per wave, and afterwards every wave
age is cached again. -/
theorem FlyingSaucer.processMovement_agesCached (api : BulletApi B) (k : Consts)
    (s : FlyingSaucer B) (h : s.AgesCached) :
    (∀ a ∈ (s.toWavePattern.incrementWaveFrames).waveFrameCount,
      1 ≤ a ∧ a ≤ (s.targetRadii.length : Int)) ∧
    RadiusBranch.gap ∉ (FlyingSaucer.processMovementLogged api k s).2 ∧
    (FlyingSaucer.processMovementLogged api k s).2.length = s.waveBulletCount.length ∧
    (FlyingSaucer.processMovement api k s).AgesCached := by
  obtain ⟨hact, hlen, hpw, hL, hin⟩ := h
  have hinc : ∀ a ∈ (s.toWavePattern.incrementWaveFrames).waveFrameCount,
      1 ≤ a ∧ a ≤ (s.targetRadii.length : Int) := by
    intro a ha
    simp only [WavePattern.incrementWaveFrames, List.mem_map] at ha
    obtain ⟨b, hb, rfl⟩ := ha
    have := hin b hb
    omega
  have hloop := FlyingSaucer.moveLoop_spec api k
    { s with toWavePattern := s.toWavePattern.incrementWaveFrames }
    (by simp only [WavePattern.incrementWaveFrames, List.length_map]; exact hlen)
    (fun a ha => ⟨by have := (hinc a ha).1; omega, (hinc a ha).2⟩)
  obtain ⟨h1, h2, h3, h4, h5, h6⟩ := hloop
  have hfst := FlyingSaucer.processMovementLogged_fst api k s
  have hdef : FlyingSaucer.processMovementLogged api k s
      = forLoop
          (({ s with toWavePattern := s.toWavePattern.incrementWaveFrames }
            : FlyingSaucer B).waveBulletCount.length : Int)
          (FlyingSaucer.moveWaveLogged api k)
          ({ s with toWavePattern := s.toWavePattern.incrementWaveFrames }, []) := rfl
  rw [← hdef] at h1 h2 h3 h4 h5 h6
  rw [hfst] at h1 h2 h3 h4
  refine ⟨hinc, h5, ?_, ?_, ?_, ?_, ?_, ?_⟩
  · rw [h6]
    rfl
  · rw [h3]
    exact hact
  · rw [h1, h2]
    simp only [WavePattern.incrementWaveFrames, List.length_map]
    exact hlen
  · rw [h1]
    simp only [WavePattern.incrementWaveFrames]
    exact List.Pairwise.map _ (fun a b hab => by omega) hpw
  · have hmono := FlyingSaucer.processMovement_radii_mono api k s
    omega
  · intro a ha
    rw [h1] at ha
    exact ⟨by have := (hinc a ha).1; omega, h4 a ha⟩

/-- A freshly constructed `FlyingSaucer` has every wave age cached: it is active, has no wave,
and its cache holds the one entry of the constructor. -/
theorem FlyingSaucer.new_agesCached (sourcePos : Vector2f) (streamCount : Int)
    (shotFrequency baseSpeed : ℚ) :
    (FlyingSaucer.new sourcePos streamCount shotFrequency baseSpeed
      : FlyingSaucer B).AgesCached :=
  ⟨rfl, rfl, List.Pairwise.nil, le_refl _, fun _ ha => absurd ha (List.not_mem_nil _)⟩

/-- The update cycle of an active `FlyingSaucer` is `processMovement()` on the state after
culling, spawning and the frame increment. -/
theorem FlyingSaucer.update_eq (api : BulletApi B) (k : Consts) (p : FlyingSaucer B) (g : Rng)
    (hact : p.active = true) :
    (AnyPattern.update api k (AnyPattern.flyingSaucer p) g).1
      = AnyPattern.flyingSaucer
          (FlyingSaucer.processMovement api k (FlyingSaucer.beforeMove api k p g)) := by
  unfold AnyPattern.update
  rw [if_pos (show (AnyPattern.flyingSaucer p).getActive = true from hact)]
  rfl

/-- Every state that update cycles reach from a `FlyingSaucer` whose wave ages are all cached
is a `FlyingSaucer` whose wave ages are all cached. -/
theorem FlyingSaucer.updateN_agesCached (api : BulletApi B) (k : Consts) (n : Nat) :
    ∀ (p : FlyingSaucer B) (g : Rng), p.AgesCached →
      ∃ q : FlyingSaucer B,
        (AnyPattern.updateN api k n (AnyPattern.flyingSaucer p) g).1 = AnyPattern.flyingSaucer q
        ∧ q.AgesCached := by
  induction n with
  | zero => intro p g h; exact ⟨p, rfl, h⟩
  | succ n ih =>
    intro p g h
    have hstep := FlyingSaucer.update_eq api k p g h.1
    have hnext := (FlyingSaucer.processMovement_agesCached api k
      (FlyingSaucer.beforeMove api k p g)
      (FlyingSaucer.beforeMove_agesCached api k p g h)).2.2.2
    obtain ⟨q, hq, hqc⟩ := ih
      (FlyingSaucer.processMovement api k (FlyingSaucer.beforeMove api k p g))
      (AnyPattern.update api k (AnyPattern.flyingSaucer p) g).2 hnext
    refine ⟨q, ?_, hqc⟩
    simp only [AnyPattern.updateN]
    rw [hstep]
    exact hq

end CacheGap

section CacheGapClaim
variable {B : Type}

/-- C29. The gap branch of `FlyingSaucer::getTargetRadius` is unreachable in normal operation.
The branch record describes the call: `cached` returns the cached entry, `appended` appends
the value of the radius formula as the next entry, `gap` is the branch that prints "Target
Radius may be bugged" and returns 0. For every state reached from a freshly constructed
`FlyingSaucer` by `n` update cycles, with any bullet behaviour (and so any culling outcome) and
any random draws: the state is a `FlyingSaucer` whose wave ages do not increase along the wave
vector and are valid indices of the cache; its next update cycle is `processMovement()` on the
state after culling, spawning and the frame increment; there, after the age increment, the
wave ages still do not increase along the vector and every one is at most the number of cached
target radii; and the calls of `getTargetRadius` that this `processMovement()` makes, one per
wave, never take the gap branch. -/
theorem FlyingSaucer.cache_gap_unreachable (api : BulletApi B) (k : Consts)
    (sourcePos : Vector2f) (streamCount : Int) (shotFrequency baseSpeed : ℚ) (g g2 : Rng)
    (n : Nat) :
    (∀ (q : FlyingSaucer B) (frame : Int),
      FlyingSaucer.getTargetRadius k q frame
        = match FlyingSaucer.radiusBranch q frame with
          | RadiusBranch.cached => ((q.targetRadii[frame.toNat]?).getD 0, q)
          | RadiusBranch.gap => (0, q)
          | RadiusBranch.appended =>
            (FlyingSaucer.computeTargetRadius k frame,
              { q with
                targetRadii := q.targetRadii ++ [FlyingSaucer.computeTargetRadius k frame] })) ∧
    ∃ p : FlyingSaucer B,
      (AnyPattern.updateN api k n
          (AnyPattern.flyingSaucer
            (FlyingSaucer.new sourcePos streamCount shotFrequency baseSpeed)) g).1
        = AnyPattern.flyingSaucer p ∧
      p.waveFrameCount.Pairwise (fun a b => b ≤ a) ∧
      (∀ a ∈ p.waveFrameCount, 0 ≤ a ∧ a < (p.targetRadii.length : Int)) ∧
      (AnyPattern.update api k (AnyPattern.flyingSaucer p) g2).1
        = AnyPattern.flyingSaucer
            (FlyingSaucer.processMovement api k (FlyingSaucer.beforeMove api k p g2)) ∧
      (FlyingSaucer.processMovementLogged api k (FlyingSaucer.beforeMove api k p g2)).1
        = FlyingSaucer.processMovement api k (FlyingSaucer.beforeMove api k p g2) ∧
      ((FlyingSaucer.beforeMove api k p
          g2).toWavePattern.incrementWaveFrames.waveFrameCount.Pairwise (fun a b => b ≤ a)) ∧
      (∀ a ∈ (FlyingSaucer.beforeMove api k p
          g2).toWavePattern.incrementWaveFrames.waveFrameCount,
        1 ≤ a ∧ a ≤ ((FlyingSaucer.beforeMove api k p g2).targetRadii.length : Int)) ∧
      RadiusBranch.gap
        ∉ (FlyingSaucer.processMovementLogged api k (FlyingSaucer.beforeMove api k p g2)).2 ∧
      (FlyingSaucer.processMovementLogged api k (FlyingSaucer.beforeMove api k p g2)).2.length
        = (FlyingSaucer.beforeMove api k p g2).waveBulletCount.length := by
  refine ⟨FlyingSaucer.getTargetRadius_branch k, ?_⟩
  obtain ⟨p, hp, hpc⟩ := FlyingSaucer.updateN_agesCached api k n
    (FlyingSaucer.new sourcePos streamCount shotFrequency baseSpeed) g
    (FlyingSaucer.new_agesCached sourcePos streamCount shotFrequency baseSpeed)
  have hb := FlyingSaucer.beforeMove_agesCached api k p g2 hpc
  have hm := FlyingSaucer.processMovement_agesCached api k
    (FlyingSaucer.beforeMove api k p g2) hb
  refine ⟨p, hp, hpc.2.2.1, hpc.2.2.2.2, FlyingSaucer.update_eq api k p g2 hpc.1,
    FlyingSaucer.processMovementLogged_fst api k _, ?_, hm.1, hm.2.1, hm.2.2.1⟩
  simp only [WavePattern.incrementWaveFrames]
  exact List.Pairwise.map _ (fun a b hab => by omega) hb.2.2.1

end CacheGapClaim

section CacheGapExample

/-- The first update cycle of a fresh pattern with stream count 2 spawns one wave, and the one
call of `getTargetRadius` for it, with age 1 and one cached entry, appends the next entry. -/
theorem FlyingSaucer.first_cycle_appends :
    (FlyingSaucer.processMovementLogged pointApi sampleConsts
      (FlyingSaucer.beforeMove pointApi sampleConsts
        (FlyingSaucer.new ⟨360, 300⟩ 2 1 5 : FlyingSaucer PointBullet) (fun _ => 7))).2
      = [RadiusBranch.appended] ∧
    (FlyingSaucer.processMovementLogged pointApi sampleConsts
      (FlyingSaucer.beforeMove pointApi sampleConsts
        (FlyingSaucer.new ⟨360, 300⟩ 2 1 5 : FlyingSaucer PointBullet)
        (fun _ => 7))).1.targetRadii.length = 2 := by
  constructor <;> decide!

end CacheGapExample

end ShootEmUp
